import Mathlib

/-!
The monetdb administration client: instance selection, status fetch, command
dispatch, the commands and `main`.

A shallow embedding of `tools/merovingian/client/monetdb.c`.

* C strings are Lean `String`s; a `char *` that may be `NULL` is an `Option String`.
* `sabdb` records live in a heap of cells addressed by natural numbers; a
  `sabdb *` is an `Option Nat` (`none` is `NULL`).  The `next` links are heap
  data, so the list surgery of the C code is embedded pointer by pointer.
* Loops that follow `next` links take a fuel argument: a cyclic list makes the
  C loop spin forever, which the embedding reports as `Fault.outOfFuel`.
* `exit(n)` ends a run with `Res.exit n`; reading an uninitialised or `NULL`
  pointer ends it with `Fault.undefinedBehaviour`.
* `glob`, `control_send`, `msab_deserialise` and `qsort` are not defined in
  this file of the repository; they are parameters of the embedding.  The
  commands take them, with the other collaborators (clock, property store,
  socket probes, terminal), bundled in `Env`.
* `main` yields the sockets it probed with `control_ping` next to the outcome
  of the run; a command that returns lets `main` return 0.
-/

namespace Monetdb

/-! ## Data model -/

/-- Modelled from the spec: `SABdbState` of `msabaoth.h` (the header is not among the
sources); the constructors are the enumerators `monetdb.c` uses. -/
inductive SABdbState where
  | SABdbIllegal
  | SABdbRunning
  | SABdbCrashed
  | SABdbInactive
deriving DecidableEq, Repr

/-- Modelled from the spec: `sabdb` of `msabaoth.h` (the header is not among the sources),
with the fields `monetdb.c` reads: name, storage path, locked flag, lifecycle
state, scenario and connection lists, and the link to the next record. -/
structure sabdb where
  dbname : String
  path : String
  locked : Int
  state : SABdbState
  scens : List String
  conns : List String
  next : Option Nat
deriving DecidableEq, Repr

/-- The heap of `sabdb` cells. -/
abbrev Heap := Nat → sabdb

/-- The assignment `a->next = v`. -/
def Heap.setNext (h : Heap) (a : Nat) (v : Option Nat) : Heap :=
  fun x => if x = a then { h x with next := v } else h x

/-- A request handed to `control_send`: host, port, database, command, the
single-line-result flag and the password. -/
structure Request where
  host : Option String
  port : Int
  database : String
  command : String
  wait : Int
  pass : Option String
deriving DecidableEq, Repr

/-- The file-scope variables of `monetdb.c`. -/
structure Globals where
  mero_host : Option String
  mero_port : Int
  mero_pass : Option String
  monetdb_quiet : Bool
  TERMWIDTH : Int

/-- What a run can observe and change: the heap with its allocation mark,
the text written to stdout and stderr, and the requests sent so far. -/
structure Proc where
  heap : Heap
  brk : Nat
  out : List String
  err : List String
  sent : List Request

/-- Ways a run can fail to produce a defined result. -/
inductive Fault where
  | outOfFuel
  | undefinedBehaviour
deriving DecidableEq, Repr

/-- Outcome of running a C function: it returns a value, calls `exit`, or faults. -/
inductive Res (α : Type) where
  | ret (a : α) (s : Proc)
  | exit (code : Int) (s : Proc)
  | fault (f : Fault)

/-! ## Linked lists in the heap -/

/-- `IsSeg h p l q`: following `next` from `p` visits exactly the cells `l` and
then arrives at `q`. -/
def IsSeg (h : Heap) : Option Nat → List Nat → Option Nat → Prop
  | p, [], q => p = q
  | p, a :: l, q => p = some a ∧ IsSeg h (h a).next l q

/-- `IsChain h p l`: `p` heads a `NULL`-terminated list whose cells are `l`. -/
def IsChain (h : Heap) (p : Option Nat) (l : List Nat) : Prop := IsSeg h p l none

/-- The cells reached from `p` by following at most `fuel` links. -/
def Heap.cells (h : Heap) : Nat → Option Nat → List Nat
  | 0, _ => []
  | _, none => []
  | fuel + 1, some a => a :: Heap.cells h fuel (h a).next

/-! ## globMatchDBS -/

/-- The local variables of `globMatchDBS` together with `*orig` and the heap. -/
structure GlobVars where
  heap : Heap
  orig : Option Nat
  w : Option Nat
  top : Option Nat
  prev : Option Nat
  stats : Option Nat
  matched : Bool

/-- Body of the inner `for` loop of `globMatchDBS` at the cell `st` (`stats`
is `some st`); the result holds the variables as they are when control reaches
the loop's increment `stats = stats->next`. -/
def globMatchDBS.body (glob : String → String → Bool) (pat : String) (st : Nat)
    (v : GlobVars) : Except Fault GlobVars :=
  if glob pat (v.heap st).dbname then
    let v := { v with matched := true }
    -- if (w == NULL) top = w = stats; else w = w->next = stats;
    let v := match v.w with
      | none => { v with top := some st, w := some st }
      | some wp => { v with heap := v.heap.setNext wp (some st), w := some st }
    match v.prev with
    | none =>
      -- *orig = stats->next; w->next = *orig; stats = w; continue;
      let v := { v with orig := (v.heap st).next }
      match v.w with
      | none => .error .undefinedBehaviour
      | some wp =>
        let v := { v with heap := v.heap.setNext wp v.orig }
        .ok { v with stats := v.w }
    | some pv =>
      -- prev->next = stats->next; stats = prev;  (then) prev = stats;
      let v := { v with heap := v.heap.setNext pv (v.heap st).next }
      let v := { v with stats := v.prev }
      .ok { v with prev := v.stats }
  else
    -- prev = stats;
    .ok { v with prev := v.stats }

/-- The inner loop `for (stats = *orig; stats != NULL; stats = stats->next)`,
entered with `stats` already initialised. -/
def globMatchDBS.scan (glob : String → String → Bool) (pat : String) :
    Nat → GlobVars → Except Fault GlobVars
  | 0, _ => .error .outOfFuel
  | fuel + 1, v =>
    match v.stats with
    | none => .ok v
    | some st =>
      match globMatchDBS.body glob pat st v with
      | .error f => .error f
      | .ok v1 =>
        match v1.stats with
        | none => .error .undefinedBehaviour
        | some s1 => globMatchDBS.scan glob pat fuel { v1 with stats := (v1.heap s1).next }

/-- State of the outer loop of `globMatchDBS`: the variables, `argv` and stderr. -/
structure GlobState where
  vars : GlobVars
  argv : List (Option String)
  err : List String

/-- One iteration of the outer loop `for (i = 1; i < argc; i++)` at index `i`. -/
def globMatchDBS.iter (glob : String → String → Bool) (cmd : String) (fuel : Nat) (i : Nat)
    (g : GlobState) : Except Fault GlobState :=
  match g.argv.get? i with
  | none => .error .undefinedBehaviour
  | some none => .ok { g with vars := { g.vars with matched := false } }
  | some (some pat) =>
    -- matched = 0; prev = NULL; stats = *orig
    let v := { g.vars with matched := false, prev := none, stats := g.vars.orig }
    match globMatchDBS.scan glob pat fuel v with
    | .error f => .error f
    | .ok v =>
      -- if (w != NULL) w->next = NULL;
      let v := match v.w with
        | none => v
        | some wp => { v with heap := v.heap.setNext wp none }
      if v.matched = false then
        .ok { vars := v,
              argv := g.argv.set i none,
              err := g.err ++ [cmd ++ ": no such database: " ++ pat ++ "\n"] }
      else
        .ok { g with vars := v }

/-- The outer loop of `globMatchDBS` with `n` iterations left, the next one at index `i`. -/
def globMatchDBS.args (glob : String → String → Bool) (cmd : String) (fuel : Nat) :
    Nat → Nat → GlobState → Except Fault GlobState
  | 0, _, g => .ok g
  | n + 1, i, g =>
    match globMatchDBS.iter glob cmd fuel i g with
    | .error f => .error f
    | .ok g1 => globMatchDBS.args glob cmd fuel n (i + 1) g1

/-- The values `globMatchDBS` leaves behind: the returned pointer, `*orig` and `argv`. -/
structure GlobResult where
  top : Option Nat
  orig : Option Nat
  argv : List (Option String)

/-- Embedding of `globMatchDBS(argc, argv, orig, cmd)`. -/
def globMatchDBS (glob : String → String → Bool) (fuel : Nat) (argc : Nat)
    (argv : List (Option String)) (orig : Option Nat) (cmd : String) (s : Proc) :
    Res GlobResult :=
  let v : GlobVars :=
    { heap := s.heap, orig := orig, w := none, top := none, prev := none, stats := none,
      matched := false }
  match globMatchDBS.args glob cmd fuel (argc - 1) 1 { vars := v, argv := argv, err := s.err } with
  | .error f => .fault f
  | .ok g =>
    .ret { top := g.vars.top, orig := g.vars.orig, argv := g.argv }
      { s with heap := g.vars.heap, err := g.err }



/-! ## Fixtures for worked examples -/

/-- Modelled from the spec: `glob` of `glob.h` (the file is not among the sources), for
worked examples: `*` matches any run of characters, `?` any single
character, everything else itself, case-sensitively. -/
def globChars : List Char → List Char → Bool
  | [], s => s.isEmpty
  | '*' :: ps, s => s.tails.any (fun t => globChars ps t)
  | '?' :: ps, s => match s with
    | [] => false
    | _ :: cs => globChars ps cs
  | p :: ps, s => match s with
    | [] => false
    | c :: cs => p == c && globChars ps cs

/-- The example matcher on strings. -/
def globModel (p s : String) : Bool := globChars p.data s.data

/-- A heap holding records named `names` in the cells `0, 1, …`, each linked to the next. -/
def exampleHeap (names : List String) : Heap := fun i =>
  { dbname := names.getD i "", path := "", locked := 0, state := .SABdbInactive, scens := [],
    conns := [], next := if i + 1 < names.length then some (i + 1) else none }

/-- A process state over `exampleHeap names` with nothing written or sent yet. -/
def exampleProc (names : List String) : Proc :=
  { heap := exampleHeap names, brk := names.length, out := [], err := [], sent := [] }

/-! ## Reference selection and loop invariants -/

/-- Two heaps hold the same records up to the `next` links. -/
def SameData (h h1 : Heap) : Prop :=
  ∀ a, { h1 a with next := none } = { h a with next := none }

/-- Shape of the result list while it is being built; `rres` lists its cells
last-first, and the `next` link of the last cell is not yet settled. -/
def ResInv (h : Heap) (top w : Option Nat) : List Nat → Prop
  | [] => top = none ∧ w = none
  | x :: r => w = some x ∧ IsSeg h top r.reverse (some x)

/-- Invariant of the inner loop: `rres` are the cells moved to the result and
`rkept` the cells left in `*orig` (both last-first), `todo` the cells still to visit. -/
structure ScanInv (v : GlobVars) (rres rkept todo : List Nat) : Prop where
  nodup : (rres ++ (rkept ++ todo)).Nodup
  todo : IsChain v.heap v.stats todo
  kept : IsSeg v.heap v.orig rkept.reverse v.stats
  prev : v.prev = rkept.head?
  res : ResInv v.heap v.top v.w rres

/-- Invariant of the outer loop: `res` is the result built so far, a
`NULL`-terminated list headed by `top` whose last cell is `w`, and `rem` is
what is left in `*orig`. -/
structure OuterInv (v : GlobVars) (res rem : List Nat) : Prop where
  nodup : (res ++ rem).Nodup
  chainRes : IsChain v.heap v.top res
  chainRem : IsChain v.heap v.orig rem
  last : v.w = res.getLast?

/-- Reference result of selection, in the spec's words: for each non-void
pattern in argument order, the entries of the current remainder that match it,
in remainder order; they leave the remainder. -/
def selectRef {α : Type} (m : String → α → Bool) : List (Option String) → List α → List α
  | [], _ => []
  | none :: ps, rem => selectRef m ps rem
  | some p :: ps, rem => rem.filter (m p) ++ selectRef m ps (rem.filter (fun e => !m p e))

/-- Reference remainder after all patterns have been applied in turn. -/
def restRef {α : Type} (m : String → α → Bool) : List (Option String) → List α → List α
  | [], rem => rem
  | none :: ps, rem => restRef m ps rem
  | some p :: ps, rem => restRef m ps (rem.filter (fun e => !m p e))

/-- An entry is matched by no (non-void) pattern of `ps`. -/
def unmatched {α : Type} (m : String → α → Bool) (ps : List (Option String)) (e : α) : Bool :=
  ps.all (fun p => match p with
    | none => true
    | some p => !m p e)

/-- Reference argument slots after selection: a pattern that matched nothing
in its remainder is voided. -/
def voidRef {α : Type} (m : String → α → Bool) :
    List (Option String) → List α → List (Option String)
  | [], _ => []
  | none :: ps, rem => none :: voidRef m ps rem
  | some p :: ps, rem =>
    (if rem.any (m p) then some p else none) :: voidRef m ps (rem.filter (fun e => !m p e))

/-- Reference warnings: one line per pattern that matched nothing in its remainder. -/
def warnRef {α : Type} (m : String → α → Bool) (cmd : String) :
    List (Option String) → List α → List String
  | [], _ => []
  | none :: ps, rem => warnRef m cmd ps rem
  | some p :: ps, rem =>
    (if rem.any (m p) then [] else [cmd ++ ": no such database: " ++ p ++ "\n"]) ++
      warnRef m cmd ps (rem.filter (fun e => !m p e))

/-! ## MEROgetStatus -/

/-- The C library's `strcmp` on character lists: zero for equal strings,
negative when the first differs from the second by a smaller character or by
being a proper prefix, positive otherwise. -/
def strcmpChars : List Char → List Char → Int
  | [], [] => 0
  | [], _ :: _ => -1
  | _ :: _, [] => 1
  | a :: as, b :: bs => if a = b then strcmpChars as bs else (a.toNat : Int) - (b.toNat : Int)

/-- The C library's `strcmp`. -/
def strcmp (a b : String) : Int := strcmpChars a.data b.data

/-- Embedding of `cmpsabdb`: the two array elements point to records, which
are compared by name. -/
def cmpsabdb (h : Heap) (p1 p2 : Nat) : Int := strcmp (h p1).dbname (h p2).dbname

/-- The tokens that `strtok(buf, "\n")` and then repeated `strtok(NULL, "\n")`
yield: the maximal runs of characters other than the newline. -/
def strtokLines (buf : String) : List String :=
  ((buf.data.splitOn '\n').filter (fun t => !t.isEmpty)).map String.mk

/-- The array `sw` of `MEROgetStatus` with its capacity `swlen` and fill mark
`swpos`; a slot that was never assigned is `none`. -/
structure StatusVars where
  sw : List (Option Nat)
  swlen : Nat
  swpos : Nat

/-- The pointers in `sw[0 .. n)`, when all these slots exist and were assigned. -/
def readSlots (sw : List (Option Nat)) (n : Nat) : Option (List Nat) :=
  if n ≤ sw.length then (sw.take n).foldr (fun x acc => match x, acc with
    | some a, some l => some (a :: l)
    | _, _ => none) (some [])
  else none

/-- `malloc` of a fresh `sabdb` cell holding `r`, as `msab_deserialise` does for its result. -/
def Proc.alloc (s : Proc) (r : sabdb) : Nat × Proc :=
  (s.brk, { s with heap := fun x => if x = s.brk then r else s.heap x, brk := s.brk + 1 })

/-- The loop `for (swpos = 0; (p = strtok(NULL, "\n")) != NULL; swpos++)` of
`MEROgetStatus` over the remaining tokens. -/
def MEROgetStatus.collect (msab_deserialise : String → Except String sabdb) :
    List String → StatusVars → Proc → Except Fault (StatusVars × Proc)
  | [], v, s => .ok (v, s)
  | p :: ps, v, s =>
    match msab_deserialise p with
    | .error e =>
      -- printf(WARNING ...); free(e); continue;   (the increment swpos++ still runs)
      MEROgetStatus.collect msab_deserialise ps { v with swpos := v.swpos + 1 }
        { s with out := s.out ++
            ["WARNING: failed to parse response from merovingian: " ++ e ++ "\n"] }
    | .ok r =>
      let (stats, s) := s.alloc r
      -- if (swpos == swlen) sw = realloc(sw, sizeof(sabdb *) * (swlen = swlen * 2));
      let v := if v.swpos = v.swlen then
          { v with sw := v.sw ++ List.replicate v.swlen none, swlen := v.swlen * 2 }
        else v
      -- sw[swpos] = stats;
      if v.swpos < v.sw.length then
        MEROgetStatus.collect msab_deserialise ps
          { v with sw := v.sw.set v.swpos (some stats), swpos := v.swpos + 1 } s
      else .error .undefinedBehaviour

/-- The loop `for (swlen = 1; swlen < swpos; swlen++) w = w->next = sw[swlen];`
over the array elements after the first. -/
def MEROgetStatus.link (h : Heap) : Nat → List Nat → Heap
  | _, [] => h
  | w, x :: xs => MEROgetStatus.link (h.setNext w (some x)) x xs

/-- The part of `MEROgetStatus` after `free(buf)`: sort and link the collected records. -/
def MEROgetStatus.finish (qsort : (Nat → Nat → Int) → List Nat → List Nat) (v : StatusVars)
    (s : Proc) : Res (Except String (Option Nat)) :=
  if v.swpos > 1 then
    match readSlots v.sw v.swpos with
    | none => .fault .undefinedBehaviour
    | some ptrs =>
      match qsort (cmpsabdb s.heap) ptrs with
      | [] => .fault .undefinedBehaviour
      | x :: xs => .ret (.ok (some x)) { s with heap := MEROgetStatus.link s.heap x xs }
  else if v.swpos = 1 then
    match readSlots v.sw 1 with
    | some [x] => .ret (.ok (some x)) { s with heap := s.heap.setNext x none }
    | _ => .fault .undefinedBehaviour
  else .ret (.ok none) s

/-- The request of `MEROgetStatus`: `database` (or `#all` when it is `NULL`),
the command `status`, one-line result. -/
def statusRequest (g : Globals) (database : Option String) : Request :=
  { host := g.mero_host, port := g.mero_port, database := database.getD "#all",
    command := "status", wait := 1, pass := g.mero_pass }

/-- Embedding of `MEROgetStatus(ret, database)`: the value is the returned
error message, or `*ret` when `NULL` is returned. `control_send` answers a
request given the requests sent before it. -/
def MEROgetStatus (control_send : List Request → Request → Except String String)
    (msab_deserialise : String → Except String sabdb)
    (qsort : (Nat → Nat → Int) → List Nat → List Nat) (g : Globals)
    (database : Option String) (s : Proc) : Res (Except String (Option Nat)) :=
  let req := statusRequest g database
  match control_send s.sent req with
  | .error e => .ret (.error e) { s with sent := s.sent ++ [req] }
  | .ok buf =>
    let s := { s with sent := s.sent ++ [req] }
    let v0 : StatusVars := { sw := List.replicate 50 none, swlen := 50, swpos := 0 }
    match strtokLines buf with
    | [] => MEROgetStatus.finish qsort v0 s
    | p :: ps =>
      if strcmp p "OK" ≠ 0 then .ret (.error p) s
      else
        match MEROgetStatus.collect msab_deserialise ps v0 s with
        | .error f => .fault f
        | .ok (v, s) => MEROgetStatus.finish qsort v s

/-- Contract of the C library's `qsort` for a comparison function that is a
total preorder: the array afterwards is a permutation of the array before and
is ascending. -/
def QsortSpec (qsort : (Nat → Nat → Int) → List Nat → List Nat) : Prop :=
  ∀ (cmp : Nat → Nat → Int) (l : List Nat), (∀ a b, cmp a b ≤ 0 ∨ cmp b a ≤ 0) →
    (∀ a b c, cmp a b ≤ 0 → cmp b c ≤ 0 → cmp a c ≤ 0) →
    (qsort cmp l).Perm l ∧ (qsort cmp l).Pairwise (fun a b => cmp a b ≤ 0)

/-- A sorting routine meeting `QsortSpec`, for worked examples. -/
def qsortModel (cmp : Nat → Nat → Int) (l : List Nat) : List Nat :=
  l.insertionSort (fun a b => cmp a b ≤ 0)

/-- A record with the given name and state, not linked to anything. -/
def exampleRecord (name : String) : sabdb :=
  { dbname := name, path := "", locked := 0, state := .SABdbInactive, scens := [], conns := [],
    next := none }

/-- An example deserialiser: a line is the record's name; a line starting with `!` does not parse. -/
def deserModel (line : String) : Except String sabdb :=
  match line.data with
  | '!' :: _ => .error "bad record"
  | _ => .ok (exampleRecord line)

/-- Example globals: local connection, not quiet, 80 columns. -/
def exampleGlobals : Globals :=
  { mero_host := none, mero_port := -1, mero_pass := none, monetdb_quiet := false, TERMWIDTH := 80 }

/-- A process state with an empty heap. -/
def emptyProc : Proc :=
  { heap := fun _ => exampleRecord "", brk := 0, out := [], err := [], sent := [] }

/-! ## command_help and simple_argv_cmd -/

/-- The branch of `command_help` taken when `argc >= 2`: the text printed for
the command name `argv[1]`, one entry per `printf`. -/
def command_help.text (cmd : String) : List String :=
  if strcmp cmd "create" = 0 then
    ["Usage: monetdb create database [database ...]\n",
     "  Initialises a new database in the MonetDB Server.  A\n",
     "  database created with this command makes it available\n",
     "  for use, however in maintenance mode (see monetdb lock).\n"]
  else if strcmp cmd "destroy" = 0 then
    ["Usage: monetdb destroy [-f] database [database ...]\n",
     "  Removes the given database, including all its data and\n",
     "  logfiles.  Once destroy has completed, all data is lost.\n",
     "  Be careful when using this command.\n",
     "Options:\n",
     "  -f  do not ask for confirmation, destroy right away\n"]
  else if strcmp cmd "lock" = 0 then
    ["Usage: monetdb lock database [database ...]\n",
     "  Puts the given database in maintenance mode.  A database\n",
     "  under maintenance can only be connected to by the DBA.\n",
     "  A database which is under maintenance is not started\n",
     "  automatically.  Use the \"release\" command to bring\n",
     "  the database back for normal usage.\n"]
  else if strcmp cmd "release" = 0 then
    ["Usage: monetdb release database [database ...]\n",
     "  Brings back a database from maintenance mode.  A released\n",
     "  database is available again for normal use.  Use the\n",
     "  \"lock\" command to take a database under maintenance.\n"]
  else if strcmp cmd "status" = 0 then
    ["Usage: monetdb status [-lc] [expression ...]\n",
     "  Shows the state of a given glob-style database match, or\n",
     "  all known if none given.  Instead of the normal mode, a\n",
     "  long and crash mode control what information is displayed.\n",
     "Options:\n",
     "  -l  extended information listing\n",
     "  -c  crash statistics listing\n",
     "  -s  only show databases matching a state, combination\n",
     "      possible from r (running), s (stopped), c (crashed)\n",
     "      and l (locked).\n"]
  else if strcmp cmd "start" = 0 then
    ["Usage: monetdb start [-a] database [database ...]\n",
     "  Starts the given database, if the MonetDB Database Server\n",
     "  is running.\n",
     "Options:\n",
     "  -a  start all known databases\n"]
  else if strcmp cmd "stop" = 0 then
    ["Usage: monetdb stop [-a] database [database ...]\n",
     "  Stops the given database, if the MonetDB Database Server\n",
     "  is running.\n",
     "Options:\n",
     "  -a  stop all known databases\n"]
  else if strcmp cmd "kill" = 0 then
    ["Usage: monetdb kill [-a] database [database ...]\n",
     "  Kills the given database, if the MonetDB Database Server\n",
     "  is running.  Note: killing a database should only be done\n",
     "  as last resort to stop a database.  A database being\n",
     "  killed may end up with data loss.\n",
     "Options:\n",
     "  -a  kill all known databases\n"]
  else if strcmp cmd "set" = 0 then
    ["Usage: monetdb set property=value database [database ...]\n",
     "  sets property to value for the given database\n",
     "  for a list of properties, use `monetdb get all`\n"]
  else if strcmp cmd "get" = 0 then
    ["Usage: monetdb get <\"all\" | property,...> [database ...]\n",
     "  gets value for property for the given database, or\n",
     "  retrieves all properties for the given database\n"]
  else if strcmp cmd "inherit" = 0 then
    ["Usage: monetdb inherit property database [database ...]\n",
     "  unsets property, reverting to its inherited value from\n",
     "  the default configuration for the given database\n"]
  else if strcmp cmd "discover" = 0 then
    ["Usage: monetdb discover [expression]\n",
     "  Lists the remote databases discovered by the MonetDB\n",
     "  Database Server.  Databases in this list can be connected\n",
     "  to as well.  If expression is given, all entries are\n",
     "  matched against a limited glob-style expression.\n"]
  else if strcmp cmd "help" = 0 then
    ["Yeah , help on help, how desparate can you be? ;)\n"]
  else if strcmp cmd "version" = 0 then
    ["Usage: monetdb version\n",
     "  prints the version of this monetdb utility\n"]
  else
    ["help: unknown command: " ++ cmd ++ "\n"]

/-- Embedding of `command_help(argc, argv)`: the text it prints, one entry
per `printf`; reading `argv[1]` needs `argv` to have it. -/
def command_help (argc : Int) (argv : List String) : Except Fault (List String) :=
  if argc < 2 then
    .ok ["Usage: monetdb [options] command [command-options-and-arguments]\n",
         "  where command is one of:\n",
         "    create, destroy, lock, release\n",
         "    status, start, stop, kill\n",
         "    set, get, inherit\n",
         "    discover, help, version\n",
         "  options can be:\n",
         "    -q       suppress status output\n",
         "    -h host  hostname to contact (remote merovingian)\n",
         "    -p port  port to contact\n",
         "    -P pass  password to use to login at remote merovingian\n",
         "  use the help command to get help for a particular command\n"]
  else
    match argv.get? 1 with
    | none => .error .undefinedBehaviour
    | some a1 => .ok (command_help.text a1)

/-- The request `simple_argv_cmd` sends for the database `dbname`. -/
def commandRequest (g : Globals) (dbname merocmd : String) : Request :=
  { host := g.mero_host, port := g.mero_port, database := dbname, command := merocmd,
    wait := 0, pass := g.mero_pass }

/-- `printf` to stdout. -/
def Proc.printf (s : Proc) (text : String) : Proc := { s with out := s.out ++ [text] }

/-- `fprintf(stderr, …)`. -/
def Proc.eprintf (s : Proc) (text : String) : Proc := { s with err := s.err ++ [text] }

/-- The announcement before a request:
`if (premsg != NULL && !monetdb_quiet) printf("%s '%s'... ", premsg, dbs->dbname);` -/
def simple_argv_cmd.announce (g : Globals) (premsg : Option String) (dbname : String)
    (s : Proc) : Proc :=
  match premsg with
  | some pm => if g.monetdb_quiet then s else s.printf (pm ++ " '" ++ dbname ++ "'... ")
  | none => s

/-- `if (premsg != NULL && !monetdb_quiet) printf("FAILED\n");` -/
def simple_argv_cmd.failed (g : Globals) (premsg : Option String) (s : Proc) : Proc :=
  if premsg.isSome && !g.monetdb_quiet then s.printf "FAILED\n" else s

/-- The report after an `OK` answer: nothing when quiet, `done` after a
pre-message, else the success message, which must not be `NULL`. -/
def simple_argv_cmd.succeeded (g : Globals) (successmsg premsg : Option String)
    (dbname : String) (s : Proc) : Except Fault Proc :=
  if g.monetdb_quiet then .ok s
  else
    match premsg, successmsg with
    | some _, _ => .ok (s.printf "done\n")
    | none, some sm => .ok (s.printf (sm ++ ": " ++ dbname ++ "\n"))
    | none, none => .error .undefinedBehaviour

/-- The `for (; dbs != NULL; dbs = dbs->next)` loop of `simple_argv_cmd`; it
returns `state` and `hadwork`. -/
def simple_argv_cmd.loop (control_send : List Request → Request → Except String String)
    (g : Globals) (cmd merocmd : String) (successmsg premsg : Option String) :
    Nat → Option Nat → Int → Int → Proc → Res (Int × Int)
  | 0, _, _, _, _ => .fault .outOfFuel
  | _ + 1, none, state, hadwork, s => .ret (state, hadwork) s
  | fuel + 1, some d, state, _, s =>
    let dbname := (s.heap d).dbname
    let s := simple_argv_cmd.announce g premsg dbname s
    -- ret = control_send(&out, mero_host, mero_port, dbs->dbname, merocmd, 0, mero_pass);
    let req := commandRequest g dbname merocmd
    let ret := control_send s.sent req
    let s := { s with sent := s.sent ++ [req] }
    match ret with
    | .error e =>
      -- if (ret != NULL) { …; exit(2); }
      .exit 2 ((simple_argv_cmd.failed g premsg s).eprintf
        (cmd ++ ": failed to perform command: " ++ e ++ "\n"))
    | .ok out =>
      if strcmp out "OK" = 0 then
        match simple_argv_cmd.succeeded g successmsg premsg dbname s with
        | .error f => .fault f
        | .ok s =>
          -- hadwork = 1;
          simple_argv_cmd.loop control_send g cmd merocmd successmsg premsg fuel
            (s.heap d).next state 1 s
      else
        let s := (simple_argv_cmd.failed g premsg s).eprintf (cmd ++ ": " ++ out ++ "\n")
        -- state |= 1; hadwork = 1;
        simple_argv_cmd.loop control_send g cmd merocmd successmsg premsg fuel
          (s.heap d).next (Int.lor state 1) 1 s

/-- Embedding of `simple_argv_cmd(cmd, dbs, merocmd, successmsg, premsg)`. -/
def simple_argv_cmd (control_send : List Request → Request → Except String String)
    (g : Globals) (fuel : Nat) (cmd : String) (dbs : Option Nat) (merocmd : String)
    (successmsg premsg : Option String) (s : Proc) : Res Unit :=
  match simple_argv_cmd.loop control_send g cmd merocmd successmsg premsg fuel dbs 0 0 s with
  | .fault f => .fault f
  | .exit c s => .exit c s
  | .ret (state, hadwork) s =>
    if hadwork = 0 then
      -- char *argv[2] = { "monetdb", cmd }; command_help(2, argv); exit(1);
      match command_help 2 ["monetdb", cmd] with
      | .error f => .fault f
      | .ok text => .exit 1 { s with out := s.out ++ text }
    else if state ≠ 0 then .exit state s
    else .ret () s

/-- The answers of `control_send` to the requests `reqs` sent one after the
other, when `sent` was sent before. -/
def responses (control_send : List Request → Request → Except String String) :
    List Request → List Request → List (Except String String)
  | _, [] => []
  | sent, r :: rs => control_send sent r :: responses control_send (sent ++ [r]) rs

/-- An example controller: every database answers `OK` except `bad`, which is
refused, and `down`, which cannot be reached. -/
def controlModel (_ : List Request) (r : Request) : Except String String :=
  if r.database = "down" then .error "cannot connect"
  else if r.database = "bad" then .ok "no such database: bad"
  else .ok "OK"

/-- The process exit code a run ends with, when it ends by `exit`. -/
def Res.exitCode {α : Type} : Res α → Option Int
  | .exit c _ => some c
  | _ => none

/-! ## The batch commands -/

/-- Modelled from the spec: `sabuplog` of `msabaoth.h` (the header is not among the
sources), the uptime statistics `printStatus` reads. The two `double` fields
are kept as the text `printf` renders for them with `%.2f`. -/
structure sabuplog where
  startcntr : Int
  stopcntr : Int
  crashcntr : Int
  avguptime : Int
  maxuptime : Int
  minuptime : Int
  lastcrash : Int
  laststart : Int
  crashavg1 : Int
  crashavg10 : String
  crashavg30 : String

/-- A property table of `properties.h`: keys with optional values. -/
abbrev confkeyval := String × Option String

/-- The collaborators of `monetdb.c` that are defined outside this file: the
matcher, the control connection, the status record codec, the C library's
`qsort`, `atoi`, `scanf` and clock, the formatting helpers of `utils.h`, the
property store, and the file system probes `main` uses. `command_discover` is
not embedded; `main` takes its behaviour from here. -/
structure Env where
  glob : String → String → Bool
  control_send : List Request → Request → Except String String
  msab_deserialise : String → Except String sabdb
  qsort : (Nat → Nat → Int) → List Nat → List Nat
  msab_getUplogInfo : sabdb → Except String sabuplog
  time : Int
  strftime : String → Int → String
  secondsToString : Int → Int → String
  abbreviateString : String → Int → String
  getDefaultProps : List confkeyval
  readPropsBuf : List confkeyval → String → List confkeyval
  control_ping : String → Int
  opendir : String → Option (List String)
  isSocket : String → Option Bool
  atoi : String → Int
  answer : Option Char
  winsize : Option Int
  release : String
  command_discover : Globals → String → Nat → List (Option String) → Proc → Res Unit

/-- Reading `argv[i]` as a string: the slot must exist and not be `NULL`. -/
def argvGet (argv : List (Option String)) (i : Nat) : Except Fault String :=
  match argv.get? i with
  | some (some a) => .ok a
  | _ => .error .undefinedBehaviour

/-- `command_help(argc, argv); exit(1);` -/
def helpExit {α : Type} (s : Proc) (argc : Int) (argv : List String) : Res α :=
  match command_help argc argv with
  | .error f => .fault f
  | .ok text => .exit 1 { s with out := s.out ++ text }

/-- Modelled from the spec: `msab_freeStatus` of `msabaoth.h` releases a snapshot; the
cells are not reused by this program, so the heap is left as it is. -/
def msab_freeStatus (s : Proc) (_ : Option Nat) : Proc := s

/-- `MEROgetStatus(&orig, NULL)` as the commands call it: an error is
reported as `<who>: internal error: …` and ends the run with `exit(2)`. -/
def fetchAll (env : Env) (g : Globals) (who : String) (s : Proc) : Res (Option Nat) :=
  match MEROgetStatus env.control_send env.msab_deserialise env.qsort g none s with
  | .fault f => .fault f
  | .exit c s => .exit c s
  | .ret (.error e) s => .exit 2 (s.eprintf (who ++ ": internal error: " ++ e ++ "\n"))
  | .ret (.ok orig) s => .ret orig s

/-- `stats = globMatchDBS(argc, argv, &orig, cmd); msab_freeStatus(&orig); orig = stats;`
It yields the new `orig` and the updated `argv`. -/
def selectInto (env : Env) (fuel argc : Nat) (argv : List (Option String)) (orig : Option Nat)
    (cmd : String) (s : Proc) : Res (Option Nat × List (Option String)) :=
  match globMatchDBS env.glob fuel argc argv orig cmd s with
  | .fault f => .fault f
  | .exit c s => .exit c s
  | .ret r s => .ret (r.top, r.argv) (msab_freeStatus s r.orig)

/-- The option loop of `simple_command`, with `n` iterations left, the next at `i`. -/
def simple_command.options (before : String) (argc : Nat) :
    Nat → Nat → List (Option String) → Proc → Res (List (Option String))
  | 0, _, argv, s => .ret argv s
  | n + 1, i, argv, s =>
    match argvGet argv i, argvGet argv 0 with
    | .ok a, .ok cmd =>
      if strcmp a "--" = 0 then .ret (argv.set i none) s
      else if a.data.head? = some '-' then
        helpExit (s.eprintf (cmd ++ ": unknown option: " ++ a ++ "\n")) ((argc : Int) + 1)
          [before, cmd]
      else simple_command.options before argc n (i + 1) argv s
    | _, _ => .fault .undefinedBehaviour

/-- The record `simple_command` builds for an argument when it does not
consult the snapshot: `memset(stats, 0, sizeof(sabdb))` and the name. -/
def zeroRecord (name : String) : sabdb :=
  { dbname := name, path := "", locked := 0, state := .SABdbIllegal, scens := [], conns := [],
    next := none }

/-- The loop of `simple_command` that builds the target list from the
arguments in input order, with `n` iterations left, the next at `i`. -/
def simple_command.build : Nat → Nat → List (Option String) → Option Nat → Option Nat → Proc →
    Except Fault (Option Nat × Proc)
  | 0, _, _, orig, _, s => .ok (orig, s)
  | n + 1, i, argv, orig, stats, s =>
    match argv.get? i with
    | none => .error .undefinedBehaviour
    | some none => simple_command.build n (i + 1) argv orig stats s
    | some (some a) =>
      let (cell, s) := s.alloc (zeroRecord a)
      match orig, stats with
      | none, _ => simple_command.build n (i + 1) argv (some cell) (some cell) s
      | some o, some w =>
        simple_command.build n (i + 1) argv (some o) (some cell)
          { s with heap := s.heap.setNext w (some cell) }
      | some _, none => .error .undefinedBehaviour

/-- Embedding of `simple_command(argc, argv, merocmd, successmsg, glob)`;
`before` is `argv[-1]`. -/
def simple_command (env : Env) (g : Globals) (fuel : Nat) (before : String) (argc : Nat)
    (argv : List (Option String)) (merocmd successmsg : String) (glob : Bool) (s : Proc) :
    Res Unit :=
  match argvGet argv 0 with
  | .error f => .fault f
  | .ok cmd =>
    if argc = 1 then helpExit s 2 [before, cmd]
    else
      match simple_command.options before argc (argc - 1) 1 argv s with
      | .fault f => .fault f
      | .exit c s => .exit c s
      | .ret argv s =>
        if glob then
          match fetchAll env g cmd s with
          | .fault f => .fault f
          | .exit c s => .exit c s
          | .ret orig s =>
            match selectInto env fuel argc argv orig cmd s with
            | .fault f => .fault f
            | .exit c s => .exit c s
            | .ret (orig, _) s =>
              if orig = none then .exit 1 s
              else
                match simple_argv_cmd env.control_send g fuel cmd orig merocmd (some successmsg)
                    none s with
                | .fault f => .fault f
                | .exit c s => .exit c s
                | .ret () s => .ret () (msab_freeStatus s orig)
        else
          match simple_command.build (argc - 1) 1 argv none none s with
          | .error f => .fault f
          | .ok (orig, s) =>
            match simple_argv_cmd env.control_send g fuel cmd orig merocmd (some successmsg)
                none s with
            | .fault f => .fault f
            | .exit c s => .exit c s
            | .ret () s => .ret () (msab_freeStatus s orig)

/-- Embedding of `command_create`. -/
def command_create (env : Env) (g : Globals) (fuel : Nat) (before : String) (argc : Nat)
    (argv : List (Option String)) (s : Proc) : Res Unit :=
  simple_command env g fuel before argc argv "create" "created database in maintenance mode"
    false s

/-- Embedding of `command_lock`. -/
def command_lock (env : Env) (g : Globals) (fuel : Nat) (before : String) (argc : Nat)
    (argv : List (Option String)) (s : Proc) : Res Unit :=
  simple_command env g fuel before argc argv "lock" "put database under maintenance" true s

/-- Embedding of `command_release`. -/
def command_release (env : Env) (g : Globals) (fuel : Nat) (before : String) (argc : Nat)
    (argv : List (Option String)) (s : Proc) : Res Unit :=
  simple_command env g fuel before argc argv "release" "taken database out of maintenance mode"
    true s

/-- The option loop of `command_destroy`; it yields `force` and the updated `argv`. -/
def command_destroy.options (before : String) (argc : Nat) :
    Nat → Nat → Int → List (Option String) → Proc → Res (Int × List (Option String))
  | 0, _, force, argv, s => .ret (force, argv) s
  | n + 1, i, force, argv, s =>
    match argvGet argv i, argvGet argv 0 with
    | .ok a, .ok cmd =>
      if strcmp a "--" = 0 then .ret (force, argv.set i none) s
      else if a.data.head? = some '-' then
        if a.data.get? 1 = some 'f' then
          command_destroy.options before argc n (i + 1) 1 (argv.set i none) s
        else
          helpExit (s.eprintf ("destroy: unknown option: " ++ a ++ "\n")) ((argc : Int) + 1)
            [before, cmd]
      else command_destroy.options before argc n (i + 1) force argv s
    | _, _ => .fault .undefinedBehaviour

/-- The loop of `command_destroy` that prints the names of the databases to remove. -/
def command_destroy.names : Nat → Option Nat → Option Nat → Proc → Except Fault Proc
  | 0, _, _, _ => .error .outOfFuel
  | _ + 1, _, none, s => .ok s
  | fuel + 1, orig, some st, s =>
    command_destroy.names fuel orig (s.heap st).next
      (s.printf ((if some st ≠ orig then ", " else "") ++ "'" ++ (s.heap st).dbname ++ "'"))

/-- The confirmation dialogue of `command_destroy` for a non-empty list headed by `o`. -/
def command_destroy.confirm (env : Env) (fuel : Nat) (o : Nat) (s : Proc) : Res Unit :=
  let s := s.printf ("you are about to remove database" ++
    (if (s.heap o).next ≠ none then "s" else "") ++ " ")
  match command_destroy.names fuel (some o) (some o) s with
  | .error f => .fault f
  | .ok s =>
    let s := s.printf ("\nALL data in " ++
      (if (s.heap o).next ≠ none then "these databases" else "this database") ++
      " will be lost, are you sure? [y/N] ")
    -- scanf("%c", &answ) >= 1 && (answ == 'y' || answ == 'Y')
    if env.answer = some 'y' ∨ env.answer = some 'Y' then .ret () s
    else .exit 1 (s.printf "aborted\n")

/-- The end of `command_destroy`:
`simple_argv_cmd(argv[0], orig, "destroy", "destroyed database", NULL); msab_freeStatus(&orig);` -/
def command_destroy.dispatch (env : Env) (g : Globals) (fuel : Nat) (cmd : String) (o : Nat)
    (s : Proc) : Res Unit :=
  match simple_argv_cmd env.control_send g fuel cmd (some o) "destroy"
      (some "destroyed database") none s with
  | .fault f => .fault f
  | .exit c s => .exit c s
  | .ret () s => .ret () (msab_freeStatus s (some o))

/-- Embedding of `command_destroy(argc, argv)`; `before` is `argv[-1]`. -/
def command_destroy (env : Env) (g : Globals) (fuel : Nat) (before : String) (argc : Nat)
    (argv : List (Option String)) (s : Proc) : Res Unit :=
  match argvGet argv 0 with
  | .error f => .fault f
  | .ok cmd =>
    if argc = 1 then helpExit s ((argc : Int) + 1) [before, cmd]
    else
      match command_destroy.options before argc (argc - 1) 1 0 argv s with
      | .fault f => .fault f
      | .exit c s => .exit c s
      | .ret (force, argv) s =>
        match fetchAll env g "destroy" s with
        | .fault f => .fault f
        | .exit c s => .exit c s
        | .ret orig s =>
          match selectInto env fuel argc argv orig "destroy" s with
          | .fault f => .fault f
          | .exit c s => .exit c s
          | .ret (orig, _) s =>
            match orig with
            | none => .exit 1 s
            | some o =>
              if force = 0 then
                match command_destroy.confirm env fuel o s with
                | .fault f => .fault f
                | .exit c s => .exit c s
                | .ret () s => command_destroy.dispatch env g fuel cmd o s
              else command_destroy.dispatch env g fuel cmd o s

/-- The `startstop` enumeration. -/
inductive startstop where
  | START
  | STOP
  | KILL
deriving DecidableEq, Repr

/-- The `type` string `command_startstop` derives from its mode. -/
def startstop.type : startstop → String
  | .START => "start"
  | .STOP => "stop"
  | .KILL => "kill"

/-- The `action` string `command_startstop` derives from its mode. -/
def startstop.action : startstop → String
  | .START => "starting database"
  | .STOP => "stopping database"
  | .KILL => "killing database"

/-- How the scan of the characters of one option argument ends: at the end of
the argument, at a `--` terminator, or at a character that is no option. -/
inductive FlagEnd where
  | next
  | last
  | unknown (c : Char)
deriving DecidableEq, Repr

/-- The loop over the characters after the dash of `argv[i]` in
`command_startstop`; it yields `doall` and how the scan ended. -/
def command_startstop.flags (argc i : Nat) : List Char → Int → Int × FlagEnd
  | [], doall => (doall, .next)
  | 'a' :: cs, _ => command_startstop.flags argc i cs 1
  | '-' :: cs, doall =>
    if cs = [] then (if argc - 1 > i then 0 else doall, .last) else (doall, .unknown '-')
  | c :: _, doall => (doall, .unknown c)

/-- The option loop of `command_startstop`, with `n` iterations left, the next
at `i`. After a `--` terminator `i` is `argc`, so the `NULL` is stored in the
slot `argv[argc]` and the terminator itself stays in place. -/
def command_startstop.options (type before : String) (argc : Nat) :
    Nat → Nat → Int → List (Option String) → Proc → Res (Int × List (Option String))
  | 0, _, doall, argv, s => .ret (doall, argv) s
  | n + 1, i, doall, argv, s =>
    match argvGet argv i, argvGet argv 0 with
    | .ok a, .ok cmd =>
      match a.data with
      | '-' :: cs =>
        match command_startstop.flags argc i cs doall with
        | (_, .unknown c) =>
          helpExit (s.eprintf (type ++ ": unknown option: -" ++ String.singleton c ++ "\n")) 2
            [before, cmd]
        | (doall, .last) => .ret (doall, argv.set argc none) s
        | (doall, .next) =>
          command_startstop.options type before argc n (i + 1) doall (argv.set i none) s
      | _ => command_startstop.options type before argc n (i + 1) doall argv s
    | _, _ => .fault .undefinedBehaviour

/-- The local variables of the pruning loop of `command_startstop`. -/
structure PruneVars where
  heap : Heap
  orig : Option Nat
  prev : Option Nat
  stats : Option Nat

/-- The test of the pruning loop: with `-a`, a database needs no action when
it is not running (stop, kill) or is running (start). -/
def command_startstop.skip (doall : Int) (mode : startstop) (r : sabdb) : Bool :=
  doall = 1 ∧ (((mode = .STOP ∨ mode = .KILL) ∧ r.state ≠ .SABdbRunning) ∨
    (mode = .START ∧ r.state = .SABdbRunning))

/-- The `while (stats != NULL)` loop of `command_startstop` that removes the
databases needing no action from the list. -/
def command_startstop.prune (doall : Int) (mode : startstop) :
    Nat → PruneVars → Except Fault PruneVars
  | 0, _ => .error .outOfFuel
  | fuel + 1, v =>
    match v.stats with
    | none => .ok v
    | some st =>
      if command_startstop.skip doall mode (v.heap st) then
        -- if (prev == NULL) orig = stats->next; else prev->next = stats->next;
        let v := match v.prev with
          | none => { v with orig := (v.heap st).next }
          | some pv => { v with heap := v.heap.setNext pv (v.heap st).next }
        -- stats->next = NULL; msab_freeStatus(&stats);
        let v := { v with heap := v.heap.setNext st none }
        match v.prev with
        | none =>
          -- stats = orig; continue;
          command_startstop.prune doall mode fuel { v with stats := v.orig }
        | some pv =>
          -- stats = prev;  prev = stats;  stats = stats->next;
          command_startstop.prune doall mode fuel { v with stats := (v.heap pv).next }
      else
        -- prev = stats; stats = stats->next;
        command_startstop.prune doall mode fuel
          { v with prev := some st, stats := (v.heap st).next }

/-- Embedding of `command_startstop(argc, argv, mode)`; `before` is `argv[-1]`. -/
def command_startstop (env : Env) (g : Globals) (fuel : Nat) (before : String) (argc : Nat)
    (argv : List (Option String)) (mode : startstop) (s : Proc) : Res Unit :=
  if argc = 1 then
    match argvGet argv 0 with
    | .error f => .fault f
    | .ok cmd => helpExit s 2 [before, cmd]
  else if argc = 0 then .exit 2 s
  else
    match command_startstop.options mode.type before argc (argc - 1) 1 0 argv s with
    | .fault f => .fault f
    | .exit c s => .exit c s
    | .ret (doall, argv) s =>
      match fetchAll env g mode.type s with
      | .fault f => .fault f
      | .exit c s => .exit c s
      | .ret orig s =>
        let selected : Res (Option Nat × List (Option String)) :=
          if doall ≠ 1 then selectInto env fuel argc argv orig mode.type s
          else .ret (orig, argv) s
        match selected with
        | .fault f => .fault f
        | .exit c s => .exit c s
        | .ret (orig, _) s =>
          match command_startstop.prune doall mode fuel
              { heap := s.heap, orig := orig, prev := none, stats := orig } with
          | .error f => .fault f
          | .ok v =>
            let s := { s with heap := v.heap }
            if v.orig ≠ none then
              -- simple_argv_cmd(argv[0], orig, type, NULL, action), with argv[0] = type
              match simple_argv_cmd env.control_send g fuel mode.type v.orig mode.type none
                  (some mode.action) s with
              | .fault f => .fault f
              | .exit c s => .exit c s
              | .ret () s => .ret () (msab_freeStatus s v.orig)
            else .ret () s

/-- The `meroset` enumeration. -/
inductive meroset where
  | SET
  | INHERIT
deriving DecidableEq, Repr

/-- `snprintf(property, sizeof(property), "%s", src)` into `char property[24]`. -/
def snprintf24 (src : String) : String := String.mk (src.data.take 23)

/-- The variables the option loop of `command_set` leaves behind: the
`property` buffer, the pointer `p`, and `argv`. -/
structure SetVars where
  property : String
  p : Option String
  argv : List (Option String)

/-- The loop over the characters after the dash of `argv[i]` in `command_set`. -/
def command_set.flags : List Char → FlagEnd
  | [] => .next
  | '-' :: cs => if cs = [] then .last else .unknown '-'
  | c :: _ => .unknown c

/-- What the option loop of `command_set` copies into `property` from the
first argument that is no option: for `set` the part before the first `=`,
for `inherit` the whole argument, cut to the 24 bytes of the buffer. -/
def command_set.property (type : meroset) (a : String) : String :=
  match type with
  | .SET => snprintf24 (String.mk (a.data.takeWhile (fun c => c ≠ '=')))
  | .INHERIT => snprintf24 a

/-- The option loop of `command_set`, with `n` iterations left, the next at
`i`. The scan of an option argument uses `p` as its cursor and leaves it at
the terminating `NUL` of that argument, the empty string. -/
def command_set.options (type : meroset) (before : String) (argc : Nat) :
    Nat → Nat → SetVars → Proc → Res SetVars
  | 0, _, v, s => .ret v s
  | n + 1, i, v, s =>
    match argvGet v.argv i, argvGet v.argv 0 with
    | .ok a, .ok cmd =>
      match a.data with
      | '-' :: cs =>
        match command_set.flags cs with
        | .unknown c =>
          helpExit (s.eprintf (cmd ++ ": unknown option: -" ++ String.singleton c ++ "\n")) 2
            [before, cmd]
        | .last => .ret { v with p := some "", argv := v.argv.set argc none } s
        | .next =>
          command_set.options type before argc n (i + 1)
            { v with p := some "", argv := v.argv.set i none } s
      | _ =>
        if v.property.data = [] then
          -- first non-option is property, rest is database
          match type with
          | .SET =>
            if '=' ∈ a.data then
              command_set.options type before argc n (i + 1)
                { property := command_set.property .SET a, p := some a,
                  argv := v.argv.set i none } s
            else helpExit (s.eprintf "set: need property=value\n") 2 [before, cmd]
          | .INHERIT =>
            command_set.options type before argc n (i + 1)
              { property := command_set.property .INHERIT a, p := some a,
                argv := v.argv.set i none } s
        else command_set.options type before argc n (i + 1) v s
    | _, _ => .fault .undefinedBehaviour

/-- One request of `command_set` with its report:
`out = control_send(&res, …, dbname, p, 0, mero_pass)` and, when it failed or
the answer is not `OK`, the message on stderr and `state |= 1`. -/
def command_set.send (env : Env) (g : Globals) (cmd dbname verb : String) (state : Int)
    (s : Proc) : Int × Proc :=
  let req := commandRequest g dbname verb
  let out := env.control_send s.sent req
  let s := { s with sent := s.sent ++ [req] }
  match out with
  | .error e => (Int.lor state 1, s.eprintf (cmd ++ ": " ++ e ++ "\n"))
  | .ok res =>
    if strcmp res "OK" ≠ 0 then (Int.lor state 1, s.eprintf (cmd ++ ": " ++ res ++ "\n"))
    else (state, s)

/-- The loop `for (stats = orig; stats != NULL; stats = stats->next)` of
`command_set`; for `inherit` each round appends `=` to `property` with
`strncat`, which needs room in the 24 bytes, and sends `property`. -/
def command_set.loop (env : Env) (g : Globals) (type : meroset) (cmd : String) :
    Nat → Option Nat → String → Option String → Int → Proc → Res Int
  | 0, _, _, _, _, _ => .fault .outOfFuel
  | _ + 1, none, _, _, state, s => .ret state s
  | fuel + 1, some st, property, p, state, s =>
    match type with
    | .INHERIT =>
      if property.length + 1 ≥ 24 then .fault .undefinedBehaviour
      else
        let property := property ++ "="
        let (state, s) := command_set.send env g cmd (s.heap st).dbname property state s
        command_set.loop env g type cmd fuel (s.heap st).next property (some property) state s
    | .SET =>
      match p with
      | none => .fault .undefinedBehaviour
      | some verb =>
        let (state, s) := command_set.send env g cmd (s.heap st).dbname verb state s
        command_set.loop env g type cmd fuel (s.heap st).next property p state s

/-- Embedding of `command_set(argc, argv, type)`; `before` is `argv[-1]`. -/
def command_set (env : Env) (g : Globals) (fuel : Nat) (before : String) (argc : Nat)
    (argv : List (Option String)) (type : meroset) (s : Proc) : Res Unit :=
  match argvGet argv 0 with
  | .error f => .fault f
  | .ok cmd =>
    if 1 ≤ argc ∧ argc ≤ 2 then helpExit s 2 [before, cmd]
    else if argc = 0 then .exit 2 s
    else
      match command_set.options type before argc (argc - 1) 1
          { property := "", p := none, argv := argv } s with
      | .fault f => .fault f
      | .exit c s => .exit c s
      | .ret v s =>
        if v.property.data = [] then
          helpExit (s.eprintf (cmd ++ ": need a property argument\n")) 2 [before, cmd]
        else
          match fetchAll env g cmd s with
          | .fault f => .fault f
          | .exit c s => .exit c s
          | .ret orig s =>
            match selectInto env fuel argc v.argv orig cmd s with
            | .fault f => .fault f
            | .exit c s => .exit c s
            | .ret (orig, _) s =>
              -- handle rename separately due to single argument constraint
              if strcmp v.property "name" = 0 then
                if type = .INHERIT then
                  .exit 1 (s.eprintf "inherit: cannot default to a database name\n")
                else
                  match orig, v.p with
                  | some o, some verb =>
                    if (s.heap o).next ≠ none then
                      .exit 1 (s.eprintf
                        (cmd ++ ": cannot rename multiple databases to the same name\n"))
                    else
                      let (state, s) := command_set.send env g cmd (s.heap o).dbname verb 0 s
                      .exit state (msab_freeStatus s orig)
                  | _, _ => .fault .undefinedBehaviour
              else
                match command_set.loop env g type cmd fuel orig v.property v.p 0 s with
                | .fault f => .fault f
                | .exit c s => .exit c s
                | .ret state s => .exit state (msab_freeStatus s orig)

/-! ## printStatus and command_status -/

/-- The conversion `%-*s` of `printf`: left-justified in a field of `w` characters. -/
def padRight (w : Int) (t : String) : String :=
  t ++ String.mk (List.replicate (w.toNat - t.length) ' ')

/-- The conversions `%*s`, `%12s`, `%3s` of `printf`: right-justified in a field
of `w` characters. -/
def padLeft (w : Int) (t : String) : String :=
  String.mk (List.replicate (w.toNat - t.length) ' ') ++ t

/-- The conversion `%d` of `printf`. -/
def decimal (n : Int) : String := toString n

/-- The state word of the short and long listings. -/
def stateWord : SABdbState → String
  | .SABdbRunning => "running"
  | .SABdbCrashed => "crashed"
  | .SABdbInactive => "stopped"
  | .SABdbIllegal => "unknown"

/-- The short one-line mode of `printStatus` (`mode == 1`). -/
def printStatus.short (env : Env) (r : sabdb) (uplog : sabuplog) (twidth : Int) (s : Proc) :
    Proc :=
  let state := if r.locked = 1 then "locked " else stateWord r.state
  let crash := if uplog.lastcrash = -1 then "-"
    else env.strftime "%Y-%m-%d %H:%M:%S" uplog.lastcrash
  let uptime := if r.state ≠ .SABdbRunning then ""
    else env.secondsToString (env.time - uplog.laststart) 3
  let dbname := env.abbreviateString r.dbname twidth
  let avg := env.secondsToString uplog.avguptime 1
  let s := s.printf (padRight twidth dbname ++ "  " ++ state ++ " " ++ padLeft 12 uptime)
  let s := if uplog.startcntr ≠ 0 then
      s.printf ("  " ++
        padLeft 3 (decimal (100 - Int.tdiv (uplog.crashcntr * 100) uplog.startcntr)) ++ "%, " ++
        padLeft 3 avg ++ "  " ++ crash)
    else s
  s.printf "\n"

/-- One of the list lines of the long mode: ` (none)` or the entries. -/
def printStatus.entries (l : List String) (s : Proc) : Proc :=
  match l with
  | [] => s.printf " (none)"
  | _ => l.foldl (fun s e => s.printf (" " ++ e)) s

/-- The long mode of `printStatus` (`mode == 2`). -/
def printStatus.long (env : Env) (r : sabdb) (uplog : sabuplog) (s : Proc) : Proc :=
  let s := s.printf (r.dbname ++ ":\n")
  let s := s.printf ("  location: " ++ r.path ++ "\n")
  let s := s.printf ("  database name: " ++ r.dbname ++ "\n")
  let s := s.printf ("  state: " ++ stateWord r.state ++ "\n")
  let s := s.printf ("  locked: " ++ (if r.locked = 1 then "yes" else "no") ++ "\n")
  let s := s.printf "  scenarios:"
  let s := printStatus.entries r.scens s
  let s := s.printf "\n"
  let s := s.printf "  connections:"
  let s := printStatus.entries r.conns s
  let s := s.printf "\n"
  let s := s.printf ("  start count: " ++ decimal uplog.startcntr ++ "\n  stop count: " ++
    decimal uplog.stopcntr ++ "\n  crash count: " ++ decimal uplog.crashcntr ++ "\n")
  let s := if r.state = .SABdbRunning then
      s.printf ("  current uptime: " ++
        env.secondsToString (env.time - uplog.laststart) 999 ++ "\n")
    else s
  let s := s.printf ("  average uptime: " ++ env.secondsToString uplog.avguptime 999 ++ "\n")
  let s := s.printf ("  maximum uptime: " ++ env.secondsToString uplog.maxuptime 999 ++ "\n")
  let s := s.printf ("  minimum uptime: " ++ env.secondsToString uplog.minuptime 999 ++ "\n")
  let s := s.printf ("  last start with crash: " ++
    (if uplog.lastcrash ≠ -1 then env.strftime "%Y-%m-%d %H:%M:%S" uplog.lastcrash
      else "(unknown)") ++ "\n")
  let s := s.printf ("  last start: " ++
    (if uplog.laststart ≠ -1 then env.strftime "%Y-%m-%d %H:%M:%S" uplog.laststart
      else "(unknown)") ++ "\n")
  let s := s.printf ("  average of crashes in the last start attempt: " ++
    decimal uplog.crashavg1 ++ "\n")
  let s := s.printf ("  average of crashes in the last 10 start attempts: " ++
    uplog.crashavg10 ++ "\n")
  s.printf ("  average of crashes in the last 30 start attempts: " ++ uplog.crashavg30 ++ "\n")

/-- The remaining mode of `printStatus`, the crash statistics paragraph. -/
def printStatus.crash (env : Env) (r : sabdb) (uplog : sabuplog) (s : Proc) : Proc :=
  let buf := match r.state with
    | .SABdbRunning =>
      env.strftime "up since %Y-%m-%d %H:%M:%S, " uplog.laststart ++
        env.secondsToString (env.time - uplog.laststart) 999
    | .SABdbCrashed => env.strftime "crashed on %Y-%m-%d %H:%M:%S" uplog.lastcrash
    | .SABdbInactive => "not running"
    | .SABdbIllegal => "unknown"
  let buf := if r.locked = 1 then buf ++ ", locked" else buf
  let s := s.printf ("database " ++ r.dbname ++ ", " ++ buf ++ "\n")
  let s := s.printf ("  crash average: " ++ decimal uplog.crashavg1 ++ ".00 " ++
    uplog.crashavg10 ++ " " ++ uplog.crashavg30 ++ " (over 1, 15, 30 starts) in total " ++
    decimal uplog.crashcntr ++ " crashes\n")
  s.printf ("  uptime stats (min/avg/max): " ++ env.secondsToString uplog.minuptime 1 ++ "/" ++
    env.secondsToString uplog.avguptime 1 ++ "/" ++ env.secondsToString uplog.maxuptime 1 ++
    " over " ++ decimal uplog.stopcntr ++ " runs\n")

/-- Embedding of `printStatus(stats, mode, twidth)` for the record `r` that
`stats` points to. The capacities of the local character buffers are not
modelled. -/
def printStatus (env : Env) (r : sabdb) (mode : Int) (twidth : Int) (s : Proc) : Proc :=
  match env.msab_getUplogInfo r with
  | .error e => s.eprintf ("status: internal error: " ++ e ++ "\n")
  | .ok uplog =>
    if mode = 1 then printStatus.short env r uplog twidth s
    else if mode = 2 then printStatus.long env r uplog s
    else printStatus.crash env r uplog s

/-- The option variables of `command_status`. -/
structure StatusOpts where
  doall : Int
  mode : Int
  state : String
  argv : List (Option String)

/-- How the scan of the characters of one option argument of `status` ends. -/
inductive StatusEnd where
  | next
  | took
  | last
  | unknown (c : Char)
  | needsArg
  | badFlag (c : Char)
deriving DecidableEq, Repr

/-- The check of the argument of `-s`: the first character that is none of
`r`, `s`, `c`, `l`. -/
def command_status.badState (state : String) : Option Char :=
  state.data.find? (fun c => !(c = 'r' || c = 's' || c = 'c' || c = 'l'))

/-- The loop over the characters after the dash of `argv[i]` in
`command_status`. `took` means that `-s` took `argv[i + 1]` as its value and
advanced `i`. -/
def command_status.flags (argc i : Nat) :
    List Char → StatusOpts → Except Fault (StatusOpts × StatusEnd)
  | [], o => .ok (o, .next)
  | 'c' :: cs, o => command_status.flags argc i cs { o with mode := 0 }
  | 'l' :: cs, o => command_status.flags argc i cs { o with mode := 2 }
  | 's' :: cs, o =>
    if cs ≠ [] then
      -- state = ++p;
      match command_status.badState (String.mk cs) with
      | some c => .ok (o, .badFlag c)
      | none => .ok ({ o with state := String.mk cs }, .next)
    else if i + 1 < argc then
      match argvGet o.argv (i + 1) with
      | .error f => .error f
      | .ok a =>
        if a.data.head? ≠ some '-' then
          -- state = argv[++i];
          match command_status.badState a with
          | some c => .ok (o, .badFlag c)
          | none => .ok ({ o with state := a }, .took)
        else .ok (o, .needsArg)
    else .ok (o, .needsArg)
  | '-' :: cs, o =>
    if cs = [] then .ok ({ o with doall := if argc - 1 > i then 0 else o.doall }, .last)
    else .ok (o, .unknown '-')
  | c :: _, o => .ok (o, .unknown c)

/-- The option loop of `command_status`, with `n` iterations left, the next
at `i`. The statement `argv[i] = NULL` after the scan uses the current `i`:
the slot of the value after `-s value`, the slot `argv[argc]` after `--`. -/
def command_status.options (before : String) (argc : Nat) :
    Nat → Nat → StatusOpts → Proc → Res StatusOpts
  | 0, _, o, s => .ret o s
  | n + 1, i, o, s =>
    match argvGet o.argv i, argvGet o.argv 0 with
    | .ok a, .ok cmd =>
      match a.data with
      | '-' :: cs =>
        match command_status.flags argc i cs o with
        | .error f => .fault f
        | .ok (_, .unknown c) =>
          helpExit (s.eprintf ("status: unknown option: -" ++ String.singleton c ++ "\n")) 2
            [before, cmd]
        | .ok (_, .needsArg) =>
          helpExit (s.eprintf "status: -s needs an argument\n") 2 [before, cmd]
        | .ok (_, .badFlag c) =>
          helpExit (s.eprintf ("status: unknown flag for -s: -" ++ String.singleton c ++ "\n")) 2
            [before, cmd]
        | .ok (o, .last) => .ret { o with argv := o.argv.set argc none } s
        | .ok (o, .took) =>
          match n with
          | 0 => .ret { o with argv := o.argv.set (i + 1) none } s
          | m + 1 =>
            command_status.options before argc m (i + 2)
              { o with argv := o.argv.set (i + 1) none } s
        | .ok (o, .next) =>
          command_status.options before argc n (i + 1) { o with argv := o.argv.set i none } s
      | _ => command_status.options before argc n (i + 1) { o with doall := 0 } s
    | _, _ => .fault .undefinedBehaviour

/-- The loop of `command_status` that finds the longest name in the list. -/
def command_status.width (h : Heap) : Nat → Option Nat → Int → Except Fault Int
  | 0, _, _ => .error .outOfFuel
  | _ + 1, none, dbwidth => .ok dbwidth
  | fuel + 1, some st, dbwidth =>
    command_status.width h fuel (h st).next
      (if ((h st).dbname.length : Int) > dbwidth then ((h st).dbname.length : Int) else dbwidth)

/-- The test of the printing loop: the record matches the current selector. -/
def command_status.shown (curLock : Int) (curMode : SABdbState) (r : sabdb) : Bool :=
  r.locked = curLock ∧ (curLock = 1 ∨ (curLock = 0 ∧ r.state = curMode))

/-- The inner `while (stats != NULL)` loop of the printing phase of `command_status`. -/
def command_status.pass (env : Env) (curLock : Int) (curMode : SABdbState) (mode twidth : Int) :
    Nat → Option Nat → Proc → Except Fault Proc
  | 0, _, _ => .error .outOfFuel
  | _ + 1, none, s => .ok s
  | fuel + 1, some st, s =>
    command_status.pass env curLock curMode mode twidth fuel (s.heap st).next
      (if command_status.shown curLock curMode (s.heap st) then
        printStatus env (s.heap st) mode twidth s
      else s)

/-- The selector `curLock`, `curMode` that a character of `state` stands for. -/
def command_status.selector (c : Char) : Int × SABdbState :=
  if c = 'r' then (0, .SABdbRunning)
  else if c = 's' then (0, .SABdbInactive)
  else if c = 'c' then (0, .SABdbCrashed)
  else if c = 'l' then (1, .SABdbIllegal)
  else (0, .SABdbIllegal)

/-- The outer loop `for (p = state; *p != '\0'; p++)` of the printing phase. -/
def command_status.print (env : Env) (fuel : Nat) (orig : Option Nat) (mode twidth : Int) :
    List Char → Proc → Except Fault Proc
  | [], s => .ok s
  | c :: cs, s =>
    match command_status.pass env (command_status.selector c).1 (command_status.selector c).2
        mode twidth fuel orig s with
    | .error f => .error f
    | .ok s => command_status.print env fuel orig mode twidth cs s

/-- The width of the name column in short mode. -/
def command_status.twidth (termwidth dbwidth : Int) : Int :=
  let twidth := termwidth - 54
  let twidth := if twidth < 6 then 6 else twidth
  let dbwidth := if dbwidth < 14 then 14 else dbwidth
  if dbwidth < twidth then dbwidth else twidth

/-- The header of short mode. -/
def command_status.header (twidth : Int) (s : Proc) : Proc :=
  let s := s.printf (padLeft (twidth - 4 - Int.tdiv (twidth - 4) 2) "" ++ "name" ++
    padLeft (Int.tdiv (twidth - 4) 2) "" ++ "  ")
  s.printf " state     uptime       health       last crash\n"

/-- Embedding of `command_status(argc, argv)`; `before` is `argv[-1]`. -/
def command_status (env : Env) (g : Globals) (fuel : Nat) (before : String) (argc : Nat)
    (argv : List (Option String)) (s : Proc) : Res Unit :=
  if argc = 0 then .exit 2 s
  else
    match command_status.options before argc (argc - 1) 1
        { doall := 1, mode := 1, state := "rscl", argv := argv } s with
    | .fault f => .fault f
    | .exit c s => .exit c s
    | .ret o s =>
      match fetchAll env g "status" s with
      | .fault f => .fault f
      | .exit c s => .exit c s
      | .ret orig s =>
        let selected : Res (Option Nat × List (Option String)) :=
          if o.doall ≠ 1 then selectInto env fuel argc o.argv orig "status" s
          else .ret (orig, o.argv) s
        match selected with
        | .fault f => .fault f
        | .exit c s => .exit c s
        | .ret (orig, _) s =>
          match command_status.width s.heap fuel orig 0 with
          | .error f => .fault f
          | .ok dbwidth =>
            let twidth := if o.mode = 1 ∧ orig ≠ none then
                command_status.twidth g.TERMWIDTH dbwidth
              else g.TERMWIDTH
            let s := if o.mode = 1 ∧ orig ≠ none then command_status.header twidth s else s
            match command_status.print env fuel orig o.mode twidth o.state.data s with
            | .error f => .fault f
            | .ok s => .ret () (if orig ≠ none then msab_freeStatus s orig else s)

/-! ## command_get -/

/-- Modelled from the spec: `findConfKey` of `utils.h` (not among the sources): the entry
of a property table with the given key. -/
def findConfKey (list : List confkeyval) (key : String) : Option confkeyval :=
  list.find? (fun kv => kv.1 = key)

/-- Modelled from the spec: `freeConfFile` of `utils.h` (not among the sources): every
value of the table is released, the keys stay. -/
def freeConfFile (list : List confkeyval) : List confkeyval :=
  list.map (fun kv => (kv.1, none))

/-- The tokens that `strtok(property, ",")` and then repeated
`strtok(NULL, ",")` yield. -/
def strtokCommas (property : String) : List String :=
  ((property.data.splitOn ',').filter (fun t => !t.isEmpty)).map String.mk

/-- The expansion of `all`: `name` followed by every key of the default
table, written into a buffer of 512 bytes. -/
def command_get.allKeys (defprops : List confkeyval) : String :=
  defprops.foldl (fun acc kv => acc ++ "," ++ kv.1) "name"

/-- The option variables of `command_get`. -/
structure GetOpts where
  doall : Int
  property : Option String
  argv : List (Option String)

/-- The loop over the characters after the dash of `argv[i]` in `command_get`. -/
def command_get.flags (argc i : Nat) : List Char → Int → Int × FlagEnd
  | [], doall => (doall, .next)
  | '-' :: cs, doall =>
    if cs = [] then (if argc - 1 > i then 0 else doall, .last) else (doall, .unknown '-')
  | c :: _, doall => (doall, .unknown c)

/-- The option loop of `command_get`, with `n` iterations left, the next at `i`. -/
def command_get.options (env : Env) (before : String) (argc : Nat) :
    Nat → Nat → GetOpts → Proc → Res GetOpts
  | 0, _, o, s => .ret o s
  | n + 1, i, o, s =>
    match argvGet o.argv i, argvGet o.argv 0 with
    | .ok a, .ok cmd =>
      match a.data with
      | '-' :: cs =>
        match command_get.flags argc i cs o.doall with
        | (_, .unknown c) =>
          helpExit (s.eprintf ("get: unknown option: -" ++ String.singleton c ++ "\n")) 2
            [before, cmd]
        | (doall, .last) => .ret { o with doall := doall, argv := o.argv.set argc none } s
        | (doall, .next) =>
          command_get.options env before argc n (i + 1)
            { o with doall := doall, argv := o.argv.set i none } s
      | _ =>
        match o.property with
        | none =>
          -- first non-option is property, rest is database
          if strcmp a "all" = 0 then
            if (command_get.allKeys env.getDefaultProps).length ≥ 512 then
              .fault .undefinedBehaviour
            else
              command_get.options env before argc n (i + 1)
                { o with property := some (command_get.allKeys env.getDefaultProps),
                         argv := o.argv.set i none } s
          else
            command_get.options env before argc n (i + 1)
              { o with property := some a, argv := o.argv.set i none } s
        | some _ => command_get.options env before argc n (i + 1) { o with doall := 0 } s
    | _, _ => .fault .undefinedBehaviour

/-- The request `command_get` sends for the database `dbname`. -/
def getRequest (g : Globals) (dbname : String) : Request :=
  { host := g.mero_host, port := g.mero_port, database := dbname, command := "get",
    wait := 1, pass := g.mero_pass }

/-- `buf + 3`: the answer after its first three characters. -/
def skipOK (buf : String) : String := String.mk (buf.data.drop 3)

/-- `control_send(&buf, …, dbname, "get", 1, mero_pass)` with the two checks
that follow it: a failed request ends the run with `exit(2)`, an answer that
does not start with `OK` and a newline with `exit(1)`. -/
def command_get.fetch (env : Env) (g : Globals) (dbname : String) (s : Proc) : Res String :=
  let req := getRequest g dbname
  let r := env.control_send s.sent req
  let s := { s with sent := s.sent ++ [req] }
  match r with
  | .error e => .exit 2 (s.eprintf ("get: internal error: " ++ e ++ "\n"))
  | .ok buf =>
    if buf.data.take 3 ≠ "OK\n".data then .exit 1 (s.eprintf ("get: " ++ buf ++ "\n"))
    else .ret buf s

/-- The row `printf("%-15s  %-8s  %-7s  %s\n", dbname, p, source, value)`. -/
def command_get.row (dbname p source value : String) : String :=
  padRight 15 dbname ++ "  " ++ padRight 8 p ++ "  " ++ padRight 7 source ++ "  " ++ value ++ "\n"

/-- The inner `while (stats != NULL)` loop of `command_get` for the key `p`;
it threads the table `props`. -/
def command_get.targets (env : Env) (g : Globals) (defprops : List confkeyval) (twidth : Int)
    (p : String) :
    Nat → Option Nat → List confkeyval → Proc → Res (List confkeyval)
  | 0, _, _, _ => .fault .outOfFuel
  | _ + 1, none, props, s => .ret props s
  | fuel + 1, some st, props, s =>
    if strcmp p "name" = 0 then
      -- special virtual case
      let s := s.printf (command_get.row (s.heap st).dbname p "-"
        (env.abbreviateString (s.heap st).dbname twidth))
      command_get.targets env g defprops twidth p fuel (s.heap st).next (freeConfFile props) s
    else
      match command_get.fetch env g (s.heap st).dbname s with
      | .fault f => .fault f
      | .exit c s => .exit c s
      | .ret buf s =>
        let props := env.readPropsBuf props (skipOK buf)
        match findConfKey props p with
        | none =>
          -- stats = NULL; continue;
          .ret props (s.eprintf ("get: no such property: " ++ p ++ "\n"))
        | some (_, none) =>
          let value := match findConfKey defprops p with
            | some (_, some v) => v
            | _ => "<unknown>"
          let s := s.printf (command_get.row (s.heap st).dbname p "default"
            (env.abbreviateString value twidth))
          command_get.targets env g defprops twidth p fuel (s.heap st).next
            (freeConfFile props) s
        | some (_, some v) =>
          let s := s.printf (command_get.row (s.heap st).dbname p "local"
            (env.abbreviateString v twidth))
          command_get.targets env g defprops twidth p fuel (s.heap st).next
            (freeConfFile props) s

/-- The outer loop `while ((p = strtok(property, ",")) != NULL)` of `command_get`. -/
def command_get.keys (env : Env) (g : Globals) (defprops : List confkeyval) (twidth : Int)
    (fuel : Nat) (orig : Option Nat) :
    List String → List confkeyval → Proc → Res (List confkeyval)
  | [], props, s => .ret props s
  | p :: ps, props, s =>
    match command_get.targets env g defprops twidth p fuel orig props s with
    | .fault f => .fault f
    | .exit c s => .exit c s
    | .ret props s => command_get.keys env g defprops twidth fuel orig ps props s

/-- Embedding of `command_get(argc, argv)`; `before` is `argv[-1]`. -/
def command_get (env : Env) (g : Globals) (fuel : Nat) (before : String) (argc : Nat)
    (argv : List (Option String)) (s : Proc) : Res Unit :=
  if argc = 1 then
    match argvGet argv 0 with
    | .error f => .fault f
    | .ok cmd => helpExit s 2 [before, cmd]
  else if argc = 0 then .exit 2 s
  else
    match command_get.options env before argc (argc - 1) 1
        { doall := 1, property := none, argv := argv } s with
    | .fault f => .fault f
    | .exit c s => .exit c s
    | .ret o s =>
      match o.property, argvGet argv 0 with
      | _, .error f => .fault f
      | none, .ok cmd => helpExit (s.eprintf "get: need a property argument\n") 2 [before, cmd]
      | some property, .ok _ =>
        match command_get.fetch env g "#defaults" s with
        | .fault f => .fault f
        | .exit c s => .exit c s
        | .ret buf s =>
          let defprops := env.readPropsBuf env.getDefaultProps (skipOK buf)
          match fetchAll env g "get" s with
          | .fault f => .fault f
          | .exit c s => .exit c s
          | .ret orig s =>
            let selected : Res (Option Nat × List (Option String)) :=
              if o.doall ≠ 1 then selectInto env fuel argc o.argv orig "get" s
              else .ret (orig, o.argv) s
            match selected with
            | .fault f => .fault f
            | .exit c s => .exit c s
            | .ret (orig, _) s =>
              -- suppress header when there are no results
              if orig = none then .ret () s
              else
                let twidth := g.TERMWIDTH - (15 + 2 + 8 + 2 + 7 + 2)
                let twidth := if twidth < 6 then 6 else twidth
                let s := s.printf "     name          prop     source           value\n"
                match command_get.keys env g defprops twidth fuel orig (strtokCommas property)
                    env.getDefaultProps s with
                | .fault f => .fault f
                | .exit c s => .exit c s
                | .ret _ s => .ret () (msab_freeStatus s orig)

/-! ## main -/

/-- Embedding of `command_version`: the line it prints. -/
def command_version (env : Env) (s : Proc) : Proc :=
  s.printf ("MonetDB Database Server Toolkit v" ++ "0.8" ++ " (" ++ env.release ++ ")\n")

/-- `command_help(argc, argv)` as a statement: the text goes to stdout. -/
def printHelp (s : Proc) (argc : Int) (argv : List String) : Except Fault Proc :=
  match command_help argc argv with
  | .error f => .error f
  | .ok text => .ok { s with out := s.out ++ text }

/-- `snprintf(buf, sizeof(buf), …)` into `char buf[1024]`. -/
def snprintf1024 (src : String) : String := String.mk (src.data.take 1023)

/-- How the option loop of `main` ends: `main` returns a code, or the loop is
left with the index `i`, the file-scope variables and `argv`. -/
inductive MainOpts where
  | returned (code : Int)
  | parsed (i : Nat) (g : Globals) (argv : List String)

/-- The loop `for (i = 1; argc > i && argv[i][0] == '-'; i++)` of `main`, with
at most `n` iterations left, the next at `i`. -/
def main.options (env : Env) (argc : Nat) :
    Nat → Nat → Globals → List String → Proc → Res MainOpts
  | 0, i, g, argv, s => .ret (.parsed i g argv) s
  | n + 1, i, g, argv, s =>
    if ¬ argc > i then .ret (.parsed i g argv) s
    else
      match argv.get? i with
      | none => .fault .undefinedBehaviour
      | some a =>
        if a.data.head? ≠ some '-' then .ret (.parsed i g argv) s
        else
          let rest := String.mk (a.data.drop 2)
          let c := a.data.get? 1
          if c = some 'v' then .ret (.returned 0) (command_version env s)
          else if c = some 'q' then
            main.options env argc n (i + 1) { g with monetdb_quiet := true } argv s
          else if c = some 'h' then
            if rest.length > 0 then
              main.options env argc n (i + 1) { g with mero_host := some rest } argv s
            else if i + 1 < argc then
              match argv.get? (i + 1) with
              | none => .fault .undefinedBehaviour
              | some v => main.options env argc n (i + 2) { g with mero_host := some v } argv s
            else .ret (.returned 1) (s.eprintf "monetdb: -h needs an argument\n")
          else if c = some 'p' then
            if rest.length > 0 then
              main.options env argc n (i + 1) { g with mero_port := env.atoi rest } argv s
            else if i + 1 < argc then
              match argv.get? (i + 1) with
              | none => .fault .undefinedBehaviour
              | some v => main.options env argc n (i + 2) { g with mero_port := env.atoi v } argv s
            else .ret (.returned 1) (s.eprintf "monetdb: -p needs an argument\n")
          else if c = some 'P' then
            -- the password is copied and wiped from argv
            if rest.length > 0 then
              main.options env argc n (i + 1) { g with mero_pass := some rest }
                (argv.set i (String.mk (a.data.take 2))) s
            else if i + 1 < argc then
              match argv.get? (i + 1) with
              | none => .fault .undefinedBehaviour
              | some v =>
                main.options env argc n (i + 2) { g with mero_pass := some v }
                  (argv.set (i + 1) "") s
            else .ret (.returned 1) (s.eprintf "monetdb: -P needs an argument\n")
          else if c = some '-' ∧ rest.data = [] then
            -- skip --
            main.options env argc n (i + 1) g argv s
          else if c = some '-' ∧ strcmp rest "version" = 0 then
            .ret (.returned 0) (command_version env s)
          else if c = some '-' ∧ strcmp rest "help" = 0 then
            match printHelp s 0 [] with
            | .error f => .fault f
            | .ok s => .ret (.returned 0) s
          else
            match printHelp (s.eprintf ("monetdb: unknown option: " ++ a ++ "\n")) 0 [] with
            | .error f => .fault f
            | .ok s => .ret (.returned 1) s

/-- The `readdir` loop of `main` over the entries of the socket directory;
it yields the pings made and the socket that answered, if any. -/
def main.scan (env : Env) (host : String) : List String → List String → List String × Option String
  | [], pings => (pings, none)
  | e :: es, pings =>
    if e.data.take 15 ≠ ".s.merovingian.".data then main.scan env host es pings
    else
      match env.isSocket (snprintf1024 (host ++ "/" ++ e)) with
      | some true =>
        if env.control_ping (snprintf1024 (host ++ "/" ++ e)) = 0 then
          (pings ++ [snprintf1024 (host ++ "/" ++ e)], some (snprintf1024 (host ++ "/" ++ e)))
        else main.scan env host es (pings ++ [snprintf1024 (host ++ "/" ++ e)])
      | _ => main.scan env host es pings

/-- What the search for a local control socket yields. -/
inductive Resolved where
  | found (buf : String)
  | noDirectory
  | notFound

/-- The `do { … } while (0)` block of `main` that looks for a control socket
in the directory `host`; it yields the pings made and the outcome. -/
def main.resolve (env : Env) (host : String) (port : Int) : List String × Resolved :=
  let buf := snprintf1024 (host ++ "/.s.merovingian." ++ decimal (if port = -1 then 50001 else port))
  if env.control_ping buf = 0 then ([buf], .found buf)
  else if port = -1 then
    match env.opendir host with
    | none => ([buf], .noDirectory)
    | some entries =>
      match main.scan env host entries [buf] with
      | (pings, some b) => (pings, .found b)
      | (pings, none) => (pings, .notFound)
  else ([buf], .notFound)

/-- The end of `main` after a command: when the command returns, `main`
returns 0; an `exit` inside the command ends the run with its code. -/
def main.after (r : Res Unit) : Res Int :=
  match r with
  | .fault f => .fault f
  | .exit c s => .exit c s
  | .ret () s => .ret 0 s

/-- The chain of `strcmp` tests at the end of `main` that runs the command
`argv[i]`; `before` is `argv[i - 1]` and `argv` starts at the command word. -/
def main.dispatch (env : Env) (g : Globals) (fuel : Nat) (before cmd : String) (argc : Nat)
    (argv : List (Option String)) (s : Proc) : Res Int :=
  let run := main.after
  if strcmp cmd "create" = 0 then run (command_create env g fuel before argc argv s)
  else if strcmp cmd "destroy" = 0 then run (command_destroy env g fuel before argc argv s)
  else if strcmp cmd "lock" = 0 then run (command_lock env g fuel before argc argv s)
  else if strcmp cmd "release" = 0 then run (command_release env g fuel before argc argv s)
  else if strcmp cmd "status" = 0 then run (command_status env g fuel before argc argv s)
  else if strcmp cmd "start" = 0 then run (command_startstop env g fuel before argc argv .START s)
  else if strcmp cmd "stop" = 0 then run (command_startstop env g fuel before argc argv .STOP s)
  else if strcmp cmd "kill" = 0 then run (command_startstop env g fuel before argc argv .KILL s)
  else if strcmp cmd "set" = 0 then run (command_set env g fuel before argc argv .SET s)
  else if strcmp cmd "get" = 0 then run (command_get env g fuel before argc argv s)
  else if strcmp cmd "inherit" = 0 then run (command_set env g fuel before argc argv .INHERIT s)
  else if strcmp cmd "discover" = 0 then run (env.command_discover g before argc argv s)
  else
    match printHelp (s.eprintf ("monetdb: unknown command: " ++ cmd ++ "\n")) 0 [] with
    | .error f => .fault f
    | .ok s => .ret 0 s

/-- What a run of `main` leaves: the sockets probed with `control_ping`, in
order, and how the run ended (`ret` is a `return` from `main`). -/
structure MainResult where
  pings : List String
  result : Res Int

/-- The file-scope variables when the option loop of `main` starts: their
initialisers, and `TERMWIDTH` from the `TIOCGWINSZ` query when it reports a
positive width. -/
def main.globals (env : Env) : Globals :=
  { mero_host := none, mero_port := -1, mero_pass := none, monetdb_quiet := false,
    TERMWIDTH := match env.winsize with
      | some col => if col > 0 then col else 80
      | none => 80 }

/-- Embedding of `main(argc, argv)`. -/
def main (env : Env) (fuel : Nat) (argc : Nat) (argv : List String) (s : Proc) : MainResult :=
  let g0 : Globals := main.globals env
  if argc ≤ 1 then
    match printHelp s 0 [] with
    | .error f => ⟨[], .fault f⟩
    | .ok s => ⟨[], .ret 1 s⟩
  else
    match main.options env argc argc 1 g0 argv s with
    | .fault f => ⟨[], .fault f⟩
    | .exit c s => ⟨[], .exit c s⟩
    | .ret (.returned code) s => ⟨[], .ret code s⟩
    | .ret (.parsed i g argv) s =>
      -- check consistency of -h -p and -P args
      if g.mero_pass ≠ none ∧
          (g.mero_host = none ∨ (g.mero_host.getD "").data.head? = some '/') then
        ⟨[], .exit 1 (s.eprintf "monetdb: -P requires -h to be used with a TCP hostname\n")⟩
      else if g.mero_host ≠ none ∧ (g.mero_host.getD "").data.head? ≠ some '/' ∧
          g.mero_pass = none then
        ⟨[], .exit 1 (s.eprintf "monetdb: -h requires -P to be used\n")⟩
      else if i ≥ argc then
        match printHelp s 0 [] with
        | .error f => ⟨[], .fault f⟩
        | .ok s => ⟨[], .ret 1 s⟩
      else
        match argv.get? i, argv.get? (i - 1) with
        | some cmd, some before =>
          -- commands that do not need merovingian to be running
          if strcmp cmd "help" = 0 then
            match printHelp s ((argc : Int) - (i : Int)) (argv.drop i) with
            | .error f => ⟨[], .fault f⟩
            | .ok s => ⟨[], .ret 0 s⟩
          else if strcmp cmd "version" = 0 then ⟨[], .ret 0 (command_version env s)⟩
          else if g.mero_host = none ∨ (g.mero_host.getD "").data.head? = some '/' then
            -- use UNIX socket if no hostname given
            match main.resolve env (g.mero_host.getD "/tmp") g.mero_port with
            | (pings, .found buf) =>
              ⟨pings, main.dispatch env { g with mero_host := some buf, mero_port := -1 } fuel
                before cmd (argc - i) ((argv.drop i).map some) s⟩
            | (pings, _) =>
              ⟨pings, .exit 1
                (s.eprintf "monetdb: cannot find a control socket, use -h and/or -p\n")⟩
          else
            -- for TCP connections
            ⟨[], main.dispatch env
              { g with mero_port := if g.mero_port = -1 then 50001 else g.mero_port } fuel
              before cmd (argc - i) ((argv.drop i).map some) s⟩
        | _, _ => ⟨[], .fault .undefinedBehaviour⟩

/-! ## Fixtures for worked examples of the commands -/

/-- An example deserialiser: the first character of a line gives the state
(`r` running, `s` stopped, `c` crashed, `u` unknown, `l` stopped and locked),
the rest is the name; any other line does not parse. -/
def deserStates (line : String) : Except String sabdb :=
  match line.data with
  | 'r' :: cs => .ok { exampleRecord (String.mk cs) with state := .SABdbRunning }
  | 's' :: cs => .ok (exampleRecord (String.mk cs))
  | 'c' :: cs => .ok { exampleRecord (String.mk cs) with state := .SABdbCrashed }
  | 'u' :: cs => .ok { exampleRecord (String.mk cs) with state := .SABdbIllegal }
  | 'l' :: cs => .ok { exampleRecord (String.mk cs) with locked := 1 }
  | _ => .error "bad record"

/-- An example controller: a `status` request is answered with `snapshot`,
a `get` request with an empty property list, and any other request as
`controlModel` does. -/
def controlWith (snapshot : String) (sent : List Request) (r : Request) : Except String String :=
  if r.command = "status" then .ok snapshot
  else if r.command = "get" then .ok "OK\n"
  else controlModel sent r

/-- Example uptime statistics: never started. -/
def exampleUplog : sabuplog :=
  { startcntr := 0, stopcntr := 0, crashcntr := 0, avguptime := 0, maxuptime := 0,
    minuptime := 0, lastcrash := -1, laststart := -1, crashavg1 := 0, crashavg10 := "0.00",
    crashavg30 := "0.00" }

/-- An example environment: the controller answers `status` with `snapshot`,
the socket `/tmp/.s.merovingian.50001` is alive. -/
def exampleEnv (snapshot : String) : Env :=
  { glob := globModel, control_send := controlWith snapshot, msab_deserialise := deserStates,
    qsort := qsortModel, msab_getUplogInfo := fun _ => .ok exampleUplog, time := 0,
    strftime := fun _ _ => "then", secondsToString := fun n _ => decimal n ++ "s",
    abbreviateString := fun t _ => t, getDefaultProps := [("type", none), ("shared", none)],
    readPropsBuf := fun t _ => t,
    control_ping := fun p => if p = "/tmp/.s.merovingian.50001" then 0 else -1,
    opendir := fun _ => none, isSocket := fun _ => none, atoi := fun _ => 0, answer := none,
    winsize := none, release := "example",
    command_discover := fun _ _ _ _ s => .ret () s }

/-- The exit status of the process after a run of `main`. -/
def Res.status : Res Int → Option Int
  | .ret c _ => some c
  | .exit c _ => some c
  | .fault _ => none

/-- An example property reader: an answer that is not empty becomes the local
value of the key `type`; the keys stay as they are. -/
def readModel (t : List confkeyval) (buf : String) : List confkeyval :=
  t.map (fun kv => if kv.1 = "type" ∧ buf ≠ "" then (kv.1, some buf) else kv)

/-- An example environment for `get`: `db1` answers a `get` request with the
local type `mal`, every other database with no local value. -/
def exampleGetEnv : Env :=
  { exampleEnv "OK\nrdb1\nsdb2" with
    readPropsBuf := readModel,
    control_send := fun sent q =>
      if q.command = "get" then .ok (if q.database = "db1" then "OK\nmal" else "OK\n")
      else controlWith "OK\nrdb1\nsdb2" sent q }

/-- An example environment for `get` with a default value: the defaults
answer with the type `sql`, `db1` answers with the local type `mal`, every
other database with no local value. -/
def exampleDefaultsEnv : Env :=
  { exampleGetEnv with
    control_send := fun sent q =>
      if q.command = "get" then
        .ok (if q.database = "#defaults" then "OK\nsql"
          else if q.database = "db1" then "OK\nmal" else "OK\n")
      else controlWith "OK\nrdb1\nsdb2" sent q }

/-- The local answers of `exampleGetEnv` by database name. -/
def exampleReply (dbname : String) : String := if dbname = "db1" then "mal" else ""

/-- An example deserialiser with a locked running state: a line starting with
`L` is a running and locked database, any other line is read as `deserStates`
reads it. -/
def deserLocked (line : String) : Except String sabdb :=
  match line.data with
  | 'L' :: cs => .ok { exampleRecord (String.mk cs) with state := .SABdbRunning, locked := 1 }
  | _ => deserStates line

/-- The names of an example installation of 25 instances. -/
def exampleNames25 : List String :=
  ["db01", "db02", "db03", "db04", "db05", "db06", "db07", "db08", "db09",
   "db10", "db11", "db12", "db13", "db14", "db15", "db16", "db17", "db18",
   "db19", "db20", "db21", "db22", "db23", "db24", "db25"]

/-- The answer to the status request in the installation of `exampleNames25`:
every instance is stopped. -/
def exampleSnapshot25 : String :=
  "OK\nsdb01\nsdb02\nsdb03\nsdb04\nsdb05\nsdb06\nsdb07\nsdb08\nsdb09\nsdb10\nsdb11\nsdb12\nsdb13\nsdb14\nsdb15\nsdb16\nsdb17\nsdb18\nsdb19\nsdb20\nsdb21\nsdb22\nsdb23\nsdb24\nsdb25"

/-! ## Vocabulary of the command theorems -/

/-- The status fetch succeeds and yields the records `recs`: `qsort` meets its
contract, the answer to the status request starts with the token `OK`, every
further line deserialises, in order, to the records `recs`, and these are
not linked to anything. -/
def FetchOk (env : Env) (g : Globals) (s : Proc) (recs : List sabdb) : Prop :=
  QsortSpec env.qsort ∧ (∀ r ∈ recs, r.next = none) ∧
  ∃ buf lines, env.control_send s.sent (statusRequest g none) = .ok buf ∧
    strtokLines buf = "OK" :: lines ∧ lines.map env.msab_deserialise = recs.map Except.ok

/-- The records held by the cells `l`, links aside. -/
def recordsOf (h : Heap) (l : List Nat) : List sabdb :=
  l.map (fun a => ({ h a with next := none } : sabdb))

/-- A list of records is in ascending order of name under `strcmp`. -/
def NameSorted (snap : List sabdb) : Prop :=
  snap.Pairwise (fun a b => strcmp a.dbname b.dbname ≤ 0)

/-- The requests sent when a run ended, and nothing for a fault. -/
def Res.sent {α : Type} : Res α → List Request
  | .ret _ s => s.sent
  | .exit _ s => s.sent
  | .fault _ => []

/-- The text on stdout when a run ended, and nothing for a fault. -/
def Res.out {α : Type} : Res α → List String
  | .ret _ s => s.out
  | .exit _ s => s.out
  | .fault _ => []

/-- The text on stderr when a run ended, and nothing for a fault. -/
def Res.err {α : Type} : Res α → List String
  | .ret _ s => s.err
  | .exit _ s => s.err
  | .fault _ => []

/-- The requests that the loop of `command_set` sends to the databases `dbs`,
in order: for `set` each carries `verb`; for `inherit` the first carries
`property` followed by `=`, and each later one a further `=`. -/
def command_set.requests (g : Globals) (type : meroset) (verb : String) :
    String → List String → List Request
  | _, [] => []
  | property, d :: ds =>
    match type with
    | .SET => commandRequest g d verb :: command_set.requests g type verb property ds
    | .INHERIT =>
      commandRequest g d (property ++ "=") ::
        command_set.requests g type verb (property ++ "=") ds

/-- An answer of `control_send` is the success answer: the request went
through and the body is exactly `OK`. -/
def answeredOK : Except String String → Bool
  | .ok res => res = "OK"
  | .error _ => false

/-- The argument vector of `destroy` for the names `names`, with the option
`-f` in front of them when `force` is set. -/
def command_destroy.args (cmd : String) (force : Bool) (names : List String) :
    List (Option String) :=
  some cmd :: ((if force then [some "-f"] else []) ++ names.map some)

/-- An instance still needs the action of `mode`: for `start` it is not
running, for `stop` and `kill` it is running. -/
def needsAction (mode : startstop) (r : sabdb) : Bool :=
  match mode with
  | .START => r.state ≠ .SABdbRunning
  | .STOP => r.state = .SABdbRunning
  | .KILL => r.state = .SABdbRunning

/-- The order in which `status` with the default selector `rscl` goes over a
snapshot: the unlocked running instances, then the unlocked stopped ones,
then the unlocked crashed ones, then the locked ones, each group in the
order of the snapshot. -/
def statusGroups (snap : List sabdb) : List sabdb :=
  snap.filter (fun r => r.locked = 0 ∧ r.state = .SABdbRunning) ++
  snap.filter (fun r => r.locked = 0 ∧ r.state = .SABdbInactive) ++
  snap.filter (fun r => r.locked = 0 ∧ r.state = .SABdbCrashed) ++
  snap.filter (fun r => r.locked = 1)

/-- The longest name of a snapshot, as the width loop of `command_status`
computes it. -/
def nameWidth (snap : List sabdb) : Int :=
  snap.foldl (fun w r => if (r.dbname.length : Int) > w then (r.dbname.length : Int) else w) 0

/-- A line of the table of `get`: the name of the database in 15 columns, the
key in 8, the source in 7, each left-justified and followed by two blanks,
and then the value. -/
def getLine (dbname key source value : String) : String :=
  padRight 15 dbname ++ "  " ++ padRight 8 key ++ "  " ++ padRight 7 source ++ "  " ++ value ++
    "\n"

/-- The row that `get` is to show for the key `p` of the database `dbname`
whose own property table is `table`: the local value with source `local`
when the table holds one, and otherwise the value of the default table, or
`<unknown>` when that has none, with source `default`. -/
def getRow (env : Env) (defprops table : List confkeyval) (twidth : Int) (dbname p : String) :
    String :=
  match findConfKey table p with
  | some (_, some v) => getLine dbname p "local" (env.abbreviateString v twidth)
  | _ =>
    getLine dbname p "default"
      (env.abbreviateString
        (match findConfKey defprops p with
          | some (_, some d) => d
          | _ => "<unknown>") twidth)

/-- The width of the value column of `get`: what the 36 columns before it
leave of the terminal width, and 6 at least. -/
def getWidth (g : Globals) : Int := max (g.TERMWIDTH - 36) 6

/-- The keys that the property argument of `get` stands for: `all` is
`name` followed by the keys of the default table, anything else is a list
of keys separated by commas. -/
def getKeys (defkeys : List String) (property : String) : List String :=
  if property = "all" then "name" :: defkeys else strtokCommas property

/-- The targets of `get` in a snapshot: every instance when no name is
given, and otherwise the instances that the names select. -/
def getTargets (glob : String → String → Bool) (names : List String) (snap : List sabdb) :
    List sabdb :=
  if names = [] then snap
  else selectRef (fun p (r : sabdb) => glob p r.dbname) (names.map some) snap

/-- The table that `get` is to print for the keys `keys` and the targets
`targets`: nothing when there is no target, and otherwise the header and,
for each key in turn, one row per target. The row of the key `name` shows
the name of the target with source `-`; the row of any other key is
`getRow` for the table that the answer `reply` of the target fills. -/
def getTable (env : Env) (deftable : List confkeyval) (twidth : Int) (reply : String → String)
    (keys : List String) (targets : List sabdb) : List String :=
  if targets = [] then []
  else
    "     name          prop     source           value\n" ::
      keys.flatMap (fun p => targets.map (fun r =>
        if p = "name" then getLine r.dbname "name" "-" (env.abbreviateString r.dbname twidth)
        else getRow env deftable (env.readPropsBuf env.getDefaultProps (reply r.dbname)) twidth
          r.dbname p))

/-- The requests that `get` is to send for its rows: for each key other than
`name` in turn, one request per target. -/
def getRequests (g : Globals) (keys : List String) (targets : List sabdb) : List Request :=
  keys.flatMap (fun p =>
    if p = "name" then [] else targets.map (fun r => getRequest g r.dbname))

/-- The instances a selector character stands for: `r`, `s` and `c` the
unlocked instances that are running, stopped and crashed, `l` the locked
instances. -/
def selectorShows (c : Char) (r : sabdb) : Bool :=
  (c = 'r' ∧ r.locked = 0 ∧ r.state = .SABdbRunning) ∨
  (c = 's' ∧ r.locked = 0 ∧ r.state = .SABdbInactive) ∨
  (c = 'c' ∧ r.locked = 0 ∧ r.state = .SABdbCrashed) ∨
  (c = 'l' ∧ r.locked = 1)

/-- The order in which a selector goes over a snapshot: for each of its
characters in turn, the instances the character stands for, in the order of
the snapshot. -/
def selectorGroups : List Char → List sabdb → List sabdb
  | [], _ => []
  | c :: cs, snap => snap.filter (selectorShows c) ++ selectorGroups cs snap

/-! ## Reference reading of the arguments of a command: usage errors -/

/-- What an option argument means for the reading of the arguments: it is
accepted, it takes the next argument as its value, it ends the options, or
it is a usage error. -/
inductive OptionRef where
  | accepted
  | takesNext
  | endOfOptions
  | usage
deriving DecidableEq, Repr

/-- An argument is an option when it starts with a dash. -/
def isOption (a : String) : Bool := a.data.head? = some '-'

/-- Reference reading of the letters after the dash of an option, for a
command whose option letters are `known`: a known letter is accepted, a dash
that is the last letter ends the options, any other letter is a usage
error. -/
def lettersRef (known : List Char) : List Char → OptionRef
  | [] => .accepted
  | c :: cs =>
    if c ∈ known then lettersRef known cs
    else if c = '-' ∧ cs = [] then .endOfOptions
    else .usage

/-- Reference reading of one argument for a command whose option letters are
`known`; an argument that is no option is accepted. -/
def optionRef (known : List Char) (a : String) : OptionRef :=
  match a.data with
  | '-' :: cs => lettersRef known cs
  | _ => .accepted

/-- The arguments a command reads: those before the option that ends the
options. -/
def argsRead (known : List Char) (args : List String) : List String :=
  args.takeWhile (fun a => optionRef known a ≠ .endOfOptions)

/-- Reference: one of the arguments read is an option with an unknown
letter. -/
def optionError (known : List Char) (args : List String) : Bool :=
  (argsRead known args).any (fun a => optionRef known a = .usage)

/-- The arguments read that are no options. -/
def plainsRead (known : List Char) (args : List String) : List String :=
  (argsRead known args).filter (fun a => !isOption a)

/-- Every letter of the value of `-s` is one of `r`, `s`, `c`, `l`. -/
def stateLetters (v : List Char) : Bool :=
  v.all (fun c => c = 'r' || c = 's' || c = 'c' || c = 'l')

/-- Reference reading of the letters after the dash of an option of
`status`, where `next` is the argument after it: `c` and `l` are accepted;
`s` takes the rest of the word as its value or, at the end of the word, the
next argument when there is one that is no option, and the value holds state
letters only; a dash that is the last letter ends the options; anything else
is a usage error. -/
def statusLettersRef (next : Option String) : List Char → OptionRef
  | [] => .accepted
  | c :: cs =>
    if c = 'c' ∨ c = 'l' then statusLettersRef next cs
    else if c = 's' then
      if cs ≠ [] then (if stateLetters cs then .accepted else .usage)
      else
        match next with
        | some v =>
          if isOption v then .usage
          else if stateLetters v.data then .takesNext
          else .usage
        | none => .usage
    else if c = '-' ∧ cs = [] then .endOfOptions
    else .usage

/-- Reference: one of the arguments that `status` reads is a usage error; `skip` says
that the first argument is the value of the `-s` before it. -/
def statusError : Bool → List String → Bool
  | _, [] => false
  | true, _ :: rest => statusError false rest
  | false, a :: rest =>
    match a.data with
    | '-' :: cs =>
      match statusLettersRef rest.head? cs with
      | .usage => true
      | .endOfOptions => false
      | .takesNext => statusError true rest
      | .accepted => statusError false rest
    | _ => statusError false rest

/-- The key of a property argument of `set` or `inherit` is empty: for
`set` the argument starts with `=`, for `inherit` it is the empty word. -/
def emptyKey (type : meroset) (a : String) : Bool :=
  match type with
  | .SET => a.data.head? = some '='
  | .INHERIT => a.data.isEmpty

/-- Reference: the arguments of `set` or `inherit` that are no options name
no property: the first one that has a key is missing or, for `set`, one of
them up to there holds no `=`. -/
def propertyError (type : meroset) : List String → Bool
  | [] => true
  | a :: rest =>
    if type = .SET ∧ '=' ∉ a.data then true
    else if emptyKey type a then propertyError type rest
    else false

/-- Reference: the arguments `args` of the command `cmd` hold a usage error.
`create`, `lock` and `release` need an argument and take no option before a
`--`, and `create` needs more than a `--`; `destroy` needs an argument and
takes only options whose first letter is `f` before a `--`; `start`, `stop`
and `kill` need an argument and know the letter `a`; `status` knows `c`,
`l` and `s` with a value of state letters; `set` and `inherit` need two
arguments, know no letter and need a property among the arguments read,
which for `set` holds a `=`; `get` needs an argument, knows no letter and
needs a property among the arguments read. -/
def usageError (cmd : String) (args : List String) : Bool :=
  if cmd = "create" then
    args.isEmpty || decide (args = ["--"]) || (args.takeWhile (fun a => a ≠ "--")).any isOption
  else if cmd = "lock" ∨ cmd = "release" then
    args.isEmpty || (args.takeWhile (fun a => a ≠ "--")).any isOption
  else if cmd = "destroy" then
    args.isEmpty ||
      (args.takeWhile (fun a => a ≠ "--")).any (fun a => isOption a && a.data.get? 1 ≠ some 'f')
  else if cmd = "start" ∨ cmd = "stop" ∨ cmd = "kill" then
    args.isEmpty || optionError ['a'] args
  else if cmd = "status" then statusError false args
  else if cmd = "set" then
    decide (args.length < 2) || optionError [] args || propertyError .SET (plainsRead [] args)
  else if cmd = "inherit" then
    decide (args.length < 2) || optionError [] args || propertyError .INHERIT (plainsRead [] args)
  else if cmd = "get" then
    args.isEmpty || optionError [] args || (plainsRead [] args).isEmpty
  else false

/-- The slots of `argv` from `i` on hold the arguments `rest`, and the slot
0 the command word. -/
def ArgsFrom (argv : List (Option String)) (cmd : String) (i : Nat) (rest : List String) : Prop :=
  0 < i ∧ argv.get? 0 = some (some cmd) ∧ argv.drop i = rest.map some

/-- A run ends as a usage error of the command `cmd` does: with exit code 1,
the usage text of the command added to stdout, and no request sent. -/
def UsageExit {α : Type} (r : Res α) (s : Proc) (cmd : String) : Prop :=
  ∃ s1, r = .exit 1 s1 ∧ s1.sent = s.sent ∧ s1.out = s.out ++ command_help.text cmd

/-- The command words that `main` knows. -/
def knownCommands : List String :=
  ["create", "destroy", "lock", "release", "status", "start", "stop", "kill", "set", "get",
   "inherit", "discover", "help", "version"]

/-- The general usage text, as `command_help(0, NULL)` prints it. -/
def usageText : List String :=
  ["Usage: monetdb [options] command [command-options-and-arguments]\n",
   "  where command is one of:\n",
   "    create, destroy, lock, release\n",
   "    status, start, stop, kill\n",
   "    set, get, inherit\n",
   "    discover, help, version\n",
   "  options can be:\n",
   "    -q       suppress status output\n",
   "    -h host  hostname to contact (remote merovingian)\n",
   "    -p port  port to contact\n",
   "    -P pass  password to use to login at remote merovingian\n",
   "  use the help command to get help for a particular command\n"]

/-! ## Theorems -/

theorem SameData.refl (h : Heap) : SameData h h := fun _ => rfl

theorem SameData.trans {h h1 h2 : Heap} (a : SameData h h1) (b : SameData h1 h2) :
    SameData h h2 := fun x => (b x).trans (a x)

theorem SameData.update_next {h h1 : Heap} (a : SameData h h1) (x : Nat) (v : Option Nat) :
    SameData h (h1.setNext x v) := by
  intro y
  by_cases hy : y = x
  · subst hy
    simpa [Heap.setNext] using a y
  · simpa [Heap.setNext, hy] using a y

theorem SameData.dbname {h h1 : Heap} (a : SameData h h1) (x : Nat) :
    (h1 x).dbname = (h x).dbname := by
  have := congrArg sabdb.dbname (a x)
  simpa using this

@[simp]
theorem Heap.setNext_self (h : Heap) (a : Nat) (v : Option Nat) :
    (h.setNext a v a).next = v := by
  simp [Heap.setNext]

@[simp]
theorem Heap.setNext_dbname (h : Heap) (a b : Nat) (v : Option Nat) :
    (h.setNext a v b).dbname = (h b).dbname := by
  unfold Heap.setNext
  split <;> rfl

theorem Heap.setNext_of_ne (h : Heap) {a b : Nat} (v : Option Nat) (hne : b ≠ a) :
    h.setNext a v b = h b := by
  simp [Heap.setNext, hne]

theorem IsSeg.setNext {h : Heap} {a : Nat} (v : Option Nat) :
    ∀ {l : List Nat} {p q : Option Nat}, a ∉ l → IsSeg h p l q → IsSeg (h.setNext a v) p l q
  | [], _, _, _, hs => hs
  | b :: l, p, q, hn, hs => by
    have hb : b ≠ a := fun e => hn (by simp [e])
    have hl : a ∉ l := fun e => hn (by simp [e])
    refine ⟨hs.1, ?_⟩
    rw [Heap.setNext_of_ne h v hb]
    exact IsSeg.setNext v hl hs.2

theorem IsSeg_snoc {h : Heap} {a : Nat} :
    ∀ {l : List Nat} {p q : Option Nat},
      IsSeg h p (l ++ [a]) q ↔ IsSeg h p l (some a) ∧ (h a).next = q
  | [], p, q => by simp [IsSeg]
  | b :: l, p, q => by
    show p = some b ∧ IsSeg h (h b).next (l ++ [a]) q ↔ _
    rw [IsSeg_snoc]
    exact and_assoc.symm

theorem IsSeg.head {h : Heap} {l : List Nat} {p q : Option Nat} (hs : IsSeg h p l q)
    (hq : q = none) : p = l.head? := by
  cases l with
  | nil => simpa [IsSeg, hq] using hs
  | cons a l => simpa using hs.1

theorem IsSeg.unique {h : Heap} :
    ∀ {l l1 : List Nat} {p : Option Nat}, IsSeg h p l none → IsSeg h p l1 none → l = l1
  | [], [], _, _, _ => rfl
  | [], b :: l1, p, h0, h1 => by
    have : p = none := h0
    rw [this] at h1
    exact absurd h1.1 (by simp)
  | a :: l, [], p, h0, h1 => by
    have : p = none := h1
    rw [this] at h0
    exact absurd h0.1 (by simp)
  | a :: l, b :: l1, p, h0, h1 => by
    have e : a = b := by
      have := h0.1.symm.trans h1.1
      simpa using this
    subst e
    rw [IsSeg.unique h0.2 h1.2]

theorem Heap.cells_of_isChain {h : Heap} :
    ∀ {l : List Nat} {p : Option Nat} {fuel : Nat}, IsChain h p l → l.length < fuel →
      h.cells fuel p = l
  | [], p, fuel + 1, hc, _ => by
    have : p = none := hc
    subst this
    rfl
  | a :: l, p, fuel + 1, hc, hf => by
    have hp : p = some a := hc.1
    subst hp
    have hl : l.length < fuel := by simpa using hf
    simp only [Heap.cells]
    rw [@Heap.cells_of_isChain h l _ fuel hc.2 hl]

theorem ResInv.push {h : Heap} {top w : Option Nat} {rres : List Nat} {st : Nat}
    (hr : ResInv h top w rres) (hn : (st :: rres).Nodup) :
    ∃ h1 top1, ResInv h1 top1 (some st) (st :: rres) ∧ SameData h h1 ∧
      (∀ b, b ∉ rres → h1 b = h b) ∧
      (match w with
        | none => (⟨h, some st⟩ : Heap × Option Nat)
        | some wp => ⟨h.setNext wp (some st), top⟩) = ⟨h1, top1⟩ := by
  cases rres with
  | nil =>
    obtain ⟨_, hw⟩ := hr
    subst hw
    exact ⟨h, some st, ⟨rfl, rfl⟩, SameData.refl h, fun _ _ => rfl, rfl⟩
  | cons x r =>
    obtain ⟨hw, hs⟩ := hr
    subst hw
    have hx : x ∉ r := (List.nodup_cons.1 (List.nodup_cons.1 hn).2).1
    refine ⟨h.setNext x (some st), top, ⟨rfl, ?_⟩, (SameData.refl h).update_next x _, ?_, rfl⟩
    · rw [List.reverse_cons, IsSeg_snoc]
      exact ⟨IsSeg.setNext _ (by simpa using hx) hs, by simp⟩
    · intro b hb
      exact Heap.setNext_of_ne h _ (fun e => hb (by simp [e]))

theorem globMatchDBS.scan_step (glob : String → String → Bool) (pat : String) {v : GlobVars}
    {rres rkept todo : List Nat} {st : Nat} (inv : ScanInv v rres rkept (st :: todo)) :
    ∃ v2, (∀ fuel, globMatchDBS.scan glob pat (fuel + 1) v = globMatchDBS.scan glob pat fuel v2) ∧
      SameData v.heap v2.heap ∧
      (∀ b, b ∉ rres ++ (rkept ++ st :: todo) → v2.heap b = v.heap b) ∧
      (if glob pat (v.heap st).dbname then
        ScanInv v2 (st :: rres) rkept todo ∧ v2.matched = true
      else ScanInv v2 rres (st :: rkept) todo ∧ v2.matched = v.matched) := by
  obtain ⟨nd, htodo, hkept, hprev, hres⟩ := inv
  have hst : v.stats = some st := htodo.1
  have htl : IsChain v.heap (v.heap st).next todo := htodo.2
  have nd1 : (st :: (rres ++ (rkept ++ todo))).Nodup := by
    have : (rres ++ (rkept ++ st :: todo)).Perm (st :: (rres ++ (rkept ++ todo))) := by
      rw [← List.append_assoc, ← List.append_assoc]
      exact List.perm_middle
    exact this.nodup_iff.1 nd
  have hst_res : st ∉ rres := fun e => (List.nodup_cons.1 nd1).1 (by simp [e])
  have hst_kept : st ∉ rkept := fun e => (List.nodup_cons.1 nd1).1 (by simp [e])
  have hst_todo : st ∉ todo := fun e => (List.nodup_cons.1 nd1).1 (by simp [e])
  have nd2 : (rres ++ (rkept ++ todo)).Nodup := (List.nodup_cons.1 nd1).2
  have hdis_rt : ∀ b, b ∈ rres → b ∉ todo := fun b hb ht =>
    (List.nodup_append.1 nd2).2.2 hb (by simp [ht])
  have hdis_rk : ∀ b, b ∈ rres → b ∉ rkept := fun b hb hk =>
    (List.nodup_append.1 nd2).2.2 hb (by simp [hk])
  have ndk : (rkept ++ todo).Nodup := (List.nodup_append.1 nd2).2.1
  by_cases hg : glob pat (v.heap st).dbname = true
  · -- the cell matches and moves to the result
    obtain ⟨h1, top1, hres1, hsame1, hfr1, hpush⟩ :=
      hres.push (List.nodup_cons.2 ⟨hst_res, (List.nodup_append.1 nd2).1⟩)
    have h1st : h1 st = v.heap st := hfr1 st hst_res
    have htl1 : IsChain h1 (v.heap st).next todo := by
      cases hw : v.w with
      | none => rw [hw] at hpush; cases hpush; exact htl
      | some wp =>
        rw [hw] at hpush
        cases hpush
        cases rres with
        | nil => exact absurd (hres.2.symm.trans hw) (by simp)
        | cons x r =>
          have : wp = x := by
            have := hw.symm.trans hres.1
            simpa using this
          subst this
          exact IsSeg.setNext _ (hdis_rt wp (by simp)) htl
    cases rkept with
    | nil =>
      have hp : v.prev = none := hprev
      have ho : v.orig = some st := by
        have : v.orig = v.stats := hkept
        rw [this, hst]
      let h2 := h1.setNext st (v.heap st).next
      refine ⟨{ heap := h2, orig := (v.heap st).next, w := some st, top := top1, prev := none,
                stats := (v.heap st).next, matched := true }, ?_, ?_, ?_, ?_⟩
      · intro fuel
        rw [globMatchDBS.scan]
        simp only [hst, globMatchDBS.body, hg, if_true]
        cases hw : v.w with
        | none =>
          rw [hw] at hpush
          cases hpush
          simp [hp, h2]
        | some wp =>
          rw [hw] at hpush
          cases hpush
          simp [hp, h2, h1st]
      · exact hsame1.update_next _ _
      · intro b hb
        have hb1 : b ∉ rres := fun e => hb (by simp [e])
        have hb2 : b ≠ st := fun e => hb (by simp [e])
        show Heap.setNext h1 _ _ b = v.heap b
        rw [Heap.setNext_of_ne _ _ hb2, hfr1 b hb1]
      · rw [if_pos hg]
        refine ⟨⟨?_, ?_, ?_, rfl, ?_⟩, rfl⟩
        · simpa using nd1
        · exact IsSeg.setNext _ hst_todo htl1
        · rfl
        · exact ⟨rfl, IsSeg.setNext _ (by simpa using hst_res) hres1.2⟩
    | cons pv k =>
      have hp : v.prev = some pv := hprev
      have hk : IsSeg v.heap v.orig k.reverse (some pv) ∧ (v.heap pv).next = v.stats := by
        rw [List.reverse_cons] at hkept
        exact IsSeg_snoc.1 hkept
      have hpv_res : pv ∉ rres := fun e => hdis_rk pv e (by simp)
      have hpv_k : pv ∉ k := (List.nodup_cons.1 (List.nodup_append.1 ndk).1).1
      have hpv_todo : pv ∉ todo := fun e => (List.nodup_append.1 ndk).2.2 (by simp) e
      have hpv_st : pv ≠ st := fun e => hst_kept (by simp [← e])
      let h2 := h1.setNext pv (v.heap st).next
      refine ⟨{ heap := h2, orig := v.orig, w := some st, top := top1, prev := some pv,
                stats := (v.heap st).next, matched := true }, ?_, ?_, ?_, ?_⟩
      · intro fuel
        rw [globMatchDBS.scan]
        simp only [hst, globMatchDBS.body, hg, if_true]
        cases hw : v.w with
        | none =>
          rw [hw] at hpush
          cases hpush
          simp [hp, h2]
        | some wp =>
          rw [hw] at hpush
          cases hpush
          simp [hp, h2, h1st]
      · exact hsame1.update_next _ _
      · intro b hb
        have hb1 : b ∉ rres := fun e => hb (by simp [e])
        have hb2 : b ≠ pv := fun e => hb (by simp [e])
        show Heap.setNext h1 _ _ b = v.heap b
        rw [Heap.setNext_of_ne _ _ hb2, hfr1 b hb1]
      · rw [if_pos hg]
        refine ⟨⟨?_, ?_, ?_, rfl, ?_⟩, rfl⟩
        · simpa using nd1
        · exact IsSeg.setNext _ hpv_todo htl1
        · show IsSeg h2 v.orig (pv :: k).reverse (v.heap st).next
          rw [List.reverse_cons, IsSeg_snoc]
          refine ⟨IsSeg.setNext _ (by simpa using hpv_k) ?_, by simp [h2]⟩
          have hk1 : IsSeg h1 v.orig k.reverse (some pv) := by
            cases hw : v.w with
            | none => rw [hw] at hpush; cases hpush; exact hk.1
            | some wp =>
              rw [hw] at hpush
              cases hpush
              cases rres with
              | nil => exact absurd (hres.2.symm.trans hw) (by simp)
              | cons x r =>
                have : wp = x := by
                  have := hw.symm.trans hres.1
                  simpa using this
                subst this
                refine IsSeg.setNext _ ?_ hk.1
                intro e
                exact hdis_rk wp (by simp) (by simp [List.mem_reverse.1 e])
          exact hk1
        · exact ⟨rfl, IsSeg.setNext _ (by simpa using hpv_res) hres1.2⟩
  · -- the cell stays in the remainder
    refine ⟨{ v with prev := some st, stats := (v.heap st).next }, ?_, SameData.refl _,
      fun _ _ => rfl, ?_⟩
    · intro fuel
      rw [globMatchDBS.scan]
      simp [hst, globMatchDBS.body, hg]
    · rw [if_neg hg]
      refine ⟨⟨?_, htl, ?_, rfl, hres⟩, rfl⟩
      · have : (rres ++ (st :: rkept ++ todo)).Perm (st :: (rres ++ (rkept ++ todo))) :=
          List.perm_middle
        exact this.nodup_iff.2 nd1
      · show IsSeg v.heap v.orig (st :: rkept).reverse (v.heap st).next
        rw [List.reverse_cons, IsSeg_snoc]
        exact ⟨hst ▸ hkept, rfl⟩

theorem globMatchDBS.scan_spec (glob : String → String → Bool) (pat : String)
    (nm : Nat → String) :
    ∀ (todo : List Nat) (v : GlobVars) (rres rkept : List Nat) (fuel : Nat),
      ScanInv v rres rkept todo → (∀ a, (v.heap a).dbname = nm a) → todo.length < fuel →
      ∃ v1, globMatchDBS.scan glob pat fuel v = .ok v1 ∧
        ScanInv v1 ((todo.filter (fun a => glob pat (nm a))).reverse ++ rres)
          ((todo.filter (fun a => !glob pat (nm a))).reverse ++ rkept) [] ∧
        SameData v.heap v1.heap ∧
        (∀ b, b ∉ rres ++ (rkept ++ todo) → v1.heap b = v.heap b) ∧
        v1.matched = (v.matched || todo.any (fun a => glob pat (nm a)))
  | [], v, rres, rkept, fuel + 1, inv, _, _ => by
    have hs : v.stats = none := inv.todo
    refine ⟨v, ?_, by simpa using inv, SameData.refl _, fun _ _ => rfl, by simp⟩
    rw [globMatchDBS.scan]
    simp [hs]
  | st :: todo, v, rres, rkept, fuel + 1, inv, hnm, hf => by
    obtain ⟨v2, hrun, hsame, hfr, hcase⟩ := globMatchDBS.scan_step glob pat inv
    have hnm2 : ∀ a, (v2.heap a).dbname = nm a := fun a => (hsame.dbname a).trans (hnm a)
    have hf2 : todo.length < fuel := by simpa using hf
    rw [hnm st] at hcase
    by_cases hg : glob pat (nm st) = true
    · rw [if_pos hg] at hcase
      obtain ⟨v1, h1, inv1, hsame1, hfr1, hm1⟩ :=
        globMatchDBS.scan_spec glob pat nm todo v2 (st :: rres) rkept fuel hcase.1 hnm2 hf2
      refine ⟨v1, (hrun fuel).trans h1, ?_, hsame.trans hsame1, ?_, ?_⟩
      · simpa [List.filter_cons, hg] using inv1
      · intro b hb
        rw [hfr1 b (by simp at hb ⊢; tauto), hfr b hb]
      · rw [hm1, hcase.2]
        simp [hg]
    · rw [if_neg hg] at hcase
      obtain ⟨v1, h1, inv1, hsame1, hfr1, hm1⟩ :=
        globMatchDBS.scan_spec glob pat nm todo v2 rres (st :: rkept) fuel hcase.1 hnm2 hf2
      refine ⟨v1, (hrun fuel).trans h1, ?_, hsame.trans hsame1, ?_, ?_⟩
      · simpa [List.filter_cons, hg] using inv1
      · intro b hb
        rw [hfr1 b (by simp at hb ⊢; tauto), hfr b hb]
      · rw [hm1, hcase.2]
        simp [hg]

theorem ResInv.of_chain {h : Heap} {top w : Option Nat} {res : List Nat}
    (hc : IsChain h top res) (hw : w = res.getLast?) : ResInv h top w res.reverse := by
  rcases List.eq_nil_or_concat res with rfl | ⟨init, x, rfl⟩
  · exact ⟨hc, by simpa using hw⟩
  · rw [List.concat_eq_append] at hc hw ⊢
    have e : (init ++ [x]).reverse = x :: init.reverse := by simp
    rw [e]
    refine ⟨by simpa using hw, ?_⟩
    rw [List.reverse_reverse]
    exact (IsSeg_snoc.1 hc).1

theorem ResInv.close {h : Heap} {top w : Option Nat} {rres : List Nat}
    (hr : ResInv h top w rres) (hn : rres.Nodup) :
    ∃ h1, (w = none → h1 = h) ∧ (∀ wp, w = some wp → h1 = h.setNext wp none) ∧
      IsChain h1 top rres.reverse ∧ w = rres.reverse.getLast? ∧ SameData h h1 ∧
      (∀ b, b ∉ rres → h1 b = h b) := by
  cases rres with
  | nil =>
    obtain ⟨ht, hw⟩ := hr
    subst hw
    exact ⟨h, fun _ => rfl, fun _ e => absurd e (by simp), ht, rfl, SameData.refl h,
      fun _ _ => rfl⟩
  | cons x r =>
    obtain ⟨hw, hs⟩ := hr
    subst hw
    refine ⟨h.setNext x none, fun e => absurd e (by simp), ?_, ?_, by simp,
      (SameData.refl h).update_next _ _, ?_⟩
    · intro wp e
      rw [Option.some.inj e]
    · rw [List.reverse_cons]
      refine IsSeg_snoc.2 ⟨IsSeg.setNext _ ?_ hs, by simp⟩
      simpa using (List.nodup_cons.1 hn).1
    · intro b hb
      exact Heap.setNext_of_ne h _ (fun e => hb (by simp [e]))

theorem IsSeg.congr {h h1 : Heap} :
    ∀ {l : List Nat} {p q : Option Nat}, (∀ b ∈ l, h1 b = h b) → IsSeg h p l q → IsSeg h1 p l q
  | [], _, _, _, hs => hs
  | a :: l, p, q, hfr, hs => by
    refine ⟨hs.1, ?_⟩
    rw [hfr a (by simp)]
    exact IsSeg.congr (fun b hb => hfr b (by simp [hb])) hs.2

theorem globMatchDBS.iter_spec (glob : String → String → Bool) (cmd : String) (fuel i : Nat)
    (nm : Nat → String) (g : GlobState) (res rem : List Nat) (pat : String)
    (inv : OuterInv g.vars res rem) (hnm : ∀ a, (g.vars.heap a).dbname = nm a)
    (hf : rem.length < fuel) (harg : g.argv.get? i = some (some pat)) :
    ∃ g1, globMatchDBS.iter glob cmd fuel i g = .ok g1 ∧
      OuterInv g1.vars (res ++ rem.filter (fun a => glob pat (nm a)))
        (rem.filter (fun a => !glob pat (nm a))) ∧
      SameData g.vars.heap g1.vars.heap ∧
      (∀ b, b ∉ res ++ rem → g1.vars.heap b = g.vars.heap b) ∧
      g1.argv = (if rem.any (fun a => glob pat (nm a)) then g.argv else g.argv.set i none) ∧
      g1.err = (if rem.any (fun a => glob pat (nm a)) then g.err
        else g.err ++ [cmd ++ ": no such database: " ++ pat ++ "\n"]) := by
  have inv0 : ScanInv { g.vars with matched := false, prev := none, stats := g.vars.orig }
      res.reverse [] rem :=
    ⟨((List.reverse_perm res).append_right _).nodup_iff.2 (by simpa using inv.nodup),
      inv.chainRem, rfl, rfl, ResInv.of_chain inv.chainRes inv.last⟩
  obtain ⟨v1, hrun, inv1, hsame, hfr, hm⟩ :=
    globMatchDBS.scan_spec glob pat nm rem _ _ _ fuel inv0 hnm hf
  have nd1 := inv1.nodup
  simp only [List.append_nil] at nd1 inv1
  obtain ⟨h2, hh2n, hh2s, hres2, hw2, hsame2, hfr2⟩ :=
    inv1.res.close (List.nodup_append.1 nd1).1
  have hstats : v1.stats = none := inv1.todo
  have hkept : IsChain v1.heap v1.orig (rem.filter (fun a => !glob pat (nm a))) := by
    have := inv1.kept
    rw [hstats] at this
    simpa using this
  have hkept2 : IsChain h2 v1.orig (rem.filter (fun a => !glob pat (nm a))) := by
    refine IsSeg.congr (fun b hb => hfr2 b ?_) hkept
    intro hb1
    exact (List.nodup_append.1 nd1).2.2 hb1 (by simpa using hb)
  have hinv2 : OuterInv { v1 with heap := h2 } (res ++ rem.filter (fun a => glob pat (nm a)))
      (rem.filter (fun a => !glob pat (nm a))) := by
    refine ⟨?_, by simpa using hres2, hkept2, by simpa using hw2⟩
    have : ((List.filter (fun a => glob pat (nm a)) rem).reverse ++ res.reverse ++
        (List.filter (fun a => !glob pat (nm a)) rem).reverse).Perm
        (res ++ List.filter (fun a => glob pat (nm a)) rem ++
          List.filter (fun a => !glob pat (nm a)) rem) := by
      refine List.Perm.append ?_ (List.reverse_perm _)
      exact (List.perm_append_comm).trans
        (List.Perm.append (List.reverse_perm _) (List.reverse_perm _))
    exact this.nodup_iff.1 nd1
  have hfr12 : ∀ b, b ∉ res ++ rem → h2 b = g.vars.heap b := by
    intro b hb
    have hb1 : b ∉ res := fun e => hb (by simp [e])
    have hb2 : b ∉ rem := fun e => hb (by simp [e])
    rw [hfr2 b, hfr b]
    · simpa using And.intro hb1 hb2
    · simp only [List.mem_append, List.mem_reverse, List.mem_filter, not_or, not_and]
      exact ⟨fun e => absurd e hb2, hb1⟩
  have hm1 : v1.matched = rem.any (fun a => glob pat (nm a)) := by simpa using hm
  have key : ∀ w, v1.w = w →
      (match w with
        | none => v1
        | some wp => { v1 with heap := v1.heap.setNext wp none }) = { v1 with heap := h2 } := by
    intro w hw
    cases w with
    | none => simp only []; rw [hh2n hw]
    | some wp => simp only []; rw [hh2s wp hw]
  have e2 := key v1.w rfl
  by_cases hany : rem.any (fun a => glob pat (nm a)) = true
  · refine ⟨{ g with vars := { v1 with heap := h2 } }, ?_, hinv2, hsame.trans hsame2, hfr12,
      by simp [hany], by simp [hany]⟩
    unfold globMatchDBS.iter
    simp only [harg, hrun]
    rw [e2]
    simp [hm1, hany]
  · refine ⟨{ vars := { v1 with heap := h2 }, argv := g.argv.set i none,
              err := g.err ++ [cmd ++ ": no such database: " ++ pat ++ "\n"] },
      ?_, hinv2, hsame.trans hsame2, hfr12, by simp [hany], by simp [hany]⟩
    unfold globMatchDBS.iter
    simp only [harg, hrun]
    have hmf : v1.matched = false := by simpa [hany] using hm1
    rw [e2]
    simp [hmf]

theorem List.get?_append_cons {α : Type} (pre : List α) (x : α) (ps : List α) :
    (pre ++ x :: ps).get? pre.length = some x := by
  induction pre with
  | nil => rfl
  | cons a pre ih => simpa using ih

theorem globMatchDBS.args_spec (glob : String → String → Bool) (cmd : String) (fuel : Nat)
    (nm : Nat → String) :
    ∀ (pats pre : List (Option String)) (g : GlobState) (res rem : List Nat),
      g.argv = pre ++ pats → OuterInv g.vars res rem → (∀ a, (g.vars.heap a).dbname = nm a) →
      rem.length < fuel →
      ∃ g1, globMatchDBS.args glob cmd fuel pats.length pre.length g = .ok g1 ∧
        OuterInv g1.vars (res ++ selectRef (fun p a => glob p (nm a)) pats rem)
          (restRef (fun p a => glob p (nm a)) pats rem) ∧
        SameData g.vars.heap g1.vars.heap ∧
        (∀ b, b ∉ res ++ rem → g1.vars.heap b = g.vars.heap b) ∧
        g1.argv = pre ++ voidRef (fun p a => glob p (nm a)) pats rem ∧
        g1.err = g.err ++ warnRef (fun p a => glob p (nm a)) cmd pats rem
  | [], pre, g, res, rem, hargv, inv, _, _ => by
    refine ⟨g, rfl, by simpa [selectRef, restRef] using inv, SameData.refl _, fun _ _ => rfl,
      by simpa [voidRef] using hargv, by simp [warnRef]⟩
  | none :: ps, pre, g, res, rem, hargv, inv, hnm, hf => by
    have hget : g.argv.get? pre.length = some none := by
      rw [hargv]
      exact List.get?_append_cons pre none ps
    have hargv1 : g.argv = (pre ++ [none]) ++ ps := by simpa using hargv
    obtain ⟨g1, hrun, hinv, hsame, hfr, ha, he⟩ :=
      globMatchDBS.args_spec glob cmd fuel nm ps (pre ++ [none])
        { g with vars := { g.vars with matched := false } } res rem hargv1
        ⟨inv.nodup, inv.chainRes, inv.chainRem, inv.last⟩ hnm hf
    refine ⟨g1, ?_, by simpa [selectRef, restRef] using hinv, hsame, hfr,
      by simpa [voidRef] using ha, by simpa [warnRef] using he⟩
    have hlen : (pre ++ [none]).length = pre.length + 1 := by simp
    rw [hlen] at hrun
    show globMatchDBS.args glob cmd fuel (ps.length + 1) pre.length g = _
    rw [globMatchDBS.args]
    simp only [globMatchDBS.iter, hget]
    exact hrun
  | some p :: ps, pre, g, res, rem, hargv, inv, hnm, hf => by
    have hget : g.argv.get? pre.length = some (some p) := by
      rw [hargv]
      exact List.get?_append_cons pre (some p) ps
    obtain ⟨g1, hrun1, hinv1, hsame1, hfr1, ha1, he1⟩ :=
      globMatchDBS.iter_spec glob cmd fuel pre.length nm g res rem p inv hnm hf hget
    have hlen : (rem.filter (fun a => !glob p (nm a))).length < fuel :=
      lt_of_le_of_lt (List.length_filter_le _ _) hf
    have hset : g.argv.set pre.length none = pre ++ none :: ps := by
      rw [hargv]
      simp
    have hargv1 : g1.argv = (pre ++ [if rem.any (fun a => glob p (nm a)) then some p else none])
        ++ ps := by
      rw [ha1]
      split
      · simpa using hargv
      · simpa using hset
    obtain ⟨g2, hrun2, hinv2, hsame2, hfr2, ha2, he2⟩ :=
      globMatchDBS.args_spec glob cmd fuel nm ps _ g1 _ _ hargv1 hinv1
        (fun a => (hsame1.dbname a).trans (hnm a)) hlen
    refine ⟨g2, ?_, ?_, hsame1.trans hsame2, ?_, ?_, ?_⟩
    · have hl : (pre ++ [if rem.any (fun a => glob p (nm a)) then some p else none]).length
          = pre.length + 1 := by simp
      rw [hl] at hrun2
      show globMatchDBS.args glob cmd fuel (ps.length + 1) pre.length g = _
      rw [globMatchDBS.args, hrun1]
      exact hrun2
    · simpa [selectRef, restRef, List.append_assoc] using hinv2
    · intro b hb
      have hb1 : b ∉ res := fun e => hb (by simp [e])
      have hb2 : b ∉ rem := fun e => hb (by simp [e])
      rw [hfr2 b, hfr1 b hb]
      simp only [List.mem_append, List.mem_filter, not_or, not_and]
      exact ⟨⟨hb1, fun e => absurd e hb2⟩, fun e => absurd e hb2⟩
    · rw [ha2]
      simp [voidRef]
    · rw [he2, he1]
      split <;> simp [warnRef, *]

theorem IsSeg.split {h : Heap} :
    ∀ {l1 l2 : List Nat} {p q : Option Nat}, IsSeg h p (l1 ++ l2) q →
      ∃ m, IsSeg h p l1 m ∧ IsSeg h m l2 q
  | [], _, p, _, hs => ⟨p, rfl, hs⟩
  | a :: l1, l2, p, q, hs => by
    obtain ⟨m, h1, h2⟩ := @IsSeg.split h l1 l2 _ _ hs.2
    exact ⟨m, ⟨hs.1, h1⟩, h2⟩

theorem IsChain.nodup {h : Heap} :
    ∀ {l : List Nat} {p : Option Nat}, IsChain h p l → l.Nodup
  | [], _, _ => List.nodup_nil
  | a :: l, p, hc => by
    refine List.nodup_cons.2 ⟨?_, IsChain.nodup hc.2⟩
    intro ha
    obtain ⟨l1, l2, rfl⟩ := List.append_of_mem ha
    obtain ⟨m, _, h2⟩ := @IsSeg.split h l1 (a :: l2) _ _ hc.2
    have h3 : IsChain h (h a).next l2 := h2.2
    have := IsSeg.unique hc.2 h3
    have hlen := congrArg List.length this
    simp at hlen
    omega

/-- What `globMatchDBS` does, stated on the lists of cells. -/
theorem globMatchDBS.spec (glob : String → String → Bool) (fuel : Nat)
    (argv : List (Option String)) (orig : Option Nat) (cmd : String) (s : Proc) (l : List Nat)
    (hl : IsChain s.heap orig l) (hf : l.length < fuel) :
    ∃ r s1, globMatchDBS glob fuel argv.length argv orig cmd s = .ret r s1 ∧
      IsChain s1.heap r.top (selectRef (fun p a => glob p (s.heap a).dbname) argv.tail l) ∧
      IsChain s1.heap r.orig (restRef (fun p a => glob p (s.heap a).dbname) argv.tail l) ∧
      SameData s.heap s1.heap ∧ (∀ b, b ∉ l → s1.heap b = s.heap b) ∧
      r.argv = argv.take 1 ++ voidRef (fun p a => glob p (s.heap a).dbname) argv.tail l ∧
      s1.err = s.err ++ warnRef (fun p a => glob p (s.heap a).dbname) cmd argv.tail l ∧
      s1.out = s.out ∧ s1.sent = s.sent ∧ s1.brk = s.brk := by
  have inv : OuterInv (GlobVars.mk s.heap orig none none none none false) [] l :=
    ⟨by simpa using hl.nodup, rfl, hl, rfl⟩
  have hargv : argv = argv.take 1 ++ argv.tail := by
    cases argv <;> simp
  obtain ⟨g1, hrun, hinv, hsame, hfr, ha, he⟩ :=
    globMatchDBS.args_spec glob cmd fuel (fun a => (s.heap a).dbname) argv.tail (argv.take 1)
      { vars := _, argv := argv, err := s.err } [] l hargv inv (fun _ => rfl) hf
  have hlen1 : argv.tail.length = argv.length - 1 := by simp
  have hlen2 : (argv.take 1).length = 1 ∨ argv = [] := by
    cases argv <;> simp
  refine ⟨{ top := g1.vars.top, orig := g1.vars.orig, argv := g1.argv },
    { s with heap := g1.vars.heap, err := g1.err }, ?_, by simpa using hinv.chainRes,
    hinv.chainRem, hsame, by simpa using hfr, ha, he, rfl, rfl, rfl⟩
  unfold globMatchDBS
  rcases hlen2 with h1 | h0
  · rw [hlen1, h1] at hrun
    simp only [hrun]
  · subst h0
    simp only [List.length_nil, Nat.zero_sub, globMatchDBS.args]
    simp only [List.tail_nil, List.length_nil, globMatchDBS.args] at hrun
    cases hrun
    rfl

theorem unmatched_nil {α : Type} (m : String → α → Bool) (e : α) : unmatched m [] e = true := rfl

theorem unmatched_none {α : Type} (m : String → α → Bool) (ps : List (Option String)) (e : α) :
    unmatched m (none :: ps) e = unmatched m ps e := by
  simp [unmatched]

theorem unmatched_some {α : Type} (m : String → α → Bool) (p : String)
    (ps : List (Option String)) (e : α) :
    unmatched m (some p :: ps) e = (!m p e && unmatched m ps e) := by
  simp [unmatched]

theorem restRef_eq_filter {α : Type} (m : String → α → Bool) :
    ∀ (ps : List (Option String)) (l : List α),
      restRef m ps l = l.filter (fun e => unmatched m ps e)
  | [], l => by simp [restRef, unmatched_nil]
  | none :: ps, l => by
    rw [restRef, restRef_eq_filter m ps l]
    simp only [unmatched_none]
  | some p :: ps, l => by
    rw [restRef, restRef_eq_filter m ps, List.filter_filter]
    simp only [unmatched_some, Bool.and_comm]

theorem selectRef_perm {α : Type} (m : String → α → Bool) :
    ∀ (ps : List (Option String)) (l : List α), (selectRef m ps l ++ restRef m ps l).Perm l
  | [], l => by simp [selectRef, restRef]
  | none :: ps, l => by simpa [selectRef, restRef] using selectRef_perm m ps l
  | some p :: ps, l => by
    have h1 := selectRef_perm m ps (l.filter (fun e => !m p e))
    have h2 : (l.filter (m p) ++ l.filter (fun e => !m p e)).Perm l :=
      List.filter_append_perm (m p) l
    simp only [selectRef, restRef, List.append_assoc]
    exact (List.Perm.append_left _ h1).trans h2

theorem selectRef_append {α : Type} (m : String → α → Bool) :
    ∀ (ps qs : List (Option String)) (l : List α),
      selectRef m (ps ++ qs) l = selectRef m ps l ++ selectRef m qs (restRef m ps l)
  | [], qs, l => by simp [selectRef, restRef]
  | none :: ps, qs, l => by simpa [selectRef, restRef] using selectRef_append m ps qs l
  | some p :: ps, qs, l => by
    simp [selectRef, restRef, selectRef_append m ps qs]

theorem restRef_append {α : Type} (m : String → α → Bool) :
    ∀ (ps qs : List (Option String)) (l : List α),
      restRef m (ps ++ qs) l = restRef m qs (restRef m ps l)
  | [], qs, l => by simp [restRef]
  | none :: ps, qs, l => by simpa [restRef] using restRef_append m ps qs l
  | some p :: ps, qs, l => by simp [restRef, restRef_append m ps qs]

theorem voidRef_append {α : Type} (m : String → α → Bool) :
    ∀ (ps qs : List (Option String)) (l : List α),
      voidRef m (ps ++ qs) l = voidRef m ps l ++ voidRef m qs (restRef m ps l)
  | [], qs, l => by simp [voidRef, restRef]
  | none :: ps, qs, l => by simpa [voidRef, restRef] using voidRef_append m ps qs l
  | some p :: ps, qs, l => by simp [voidRef, restRef, voidRef_append m ps qs]

theorem warnRef_append {α : Type} (m : String → α → Bool) (cmd : String) :
    ∀ (ps qs : List (Option String)) (l : List α),
      warnRef m cmd (ps ++ qs) l = warnRef m cmd ps l ++ warnRef m cmd qs (restRef m ps l)
  | [], qs, l => by simp [warnRef, restRef]
  | none :: ps, qs, l => by simpa [warnRef, restRef] using warnRef_append m cmd ps qs l
  | some p :: ps, qs, l => by simp [warnRef, restRef, warnRef_append m cmd ps qs]

theorem voidRef_length {α : Type} (m : String → α → Bool) :
    ∀ (ps : List (Option String)) (l : List α), (voidRef m ps l).length = ps.length
  | [], _ => rfl
  | none :: ps, l => by simp [voidRef, voidRef_length m ps]
  | some p :: ps, l => by simp [voidRef, voidRef_length m ps]

theorem IsSeg.next_eq {h h1 : Heap} :
    ∀ {l : List Nat} {p q : Option Nat}, IsSeg h p l q → IsSeg h1 p l q →
      ∀ a ∈ l, (h a).next = (h1 a).next
  | [], _, _, _, _, _, ha => absurd ha (by simp)
  | b :: l, p, q, hs, hs1, a, ha => by
    rcases List.mem_cons.1 ha with rfl | hm
    · cases l with
      | nil =>
        have e0 : (h a).next = q := hs.2
        have e1 : (h1 a).next = q := hs1.2
        rw [e0, e1]
      | cons c l =>
        have e0 : (h a).next = some c := hs.2.1
        have e1 : (h1 a).next = some c := hs1.2.1
        rw [e0, e1]
    · cases l with
      | nil => exact absurd hm (by simp)
      | cons c l =>
        have e0 : (h b).next = some c := hs.2.1
        have e1 : (h1 b).next = some c := hs1.2.1
        have t0 : IsSeg h (some c) (c :: l) q := ⟨rfl, hs.2.2⟩
        have t1 : IsSeg h1 (some c) (c :: l) q := ⟨rfl, hs1.2.2⟩
        exact IsSeg.next_eq t0 t1 a hm

theorem sabdb.eq_of_data {x y : sabdb}
    (hd : ({ x with next := none } : sabdb) = { y with next := none }) (hn : x.next = y.next) :
    x = y := by
  cases x
  cases y
  simp_all

/-- C1: `globMatchDBS` equals its reference definition. For every snapshot
list `l` headed by `orig` and every argument vector, the call returns; the
returned pointer heads the list `selectRef …` (the concatenation, over the
non-void patterns in argument order, of the entries of the then-current
remainder whose name matches, each group in snapshot order), and `*orig` is
left heading exactly the entries of `l` matched by no pattern, in their
original order. The records themselves are unchanged. -/
theorem globMatchDBS_eq_reference (glob : String → String → Bool) (fuel : Nat)
    (argv : List (Option String)) (orig : Option Nat) (cmd : String) (s : Proc) (l : List Nat)
    (hl : IsChain s.heap orig l) (hf : l.length < fuel) :
    ∃ r s1, globMatchDBS glob fuel argv.length argv orig cmd s = .ret r s1 ∧
      IsChain s1.heap r.top (selectRef (fun p a => glob p (s.heap a).dbname) argv.tail l) ∧
      IsChain s1.heap r.orig
        (l.filter (fun a => unmatched (fun p a => glob p (s.heap a).dbname) argv.tail a)) ∧
      SameData s.heap s1.heap := by
  obtain ⟨r, s1, hrun, hres, hrem, hsame, _⟩ :=
    globMatchDBS.spec glob fuel argv orig cmd s l hl hf
  rw [restRef_eq_filter] at hrem
  exact ⟨r, s1, hrun, hres, hrem, hsame⟩

/-- Worked example for C1: names a, ab, b with patterns `b*` then `a*`. -/
theorem globMatchDBS_eq_reference_witness :
    IsChain (exampleProc ["a", "ab", "b"]).heap (some 0) [0, 1, 2] ∧ [0, 1, 2].length < 4 ∧
    ∃ r s1, globMatchDBS globModel 4 3 [some "status", some "b*", some "a*"] (some 0) "status"
        (exampleProc ["a", "ab", "b"]) = .ret r s1 ∧
      IsChain s1.heap r.top [2, 0, 1] ∧ IsChain s1.heap r.orig [] ∧
      SameData (exampleProc ["a", "ab", "b"]).heap s1.heap :=
  ⟨⟨rfl, rfl, rfl, rfl⟩, by decide,
    globMatchDBS_eq_reference globModel 4 [some "status", some "b*", some "a*"] (some 0) "status"
      (exampleProc ["a", "ab", "b"]) [0, 1, 2] ⟨rfl, rfl, rfl, rfl⟩ (by decide)⟩

/-- C2: for any pattern sequence and any snapshot with unique names, every
name appears in the result of `globMatchDBS` at most once, whatever patterns
match it and however often a pattern is repeated. -/
theorem globMatchDBS_result_names_unique (glob : String → String → Bool) (fuel : Nat)
    (argv : List (Option String)) (orig : Option Nat) (cmd : String) (s : Proc) (l : List Nat)
    (hl : IsChain s.heap orig l) (hf : l.length < fuel)
    (hu : (l.map (fun a => (s.heap a).dbname)).Nodup) :
    ∃ r s1 res, globMatchDBS glob fuel argv.length argv orig cmd s = .ret r s1 ∧
      IsChain s1.heap r.top res ∧ (res.map (fun a => (s1.heap a).dbname)).Nodup := by
  obtain ⟨r, s1, hrun, hres, _, hsame, _⟩ :=
    globMatchDBS.spec glob fuel argv orig cmd s l hl hf
  refine ⟨r, s1, _, hrun, hres, ?_⟩
  have hp := (selectRef_perm (fun p a => glob p (s.heap a).dbname) argv.tail l).map
    (fun a => (s.heap a).dbname)
  have hn := hp.nodup_iff.2 hu
  rw [List.map_append] at hn
  have hn1 := (List.nodup_append.1 hn).1
  have e : (fun a => (s1.heap a).dbname) = (fun a => (s.heap a).dbname) :=
    funext (fun a => hsame.dbname a)
  rw [e]
  exact hn1

/-- Worked example for C2: `a*` given twice and `*` besides, over a, ab, b. -/
theorem globMatchDBS_result_names_unique_witness :
    IsChain (exampleProc ["a", "ab", "b"]).heap (some 0) [0, 1, 2] ∧ [0, 1, 2].length < 4 ∧
    (([0, 1, 2] : List Nat).map (fun a => ((exampleProc ["a", "ab", "b"]).heap a).dbname)).Nodup ∧
    ∃ r s1 res, globMatchDBS globModel 4 4 [some "status", some "a*", some "a*", some "*"]
        (some 0) "status" (exampleProc ["a", "ab", "b"]) = .ret r s1 ∧
      IsChain s1.heap r.top res ∧ (res.map (fun a => (s1.heap a).dbname)).Nodup :=
  ⟨⟨rfl, rfl, rfl, rfl⟩, by decide, by decide,
    globMatchDBS_result_names_unique globModel 4 [some "status", some "a*", some "a*", some "*"]
      (some 0) "status" (exampleProc ["a", "ab", "b"]) [0, 1, 2] ⟨rfl, rfl, rfl, rfl⟩
      (by decide) (by decide)⟩

/-- C3: `globMatchDBS` partitions the snapshot. The returned result and the
remainder left in `*orig` together are a permutation of the input list, without
repetition, so each input entry is in exactly one of the two lists; the
records are unchanged. -/
theorem globMatchDBS_partition (glob : String → String → Bool) (fuel : Nat)
    (argv : List (Option String)) (orig : Option Nat) (cmd : String) (s : Proc) (l : List Nat)
    (hl : IsChain s.heap orig l) (hf : l.length < fuel) :
    ∃ r s1 res rem, globMatchDBS glob fuel argv.length argv orig cmd s = .ret r s1 ∧
      IsChain s1.heap r.top res ∧ IsChain s1.heap r.orig rem ∧
      (res ++ rem).Perm l ∧ (res ++ rem).Nodup ∧
      (∀ a, a ∈ l → (a ∈ res ∧ a ∉ rem) ∨ (a ∈ rem ∧ a ∉ res)) ∧
      SameData s.heap s1.heap := by
  obtain ⟨r, s1, hrun, hres, hrem, hsame, _⟩ :=
    globMatchDBS.spec glob fuel argv orig cmd s l hl hf
  have hp := selectRef_perm (fun p a => glob p (s.heap a).dbname) argv.tail l
  have hn := hp.nodup_iff.2 hl.nodup
  refine ⟨r, s1, _, _, hrun, hres, hrem, hp, hn, ?_, hsame⟩
  intro a ha
  have hm := hp.mem_iff.2 ha
  rcases List.mem_append.1 hm with h1 | h2
  · exact Or.inl ⟨h1, fun h2 => (List.nodup_append.1 hn).2.2 h1 h2⟩
  · exact Or.inr ⟨h2, fun h1 => (List.nodup_append.1 hn).2.2 h1 h2⟩

/-- Worked example for C3: a, ab, b with the pattern `a*`. -/
theorem globMatchDBS_partition_witness :
    IsChain (exampleProc ["a", "ab", "b"]).heap (some 0) [0, 1, 2] ∧ [0, 1, 2].length < 4 ∧
    ∃ r s1 res rem, globMatchDBS globModel 4 2 [some "status", some "a*"]
        (some 0) "status" (exampleProc ["a", "ab", "b"]) = .ret r s1 ∧
      IsChain s1.heap r.top res ∧ IsChain s1.heap r.orig rem ∧
      (res ++ rem).Perm [0, 1, 2] ∧ (res ++ rem).Nodup ∧
      (∀ a, a ∈ [0, 1, 2] → (a ∈ res ∧ a ∉ rem) ∨ (a ∈ rem ∧ a ∉ res)) ∧
      SameData (exampleProc ["a", "ab", "b"]).heap s1.heap :=
  ⟨⟨rfl, rfl, rfl, rfl⟩, by decide,
    globMatchDBS_partition globModel 4 [some "status", some "a*"]
      (some 0) "status" (exampleProc ["a", "ab", "b"]) [0, 1, 2] ⟨rfl, rfl, rfl, rfl⟩
      (by decide)⟩

theorem filter_not_of_unmatched {α : Type} (f : α → Bool) (l : List α)
    (hno : ∀ a ∈ l, f a = false) :
    l.filter f = [] ∧ l.filter (fun e => !f e) = l ∧ l.any f = false := by
  refine ⟨?_, ?_, ?_⟩
  · exact List.filter_eq_nil_iff.2 (fun a ha => by simp [hno a ha])
  · exact List.filter_eq_self.2 (fun a ha => by simp [hno a ha])
  · simpa using hno

theorem ref_skip_unmatched {α : Type} (m : String → α → Bool) (cmd : String)
    (pp post : List (Option String)) (p : String) (l : List α)
    (hno : ∀ a ∈ restRef m pp l, m p a = false) :
    selectRef m (pp ++ some p :: post) l = selectRef m (pp ++ post) l ∧
    restRef m (pp ++ some p :: post) l = restRef m (pp ++ post) l ∧
    voidRef m (pp ++ some p :: post) l = voidRef m pp l ++ none :: voidRef m post (restRef m pp l) ∧
    warnRef m cmd (pp ++ some p :: post) l =
      warnRef m cmd pp l ++ [cmd ++ ": no such database: " ++ p ++ "\n"] ++
        warnRef m cmd post (restRef m pp l) := by
  obtain ⟨h1, h2, h3⟩ := filter_not_of_unmatched (m p) (restRef m pp l) hno
  refine ⟨?_, ?_, ?_, ?_⟩
  · rw [selectRef_append, selectRef_append, selectRef, h1, h2, List.nil_append]
  · rw [restRef_append, restRef_append, restRef, h2]
  · rw [voidRef_append, voidRef, h2, h3]
    simp
  · rw [warnRef_append, warnRef, h2, h3]
    simp

/-- C4: a pattern that matches no entry of the remainder it is applied to
does not change the selection. Running `globMatchDBS` with the pattern `p`
after the arguments `pre` gives the same result list, the same remainder and
the same heap as running it with `p` deleted; the run with `p` differs only in
one extra `no such database` warning and in the slot of `p` being void. -/
theorem globMatchDBS_unmatched_pattern_inert (glob : String → String → Bool) (fuel : Nat)
    (pre post : List (Option String)) (p : String) (orig : Option Nat) (cmd : String)
    (s : Proc) (l : List Nat) (hl : IsChain s.heap orig l) (hf : l.length < fuel)
    (hpre : pre ≠ [])
    (hno : ∀ a ∈ l, unmatched (fun q b => glob q (s.heap b).dbname) pre.tail a = true →
      glob p (s.heap a).dbname = false) :
    ∃ rA sA rB sB res rem e1 e2,
      globMatchDBS glob fuel (pre ++ some p :: post).length (pre ++ some p :: post) orig cmd s
        = .ret rA sA ∧
      globMatchDBS glob fuel (pre ++ post).length (pre ++ post) orig cmd s = .ret rB sB ∧
      IsChain sA.heap rA.top res ∧ IsChain sA.heap rA.orig rem ∧
      rA.top = rB.top ∧ rA.orig = rB.orig ∧ sA.heap = sB.heap ∧
      rA.argv = rB.argv.take pre.length ++ none :: rB.argv.drop pre.length ∧
      sB.err = s.err ++ e1 ++ e2 ∧
      sA.err = s.err ++ e1 ++ [cmd ++ ": no such database: " ++ p ++ "\n"] ++ e2 ∧
      sA.out = sB.out ∧ sA.sent = sB.sent ∧ sA.brk = sB.brk := by
  obtain ⟨a0, pp, rfl⟩ := List.exists_cons_of_ne_nil hpre
  obtain ⟨rA, sA, hrunA, hresA, hremA, hsameA, hfrA, haA, heA, hoA, hsA, hbA⟩ :=
    globMatchDBS.spec glob fuel (a0 :: pp ++ some p :: post) orig cmd s l hl hf
  obtain ⟨rB, sB, hrunB, hresB, hremB, hsameB, hfrB, haB, heB, hoB, hsB, hbB⟩ :=
    globMatchDBS.spec glob fuel (a0 :: pp ++ post) orig cmd s l hl hf
  have hno1 : ∀ a ∈ restRef (fun q b => glob q (s.heap b).dbname) pp l,
      (fun q b => glob q (s.heap b).dbname) p a = false := by
    intro a ha
    rw [restRef_eq_filter] at ha
    obtain ⟨hal, hau⟩ := List.mem_filter.1 ha
    exact hno a hal hau
  obtain ⟨k1, k2, k3, k4⟩ :=
    ref_skip_unmatched (fun q b => glob q (s.heap b).dbname) cmd pp post p l hno1
  simp only [List.cons_append, List.tail_cons] at hresA hremA haA heA hresB hremB haB heB
  rw [k1] at hresA
  rw [k2] at hremA
  have htop : rA.top = rB.top := (hresA.head rfl).trans (hresB.head rfl).symm
  have horig : rA.orig = rB.orig := (hremA.head rfl).trans (hremB.head rfl).symm
  have hheap : sA.heap = sB.heap := by
    funext b
    by_cases hb : b ∈ l
    · have hb1 := (selectRef_perm (fun q b => glob q (s.heap b).dbname) (pp ++ post) l).mem_iff.2 hb
      refine sabdb.eq_of_data ((hsameA b).trans (hsameB b).symm) ?_
      rcases List.mem_append.1 hb1 with h1 | h2
      · exact IsSeg.next_eq hresA (htop ▸ hresB) b h1
      · exact IsSeg.next_eq hremA (horig ▸ hremB) b h2
    · rw [hfrA b hb, hfrB b hb]
  refine ⟨rA, sA, rB, sB, _, _, warnRef (fun q b => glob q (s.heap b).dbname) cmd pp l,
    warnRef (fun q b => glob q (s.heap b).dbname) cmd post
      (restRef (fun q b => glob q (s.heap b).dbname) pp l),
    hrunA, hrunB, hresA, hremA, htop, horig, hheap, ?_, ?_, ?_,
    hoA.trans hoB.symm, hsA.trans hsB.symm, hbA.trans hbB.symm⟩
  · have hA : (a0 :: voidRef (fun q b => glob q (s.heap b).dbname) pp l).length
        = (a0 :: pp).length := by
      simp [voidRef_length]
    have e1 : rB.argv = (a0 :: voidRef (fun q b => glob q (s.heap b).dbname) pp l) ++
        voidRef (fun q b => glob q (s.heap b).dbname) post
          (restRef (fun q b => glob q (s.heap b).dbname) pp l) := by
      rw [haB, voidRef_append]
      simp
    rw [e1, List.take_left' hA, List.drop_left' hA, haA, k3]
    simp
  · rw [heB, warnRef_append, List.append_assoc]
  · rw [heA, k4]
    simp [List.append_assoc]

/-- Worked example for C4: over a, ab, b the pattern `z*` between `a*` and `b` matches nothing. -/
theorem globMatchDBS_unmatched_pattern_inert_witness :
    IsChain (exampleProc ["a", "ab", "b"]).heap (some 0) [0, 1, 2] ∧ [0, 1, 2].length < 4 ∧
    [some "status", some "a*"] ≠ [] ∧
    (∀ a ∈ [0, 1, 2],
      unmatched (fun q b => globModel q ((exampleProc ["a", "ab", "b"]).heap b).dbname)
        [some "status", some "a*"].tail a = true →
      globModel "z*" ((exampleProc ["a", "ab", "b"]).heap a).dbname = false) ∧
    ∃ rA sA rB sB res rem e1 e2,
      globMatchDBS globModel 4 ([some "status", some "a*"] ++ some "z*" :: [some "b"]).length
        ([some "status", some "a*"] ++ some "z*" :: [some "b"]) (some 0) "status"
        (exampleProc ["a", "ab", "b"]) = .ret rA sA ∧
      globMatchDBS globModel 4 ([some "status", some "a*"] ++ [some "b"]).length
        ([some "status", some "a*"] ++ [some "b"]) (some 0) "status"
        (exampleProc ["a", "ab", "b"]) = .ret rB sB ∧
      IsChain sA.heap rA.top res ∧ IsChain sA.heap rA.orig rem ∧
      rA.top = rB.top ∧ rA.orig = rB.orig ∧ sA.heap = sB.heap ∧
      rA.argv = rB.argv.take [some "status", some "a*"].length ++
        none :: rB.argv.drop [some "status", some "a*"].length ∧
      sB.err = (exampleProc ["a", "ab", "b"]).err ++ e1 ++ e2 ∧
      sA.err = (exampleProc ["a", "ab", "b"]).err ++ e1 ++
        ["status" ++ ": no such database: " ++ "z*" ++ "\n"] ++ e2 ∧
      sA.out = sB.out ∧ sA.sent = sB.sent ∧ sA.brk = sB.brk :=
  ⟨⟨rfl, rfl, rfl, rfl⟩, by decide, by decide, by decide,
    globMatchDBS_unmatched_pattern_inert globModel 4 [some "status", some "a*"] [some "b"] "z*"
      (some 0) "status" (exampleProc ["a", "ab", "b"]) [0, 1, 2] ⟨rfl, rfl, rfl, rfl⟩
      (by decide) (by decide) (by decide)⟩

/-! ## `strcmp` is a linear order on names -/

theorem Char.toNat_inj {a b : Char} (h : a.toNat = b.toNat) : a = b := by
  apply Char.ext
  apply UInt32.ext
  exact h

theorem strcmpChars_self : ∀ a : List Char, strcmpChars a a = 0
  | [] => rfl
  | c :: cs => by simp [strcmpChars, strcmpChars_self cs]

theorem strcmpChars_eq_zero : ∀ {a b : List Char}, strcmpChars a b = 0 → a = b
  | [], [], _ => rfl
  | [], _ :: _, h => by simp [strcmpChars] at h
  | _ :: _, [], h => by simp [strcmpChars] at h
  | a :: as, b :: bs, h => by
    by_cases e : a = b
    · subst e
      simp only [strcmpChars, if_true] at h
      rw [strcmpChars_eq_zero h]
    · simp only [strcmpChars, if_neg e] at h
      exact absurd (Char.toNat_inj (by omega)) e

theorem strcmpChars_swap : ∀ (a b : List Char), strcmpChars a b < 0 ↔ 0 < strcmpChars b a
  | [], [] => by simp [strcmpChars]
  | [], _ :: _ => by simp [strcmpChars]
  | _ :: _, [] => by simp [strcmpChars]
  | a :: as, b :: bs => by
    by_cases e : a = b
    · subst e
      simp only [strcmpChars, if_true]
      exact strcmpChars_swap as bs
    · have e1 : ¬ b = a := fun h => e h.symm
      simp only [strcmpChars, if_neg e, if_neg e1]
      omega

theorem strcmpChars_trans : ∀ (a b c : List Char),
    strcmpChars a b ≤ 0 → strcmpChars b c ≤ 0 → strcmpChars a c ≤ 0
  | [], _, [], _, _ => by simp [strcmpChars]
  | [], _, _ :: _, _, _ => by simp [strcmpChars]
  | _ :: _, [], _, h, _ => by simp [strcmpChars] at h
  | _ :: _, _ :: _, [], _, h => by simp [strcmpChars] at h
  | a :: as, b :: bs, c :: cs, h1, h2 => by
    by_cases e1 : a = b
    · subst e1
      by_cases e2 : a = c
      · subst e2
        simp only [strcmpChars, if_true] at h1 h2 ⊢
        exact strcmpChars_trans as bs cs h1 h2
      · simp only [strcmpChars, if_neg e2] at h2 ⊢
        exact h2
    · by_cases e2 : b = c
      · subst e2
        simp only [strcmpChars, if_neg e1] at h1 ⊢
        exact h1
      · have n1 : a.toNat ≠ b.toNat := fun h => e1 (Char.toNat_inj h)
        have n2 : b.toNat ≠ c.toNat := fun h => e2 (Char.toNat_inj h)
        simp only [strcmpChars, if_neg e1] at h1
        simp only [strcmpChars, if_neg e2] at h2
        have e3 : ¬ a = c := by
          intro h
          subst h
          omega
        simp only [strcmpChars, if_neg e3]
        omega

theorem strcmp_total (a b : String) : strcmp a b ≤ 0 ∨ strcmp b a ≤ 0 := by
  unfold strcmp
  by_cases h : strcmpChars a.data b.data ≤ 0
  · exact Or.inl h
  · have : 0 < strcmpChars a.data b.data := by omega
    exact Or.inr (le_of_lt ((strcmpChars_swap b.data a.data).2 this))

theorem strcmp_trans (a b c : String) (h1 : strcmp a b ≤ 0) (h2 : strcmp b c ≤ 0) :
    strcmp a c ≤ 0 :=
  strcmpChars_trans a.data b.data c.data h1 h2

theorem strcmp_antisymm (a b : String) (h1 : strcmp a b ≤ 0) (h2 : strcmp b a ≤ 0) : a = b := by
  unfold strcmp at h1 h2
  have h3 : ¬ strcmpChars a.data b.data < 0 := fun h =>
    absurd ((strcmpChars_swap a.data b.data).1 h) (by omega)
  have h4 : strcmpChars a.data b.data = 0 := by omega
  exact String.ext (strcmpChars_eq_zero h4)

theorem strcmp_eq_zero_iff (a b : String) : strcmp a b = 0 ↔ a = b := by
  constructor
  · intro h
    exact String.ext (strcmpChars_eq_zero h)
  · rintro rfl
    exact strcmpChars_self _

/-! ## MEROgetStatus: collecting, sorting and linking -/

theorem readSlots_prefix (done : List Nat) (rest : List (Option Nat)) :
    readSlots (done.map some ++ rest) done.length = some done := by
  unfold readSlots
  have hlen : done.length ≤ (done.map some ++ rest).length := by simp
  have htake : (done.map some ++ rest).take done.length = done.map some :=
    List.take_left' (by simp)
  rw [if_pos hlen, htake]
  induction done with
  | nil => rfl
  | cons a l ih =>
    have : (l.map some ++ rest).take l.length = l.map some := List.take_left' (by simp)
    simp only [List.map_cons, List.foldr_cons]
    rw [ih (by simp) this]

theorem set_append_cons {α : Type} (pre : List α) (y x : α) (rest : List α) :
    (pre ++ y :: rest).set pre.length x = pre ++ x :: rest := by
  induction pre with
  | nil => rfl
  | cons a pre _ => simp

theorem MEROgetStatus.collect_ok (deser : String → Except String sabdb) :
    ∀ (ps : List String) (recs : List sabdb) (v : StatusVars) (s : Proc) (done : List Nat)
      (rest : List (Option Nat)),
      ps.map deser = recs.map Except.ok → v.sw = done.map some ++ rest →
      v.swpos = done.length → v.sw.length = v.swlen → 0 < v.swlen →
      ∃ v1 s1 rest1, MEROgetStatus.collect deser ps v s = .ok (v1, s1) ∧
        v1.sw = (done ++ List.range' s.brk ps.length).map some ++ rest1 ∧
        v1.swpos = done.length + ps.length ∧ s1.brk = s.brk + ps.length ∧
        (∀ a, a < s.brk → s1.heap a = s.heap a) ∧
        (List.range' s.brk ps.length).map s1.heap = recs ∧
        s1.out = s.out ∧ s1.err = s.err ∧ s1.sent = s.sent
  | [], recs, v, s, done, rest, hd, hsw, hpos, _, _ => by
    have hr : recs = [] := by
      cases recs with
      | nil => rfl
      | cons r rs => simp at hd
    subst hr
    exact ⟨v, s, rest, rfl, by simp [hsw], by simp [hpos], rfl, fun _ _ => rfl, rfl,
      rfl, rfl, rfl⟩
  | p :: ps, recs, v, s, done, rest, hd, hsw, hpos, hlen, hcap => by
    cases recs with
    | nil => simp at hd
    | cons r rs =>
      have hp : deser p = .ok r := by
        have := List.head_eq_of_cons_eq hd
        simpa using this
      have hps : ps.map deser = rs.map Except.ok := List.tail_eq_of_cons_eq hd
      -- the array after the optional `realloc`, with a free slot at `swpos`
      have hgrow : ∃ y rest2 swlen2,
          (if v.swpos = v.swlen then
            ({ v with sw := v.sw ++ List.replicate v.swlen none, swlen := v.swlen * 2 } : StatusVars)
            else v) = { sw := done.map some ++ y :: rest2, swlen := swlen2, swpos := v.swpos } ∧
          (done.map some ++ y :: rest2).length = swlen2 ∧ 0 < swlen2 := by
        by_cases hfull : v.swpos = v.swlen
        · have hrest : rest = [] := by
            have h1 : (done.map some ++ rest).length = done.length := by
              rw [← hsw, hlen, ← hfull, hpos]
            have h2 : rest.length = 0 := by simpa using h1
            exact List.length_eq_zero.1 h2
          obtain ⟨k, hk⟩ : ∃ k, v.swlen = k + 1 := ⟨v.swlen - 1, by omega⟩
          refine ⟨none, List.replicate k none, v.swlen * 2, ?_, ?_, by omega⟩
          · rw [if_pos hfull, hsw, hrest, hk]
            simp [List.replicate_succ]
          · rw [hk]
            have : done.length = k + 1 := by rw [← hpos, hfull, hk]
            simp [this]
            omega
        · cases rest with
          | nil =>
            have h1 : v.sw.length = done.length := by rw [hsw]; simp
            exact absurd (by rw [hpos, ← h1, hlen]) hfull
          | cons y rest2 =>
            refine ⟨y, rest2, v.swlen, ?_, by rw [← hsw, hlen], hcap⟩
            rw [if_neg hfull]
            cases v
            simp_all
      obtain ⟨y, rest2, swlen2, hv2, hlen2, hcap2⟩ := hgrow
      have hlt : done.length < (done.map some ++ y :: rest2).length := by simp
      have hset : (done.map some ++ y :: rest2).set done.length (some s.brk)
          = (done ++ [s.brk]).map some ++ rest2 := by
        have := set_append_cons (done.map some) y (some s.brk) rest2
        rw [List.length_map] at this
        rw [this]
        simp
      obtain ⟨v1, s1, rest1, hrun, hsw1, hpos1, hbrk1, hfr1, hrec1, ho1, he1, hs1⟩ :=
        MEROgetStatus.collect_ok deser ps rs
          { sw := (done.map some ++ y :: rest2).set done.length (some s.brk), swlen := swlen2,
            swpos := done.length + 1 }
          (s.alloc r).2 (done ++ [s.brk]) rest2 hps
          hset (by simp) (by simpa using hlen2) hcap2
      have hb : (s.alloc r).2.brk = s.brk + 1 := rfl
      rw [hb] at hsw1 hbrk1 hfr1 hrec1
      refine ⟨v1, s1, rest1, ?_, ?_, ?_, ?_, ?_, ?_, ho1, he1, hs1⟩
      · rw [MEROgetStatus.collect, hp]
        simp only [Proc.alloc]
        rw [hv2]
        simp only [hpos, hlt, if_true]
        exact hrun
      · rw [hsw1]
        congr 2
        simp [List.range'_succ]
      · rw [hpos1]
        simp
        omega
      · rw [hbrk1]
        simp
        omega
      · intro a ha
        rw [hfr1 a (by omega)]
        show (if a = s.brk then r else s.heap a) = s.heap a
        rw [if_neg (by omega)]
      · rw [List.length_cons, List.range'_succ, List.map_cons, hrec1, hfr1 s.brk (by omega)]
        show (if s.brk = s.brk then r else s.heap s.brk) :: rs = r :: rs
        rw [if_pos rfl]

theorem MEROgetStatus.link_chain :
    ∀ (xs : List Nat) (x : Nat) (h : Heap), (x :: xs).Nodup →
      (∀ a ∈ x :: xs, (h a).next = none) →
      IsChain (MEROgetStatus.link h x xs) (some x) (x :: xs) ∧
        SameData h (MEROgetStatus.link h x xs) ∧
        ∀ b, b ∉ x :: xs → MEROgetStatus.link h x xs b = h b
  | [], x, h, _, hn => ⟨⟨rfl, hn x (by simp)⟩, SameData.refl h, fun _ _ => rfl⟩
  | y :: ys, x, h, hnd, hn => by
    have hx : x ∉ y :: ys := (List.nodup_cons.1 hnd).1
    have hnd1 : (y :: ys).Nodup := (List.nodup_cons.1 hnd).2
    have hn1 : ∀ a ∈ y :: ys, (h.setNext x (some y) a).next = none := by
      intro a ha
      have hax : a ≠ x := fun e => hx (e ▸ ha)
      rw [Heap.setNext_of_ne h _ hax]
      exact hn a (by simp [List.mem_cons.1 ha])
    obtain ⟨hc, hs, hf⟩ := MEROgetStatus.link_chain ys y (h.setNext x (some y)) hnd1 hn1
    refine ⟨⟨rfl, ?_⟩, ((SameData.refl h).update_next x _).trans hs, ?_⟩
    · show IsSeg (MEROgetStatus.link (h.setNext x (some y)) y ys)
        (MEROgetStatus.link (h.setNext x (some y)) y ys x).next (y :: ys) none
      rw [hf x hx, Heap.setNext_self]
      exact hc
    · intro b hb
      have hb1 : b ∉ y :: ys := fun e => hb (by simp [List.mem_cons.1 e])
      have hb2 : b ≠ x := fun e => hb (by simp [e])
      show MEROgetStatus.link (h.setNext x (some y)) y ys b = h b
      rw [hf b hb1, Heap.setNext_of_ne h _ hb2]

theorem cmpsabdb_total (h : Heap) (a b : Nat) : cmpsabdb h a b ≤ 0 ∨ cmpsabdb h b a ≤ 0 :=
  strcmp_total _ _

theorem cmpsabdb_trans (h : Heap) (a b c : Nat) (h1 : cmpsabdb h a b ≤ 0)
    (h2 : cmpsabdb h b c ≤ 0) : cmpsabdb h a c ≤ 0 :=
  strcmp_trans _ _ _ h1 h2

theorem MEROgetStatus.finish_spec (qsort : (Nat → Nat → Int) → List Nat → List Nat)
    (hq : QsortSpec qsort) (v : StatusVars) (s : Proc) (ptrs : List Nat)
    (rest : List (Option Nat)) (hsw : v.sw = ptrs.map some ++ rest)
    (hpos : v.swpos = ptrs.length) (hnd : ptrs.Nodup)
    (hn : ∀ a ∈ ptrs, (s.heap a).next = none) :
    ∃ orig s1 l, MEROgetStatus.finish qsort v s = .ret (.ok orig) s1 ∧
      IsChain s1.heap orig l ∧ l.Perm ptrs ∧
      l.Pairwise (fun a b => cmpsabdb s.heap a b ≤ 0) ∧ SameData s.heap s1.heap ∧
      (∀ b, b ∉ ptrs → s1.heap b = s.heap b) ∧
      s1.brk = s.brk ∧ s1.out = s.out ∧ s1.err = s.err ∧ s1.sent = s.sent := by
  have hread : readSlots v.sw v.swpos = some ptrs := by
    rw [hsw, hpos]
    exact readSlots_prefix ptrs rest
  obtain ⟨hperm, hsorted⟩ := hq (cmpsabdb s.heap) ptrs (cmpsabdb_total s.heap)
    (cmpsabdb_trans s.heap)
  unfold MEROgetStatus.finish
  by_cases h2 : v.swpos > 1
  · rw [if_pos h2, hread]
    simp only []
    cases hs : qsort (cmpsabdb s.heap) ptrs with
    | nil =>
      rw [hs] at hperm
      have := hperm.length_eq
      simp at this
      omega
    | cons x xs =>
      rw [hs] at hperm hsorted
      have hnd1 : (x :: xs).Nodup := hperm.nodup_iff.2 hnd
      obtain ⟨hc, hsame, hfr⟩ := MEROgetStatus.link_chain xs x s.heap hnd1
        (fun a ha => hn a (hperm.mem_iff.1 ha))
      exact ⟨some x, _, x :: xs, rfl, hc, hperm, hsorted, hsame,
        fun b hb => hfr b (fun e => hb (hperm.mem_iff.1 e)), rfl, rfl, rfl, rfl⟩
  · rw [if_neg h2]
    by_cases h1 : v.swpos = 1
    · rw [if_pos h1]
      rw [h1] at hread
      obtain ⟨x, rfl⟩ : ∃ x, ptrs = [x] := by
        cases ptrs with
        | nil => simp at hpos; omega
        | cons x t =>
          cases t with
          | nil => exact ⟨x, rfl⟩
          | cons y t => simp at hpos; omega
      rw [hread]
      refine ⟨some x, _, [x], rfl, ⟨rfl, Heap.setNext_self _ _ _⟩, List.Perm.refl _, by simp,
        (SameData.refl _).update_next _ _, ?_, rfl, rfl, rfl, rfl⟩
      intro b hb
      exact Heap.setNext_of_ne _ _ (fun e => hb (by simp [e]))
    · rw [if_neg h1]
      have h0 : ptrs = [] := by
        cases ptrs with
        | nil => rfl
        | cons x t => simp at hpos; omega
      subst h0
      exact ⟨none, s, [], rfl, rfl, List.Perm.refl _, List.Pairwise.nil, SameData.refl _,
        fun _ _ => rfl, rfl, rfl, rfl, rfl⟩

theorem sabdb.unlink_eq (r : sabdb) (h : r.next = none) : ({ r with next := none } : sabdb) = r := by
  cases r
  simp_all

/-- What `MEROgetStatus` returns on a success response whose records all deserialise. -/
theorem MEROgetStatus.fetch_spec (control_send : List Request → Request → Except String String)
    (deser : String → Except String sabdb) (qsort : (Nat → Nat → Int) → List Nat → List Nat)
    (g : Globals) (database : Option String) (s : Proc) (buf : String) (lines : List String)
    (recs : List sabdb) (hq : QsortSpec qsort)
    (hsend : control_send s.sent (statusRequest g database) = .ok buf)
    (htok : strtokLines buf = "OK" :: lines)
    (hdes : lines.map deser = recs.map Except.ok)
    (hnext : ∀ r ∈ recs, r.next = none) :
    ∃ orig s1 l, MEROgetStatus control_send deser qsort g database s = .ret (.ok orig) s1 ∧
      IsChain s1.heap orig l ∧
      (l.map (fun a => ({ s1.heap a with next := none } : sabdb))).Perm recs ∧
      (l.map (fun a => (s1.heap a).dbname)).Pairwise (fun a b => strcmp a b ≤ 0) ∧
      l.Perm (List.range' s.brk recs.length) ∧
      (∀ a, a < s.brk → s1.heap a = s.heap a) ∧
      s1.brk = s.brk + recs.length ∧ s1.out = s.out ∧ s1.err = s.err ∧
      s1.sent = s.sent ++ [statusRequest g database] := by
  have hlen : lines.length = recs.length := by
    have := congrArg List.length hdes
    simpa using this
  obtain ⟨v1, s1, rest1, hrun, hsw1, hpos1, hbrk1, hfr1, hrec1, ho1, he1, hs1⟩ :=
    MEROgetStatus.collect_ok deser lines recs
      { sw := List.replicate 50 none, swlen := 50, swpos := 0 }
      { s with sent := s.sent ++ [statusRequest g database] } [] (List.replicate 50 none)
      hdes rfl rfl (by simp) (by decide)
  simp only [List.nil_append, List.length_nil, Nat.zero_add] at hsw1 hpos1 hbrk1 hrec1
  have hn : ∀ a ∈ List.range' s.brk lines.length, (s1.heap a).next = none := by
    intro a ha
    have : s1.heap a ∈ recs := by
      rw [← hrec1]
      exact List.mem_map_of_mem _ ha
    exact hnext _ this
  obtain ⟨orig, s2, l, hfin, hc, hperm, hsorted, hsame, hfr2, hb2, ho2, he2, hs2⟩ :=
    MEROgetStatus.finish_spec qsort hq v1 s1 (List.range' s.brk lines.length) rest1 hsw1
      (by simpa using hpos1) (List.nodup_range' _ _) hn
  refine ⟨orig, s2, l, ?_, hc, ?_, ?_, hlen ▸ hperm, ?_, ?_, ho2.trans ho1, he2.trans he1,
    hs2.trans hs1⟩
  · unfold MEROgetStatus
    simp only [hsend, htok]
    have hok : strcmp "OK" "OK" = 0 := (strcmp_eq_zero_iff _ _).2 rfl
    rw [if_neg (by simp [hok]), hrun]
    exact hfin
  · have h1 := hperm.map (fun a => ({ s2.heap a with next := none } : sabdb))
    refine h1.trans ?_
    have e : (List.range' s.brk lines.length).map
        (fun a => ({ s2.heap a with next := none } : sabdb)) = recs := by
      rw [← hrec1]
      apply List.map_congr_left
      intro a ha
      rw [hsame a]
      exact sabdb.unlink_eq _ (hn a ha)
    rw [e]
  · rw [List.pairwise_map]
    refine hsorted.imp ?_
    intro a b hab
    rw [hsame.dbname a, hsame.dbname b]
    exact hab
  · intro a ha
    rw [hfr2 a (by simp [List.mem_range']; omega)]
    exact hfr1 a ha
  · rw [hb2, hbrk1, hlen]

theorem sorted_names_unique {l : List Nat} {f : Nat → String} {recs : List sabdb}
    (hp : (l.map f).Perm (recs.map sabdb.dbname))
    (hs : (l.map f).Pairwise (fun a b => strcmp a b ≤ 0)) (ns : List String)
    (hns : ns.Perm (recs.map sabdb.dbname)) (hsn : ns.Pairwise (fun a b => strcmp a b ≤ 0)) :
    l.map f = ns := by
  haveI : IsAntisymm String (fun a b => strcmp a b ≤ 0) := ⟨strcmp_antisymm⟩
  exact List.eq_of_perm_of_sorted (hp.trans hns.symm) hs hsn

theorem qsortModel_spec : QsortSpec qsortModel := by
  intro cmp l htot htrans
  haveI : IsTotal Nat (fun a b => cmp a b ≤ 0) := ⟨htot⟩
  haveI : IsTrans Nat (fun a b => cmp a b ≤ 0) := ⟨htrans⟩
  exact ⟨List.perm_insertionSort _ l, List.sorted_insertionSort _ l⟩

/-- C5: on a success response whose records all deserialise, `MEROgetStatus`
returns a list whose records are a permutation of the deserialised records
and whose names ascend under `strcmp`; for the names b, a, c the returned
order is a, b, c, and a batch that arrives in ascending order is returned in
the same order. -/
theorem MEROgetStatus_sorted_by_name
    (control_send : List Request → Request → Except String String)
    (deser : String → Except String sabdb) (qsort : (Nat → Nat → Int) → List Nat → List Nat)
    (g : Globals) (database : Option String) (s : Proc) (buf : String) (lines : List String)
    (recs : List sabdb) (hq : QsortSpec qsort)
    (hsend : control_send s.sent (statusRequest g database) = .ok buf)
    (htok : strtokLines buf = "OK" :: lines)
    (hdes : lines.map deser = recs.map Except.ok)
    (hnext : ∀ r ∈ recs, r.next = none) :
    ∃ orig s1 l, MEROgetStatus control_send deser qsort g database s = .ret (.ok orig) s1 ∧
      IsChain s1.heap orig l ∧
      (l.map (fun a => ({ s1.heap a with next := none } : sabdb))).Perm recs ∧
      (l.map (fun a => (s1.heap a).dbname)).Pairwise (fun a b => strcmp a b ≤ 0) ∧
      (recs.map sabdb.dbname = ["b", "a", "c"] →
        l.map (fun a => (s1.heap a).dbname) = ["a", "b", "c"]) ∧
      ((recs.map sabdb.dbname).Pairwise (fun a b => strcmp a b ≤ 0) →
        l.map (fun a => (s1.heap a).dbname) = recs.map sabdb.dbname) := by
  obtain ⟨orig, s1, l, hrun, hc, hperm, hsorted, _⟩ :=
    MEROgetStatus.fetch_spec control_send deser qsort g database s buf lines recs hq hsend htok
      hdes hnext
  have hnames : (l.map (fun a => (s1.heap a).dbname)).Perm (recs.map sabdb.dbname) := by
    have := hperm.map sabdb.dbname
    simpa [List.map_map, Function.comp_def] using this
  refine ⟨orig, s1, l, hrun, hc, hperm, hsorted, ?_, ?_⟩
  · intro h
    refine sorted_names_unique hnames hsorted _ (by rw [h]; decide) ?_
    decide
  · intro h
    exact sorted_names_unique hnames hsorted _ (List.Perm.refl _) h

/-- Worked example for C5: the response `OK`, b, a, c. -/
theorem MEROgetStatus_sorted_by_name_witness :
    QsortSpec qsortModel ∧
    (fun (_ : List Request) (_ : Request) => (Except.ok "OK\nb\na\nc" : Except String String))
      emptyProc.sent (statusRequest exampleGlobals none) = .ok "OK\nb\na\nc" ∧
    strtokLines "OK\nb\na\nc" = "OK" :: ["b", "a", "c"] ∧
    ["b", "a", "c"].map deserModel
      = [exampleRecord "b", exampleRecord "a", exampleRecord "c"].map Except.ok ∧
    (∀ r ∈ [exampleRecord "b", exampleRecord "a", exampleRecord "c"], r.next = none) ∧
    ∃ orig s1 l, MEROgetStatus (fun _ _ => .ok "OK\nb\na\nc") deserModel qsortModel
        exampleGlobals none emptyProc = .ret (.ok orig) s1 ∧
      IsChain s1.heap orig l ∧
      (l.map (fun a => ({ s1.heap a with next := none } : sabdb))).Perm
        [exampleRecord "b", exampleRecord "a", exampleRecord "c"] ∧
      (l.map (fun a => (s1.heap a).dbname)).Pairwise (fun a b => strcmp a b ≤ 0) ∧
      ([exampleRecord "b", exampleRecord "a", exampleRecord "c"].map sabdb.dbname
          = ["b", "a", "c"] →
        l.map (fun a => (s1.heap a).dbname) = ["a", "b", "c"]) ∧
      (([exampleRecord "b", exampleRecord "a", exampleRecord "c"].map sabdb.dbname).Pairwise
          (fun a b => strcmp a b ≤ 0) →
        l.map (fun a => (s1.heap a).dbname)
          = [exampleRecord "b", exampleRecord "a", exampleRecord "c"].map sabdb.dbname) :=
  ⟨qsortModel_spec, rfl, by decide, rfl, by decide,
    MEROgetStatus_sorted_by_name (fun _ _ => .ok "OK\nb\na\nc") deserModel qsortModel
      exampleGlobals none emptyProc "OK\nb\na\nc" ["b", "a", "c"]
      [exampleRecord "b", exampleRecord "a", exampleRecord "c"] qsortModel_spec rfl (by decide)
      rfl (by decide)⟩

theorem getD_replicate_none : ∀ (n j : Nat),
    (List.replicate n (none : Option Nat)).getD j none = none
  | 0, _ => rfl
  | _ + 1, 0 => rfl
  | n + 1, j + 1 => getD_replicate_none n j

theorem readSlots_all_assigned :
    ∀ (xs : List (Option Nat)) (l : List Nat),
      xs.foldr (fun x acc => match x, acc with
        | some a, some l => some (a :: l)
        | _, _ => none) (some []) = some l → xs = l.map some
  | [], l, h => by
    have : l = [] := by simpa using h.symm
    rw [this]
    rfl
  | none :: xs, l, h => by simp at h
  | some a :: xs, l, h => by
    rw [List.foldr_cons] at h
    cases hx : xs.foldr (fun x acc => match x, acc with
        | some a, some l => some (a :: l)
        | _, _ => none) (some []) with
    | none => rw [hx] at h; simp at h
    | some l1 =>
      rw [hx] at h
      have e : l = a :: l1 := by simpa using h.symm
      rw [e, readSlots_all_assigned xs l1 hx]
      rfl

theorem readSlots_hole (sw : List (Option Nat)) (n k : Nat) (hk : k < n)
    (hole : sw.getD k none = none) : readSlots sw n = none := by
  unfold readSlots
  by_cases hn : n ≤ sw.length
  · rw [if_pos hn]
    cases hf : (sw.take n).foldr (fun x acc => match x, acc with
        | some a, some l => some (a :: l)
        | _, _ => none) (some []) with
    | none => rfl
    | some l =>
      exfalso
      have hmap := readSlots_all_assigned _ l hf
      have hlen : l.length = n := by
        have := congrArg List.length hmap
        simp only [List.length_take, List.length_map] at this
        omega
      have h1 : (sw.take n).getD k none = sw.getD k none := by
        simp [List.getD_eq_getElem?_getD, List.getElem?_take, hk]
      rw [hmap] at h1
      rw [hole] at h1
      have hkl : k < l.length := by omega
      simp [List.getD_eq_getElem?_getD, List.getElem?_map, List.getElem?_eq_getElem hkl] at h1
  · rw [if_neg hn]

theorem MEROgetStatus.finish_hole (qsort : (Nat → Nat → Int) → List Nat → List Nat)
    (v : StatusVars) (s : Proc) (k : Nat) (hk : k < v.swpos)
    (hole : v.sw.getD k none = none) :
    MEROgetStatus.finish qsort v s = .fault .undefinedBehaviour := by
  unfold MEROgetStatus.finish
  by_cases h2 : v.swpos > 1
  · rw [if_pos h2, readSlots_hole v.sw v.swpos k hk hole]
  · have h1 : v.swpos = 1 := by omega
    rw [if_neg h2, if_pos h1, readSlots_hole v.sw 1 k (by omega) hole]

theorem MEROgetStatus.collect_hole (deser : String → Except String sabdb) :
    ∀ (ps : List String) (v : StatusVars) (s : Proc),
      (∀ j, v.swpos ≤ j → v.sw.getD j none = none) →
      ((∃ k, k < v.swpos ∧ v.sw.getD k none = none) ∨ ∃ p ∈ ps, ∃ e, deser p = .error e) →
      MEROgetStatus.collect deser ps v s = .error .undefinedBehaviour ∨
        ∃ v1 s1, MEROgetStatus.collect deser ps v s = .ok (v1, s1) ∧
          ∃ k, k < v1.swpos ∧ v1.sw.getD k none = none
  | [], v, s, _, h => by
    rcases h with h | ⟨p, hp, _⟩
    · exact Or.inr ⟨v, s, rfl, h⟩
    · exact absurd hp (by simp)
  | p :: ps, v, s, hfree, h => by
    rw [MEROgetStatus.collect]
    cases hd : deser p with
    | error e =>
      simp only []
      refine MEROgetStatus.collect_hole deser ps _ _ (fun j hj => hfree j (by simp at hj; omega))
        (Or.inl ⟨v.swpos, by simp, hfree v.swpos (le_refl _)⟩)
    | ok r =>
      simp only [Proc.alloc]
      have hgrow : ∀ j, ((if v.swpos = v.swlen then
          ({ v with sw := v.sw ++ List.replicate v.swlen none, swlen := v.swlen * 2 } : StatusVars)
          else v).sw.getD j none = none ↔ v.sw.getD j none = none) ∨
          (v.sw.getD j none = none ∧ (if v.swpos = v.swlen then
          ({ v with sw := v.sw ++ List.replicate v.swlen none, swlen := v.swlen * 2 } : StatusVars)
          else v).sw.getD j none = none) := by
        intro j
        by_cases hfull : v.swpos = v.swlen
        · rw [if_pos hfull]
          by_cases hj : j < v.sw.length
          · left
            simp [List.getD_eq_getElem?_getD, List.getElem?_append_left hj]
          · right
            constructor
            · simp [List.getD_eq_getElem?_getD, List.getElem?_eq_none (by omega : v.sw.length ≤ j)]
            · have := getD_replicate_none v.swlen (j - v.sw.length)
              simp only [List.getD_eq_getElem?_getD] at this ⊢
              rw [List.getElem?_append_right (by omega)]
              exact this
        · left
          rw [if_neg hfull]
      have hpos : (if v.swpos = v.swlen then
          ({ v with sw := v.sw ++ List.replicate v.swlen none, swlen := v.swlen * 2 } : StatusVars)
          else v).swpos = v.swpos := by
        split <;> rfl
      have hkeep : ∀ j, v.sw.getD j none = none → (if v.swpos = v.swlen then
          ({ v with sw := v.sw ++ List.replicate v.swlen none, swlen := v.swlen * 2 } : StatusVars)
          else v).sw.getD j none = none := by
        intro j hj
        rcases hgrow j with h1 | h1
        · exact h1.2 hj
        · exact h1.2
      generalize hv2 : (if v.swpos = v.swlen then
          ({ v with sw := v.sw ++ List.replicate v.swlen none, swlen := v.swlen * 2 } : StatusVars)
          else v) = v2 at hpos hkeep
      split
      · have hh : (∃ k, k < v.swpos ∧ v.sw.getD k none = none) ∨
            ∃ q ∈ ps, ∃ e, deser q = .error e := by
          rcases h with h | ⟨q, hq, e, he⟩
          · exact Or.inl h
          · rcases List.mem_cons.1 hq with rfl | hq1
            · rw [hd] at he
              cases he
            · exact Or.inr ⟨q, hq1, e, he⟩
        refine MEROgetStatus.collect_hole deser ps _ _ ?_ ?_
        · intro j hj
          have hj1 : v2.swpos + 1 ≤ j := hj
          have hne : v2.swpos ≠ j := by omega
          simp only [List.getD_eq_getElem?_getD, List.getElem?_set_ne hne]
          have := hkeep j (hfree j (by omega))
          simpa [List.getD_eq_getElem?_getD] using this
        · rcases hh with ⟨k, hk, hole⟩ | hh
          · refine Or.inl ⟨k, ?_, ?_⟩
            · show k < v2.swpos + 1
              omega
            · have hne : v2.swpos ≠ k := by omega
              simp only [List.getD_eq_getElem?_getD, List.getElem?_set_ne hne]
              have := hkeep k hole
              simpa [List.getD_eq_getElem?_getD] using this
          · exact Or.inr hh
      · exact Or.inl rfl

/-- A success response with at least one record line that fails to
deserialise never yields a defined result: a slot of `sw` below `swpos` stays
unassigned and is read afterwards. -/
theorem MEROgetStatus.fault_of_bad_record
    (control_send : List Request → Request → Except String String)
    (deser : String → Except String sabdb) (qsort : (Nat → Nat → Int) → List Nat → List Nat)
    (g : Globals) (database : Option String) (s : Proc) (buf : String) (lines : List String)
    (hsend : control_send s.sent (statusRequest g database) = .ok buf)
    (htok : strtokLines buf = "OK" :: lines)
    (hbad : ∃ p ∈ lines, ∃ e, deser p = .error e) :
    MEROgetStatus control_send deser qsort g database s = .fault .undefinedBehaviour := by
  unfold MEROgetStatus
  simp only [hsend, htok]
  have hok : strcmp "OK" "OK" = 0 := (strcmp_eq_zero_iff _ _).2 rfl
  rw [if_neg (by simp [hok])]
  have hfree : ∀ j, (0 : Nat) ≤ j → (List.replicate 50 (none : Option Nat)).getD j none = none := by
    intro j _
    exact getD_replicate_none 50 j
  rcases MEROgetStatus.collect_hole deser lines
      { sw := List.replicate 50 none, swlen := 50, swpos := 0 }
      { s with sent := s.sent ++ [statusRequest g database] } hfree (Or.inr hbad) with h | h
  · rw [h]
  · obtain ⟨v1, s1, hrun, k, hk, hole⟩ := h
    rw [hrun]
    exact MEROgetStatus.finish_hole qsort v1 s1 k hk hole

/-- C6 (defect): a record line that fails to deserialise is not skipped
cleanly. On the response `OK`, `!x`, `b`, whose first record does not parse
and whose second does, the loop's `continue` still advances `swpos`, slot 0 of
`sw` is never assigned, and sorting `sw[0 .. 2)` reads it: the run has no
defined result instead of returning the one good record. -/
theorem MEROgetStatus_skip_leaves_hole (qsort : (Nat → Nat → Int) → List Nat → List Nat) :
    deserModel "!x" = .error "bad record" ∧ deserModel "b" = .ok (exampleRecord "b") ∧
    MEROgetStatus (fun _ _ => .ok "OK\n!x\nb") deserModel qsort exampleGlobals none emptyProc
      = .fault .undefinedBehaviour :=
  ⟨rfl, rfl, rfl⟩

/-! ## simple_argv_cmd -/

theorem simple_argv_cmd.announce_frame (g : Globals) (premsg : Option String) (dbname : String)
    (s : Proc) :
    (simple_argv_cmd.announce g premsg dbname s).sent = s.sent ∧
    (simple_argv_cmd.announce g premsg dbname s).heap = s.heap ∧
    (simple_argv_cmd.announce g premsg dbname s).brk = s.brk := by
  unfold simple_argv_cmd.announce
  cases premsg with
  | none => exact ⟨rfl, rfl, rfl⟩
  | some pm =>
    simp only []
    split <;> exact ⟨rfl, rfl, rfl⟩

theorem simple_argv_cmd.failed_frame (g : Globals) (premsg : Option String) (s : Proc) :
    (simple_argv_cmd.failed g premsg s).sent = s.sent ∧
    (simple_argv_cmd.failed g premsg s).heap = s.heap ∧
    (simple_argv_cmd.failed g premsg s).brk = s.brk := by
  unfold simple_argv_cmd.failed
  split <;> exact ⟨rfl, rfl, rfl⟩

theorem simple_argv_cmd.succeeded_frame (g : Globals) (successmsg premsg : Option String)
    (dbname : String) (s : Proc)
    (hmsg : premsg ≠ none ∨ successmsg ≠ none ∨ g.monetdb_quiet = true) :
    ∃ s1, simple_argv_cmd.succeeded g successmsg premsg dbname s = .ok s1 ∧
      s1.sent = s.sent ∧ s1.heap = s.heap ∧ s1.brk = s.brk := by
  unfold simple_argv_cmd.succeeded
  by_cases hq : g.monetdb_quiet = true
  · rw [if_pos hq]
    exact ⟨s, rfl, rfl, rfl, rfl⟩
  · rw [if_neg hq]
    cases premsg with
    | some pm => exact ⟨_, rfl, rfl, rfl, rfl⟩
    | none =>
      cases successmsg with
      | some sm => exact ⟨_, rfl, rfl, rfl, rfl⟩
      | none =>
        rcases hmsg with h | h | h
        · exact absurd rfl h
        · exact absurd rfl h
        · exact absurd h hq

theorem Int.lor_one_of_bit {state : Int} (h : state = 0 ∨ state = 1) : Int.lor state 1 = 1 := by
  rcases h with rfl | rfl <;> rfl

theorem simple_argv_cmd.loop_ok (cs : List Request → Request → Except String String)
    (g : Globals) (cmd merocmd : String) (successmsg premsg : Option String)
    (hmsg : premsg ≠ none ∨ successmsg ≠ none ∨ g.monetdb_quiet = true) (h0 : Heap) :
    ∀ (l : List Nat) (bodies : List String) (dbs : Option Nat) (state hadwork : Int) (s : Proc)
      (fuel : Nat), s.heap = h0 → IsChain h0 dbs l →
      responses cs s.sent (l.map (fun d => commandRequest g (h0 d).dbname merocmd))
        = bodies.map Except.ok →
      l.length < fuel → (state = 0 ∨ state = 1) →
      ∃ s1, simple_argv_cmd.loop cs g cmd merocmd successmsg premsg fuel dbs state hadwork s
          = .ret (if ∀ b ∈ bodies, b = "OK" then state else 1, if l = [] then hadwork else 1) s1 ∧
        s1.sent = s.sent ++ l.map (fun d => commandRequest g (h0 d).dbname merocmd) ∧
        s1.heap = h0 ∧ s1.brk = s.brk
  | [], bodies, dbs, state, hadwork, s, fuel + 1, hh, hc, hr, _, _ => by
    have hd : dbs = none := hc
    have hb : bodies = [] := by
      cases bodies with
      | nil => rfl
      | cons b bs => simp [responses] at hr
    subst hd hb
    exact ⟨s, by simp [simple_argv_cmd.loop], by simp, hh, rfl⟩
  | d :: l, bodies, dbs, state, hadwork, s, fuel + 1, hh, hc, hr, hf, hst => by
    have hd : dbs = some d := hc.1
    subst hd
    cases bodies with
    | nil => simp [responses] at hr
    | cons b bs =>
      simp only [List.map_cons, responses, List.cons.injEq] at hr
      obtain ⟨hr1, hr2⟩ := hr
      obtain ⟨ha1, ha2, ha3⟩ := simple_argv_cmd.announce_frame g premsg (h0 d).dbname s
      have hf1 : l.length < fuel := by simpa using hf
      rw [simple_argv_cmd.loop]
      simp only [hh, ha1, hr1]
      by_cases hok : strcmp b "OK" = 0
      · have hb : b = "OK" := (strcmp_eq_zero_iff _ _).1 hok
        rw [if_pos hok]
        obtain ⟨s2, hs2, hs2a, hs2b, hs2c⟩ := simple_argv_cmd.succeeded_frame g successmsg premsg
          (h0 d).dbname
          { simple_argv_cmd.announce g premsg (h0 d).dbname s with
            sent := s.sent ++ [commandRequest g (h0 d).dbname merocmd] } hmsg
        rw [hs2]
        simp only []
        have hh2 : s2.heap = h0 := hs2b.trans (ha2.trans hh)
        obtain ⟨s3, hrun, hsent, hheap, hbrk⟩ :=
          simple_argv_cmd.loop_ok cs g cmd merocmd successmsg premsg hmsg h0 l bs (h0 d).next
            state 1 s2 fuel hh2 hc.2 (by rw [hs2a]; exact hr2) hf1 hst
        refine ⟨s3, ?_, ?_, hheap, ?_⟩
        · rw [hh2, hrun]
          simp [hb]
        · rw [hsent, hs2a]
          simp
        · rw [hbrk, hs2c]
          exact ha3
      · have hb : ¬ b = "OK" := fun e => hok ((strcmp_eq_zero_iff _ _).2 e)
        rw [if_neg hok]
        obtain ⟨hf1a, hf2a, hf3a⟩ := simple_argv_cmd.failed_frame g premsg
          { simple_argv_cmd.announce g premsg (h0 d).dbname s with
            sent := s.sent ++ [commandRequest g (h0 d).dbname merocmd] }
        obtain ⟨s3, hrun, hsent, hheap, hbrk⟩ :=
          simple_argv_cmd.loop_ok cs g cmd merocmd successmsg premsg hmsg h0 l bs (h0 d).next
            (Int.lor state 1) 1
            ((simple_argv_cmd.failed g premsg
              { simple_argv_cmd.announce g premsg (h0 d).dbname s with
                sent := s.sent ++ [commandRequest g (h0 d).dbname merocmd] }).eprintf
              (cmd ++ ": " ++ b ++ "\n")) fuel
            (hf2a.trans (ha2.trans hh)) hc.2
            (by
              show responses cs (simple_argv_cmd.failed g premsg _).sent _ = _
              rw [hf1a]
              exact hr2)
            hf1 (Or.inr (Int.lor_one_of_bit hst))
        refine ⟨s3, ?_, ?_, hheap, ?_⟩
        · have e1 : ((simple_argv_cmd.failed g premsg
              { simple_argv_cmd.announce g premsg (h0 d).dbname s with
                sent := s.sent ++ [commandRequest g (h0 d).dbname merocmd] }).eprintf
              (cmd ++ ": " ++ b ++ "\n")).heap = h0 := hf2a.trans (ha2.trans hh)
          simp only [e1]
          rw [hrun]
          simp [hb, Int.lor_one_of_bit hst]
        · rw [hsent]
          show (simple_argv_cmd.failed g premsg _).sent ++ _ = _
          rw [hf1a]
          simp
        · rw [hbrk]
          show (simple_argv_cmd.failed g premsg _).brk = _
          rw [hf3a]
          exact ha3

theorem responses_length (cs : List Request → Request → Except String String) :
    ∀ (reqs sent : List Request), (responses cs sent reqs).length = reqs.length
  | [], _ => rfl
  | r :: rs, sent => by simp [responses, responses_length cs rs]

theorem simple_argv_cmd.loop_transport (cs : List Request → Request → Except String String)
    (g : Globals) (cmd merocmd : String) (successmsg premsg : Option String)
    (hmsg : premsg ≠ none ∨ successmsg ≠ none ∨ g.monetdb_quiet = true) (h0 : Heap)
    (d : Nat) (l2 : List Nat) (e : String) :
    ∀ (l1 : List Nat) (bodies : List String) (dbs : Option Nat) (state hadwork : Int) (s : Proc)
      (fuel : Nat), s.heap = h0 → IsChain h0 dbs (l1 ++ d :: l2) →
      responses cs s.sent ((l1 ++ [d]).map (fun d => commandRequest g (h0 d).dbname merocmd))
        = bodies.map Except.ok ++ [Except.error e] →
      (l1 ++ d :: l2).length < fuel →
      ∃ s1, simple_argv_cmd.loop cs g cmd merocmd successmsg premsg fuel dbs state hadwork s
          = .exit 2 s1 ∧
        s1.sent = s.sent ++ (l1 ++ [d]).map (fun d => commandRequest g (h0 d).dbname merocmd) ∧
        s1.heap = h0 ∧ s1.brk = s.brk
  | [], bodies, dbs, state, hadwork, s, fuel + 1, hh, hc, hr, _ => by
    have hd : dbs = some d := hc.1
    subst hd
    obtain ⟨ha1, ha2, ha3⟩ := simple_argv_cmd.announce_frame g premsg (h0 d).dbname s
    have hr1 : cs s.sent (commandRequest g (h0 d).dbname merocmd) = .error e := by
      cases bodies with
      | nil => simpa [responses] using hr
      | cons b bs =>
        have := congrArg List.length hr
        simp [responses] at this
    obtain ⟨hf1a, hf2a, hf3a⟩ := simple_argv_cmd.failed_frame g premsg
      { simple_argv_cmd.announce g premsg (h0 d).dbname s with
        sent := s.sent ++ [commandRequest g (h0 d).dbname merocmd] }
    refine ⟨(simple_argv_cmd.failed g premsg
      { simple_argv_cmd.announce g premsg (h0 d).dbname s with
        sent := s.sent ++ [commandRequest g (h0 d).dbname merocmd] }).eprintf
      (cmd ++ ": failed to perform command: " ++ e ++ "\n"), ?_, ?_, ?_, ?_⟩
    · rw [simple_argv_cmd.loop]
      simp only [hh, ha1, hr1]
    · show (simple_argv_cmd.failed g premsg _).sent = _
      rw [hf1a]
      simp
    · show (simple_argv_cmd.failed g premsg _).heap = _
      rw [hf2a]
      exact ha2.trans hh
    · show (simple_argv_cmd.failed g premsg _).brk = _
      rw [hf3a]
      exact ha3
  | a :: l1, bodies, dbs, state, hadwork, s, fuel + 1, hh, hc, hr, hf => by
    have hd : dbs = some a := hc.1
    subst hd
    obtain ⟨ha1, ha2, ha3⟩ := simple_argv_cmd.announce_frame g premsg (h0 a).dbname s
    have hf1 : (l1 ++ d :: l2).length < fuel := by simpa using hf
    cases bodies with
    | nil =>
      have := congrArg List.length hr
      rw [responses_length] at this
      simp at this
    | cons b bs =>
      simp only [List.cons_append, List.map_cons, responses, List.cons.injEq] at hr
      obtain ⟨hr1, hr2⟩ := hr
      rw [simple_argv_cmd.loop]
      simp only [hh, ha1, hr1]
      by_cases hok : strcmp b "OK" = 0
      · rw [if_pos hok]
        obtain ⟨s2, hs2, hs2a, hs2b, hs2c⟩ := simple_argv_cmd.succeeded_frame g successmsg premsg
          (h0 a).dbname
          { simple_argv_cmd.announce g premsg (h0 a).dbname s with
            sent := s.sent ++ [commandRequest g (h0 a).dbname merocmd] } hmsg
        rw [hs2]
        simp only []
        have hh2 : s2.heap = h0 := hs2b.trans (ha2.trans hh)
        obtain ⟨s3, hrun, hsent, hheap, hbrk⟩ :=
          simple_argv_cmd.loop_transport cs g cmd merocmd successmsg premsg hmsg h0 d l2 e l1 bs
            (h0 a).next state 1 s2 fuel hh2 hc.2 (by rw [hs2a]; exact hr2) hf1
        refine ⟨s3, ?_, ?_, hheap, ?_⟩
        · rw [hh2, hrun]
        · rw [hsent, hs2a]
          simp
        · rw [hbrk, hs2c]
          exact ha3
      · rw [if_neg hok]
        obtain ⟨hf1a, hf2a, hf3a⟩ := simple_argv_cmd.failed_frame g premsg
          { simple_argv_cmd.announce g premsg (h0 a).dbname s with
            sent := s.sent ++ [commandRequest g (h0 a).dbname merocmd] }
        obtain ⟨s3, hrun, hsent, hheap, hbrk⟩ :=
          simple_argv_cmd.loop_transport cs g cmd merocmd successmsg premsg hmsg h0 d l2 e l1 bs
            (h0 a).next (Int.lor state 1) 1
            ((simple_argv_cmd.failed g premsg
              { simple_argv_cmd.announce g premsg (h0 a).dbname s with
                sent := s.sent ++ [commandRequest g (h0 a).dbname merocmd] }).eprintf
              (cmd ++ ": " ++ b ++ "\n")) fuel
            (hf2a.trans (ha2.trans hh)) hc.2
            (by
              show responses cs (simple_argv_cmd.failed g premsg _).sent _ = _
              rw [hf1a]
              exact hr2)
            hf1
        refine ⟨s3, ?_, ?_, hheap, ?_⟩
        · have e1 : ((simple_argv_cmd.failed g premsg
              { simple_argv_cmd.announce g premsg (h0 a).dbname s with
                sent := s.sent ++ [commandRequest g (h0 a).dbname merocmd] }).eprintf
              (cmd ++ ": " ++ b ++ "\n")).heap = h0 := hf2a.trans (ha2.trans hh)
          simp only [e1]
          rw [hrun]
        · rw [hsent]
          show (simple_argv_cmd.failed g premsg _).sent ++ _ = _
          rw [hf1a]
          simp
        · rw [hbrk]
          show (simple_argv_cmd.failed g premsg _).brk = _
          rw [hf3a]
          exact ha3

/-- What `simple_argv_cmd` does when no request fails at transport level. -/
theorem simple_argv_cmd.dispatch_ok (cs : List Request → Request → Except String String)
    (g : Globals) (fuel : Nat) (cmd : String) (dbs : Option Nat) (merocmd : String)
    (successmsg premsg : Option String) (s : Proc) (l : List Nat) (bodies : List String)
    (hmsg : premsg ≠ none ∨ successmsg ≠ none ∨ g.monetdb_quiet = true)
    (hl : IsChain s.heap dbs l) (hf : l.length < fuel)
    (hr : responses cs s.sent (l.map (fun d => commandRequest g (s.heap d).dbname merocmd))
      = bodies.map Except.ok) :
    ∃ s1, simple_argv_cmd cs g fuel cmd dbs merocmd successmsg premsg s
        = (if l = [] then .exit 1 s1 else if ∀ b ∈ bodies, b = "OK" then .ret () s1
          else .exit 1 s1) ∧
      s1.sent = s.sent ++ l.map (fun d => commandRequest g (s.heap d).dbname merocmd) ∧
      s1.heap = s.heap ∧ s1.brk = s.brk := by
  obtain ⟨s1, hrun, hsent, hheap, hbrk⟩ :=
    simple_argv_cmd.loop_ok cs g cmd merocmd successmsg premsg hmsg s.heap l bodies dbs 0 0 s
      fuel rfl hl hr hf (Or.inl rfl)
  unfold simple_argv_cmd
  rw [hrun]
  by_cases hnil : l = []
  · refine ⟨{ s1 with out := s1.out ++ command_help.text cmd }, ?_, hsent, hheap, hbrk⟩
    simp [hnil, command_help]
  · by_cases hall : ∀ b ∈ bodies, b = "OK"
    · refine ⟨s1, ?_, hsent, hheap, hbrk⟩
      simp only [if_neg hnil, if_pos hall]
      simp
    · refine ⟨s1, ?_, hsent, hheap, hbrk⟩
      simp only [if_neg hnil, if_neg hall]
      simp

/-- C7: for `simple_argv_cmd` over a non-empty target list with no transport
failure, the function returns normally (process exit status 0) if and only if
every response body is exactly `OK`; if some response differs, it exits with
status 1. -/
theorem simple_argv_cmd_exit_status (cs : List Request → Request → Except String String)
    (g : Globals) (fuel : Nat) (cmd : String) (dbs : Option Nat) (merocmd : String)
    (successmsg premsg : Option String) (s : Proc) (l : List Nat) (bodies : List String)
    (hmsg : premsg ≠ none ∨ successmsg ≠ none ∨ g.monetdb_quiet = true)
    (hl : IsChain s.heap dbs l) (hne : l ≠ []) (hf : l.length < fuel)
    (hr : responses cs s.sent (l.map (fun d => commandRequest g (s.heap d).dbname merocmd))
      = bodies.map Except.ok) :
    ((∃ s1, simple_argv_cmd cs g fuel cmd dbs merocmd successmsg premsg s = .ret () s1) ↔
      ∀ b ∈ bodies, b = "OK") ∧
    ((∃ b ∈ bodies, b ≠ "OK") →
      ∃ s1, simple_argv_cmd cs g fuel cmd dbs merocmd successmsg premsg s = .exit 1 s1) := by
  obtain ⟨s1, hrun, _⟩ := simple_argv_cmd.dispatch_ok cs g fuel cmd dbs merocmd successmsg premsg
    s l bodies hmsg hl hf hr
  rw [if_neg hne] at hrun
  by_cases hall : ∀ b ∈ bodies, b = "OK"
  · rw [if_pos hall] at hrun
    refine ⟨⟨fun _ => hall, fun _ => ⟨s1, hrun⟩⟩, ?_⟩
    rintro ⟨b, hb, hbne⟩
    exact absurd (hall b hb) hbne
  · rw [if_neg hall] at hrun
    refine ⟨⟨?_, fun h => absurd h hall⟩, fun _ => ⟨s1, hrun⟩⟩
    rintro ⟨s2, h2⟩
    rw [hrun] at h2
    cases h2

/-- Worked example for C7: targets a (answers `OK`) and bad (is refused). -/
theorem simple_argv_cmd_exit_status_witness :
    ((none : Option String) ≠ none ∨ some "locked" ≠ none ∨
      exampleGlobals.monetdb_quiet = true) ∧
    IsChain (exampleProc ["a", "bad"]).heap (some 0) [0, 1] ∧ ([0, 1] : List Nat) ≠ [] ∧
    [0, 1].length < 3 ∧
    responses controlModel (exampleProc ["a", "bad"]).sent
      ([0, 1].map (fun d => commandRequest exampleGlobals
        ((exampleProc ["a", "bad"]).heap d).dbname "lock"))
      = ["OK", "no such database: bad"].map Except.ok ∧
    ((∃ s1, simple_argv_cmd controlModel exampleGlobals 3 "lock" (some 0) "lock" (some "locked")
        none (exampleProc ["a", "bad"]) = .ret () s1) ↔
      ∀ b ∈ ["OK", "no such database: bad"], b = "OK") ∧
    ((∃ b ∈ ["OK", "no such database: bad"], b ≠ "OK") →
      ∃ s1, simple_argv_cmd controlModel exampleGlobals 3 "lock" (some 0) "lock" (some "locked")
        none (exampleProc ["a", "bad"]) = .exit 1 s1) :=
  ⟨Or.inr (Or.inl (by simp)), ⟨rfl, rfl, rfl⟩, by simp, by decide, rfl,
    simple_argv_cmd_exit_status controlModel exampleGlobals 3 "lock" (some 0) "lock"
      (some "locked") none (exampleProc ["a", "bad"]) [0, 1] ["OK", "no such database: bad"]
      (Or.inr (Or.inl (by simp))) ⟨rfl, rfl, rfl⟩ (by simp) (by decide) rfl⟩

/-- C8: if the request for a target fails at transport level, `simple_argv_cmd`
exits with status 2 and the requests issued are exactly those for the targets
up to and including the failing one, whatever the earlier answers were; no
request is issued for the targets `l2` after it. -/
theorem simple_argv_cmd_transport_abort (cs : List Request → Request → Except String String)
    (g : Globals) (fuel : Nat) (cmd : String) (dbs : Option Nat) (merocmd : String)
    (successmsg premsg : Option String) (s : Proc) (l1 : List Nat) (d : Nat) (l2 : List Nat)
    (bodies : List String) (e : String)
    (hmsg : premsg ≠ none ∨ successmsg ≠ none ∨ g.monetdb_quiet = true)
    (hl : IsChain s.heap dbs (l1 ++ d :: l2)) (hf : (l1 ++ d :: l2).length < fuel)
    (hr : responses cs s.sent
        ((l1 ++ [d]).map (fun d => commandRequest g (s.heap d).dbname merocmd))
      = bodies.map Except.ok ++ [Except.error e]) :
    ∃ s1, simple_argv_cmd cs g fuel cmd dbs merocmd successmsg premsg s = .exit 2 s1 ∧
      s1.sent = s.sent ++
        (l1 ++ [d]).map (fun d => commandRequest g (s.heap d).dbname merocmd) := by
  obtain ⟨s1, hrun, hsent, _⟩ :=
    simple_argv_cmd.loop_transport cs g cmd merocmd successmsg premsg hmsg s.heap d l2 e l1
      bodies dbs 0 0 s fuel rfl hl hr hf
  refine ⟨s1, ?_, hsent⟩
  unfold simple_argv_cmd
  rw [hrun]

/-- Worked example for C8: of the targets a, down, b the second cannot be reached. -/
theorem simple_argv_cmd_transport_abort_witness :
    ((none : Option String) ≠ none ∨ some "locked" ≠ none ∨
      exampleGlobals.monetdb_quiet = true) ∧
    IsChain (exampleProc ["a", "down", "b"]).heap (some 0) ([0] ++ 1 :: [2]) ∧
    ([0] ++ 1 :: [2]).length < 4 ∧
    responses controlModel (exampleProc ["a", "down", "b"]).sent
      (([0] ++ [1]).map (fun d => commandRequest exampleGlobals
        ((exampleProc ["a", "down", "b"]).heap d).dbname "lock"))
      = ["OK"].map Except.ok ++ [Except.error "cannot connect"] ∧
    ∃ s1, simple_argv_cmd controlModel exampleGlobals 4 "lock" (some 0) "lock" (some "locked")
        none (exampleProc ["a", "down", "b"]) = .exit 2 s1 ∧
      s1.sent = (exampleProc ["a", "down", "b"]).sent ++
        ([0] ++ [1]).map (fun d => commandRequest exampleGlobals
          ((exampleProc ["a", "down", "b"]).heap d).dbname "lock") :=
  ⟨Or.inr (Or.inl (by simp)), ⟨rfl, rfl, rfl, rfl⟩, by decide, rfl,
    simple_argv_cmd_transport_abort controlModel exampleGlobals 4 "lock" (some 0) "lock"
      (some "locked") none (exampleProc ["a", "down", "b"]) [0] 1 [2] ["OK"] "cannot connect"
      (Or.inr (Or.inl (by simp))) ⟨rfl, rfl, rfl, rfl⟩ (by decide) rfl⟩

/-- C9: application-level failures never abort sibling targets. When no
request fails at transport level, `simple_argv_cmd` ends by returning or by
`exit(1)`, and the requests it issued are exactly one per target, in
target-list order, however many answers are not `OK`. -/
theorem simple_argv_cmd_one_request_per_target
    (cs : List Request → Request → Except String String)
    (g : Globals) (fuel : Nat) (cmd : String) (dbs : Option Nat) (merocmd : String)
    (successmsg premsg : Option String) (s : Proc) (l : List Nat) (bodies : List String)
    (hmsg : premsg ≠ none ∨ successmsg ≠ none ∨ g.monetdb_quiet = true)
    (hl : IsChain s.heap dbs l) (hf : l.length < fuel)
    (hr : responses cs s.sent (l.map (fun d => commandRequest g (s.heap d).dbname merocmd))
      = bodies.map Except.ok) :
    ∃ s1, (simple_argv_cmd cs g fuel cmd dbs merocmd successmsg premsg s = .ret () s1 ∨
        simple_argv_cmd cs g fuel cmd dbs merocmd successmsg premsg s = .exit 1 s1) ∧
      s1.sent = s.sent ++ l.map (fun d => commandRequest g (s.heap d).dbname merocmd) := by
  obtain ⟨s1, hrun, hsent, _⟩ := simple_argv_cmd.dispatch_ok cs g fuel cmd dbs merocmd
    successmsg premsg s l bodies hmsg hl hf hr
  refine ⟨s1, ?_, hsent⟩
  rw [hrun]
  by_cases hnil : l = []
  · exact Or.inr (by rw [if_pos hnil])
  · rw [if_neg hnil]
    by_cases hall : ∀ b ∈ bodies, b = "OK"
    · exact Or.inl (by rw [if_pos hall])
    · exact Or.inr (by rw [if_neg hall])

/-- Worked example for C9: targets bad, a, bad2 with two refusals. -/
theorem simple_argv_cmd_one_request_per_target_witness :
    ((none : Option String) ≠ none ∨ some "locked" ≠ none ∨
      exampleGlobals.monetdb_quiet = true) ∧
    IsChain (exampleProc ["bad", "a", "bad"]).heap (some 0) [0, 1, 2] ∧
    [0, 1, 2].length < 4 ∧
    responses controlModel (exampleProc ["bad", "a", "bad"]).sent
      ([0, 1, 2].map (fun d => commandRequest exampleGlobals
        ((exampleProc ["bad", "a", "bad"]).heap d).dbname "lock"))
      = ["no such database: bad", "OK", "no such database: bad"].map Except.ok ∧
    ∃ s1, (simple_argv_cmd controlModel exampleGlobals 4 "lock" (some 0) "lock" (some "locked")
          none (exampleProc ["bad", "a", "bad"]) = .ret () s1 ∨
        simple_argv_cmd controlModel exampleGlobals 4 "lock" (some 0) "lock" (some "locked")
          none (exampleProc ["bad", "a", "bad"]) = .exit 1 s1) ∧
      s1.sent = (exampleProc ["bad", "a", "bad"]).sent ++
        [0, 1, 2].map (fun d => commandRequest exampleGlobals
          ((exampleProc ["bad", "a", "bad"]).heap d).dbname "lock") :=
  ⟨Or.inr (Or.inl (by simp)), ⟨rfl, rfl, rfl, rfl⟩, by decide, rfl,
    simple_argv_cmd_one_request_per_target controlModel exampleGlobals 4 "lock" (some 0) "lock"
      (some "locked") none (exampleProc ["bad", "a", "bad"]) [0, 1, 2]
      ["no such database: bad", "OK", "no such database: bad"]
      (Or.inr (Or.inl (by simp))) ⟨rfl, rfl, rfl, rfl⟩ (by decide) rfl⟩

/-- C10 (counterexample): the exit code of the empty-target guard is not
distinct from the aggregated-failure code. Dispatching `lock` to no target and
dispatching it to the single target bad, which is refused, end with the same
exit code. -/
theorem simple_argv_cmd_empty_code_not_distinct :
    ¬ ((simple_argv_cmd controlModel exampleGlobals 1 "lock" none "lock" (some "locked") none
          emptyProc).exitCode ≠
        (simple_argv_cmd controlModel exampleGlobals 2 "lock" (some 0) "lock" (some "locked") none
          (exampleProc ["bad"])).exitCode) :=
  fun h => h rfl

/-- C10 (amended): given an empty target list, `simple_argv_cmd` issues no
request, prints the usage text of the command (for the commands that reach it,
text that starts with `Usage: monetdb` and the command name) and exits with
code 1; this is also the code it exits with after an aggregated
application-level failure. -/
theorem simple_argv_cmd_empty_targets (cs : List Request → Request → Except String String)
    (g : Globals) (fuel : Nat) (cmd merocmd : String) (successmsg premsg : Option String)
    (s : Proc) (hfuel : 0 < fuel) :
    simple_argv_cmd cs g fuel cmd none merocmd successmsg premsg s
      = .exit 1 { s with out := s.out ++ command_help.text cmd } ∧
    (cmd ∈ ["create", "destroy", "lock", "release", "start", "stop", "kill"] →
      ∃ rest, (command_help.text cmd).head? = some ("Usage: monetdb " ++ cmd ++ rest)) ∧
    (∀ (dbs : Option Nat) (l : List Nat) (bodies : List String),
      (premsg ≠ none ∨ successmsg ≠ none ∨ g.monetdb_quiet = true) →
      IsChain s.heap dbs l → l.length < fuel →
      responses cs s.sent (l.map (fun d => commandRequest g (s.heap d).dbname merocmd))
        = bodies.map Except.ok →
      (∃ b ∈ bodies, b ≠ "OK") →
      (simple_argv_cmd cs g fuel cmd dbs merocmd successmsg premsg s).exitCode = some 1) := by
  obtain ⟨f, rfl⟩ : ∃ f, fuel = f + 1 := ⟨fuel - 1, by omega⟩
  refine ⟨?_, ?_, ?_⟩
  · simp [simple_argv_cmd, simple_argv_cmd.loop, command_help]
  · intro h
    simp only [List.mem_cons, List.mem_singleton, List.not_mem_nil, or_false] at h
    rcases h with rfl | rfl | rfl | rfl | rfl | rfl | rfl
    · exact ⟨" database [database ...]\n", rfl⟩
    · exact ⟨" [-f] database [database ...]\n", rfl⟩
    · exact ⟨" database [database ...]\n", rfl⟩
    · exact ⟨" database [database ...]\n", rfl⟩
    · exact ⟨" [-a] database [database ...]\n", rfl⟩
    · exact ⟨" [-a] database [database ...]\n", rfl⟩
    · exact ⟨" [-a] database [database ...]\n", rfl⟩
  · intro dbs l bodies hmsg hl hf hr hbad
    obtain ⟨s1, hrun, _⟩ := simple_argv_cmd.dispatch_ok cs g (f + 1) cmd dbs merocmd successmsg
      premsg s l bodies hmsg hl hf hr
    rw [hrun]
    by_cases hnil : l = []
    · rw [if_pos hnil]
      rfl
    · rw [if_neg hnil]
      have hall : ¬ ∀ b ∈ bodies, b = "OK" := by
        obtain ⟨b, hb, hbne⟩ := hbad
        exact fun h => hbne (h b hb)
      rw [if_neg hall]
      rfl

/-- Worked example for C10 (amended): `lock` dispatched to no target. -/
theorem simple_argv_cmd_empty_targets_witness :
    0 < 2 ∧
    simple_argv_cmd controlModel exampleGlobals 2 "lock" none "lock" (some "locked") none
        (exampleProc ["bad"])
      = .exit 1 { exampleProc ["bad"] with
          out := (exampleProc ["bad"]).out ++ command_help.text "lock" } ∧
    ("lock" ∈ ["create", "destroy", "lock", "release", "start", "stop", "kill"] →
      ∃ rest, (command_help.text "lock").head? = some ("Usage: monetdb " ++ "lock" ++ rest)) ∧
    (∀ (dbs : Option Nat) (l : List Nat) (bodies : List String),
      ((none : Option String) ≠ none ∨ some "locked" ≠ none ∨
        exampleGlobals.monetdb_quiet = true) →
      IsChain (exampleProc ["bad"]).heap dbs l → l.length < 2 →
      responses controlModel (exampleProc ["bad"]).sent
          (l.map (fun d => commandRequest exampleGlobals
            ((exampleProc ["bad"]).heap d).dbname "lock"))
        = bodies.map Except.ok →
      (∃ b ∈ bodies, b ≠ "OK") →
      (simple_argv_cmd controlModel exampleGlobals 2 "lock" dbs "lock" (some "locked") none
        (exampleProc ["bad"])).exitCode = some 1) :=
  ⟨by decide,
    simple_argv_cmd_empty_targets controlModel exampleGlobals 2 "lock" "lock" (some "locked")
      none (exampleProc ["bad"]) (by decide)⟩

/-! ## Shared facts for the commands -/

theorem SameData.records {h h1 : Heap} (a : SameData h h1) (l : List Nat) :
    recordsOf h1 l = recordsOf h l :=
  List.map_congr_left (fun x _ => a x)

theorem recordsOf_dbname (h : Heap) (l : List Nat) :
    (recordsOf h l).map sabdb.dbname = l.map (fun a => (h a).dbname) := by
  simp [recordsOf, List.map_map, Function.comp_def]

theorem recordsOf_length (h : Heap) (l : List Nat) : (recordsOf h l).length = l.length := by
  simp [recordsOf]

theorem fetchAll_ok (env : Env) (g : Globals) (who : String) (s : Proc) (recs : List sabdb)
    (hf : FetchOk env g s recs) :
    ∃ orig s1 l, fetchAll env g who s = .ret orig s1 ∧ IsChain s1.heap orig l ∧
      (recordsOf s1.heap l).Perm recs ∧ NameSorted (recordsOf s1.heap l) ∧
      s1.out = s.out ∧ s1.err = s.err ∧ s1.sent = s.sent ++ [statusRequest g none] := by
  obtain ⟨hq, hnext, buf, lines, hsend, htok, hdes⟩ := hf
  obtain ⟨orig, s1, l, hrun, hc, hperm, hsorted, _, _, _, ho, he, hs⟩ :=
    MEROgetStatus.fetch_spec env.control_send env.msab_deserialise env.qsort g none s buf lines
      recs hq hsend htok hdes hnext
  refine ⟨orig, s1, l, ?_, hc, hperm, ?_, ho, he, hs⟩
  · unfold fetchAll
    rw [hrun]
  · unfold NameSorted recordsOf
    rw [List.pairwise_map]
    rw [List.pairwise_map] at hsorted
    exact hsorted

theorem selectRef_map {α β : Type} (f : α → β) (m : String → α → Bool) (m1 : String → β → Bool)
    (hm : ∀ p a, m1 p (f a) = m p a) :
    ∀ (ps : List (Option String)) (l : List α),
      selectRef m1 ps (l.map f) = (selectRef m ps l).map f
  | [], _ => rfl
  | none :: ps, l => by simpa [selectRef] using selectRef_map f m m1 hm ps l
  | some p :: ps, l => by
    have e1 : (l.map f).filter (m1 p) = (l.filter (m p)).map f := by
      rw [List.filter_map]
      congr 1
      apply List.filter_congr
      intro a _
      simp [hm]
    have e2 : (l.map f).filter (fun e => !m1 p e) = (l.filter (fun e => !m p e)).map f := by
      rw [List.filter_map]
      congr 1
      apply List.filter_congr
      intro a _
      simp [hm]
    simp only [selectRef, e1, e2, List.map_append]
    rw [selectRef_map f m m1 hm ps]

theorem selectRef_no_match {α : Type} (m : String → α → Bool) :
    ∀ (ps : List (Option String)) (l : List α),
      (∀ p, some p ∈ ps → ∀ a ∈ l, m p a = false) → selectRef m ps l = []
  | [], _, _ => rfl
  | none :: ps, l, h => by
    rw [selectRef]
    exact selectRef_no_match m ps l (fun p hp => h p (by simp [hp]))
  | some p :: ps, l, h => by
    obtain ⟨h1, h2, _⟩ := filter_not_of_unmatched (m p) l (h p (by simp))
    rw [selectRef, h1, h2, List.nil_append]
    exact selectRef_no_match m ps l (fun q hq => h q (by simp [hq]))

/-- The selection step of the commands, stated on records. -/
theorem selectInto_spec (env : Env) (fuel : Nat) (argv : List (Option String))
    (orig : Option Nat) (cmd : String) (s : Proc) (l : List Nat)
    (hl : IsChain s.heap orig l) (hf : l.length < fuel) :
    ∃ top argv1 s1 sel, selectInto env fuel argv.length argv orig cmd s = .ret (top, argv1) s1 ∧
      IsChain s1.heap top sel ∧
      recordsOf s1.heap sel
        = selectRef (fun p (r : sabdb) => env.glob p r.dbname) argv.tail (recordsOf s.heap l) ∧
      sel.length ≤ l.length ∧
      s1.out = s.out ∧ s1.sent = s.sent ∧
      s1.err = s.err ++ warnRef (fun p a => env.glob p (s.heap a).dbname) cmd argv.tail l := by
  obtain ⟨r, s1, hrun, hres, _, hsame, _, _, he, ho, hs, _⟩ :=
    globMatchDBS.spec env.glob fuel argv orig cmd s l hl hf
  refine ⟨r.top, r.argv, s1, _, ?_, hres, ?_, ?_, ho, hs, he⟩
  · unfold selectInto
    rw [hrun]
    rfl
  · rw [hsame.records]
    unfold recordsOf
    rw [selectRef_map (fun a => ({ s.heap a with next := none } : sabdb))
      (fun p a => env.glob p (s.heap a).dbname) (fun p (r : sabdb) => env.glob p r.dbname)
      (fun _ _ => rfl)]
  · have hp := (selectRef_perm (fun p a => env.glob p (s.heap a).dbname) argv.tail l).length_eq
    rw [List.length_append] at hp
    omega

/-! ## The option loops on plain name arguments -/

theorem argvGet_append (pre : List (Option String)) (a : String) (rest : List (Option String)) :
    argvGet (pre ++ some a :: rest) pre.length = .ok a := by
  unfold argvGet
  rw [List.get?_append_cons]

theorem argvGet_zero (c : String) (rest : List (Option String)) :
    argvGet (some c :: rest) 0 = .ok c := rfl

theorem not_dashdash {a : String} (h : a.data.head? ≠ some '-') : strcmp a "--" ≠ 0 := by
  intro e
  rw [(strcmp_eq_zero_iff _ _).1 e] at h
  exact h rfl

theorem simple_command.options_plain_simple (before cmd : String) (argc : Nat) (s : Proc) :
    ∀ (names : List String) (pre : List (Option String)),
      (∀ a ∈ names, a.data.head? ≠ some '-') →
      simple_command.options before argc names.length (pre.length + 1)
          (some cmd :: pre ++ names.map some) s
        = .ret (some cmd :: pre ++ names.map some) s
  | [], _, _ => rfl
  | a :: names, pre, h => by
    have ha : a.data.head? ≠ some '-' := h a (by simp)
    have e1 : argvGet (some cmd :: pre ++ (a :: names).map some) (pre.length + 1) = .ok a := by
      have := argvGet_append (some cmd :: pre) a (names.map some)
      simpa using this
    have ih := simple_command.options_plain_simple before cmd argc s names (pre ++ [some a])
      (fun b hb => h b (by simp [hb]))
    have e2 : some cmd :: (pre ++ [some a]) ++ names.map some
        = some cmd :: pre ++ (a :: names).map some := by simp
    rw [e2] at ih
    simp only [List.length_append, List.length_singleton] at ih
    show simple_command.options before argc (names.length + 1) (pre.length + 1) _ s = _
    rw [simple_command.options, e1]
    simp only [List.cons_append, argvGet_zero, if_neg (not_dashdash ha), if_neg ha]
    exact ih

theorem command_destroy.options_plain_destroy (before cmd : String) (argc : Nat) (s : Proc)
    (force : Int) :
    ∀ (names : List String) (pre : List (Option String)),
      (∀ a ∈ names, a.data.head? ≠ some '-') →
      command_destroy.options before argc names.length (pre.length + 1) force
          (some cmd :: pre ++ names.map some) s
        = .ret (force, some cmd :: pre ++ names.map some) s
  | [], _, _ => rfl
  | a :: names, pre, h => by
    have ha : a.data.head? ≠ some '-' := h a (by simp)
    have e1 : argvGet (some cmd :: pre ++ (a :: names).map some) (pre.length + 1) = .ok a := by
      have := argvGet_append (some cmd :: pre) a (names.map some)
      simpa using this
    have ih := command_destroy.options_plain_destroy before cmd argc s force names (pre ++ [some a])
      (fun b hb => h b (by simp [hb]))
    have e2 : some cmd :: (pre ++ [some a]) ++ names.map some
        = some cmd :: pre ++ (a :: names).map some := by simp
    rw [e2] at ih
    simp only [List.length_append, List.length_singleton] at ih
    show command_destroy.options before argc (names.length + 1) (pre.length + 1) force _ s = _
    rw [command_destroy.options, e1]
    simp only [List.cons_append, argvGet_zero, if_neg (not_dashdash ha), if_neg ha]
    exact ih

theorem data_not_dash {a : String} (h : a.data.head? ≠ some '-') :
    a.data = [] ∨ ∃ c cs, a.data = c :: cs ∧ c ≠ '-' := by
  cases hd : a.data with
  | nil => exact Or.inl rfl
  | cons c cs =>
    refine Or.inr ⟨c, cs, rfl, ?_⟩
    intro e
    rw [hd, e] at h
    exact h rfl

theorem command_startstop.options_plain_startstop (type before cmd : String) (argc : Nat) (s : Proc)
    (doall : Int) :
    ∀ (names : List String) (pre : List (Option String)),
      (∀ a ∈ names, a.data.head? ≠ some '-') →
      command_startstop.options type before argc names.length (pre.length + 1) doall
          (some cmd :: pre ++ names.map some) s
        = .ret (doall, some cmd :: pre ++ names.map some) s
  | [], _, _ => rfl
  | a :: names, pre, h => by
    have ha : a.data.head? ≠ some '-' := h a (by simp)
    have e1 : argvGet (some cmd :: pre ++ (a :: names).map some) (pre.length + 1) = .ok a := by
      have := argvGet_append (some cmd :: pre) a (names.map some)
      simpa using this
    have ih := command_startstop.options_plain_startstop type before cmd argc s doall names
      (pre ++ [some a]) (fun b hb => h b (by simp [hb]))
    have e2 : some cmd :: (pre ++ [some a]) ++ names.map some
        = some cmd :: pre ++ (a :: names).map some := by simp
    rw [e2] at ih
    simp only [List.length_append, List.length_singleton] at ih
    show command_startstop.options type before argc (names.length + 1) (pre.length + 1) doall
      _ s = _
    rw [command_startstop.options, e1]
    simp only [List.cons_append, argvGet_zero]
    rcases data_not_dash ha with h0 | ⟨c, cs, h1, hc⟩
    · rw [h0]
      exact ih
    · rw [h1]
      split
      · rename_i heq
        exact absurd (List.cons.inj heq).1 hc
      · exact ih

/-! ## Fetching and selecting, and the way into a command -/

/-- The snapshot fetch followed by the selection, stated on records. -/
theorem fetch_select (env : Env) (g : Globals) (who cmd : String) (fuel : Nat)
    (argv : List (Option String)) (s : Proc) (recs : List sabdb)
    (hf : FetchOk env g s recs) (hfuel : recs.length < fuel) :
    ∃ orig s0 top argv1 s1 sel snap,
      fetchAll env g who s = .ret orig s0 ∧
      selectInto env fuel argv.length argv orig cmd s0 = .ret (top, argv1) s1 ∧
      IsChain s1.heap top sel ∧ snap.Perm recs ∧ NameSorted snap ∧
      recordsOf s1.heap sel = selectRef (fun p (r : sabdb) => env.glob p r.dbname) argv.tail snap ∧
      s1.out = s.out ∧ s1.sent = s.sent ++ [statusRequest g none] ∧
      sel.length ≤ recs.length := by
  obtain ⟨orig, s0, l, h0, hc, hperm, hsorted, ho, _, hs⟩ := fetchAll_ok env g who s recs hf
  have hll : l.length = recs.length := by
    rw [← recordsOf_length s0.heap l, hperm.length_eq]
  have hlen : l.length < fuel := by
    rw [hll]
    exact hfuel
  obtain ⟨top, argv1, s1, sel, h1, hsel, hrec, hle, ho1, hs1, _⟩ :=
    selectInto_spec env fuel argv orig cmd s0 l hc hlen
  exact ⟨orig, s0, top, argv1, s1, sel, _, h0, h1, hsel, hperm, hsorted, hrec,
    ho1.trans ho, hs1.trans hs, hll ▸ hle⟩

/-- When no pattern matches a record, the selection is empty. -/
theorem fetch_select_none (env : Env) (g : Globals) (who cmd c0 : String) (fuel : Nat)
    (names : List String) (s : Proc) (recs : List sabdb)
    (hf : FetchOk env g s recs) (hfuel : recs.length < fuel)
    (hno : ∀ p ∈ names, ∀ r ∈ recs, env.glob p r.dbname = false) :
    ∃ orig s0 argv1 s1,
      fetchAll env g who s = .ret orig s0 ∧
      selectInto env fuel (names.length + 1) (some c0 :: names.map some) orig cmd s0
        = .ret (none, argv1) s1 ∧
      s1.out = s.out ∧ s1.sent = s.sent ++ [statusRequest g none] := by
  obtain ⟨orig, s0, top, argv1, s1, sel, snap, h0, h1, hsel, hperm, _, hrec, ho, hs, _⟩ :=
    fetch_select env g who cmd fuel (some c0 :: names.map some) s recs hf hfuel
  have hnil : recordsOf s1.heap sel = [] := by
    rw [hrec]
    apply selectRef_no_match
    intro p hp r hr
    have hp1 : p ∈ names := by simpa using hp
    exact hno p hp1 r (hperm.subset hr)
  have hsel0 : sel = [] := by
    have := recordsOf_length s1.heap sel
    rw [hnil] at this
    exact List.length_eq_zero.1 this.symm
  rw [hsel0] at hsel
  have htop : top = none := by
    cases top with
    | none => rfl
    | some a => cases hsel
  rw [htop] at h1
  refine ⟨orig, s0, argv1, s1, h0, ?_, ho, hs⟩
  simpa using h1

theorem filter_length_split {α : Type} (p : α → Bool) (l : List α) :
    (l.filter p).length + (l.filter (fun a => !p a)).length = l.length := by
  induction l with
  | nil => rfl
  | cons a l ih =>
    simp only [List.filter_cons]
    cases h : p a <;> simp [h] <;> omega

/-- The selection holds as many entries as are matched by some pattern. -/
theorem selectRef_length {α : Type} (m : String → α → Bool) (ps : List (Option String))
    (l : List α) :
    (selectRef m ps l).length = (l.filter (fun e => !unmatched m ps e)).length := by
  have h1 := (selectRef_perm m ps l).length_eq
  rw [List.length_append, restRef_eq_filter] at h1
  have h2 := filter_length_split (fun e => unmatched m ps e) l
  omega

/-! ## Commands whose patterns match nothing -/

theorem simple_command.no_match_simple (env : Env) (g : Globals) (fuel : Nat) (before cmd : String)
    (merocmd successmsg : String) (names : List String) (s : Proc) (recs : List sabdb)
    (hnames : names ≠ []) (hplain : ∀ a ∈ names, a.data.head? ≠ some '-')
    (hf : FetchOk env g s recs) (hfuel : recs.length < fuel)
    (hno : ∀ p ∈ names, ∀ r ∈ recs, env.glob p r.dbname = false) :
    ∃ s1, simple_command env g fuel before (names.length + 1) (some cmd :: names.map some)
        merocmd successmsg true s = .exit 1 s1 ∧
      s1.out = s.out ∧ s1.sent = s.sent ++ [statusRequest g none] := by
  obtain ⟨orig, s0, argv1, s1, h0, h1, ho, hs⟩ :=
    fetch_select_none env g cmd cmd cmd fuel names s recs hf hfuel hno
  refine ⟨s1, ?_, ho, hs⟩
  have hopt := simple_command.options_plain_simple before cmd (names.length + 1) s names [] hplain
  simp only [List.length_nil, Nat.zero_add, List.append_nil, List.nil_append,
    List.cons_append] at hopt
  have hlen : names.length ≠ 0 := fun h => hnames (List.length_eq_zero.1 h)
  unfold simple_command
  simp only [argvGet_zero, Nat.add_sub_cancel, Nat.add_left_eq_self, hlen, if_false, hopt,
    if_true, h0, h1]

theorem command_destroy.no_match_destroy (env : Env) (g : Globals) (fuel : Nat) (before cmd : String)
    (names : List String) (s : Proc) (recs : List sabdb)
    (hnames : names ≠ []) (hplain : ∀ a ∈ names, a.data.head? ≠ some '-')
    (hf : FetchOk env g s recs) (hfuel : recs.length < fuel)
    (hno : ∀ p ∈ names, ∀ r ∈ recs, env.glob p r.dbname = false) :
    ∃ s1, command_destroy env g fuel before (names.length + 1) (some cmd :: names.map some) s
        = .exit 1 s1 ∧
      s1.out = s.out ∧ s1.sent = s.sent ++ [statusRequest g none] := by
  obtain ⟨orig, s0, argv1, s1, h0, h1, ho, hs⟩ :=
    fetch_select_none env g "destroy" "destroy" cmd fuel names s recs hf hfuel hno
  refine ⟨s1, ?_, ho, hs⟩
  have hopt := command_destroy.options_plain_destroy before cmd (names.length + 1) s 0 names [] hplain
  simp only [List.length_nil, Nat.zero_add, List.append_nil, List.nil_append,
    List.cons_append] at hopt
  have hlen : names.length ≠ 0 := fun h => hnames (List.length_eq_zero.1 h)
  unfold command_destroy
  simp only [argvGet_zero, Nat.add_sub_cancel, Nat.add_left_eq_self, hlen, if_false, hopt,
    h0, h1]

theorem command_startstop.no_match_startstop (env : Env) (g : Globals) (fuel : Nat) (before cmd : String)
    (mode : startstop) (names : List String) (s : Proc) (recs : List sabdb)
    (hnames : names ≠ []) (hplain : ∀ a ∈ names, a.data.head? ≠ some '-')
    (hf : FetchOk env g s recs) (hfuel : recs.length < fuel)
    (hno : ∀ p ∈ names, ∀ r ∈ recs, env.glob p r.dbname = false) :
    ∃ s1, command_startstop env g fuel before (names.length + 1) (some cmd :: names.map some)
        mode s = .ret () s1 ∧
      s1.out = s.out ∧ s1.sent = s.sent ++ [statusRequest g none] := by
  obtain ⟨orig, s0, argv1, s1, h0, h1, ho, hs⟩ :=
    fetch_select_none env g mode.type mode.type cmd fuel names s recs hf hfuel hno
  refine ⟨{ s1 with heap := s1.heap }, ?_, ho, hs⟩
  have hopt := command_startstop.options_plain_startstop mode.type before cmd (names.length + 1) s 0
    names [] hplain
  simp only [List.length_nil, Nat.zero_add, List.append_nil, List.nil_append,
    List.cons_append] at hopt
  have hlen : names.length ≠ 0 := fun h => hnames (List.length_eq_zero.1 h)
  obtain ⟨k, hk⟩ : ∃ k, fuel = k + 1 := ⟨fuel - 1, by omega⟩
  have hprune : ∀ h : Heap, command_startstop.prune 0 mode fuel
      { heap := h, orig := none, prev := none, stats := none }
      = .ok { heap := h, orig := none, prev := none, stats := none } := by
    intro h
    rw [hk]
    rfl
  unfold command_startstop
  simp only [Nat.add_left_eq_self, hlen, if_false, Nat.add_sub_cancel, hopt, h0,
    Nat.add_eq_zero, one_ne_zero, and_false]
  simp only [ne_eq, zero_ne_one, not_false_eq_true, if_true, h1, hprune, not_true_eq_false,
    if_false]

/-! ## Exit codes of an empty selection -/

/-- C11, counterexample: `monetdb start nosuch` against a snapshot that has
only `db1` matches no instance, and the process ends with exit code 0, not 1. -/
theorem start_no_match_exit_zero :
    (main (exampleEnv "OK\nrdb1") 10 3 ["monetdb", "start", "nosuch"] emptyProc).result.status
      = some 0 := by
  rfl

/-- C11, amended: when the name patterns given to a batch command match no
instance of the snapshot, `lock`, `release` and `destroy` end the process
with exit code 1, `start`, `stop` and `kill` end it with exit code 0, and in
each case the status request is the only request sent. -/
theorem empty_selection_exit_codes (env : Env) (g : Globals) (fuel : Nat) (before cmd : String)
    (names : List String) (s : Proc) (recs : List sabdb)
    (hcmd : cmd ∈ ["lock", "release", "destroy", "start", "stop", "kill"])
    (hnames : names ≠ []) (hplain : ∀ a ∈ names, a.data.head? ≠ some '-')
    (hf : FetchOk env g s recs) (hfuel : recs.length < fuel)
    (hno : ∀ p ∈ names, ∀ r ∈ recs, env.glob p r.dbname = false) :
    (main.dispatch env g fuel before cmd (names.length + 1) (some cmd :: names.map some) s).status
        = some (if cmd ∈ ["lock", "release", "destroy"] then 1 else 0) ∧
      (main.dispatch env g fuel before cmd (names.length + 1) (some cmd :: names.map some) s).sent
        = s.sent ++ [statusRequest g none] := by
  simp only [List.mem_cons, List.mem_singleton, List.not_mem_nil, or_false] at hcmd
  rcases hcmd with h | h | h | h | h | h <;> subst h
  · obtain ⟨s1, h1, _, hs⟩ := simple_command.no_match_simple env g fuel before "lock" "lock"
      "put database under maintenance" names s recs hnames hplain hf hfuel hno
    have e : main.dispatch env g fuel before "lock" (names.length + 1)
        (some "lock" :: names.map some) s = .exit 1 s1 := by
      simp [main.dispatch, strcmp_eq_zero_iff, command_lock, h1, main.after]
    rw [e]
    exact ⟨by simp [Res.status], hs⟩
  · obtain ⟨s1, h1, _, hs⟩ := simple_command.no_match_simple env g fuel before "release" "release"
      "taken database out of maintenance mode" names s recs hnames hplain hf hfuel hno
    have e : main.dispatch env g fuel before "release" (names.length + 1)
        (some "release" :: names.map some) s = .exit 1 s1 := by
      simp [main.dispatch, strcmp_eq_zero_iff, command_release, h1, main.after]
    rw [e]
    exact ⟨by simp [Res.status], hs⟩
  · obtain ⟨s1, h1, _, hs⟩ := command_destroy.no_match_destroy env g fuel before "destroy"
      names s recs hnames hplain hf hfuel hno
    have e : main.dispatch env g fuel before "destroy" (names.length + 1)
        (some "destroy" :: names.map some) s = .exit 1 s1 := by
      simp [main.dispatch, strcmp_eq_zero_iff, h1, main.after]
    rw [e]
    exact ⟨by simp [Res.status], hs⟩
  · obtain ⟨s1, h1, _, hs⟩ := command_startstop.no_match_startstop env g fuel before "start" .START
      names s recs hnames hplain hf hfuel hno
    have e : main.dispatch env g fuel before "start" (names.length + 1)
        (some "start" :: names.map some) s = .ret 0 s1 := by
      simp [main.dispatch, strcmp_eq_zero_iff, h1, main.after]
    rw [e]
    exact ⟨by simp [Res.status], hs⟩
  · obtain ⟨s1, h1, _, hs⟩ := command_startstop.no_match_startstop env g fuel before "stop" .STOP
      names s recs hnames hplain hf hfuel hno
    have e : main.dispatch env g fuel before "stop" (names.length + 1)
        (some "stop" :: names.map some) s = .ret 0 s1 := by
      simp [main.dispatch, strcmp_eq_zero_iff, h1, main.after]
    rw [e]
    exact ⟨by simp [Res.status], hs⟩
  · obtain ⟨s1, h1, _, hs⟩ := command_startstop.no_match_startstop env g fuel before "kill" .KILL
      names s recs hnames hplain hf hfuel hno
    have e : main.dispatch env g fuel before "kill" (names.length + 1)
        (some "kill" :: names.map some) s = .ret 0 s1 := by
      simp [main.dispatch, strcmp_eq_zero_iff, h1, main.after]
    rw [e]
    exact ⟨by simp [Res.status], hs⟩

/-- Worked example for C11 (amended): `lock nosuch` against a snapshot that
has only `db1`. -/
theorem empty_selection_exit_codes_witness :
    "lock" ∈ ["lock", "release", "destroy", "start", "stop", "kill"] ∧
    FetchOk (exampleEnv "OK\nrdb1") exampleGlobals emptyProc
      [{ exampleRecord "db1" with state := .SABdbRunning }] ∧
    (∀ p ∈ ["nosuch"], ∀ r ∈ [{ exampleRecord "db1" with state := SABdbState.SABdbRunning }],
      (exampleEnv "OK\nrdb1").glob p r.dbname = false) ∧
    (main.dispatch (exampleEnv "OK\nrdb1") exampleGlobals 2 "monetdb" "lock" (["nosuch"].length + 1)
        (some "lock" :: ["nosuch"].map some) emptyProc).status
      = some (if "lock" ∈ ["lock", "release", "destroy"] then 1 else 0) ∧
    (main.dispatch (exampleEnv "OK\nrdb1") exampleGlobals 2 "monetdb" "lock" (["nosuch"].length + 1)
        (some "lock" :: ["nosuch"].map some) emptyProc).sent
      = emptyProc.sent ++ [statusRequest exampleGlobals none] :=
  ⟨by decide, ⟨qsortModel_spec, by simp [exampleRecord], "OK\nrdb1", ["rdb1"], rfl, by decide, rfl⟩,
    by decide,
    empty_selection_exit_codes (exampleEnv "OK\nrdb1") exampleGlobals 2 "monetdb" "lock"
      ["nosuch"] emptyProc [{ exampleRecord "db1" with state := .SABdbRunning }]
      (by decide) (by simp) (by decide)
      ⟨qsortModel_spec, by simp [exampleRecord], "OK\nrdb1", ["rdb1"], rfl, by decide, rfl⟩
      (by decide) (by decide)⟩

/-! ## Runs of the program on concrete inputs -/

/-- C14: `monetdb set name=new -- db1` with `db1` in the snapshot selects exactly
one target, yet the one request sent to `db1` carries the empty verb instead
of the argument `name=new`: the option scan left `p` at the end of `--`. -/
theorem set_rename_after_terminator_sends_empty_verb :
    (main (exampleEnv "OK\nrdb1") 10 5 ["monetdb", "set", "name=new", "--", "db1"]
        emptyProc).result.sent.map (fun (q : Request) => (q.database, q.command))
      = [("#all", "status"), ("db1", "")] := by
  rfl

/-- C19: `monetdb status` against a snapshot whose only instance `db1` is in
the unknown state and not locked prints the header and no line for `db1`. -/
theorem status_omits_unknown_state :
    (main (exampleEnv "OK\nudb1") 10 2 ["monetdb", "status"] emptyProc).result.out
      = ["     name       ", " state     uptime       health       last crash\n"] := by
  rfl

/-- C13, counterexample: in `monetdb set a=b down db2` the request for the
first target `down` fails at transport level; the request for `db2` is still
sent and the process ends with exit code 1, not 2. -/
theorem set_continues_after_transport_failure :
    (main (exampleEnv "OK\nsdown\nsdb2") 10 5 ["monetdb", "set", "a=b", "down", "db2"]
        emptyProc).result.sent.map (fun (q : Request) => (q.database, q.command))
      = [("#all", "status"), ("down", "a=b"), ("db2", "a=b")] ∧
    (main (exampleEnv "OK\nsdown\nsdb2") 10 5 ["monetdb", "set", "a=b", "down", "db2"]
        emptyProc).result.status = some 1 := by
  exact ⟨rfl, rfl⟩

/-- C17, counterexample: when no socket answers the ping and the directory
cannot be opened, `monetdb status` ends with exit code 1, not 2. -/
theorem no_socket_exit_one :
    (main { exampleEnv "OK\n" with control_ping := fun _ => -1 } 10 2 ["monetdb", "status"]
        emptyProc).result.status = some 1 := by
  rfl

/-- C18, counterexample: for the snapshot with `a` stopped and `b` running,
`monetdb status` prints the line of `b` before the line of `a`. -/
theorem status_running_before_stopped :
    (main (exampleEnv "OK\nsa\nrb") 10 2 ["monetdb", "status"] emptyProc).result.out
      = ["     name       ", " state     uptime       health       last crash\n",
         "b               running           1s", "\n",
         "a               stopped             ", "\n"] := by
  rfl

/-- C20, counterexample: `monetdb create` lacks its required argument and ends
with exit code 1, but only after the socket `/tmp/.s.merovingian.50001` has
been probed with `control_ping`. -/
theorem create_usage_error_after_ping :
    (main (exampleEnv "OK\n") 10 2 ["monetdb", "create"] emptyProc).pings
      = ["/tmp/.s.merovingian.50001"] ∧
    (main (exampleEnv "OK\n") 10 2 ["monetdb", "create"] emptyProc).result.status = some 1 := by
  exact ⟨rfl, rfl⟩

/-! ## The way through `main` -/

theorem main.options_parsed (env : Env) (argc : Nat) :
    ∀ (n i : Nat) (g : Globals) (argv : List String) (s : Proc) (j : Nat) (g1 : Globals)
      (argv1 : List String) (s1 : Proc),
      main.options env argc n i g argv s = .ret (.parsed j g1 argv1) s1 →
      argv1.length = argv.length ∧ i ≤ j ∧ s1 = s
  | 0, i, g, argv, s, j, g1, argv1, s1, h => by
    rw [main.options] at h
    cases h
    exact ⟨rfl, le_refl _, rfl⟩
  | n + 1, i, g, argv, s, j, g1, argv1, s1, h => by
    have ih := fun i g argv s => main.options_parsed env argc n i g argv s j g1 argv1 s1
    have fin : ∀ {i0 : Nat} {g0 : Globals} {argv0 : List String} {s0 : Proc},
        (Res.ret (MainOpts.parsed i0 g0 argv0) s0 : Res MainOpts)
          = .ret (.parsed j g1 argv1) s1 →
        argv1.length = argv0.length ∧ i0 ≤ j ∧ s1 = s0 := by
      intro i0 g0 argv0 s0 h
      cases h
      exact ⟨rfl, le_refl _, rfl⟩
    have stp : ∀ {i0 : Nat} {g0 : Globals} {argv0 : List String},
        i < i0 → argv0.length = argv.length →
        main.options env argc n i0 g0 argv0 s = .ret (.parsed j g1 argv1) s1 →
        argv1.length = argv.length ∧ i ≤ j ∧ s1 = s := by
      intro i0 g0 argv0 hi hl h
      obtain ⟨a, b, c⟩ := ih _ _ _ _ h
      exact ⟨a.trans hl, by omega, c⟩
    rw [main.options] at h
    by_cases hgt : argc > i
    · rw [if_neg (not_not.2 hgt)] at h
      cases hget : argv.get? i with
      | none =>
        rw [hget] at h
        cases h
      | some a =>
        rw [hget] at h
        dsimp only at h
        by_cases hd : a.data.head? ≠ some '-'
        · rw [if_pos hd] at h
          exact fin h
        · rw [if_neg hd] at h
          split_ifs at h <;>
            first
            | exact stp (by omega) (by simp) h
            | cases h
            | (split at h <;>
                first
                | exact stp (by omega) (by simp) h
                | cases h)
    · rw [if_pos hgt] at h
      exact fin h

theorem main.scan_dead (env : Env) (host : String) :
    ∀ (es pings : List String),
      (∀ e ∈ es, env.isSocket (snprintf1024 (host ++ "/" ++ e)) = some true →
        env.control_ping (snprintf1024 (host ++ "/" ++ e)) ≠ 0) →
      (main.scan env host es pings).2 = none
  | [], _, _ => rfl
  | e :: es, pings, h => by
    have ih := fun pings => main.scan_dead env host es pings (fun x hx => h x (by simp [hx]))
    rw [main.scan]
    split
    · exact ih _
    · split
      · rename_i hs
        rw [if_neg (h e (by simp) hs)]
        exact ih _
      · exact ih _

theorem main.resolve_dead (env : Env) (host : String) (port : Int)
    (hdef : env.control_ping (snprintf1024 (host ++ "/.s.merovingian." ++
      decimal (if port = -1 then 50001 else port))) ≠ 0)
    (hscan : port = -1 → ∀ entries, env.opendir host = some entries → ∀ e ∈ entries,
      env.isSocket (snprintf1024 (host ++ "/" ++ e)) = some true →
      env.control_ping (snprintf1024 (host ++ "/" ++ e)) ≠ 0) :
    ∀ buf, (main.resolve env host port).2 ≠ .found buf := by
  intro buf
  unfold main.resolve
  simp only [if_neg hdef]
  split
  · rename_i hp
    cases ho : env.opendir host with
    | none => simp
    | some entries =>
      have := main.scan_dead env host entries
        [snprintf1024 (host ++ "/.s.merovingian." ++ decimal (if port = -1 then 50001 else port))]
        (hscan hp entries ho)
      simp only
      split
      · rename_i heq
        simp only [hp, if_true] at this
        rw [heq] at this
        cases this
      · simp
  · simp

/-! ## No control socket -/

/-- C17, amended: in local mode (no host given, or a host that is a directory
path), when the socket `<dir>/.s.merovingian.<port>` does not answer the
ping and, if no port was given, either the directory cannot be opened or no
socket found in it answers, the process prints an error, ends with exit code
1 and dispatches no command: nothing was sent and nothing else was printed. -/
theorem no_control_socket_exit_one (env : Env) (fuel argc : Nat) (argv : List String)
    (s : Proc) (i : Nat) (g : Globals) (argv1 : List String) (s1 : Proc) (cmd : String)
    (hlen : argv.length = argc)
    (hopt : main.options env argc argc 1 (main.globals env) argv s = .ret (.parsed i g argv1) s1)
    (hcmd : argv1.get? i = some cmd) (hhelp : cmd ≠ "help") (hver : cmd ≠ "version")
    (hlocal : g.mero_host = none ∨ (g.mero_host.getD "").data.head? = some '/')
    (hpass : g.mero_pass = none)
    (hdef : env.control_ping (snprintf1024 (g.mero_host.getD "/tmp" ++ "/.s.merovingian." ++
      decimal (if g.mero_port = -1 then 50001 else g.mero_port))) ≠ 0)
    (hscan : g.mero_port = -1 → ∀ entries, env.opendir (g.mero_host.getD "/tmp") = some entries →
      ∀ e ∈ entries,
        env.isSocket (snprintf1024 (g.mero_host.getD "/tmp" ++ "/" ++ e)) = some true →
        env.control_ping (snprintf1024 (g.mero_host.getD "/tmp" ++ "/" ++ e)) ≠ 0) :
    (main env fuel argc argv s).result
      = .exit 1 (s.eprintf "monetdb: cannot find a control socket, use -h and/or -p\n") := by
  obtain ⟨hl1, hi1, hs1⟩ := main.options_parsed env argc argc 1 (main.globals env) argv s i g
    argv1 s1 hopt
  subst hs1
  have hi : i < argc := by
    rw [← hlen, ← hl1]
    exact (List.get?_eq_some.1 hcmd).1
  obtain ⟨before, hb⟩ : ∃ b, argv1.get? (i - 1) = some b :=
    ⟨argv1.get ⟨i - 1, by rw [hl1, hlen]; omega⟩, List.get?_eq_get _⟩
  have hdead := main.resolve_dead env (g.mero_host.getD "/tmp") g.mero_port hdef hscan
  have h1 : ¬ argc ≤ 1 := by omega
  have h2 : ¬ i ≥ argc := by omega
  have h3 : ¬ strcmp cmd "help" = 0 := fun h => hhelp ((strcmp_eq_zero_iff _ _).1 h)
  have h4 : ¬ strcmp cmd "version" = 0 := fun h => hver ((strcmp_eq_zero_iff _ _).1 h)
  have h5 : ¬ (g.mero_host ≠ none ∧ (g.mero_host.getD "").data.head? ≠ some '/' ∧
      g.mero_pass = none) := by
    rintro ⟨a, b, _⟩
    rcases hlocal with h | h
    · exact a h
    · exact b h
  have h6 : ¬ (g.mero_pass ≠ none ∧
      (g.mero_host = none ∨ (g.mero_host.getD "").data.head? = some '/')) := by
    rintro ⟨a, _⟩
    exact a hpass
  unfold main
  simp only [if_neg h1, hopt, if_neg h5, if_neg h6, if_neg h2, hcmd, hb, if_neg h3, if_neg h4,
    if_pos hlocal]

/-- Worked example for C17 (amended): `monetdb status` when nothing answers. -/
theorem no_control_socket_exit_one_witness :
    (main { exampleEnv "OK\n" with control_ping := fun _ => -1 } 10 2 ["monetdb", "status"]
        emptyProc).result
      = .exit 1 (emptyProc.eprintf "monetdb: cannot find a control socket, use -h and/or -p\n") :=
  no_control_socket_exit_one { exampleEnv "OK\n" with control_ping := fun _ => -1 } 10 2
    ["monetdb", "status"] emptyProc 1
    (main.globals { exampleEnv "OK\n" with control_ping := fun _ => -1 })
    ["monetdb", "status"] emptyProc "status" rfl rfl rfl (by decide) (by decide) (Or.inl rfl)
    rfl (by simp) (by simp)

/-! ## Reading the arguments of a command -/

theorem ArgsFrom.initial (cmd : String) (args : List String) :
    ArgsFrom (some cmd :: args.map some) cmd 1 args :=
  ⟨Nat.one_pos, rfl, rfl⟩

theorem ArgsFrom.read {argv : List (Option String)} {cmd : String} {i : Nat} {a : String}
    {rest : List String} (h : ArgsFrom argv cmd i (a :: rest)) :
    argvGet argv i = .ok a ∧ argvGet argv 0 = .ok cmd := by
  obtain ⟨_, h0, hd⟩ := h
  have h1 : argv.get? i = some (some a) := by
    have := congrArg List.head? hd
    rw [List.head?_drop] at this
    simpa using this
  constructor
  · unfold argvGet
    rw [h1]
  · unfold argvGet
    rw [h0]

theorem ArgsFrom.step {argv : List (Option String)} {cmd : String} {i : Nat} {a : String}
    {rest : List String} (h : ArgsFrom argv cmd i (a :: rest)) :
    ArgsFrom argv cmd (i + 1) rest := by
  obtain ⟨hi, h0, hd⟩ := h
  refine ⟨Nat.succ_pos _, h0, ?_⟩
  have := congrArg List.tail hd
  rw [List.tail_drop] at this
  simpa using this

theorem ArgsFrom.store {argv : List (Option String)} {cmd : String} {i : Nat}
    {rest : List String} (h : ArgsFrom argv cmd i rest) (j : Nat) (x : Option String)
    (h0 : 0 < j) (hj : j < i) : ArgsFrom (argv.set j x) cmd i rest := by
  obtain ⟨hi, hc, hd⟩ := h
  refine ⟨hi, ?_, ?_⟩
  · rw [List.get?_eq_getElem?, List.getElem?_set_ne (by omega), ← List.get?_eq_getElem?]
    exact hc
  · rw [List.drop_set_of_lt _ _ hj]
    exact hd

/-! ## Usage errors -/

theorem helpExit_command {α : Type} (s : Proc) (n : Int) (before cmd : String) (hn : 2 ≤ n) :
    (helpExit s n [before, cmd] : Res α)
      = .exit 1 { s with out := s.out ++ command_help.text cmd } := by
  unfold helpExit command_help
  rw [if_neg (by omega)]
  rfl

theorem helpExit_usage {α : Type} (s s0 : Proc) (n : Int) (before cmd : String) (hn : 2 ≤ n)
    (hs : s0.sent = s.sent) (ho : s0.out = s.out) :
    UsageExit (helpExit s0 n [before, cmd] : Res α) s cmd := by
  refine ⟨{ s0 with out := s0.out ++ command_help.text cmd }, ?_, hs, ?_⟩
  · exact helpExit_command s0 n before cmd hn
  · show s0.out ++ _ = _
    rw [ho]

theorem optionRef_dash (known : List Char) {a : String} {cs : List Char}
    (h : a.data = '-' :: cs) : optionRef known a = lettersRef known cs := by
  unfold optionRef
  rw [h]
  rfl

theorem isOption_dash {a : String} {cs : List Char} (h : a.data = '-' :: cs) :
    isOption a = true := by
  unfold isOption
  rw [h]
  rfl

theorem optionRef_plain (known : List Char) {a : String} (h : a.data.head? ≠ some '-') :
    optionRef known a = .accepted := by
  unfold optionRef
  split
  · rename_i cs heq
    rw [heq] at h
    exact absurd rfl h
  · rfl

theorem isOption_plain {a : String} (h : a.data.head? ≠ some '-') : isOption a = false := by
  unfold isOption
  simpa using h

theorem dash_or_plain (a : String) :
    (∃ cs, a.data = '-' :: cs) ∨ a.data.head? ≠ some '-' := by
  rcases h : a.data with _ | ⟨c, cs⟩
  · right
    simp
  · by_cases hc : c = '-'
    · left
      exact ⟨cs, by rw [hc]⟩
    · right
      simpa using hc

theorem optionError_cons (known : List Char) (a : String) (rest : List String) :
    optionError known (a :: rest)
      = (if optionRef known a = .endOfOptions then false
         else (decide (optionRef known a = .usage) || optionError known rest)) := by
  unfold optionError argsRead
  rw [List.takeWhile_cons]
  by_cases h : optionRef known a = .endOfOptions
  · simp [h]
  · simp [h]

theorem plainsRead_cons (known : List Char) (a : String) (rest : List String) :
    plainsRead known (a :: rest)
      = (if optionRef known a = .endOfOptions then []
         else if isOption a then plainsRead known rest
         else a :: plainsRead known rest) := by
  unfold plainsRead argsRead
  rw [List.takeWhile_cons]
  by_cases h : optionRef known a = .endOfOptions
  · simp [h]
  · by_cases h2 : isOption a = true
    · simp [h, h2]
    · simp [h, h2]

/-! ### create, lock, release -/

theorem simple_command.options_usage_simple (before cmd : String) (argc : Nat) (hargc : 1 ≤ argc) :
    ∀ (rest : List String) (i : Nat) (argv : List (Option String)) (s : Proc),
      ArgsFrom argv cmd i rest →
      (rest.takeWhile (fun a => a ≠ "--")).any isOption = true →
      UsageExit (simple_command.options before argc rest.length i argv s) s cmd
  | [], _, _, _, _, h => by simp at h
  | a :: rest, i, argv, s, hA, h => by
    obtain ⟨e1, e0⟩ := hA.read
    rw [List.length_cons, simple_command.options, e1, e0]
    simp only []
    by_cases hdd : a = "--"
    · subst hdd
      simp at h
    · have h1 : ¬ strcmp a "--" = 0 := fun e => hdd ((strcmp_eq_zero_iff _ _).1 e)
      rw [if_neg h1]
      by_cases hd : a.data.head? = some '-'
      · rw [if_pos hd]
        exact helpExit_usage s _ _ before cmd (by omega) rfl rfl
      · rw [if_neg hd]
        apply simple_command.options_usage_simple before cmd argc hargc rest (i + 1) argv s hA.step
        have h2 : isOption a = false := isOption_plain hd
        simpa [List.takeWhile_cons, hdd, h2] using h

theorem simple_command.usage_simple (env : Env) (g : Globals) (fuel : Nat) (before cmd : String)
    (merocmd successmsg : String) (glob : Bool) (args : List String) (s : Proc)
    (h : (args.isEmpty || (args.takeWhile (fun a => a ≠ "--")).any isOption) = true) :
    UsageExit (simple_command env g fuel before (args.length + 1) (some cmd :: args.map some)
      merocmd successmsg glob s) s cmd := by
  unfold simple_command
  simp only [argvGet_zero]
  cases args with
  | nil =>
    simp only [List.length_nil, Nat.zero_add, if_true]
    exact helpExit_usage s s 2 before cmd (le_refl _) rfl rfl
  | cons a more =>
    have h2 : ((a :: more).takeWhile (fun a => a ≠ "--")).any isOption = true := by
      simpa using h
    obtain ⟨s1, e, hs, ho⟩ := simple_command.options_usage_simple before cmd ((a :: more).length + 1)
      (by omega) (a :: more) 1 (some cmd :: (a :: more).map some) s (ArgsFrom.initial _ _) h2
    rw [if_neg (by simp), Nat.add_sub_cancel, e]
    exact ⟨s1, rfl, hs, ho⟩

/-! ### destroy -/

theorem command_destroy.options_usage_destroy (before cmd : String) (argc : Nat) (hargc : 1 ≤ argc) :
    ∀ (rest : List String) (i : Nat) (force : Int) (argv : List (Option String)) (s : Proc),
      ArgsFrom argv cmd i rest →
      (rest.takeWhile (fun a => a ≠ "--")).any
        (fun a => isOption a && a.data.get? 1 ≠ some 'f') = true →
      UsageExit (command_destroy.options before argc rest.length i force argv s) s cmd
  | [], _, _, _, _, _, h => by simp at h
  | a :: rest, i, force, argv, s, hA, h => by
    obtain ⟨e1, e0⟩ := hA.read
    rw [List.length_cons, command_destroy.options, e1, e0]
    simp only []
    by_cases hdd : a = "--"
    · subst hdd
      simp at h
    · have h1 : ¬ strcmp a "--" = 0 := fun e => hdd ((strcmp_eq_zero_iff _ _).1 e)
      rw [if_neg h1]
      by_cases hd : a.data.head? = some '-'
      · rw [if_pos hd]
        by_cases hf : a.data.get? 1 = some 'f'
        · rw [if_pos hf]
          apply command_destroy.options_usage_destroy before cmd argc hargc rest (i + 1) 1 _ s
            (hA.step.store i none hA.1 (Nat.lt_succ_self _))
          have hf1 : a.data[1]? = some 'f' := by simpa using hf
          simpa [List.takeWhile_cons, hdd, hf1] using h
        · rw [if_neg hf]
          exact helpExit_usage s _ _ before cmd (by omega) rfl rfl
      · rw [if_neg hd]
        apply command_destroy.options_usage_destroy before cmd argc hargc rest (i + 1) force argv s
          hA.step
        have h2 : isOption a = false := isOption_plain hd
        simpa [List.takeWhile_cons, hdd, h2] using h

theorem command_destroy.usage_destroy (env : Env) (g : Globals) (fuel : Nat) (before cmd : String)
    (args : List String) (s : Proc)
    (h : (args.isEmpty || (args.takeWhile (fun a => a ≠ "--")).any
      (fun a => isOption a && a.data.get? 1 ≠ some 'f')) = true) :
    UsageExit (command_destroy env g fuel before (args.length + 1) (some cmd :: args.map some) s)
      s cmd := by
  unfold command_destroy
  simp only [argvGet_zero]
  cases args with
  | nil =>
    simp only [List.length_nil, Nat.zero_add, if_true]
    exact helpExit_usage s s _ before cmd (by decide) rfl rfl
  | cons a more =>
    have h2 : ((a :: more).takeWhile (fun a => a ≠ "--")).any
        (fun a => isOption a && a.data.get? 1 ≠ some 'f') = true := by
      simpa using h
    obtain ⟨s1, e, hs, ho⟩ := command_destroy.options_usage_destroy before cmd ((a :: more).length + 1)
      (by omega) (a :: more) 1 0 (some cmd :: (a :: more).map some) s (ArgsFrom.initial _ _) h2
    rw [if_neg (by simp), Nat.add_sub_cancel, e]
    exact ⟨s1, rfl, hs, ho⟩

/-- The command `create` with `--` as its only argument names no database:
nothing is sent and the usage text is printed. -/
theorem simple_command.usage_create (env : Env) (g : Globals) (fuel : Nat) (before cmd : String)
    (merocmd successmsg : String) (s : Proc) (hfuel : 0 < fuel) :
    UsageExit (simple_command env g fuel before 2 [some cmd, some "--"] merocmd successmsg
      false s) s cmd := by
  obtain ⟨k, hk⟩ : ∃ k, fuel = k + 1 := ⟨fuel - 1, by omega⟩
  subst hk
  refine ⟨{ s with out := s.out ++ command_help.text cmd }, ?_, rfl, rfl⟩
  simp [simple_command, argvGet, simple_command.options, simple_command.build, strcmp_eq_zero_iff,
    simple_argv_cmd, simple_argv_cmd.loop, command_help, msab_freeStatus]

/-! ### start, stop, kill -/

theorem command_startstop.flags_ref_startstop (argc i : Nat) :
    ∀ (cs : List Char) (d : Int),
      (lettersRef ['a'] cs = .usage ∧ ∃ d1 c, command_startstop.flags argc i cs d = (d1, .unknown c)) ∨
      (lettersRef ['a'] cs = .endOfOptions ∧ ∃ d1, command_startstop.flags argc i cs d = (d1, .last)) ∨
      (lettersRef ['a'] cs = .accepted ∧ ∃ d1, command_startstop.flags argc i cs d = (d1, .next))
  | [], d => Or.inr (Or.inr ⟨rfl, d, rfl⟩)
  | c :: cs, d => by
    by_cases ha : c = 'a'
    · subst ha
      have e : lettersRef ['a'] ('a' :: cs) = lettersRef ['a'] cs := by simp [lettersRef]
      rw [e, command_startstop.flags]
      exact command_startstop.flags_ref_startstop argc i cs 1
    · by_cases hd : c = '-'
      · subst hd
        by_cases hcs : cs = []
        · subst hcs
          exact Or.inr (Or.inl ⟨by decide, _, rfl⟩)
        · refine Or.inl ⟨by simp [lettersRef, hcs], d, '-', ?_⟩
          rw [command_startstop.flags, if_neg hcs]
      · refine Or.inl ⟨by simp [lettersRef, ha, hd], d, c, ?_⟩
        rw [command_startstop.flags]
        · intro e
          exact ha e
        · intro e
          exact hd e

theorem command_startstop.options_usage_startstop (type before cmd : String) (argc : Nat) :
    ∀ (rest : List String) (i : Nat) (d : Int) (argv : List (Option String)) (s : Proc),
      ArgsFrom argv cmd i rest → optionError ['a'] rest = true →
      UsageExit (command_startstop.options type before argc rest.length i d argv s) s cmd
  | [], _, _, _, _, _, h => by simp [optionError, argsRead] at h
  | a :: rest, i, d, argv, s, hA, h => by
    obtain ⟨e1, e0⟩ := hA.read
    rw [optionError_cons] at h
    rw [List.length_cons, command_startstop.options, e1, e0]
    simp only []
    rcases dash_or_plain a with ⟨cs, hcs⟩ | hp
    · rw [optionRef_dash _ hcs] at h
      simp only [hcs]
      rcases command_startstop.flags_ref_startstop argc i cs d with ⟨_, d1, c, e⟩ | ⟨hr, d1, e⟩ | ⟨hr, d1, e⟩
      · rw [e]
        exact helpExit_usage s _ _ before cmd (by omega) rfl rfl
      · rw [hr] at h
        simp at h
      · rw [hr] at h
        rw [e]
        apply command_startstop.options_usage_startstop type before cmd argc rest (i + 1) d1 _ s
          (hA.step.store i none hA.1 (Nat.lt_succ_self _))
        simpa using h
    · rw [optionRef_plain _ hp] at h
      have ih := command_startstop.options_usage_startstop type before cmd argc rest (i + 1) d argv s
        hA.step (by simpa using h)
      rcases data_not_dash hp with h0 | ⟨c, cs, h1, hc⟩
      · rw [h0]
        exact ih
      · rw [h1]
        split
        · rename_i heq
          exact absurd (List.cons.inj heq).1 hc
        · exact ih

theorem command_startstop.usage_startstop (env : Env) (g : Globals) (fuel : Nat)
    (before cmd : String) (mode : startstop) (args : List String) (s : Proc)
    (h : (args.isEmpty || optionError ['a'] args) = true) :
    UsageExit (command_startstop env g fuel before (args.length + 1) (some cmd :: args.map some)
      mode s) s cmd := by
  unfold command_startstop
  cases args with
  | nil =>
    simp only [List.length_nil, Nat.zero_add, if_true, argvGet_zero]
    exact helpExit_usage s s _ before cmd (by decide) rfl rfl
  | cons a more =>
    have h2 : optionError ['a'] (a :: more) = true := by simpa using h
    obtain ⟨s1, e, hs, ho⟩ := command_startstop.options_usage_startstop mode.type before cmd
      ((a :: more).length + 1) (a :: more) 1 0 (some cmd :: (a :: more).map some) s
      (ArgsFrom.initial _ _) h2
    rw [if_neg (by simp), if_neg (by simp), Nat.add_sub_cancel, e]
    exact ⟨s1, rfl, hs, ho⟩

/-! ### set, inherit -/

theorem command_set.flags_ref_set :
    ∀ (cs : List Char),
      (lettersRef [] cs = .usage ∧ ∃ c, command_set.flags cs = .unknown c) ∨
      (lettersRef [] cs = .endOfOptions ∧ command_set.flags cs = .last) ∨
      (lettersRef [] cs = .accepted ∧ command_set.flags cs = .next)
  | [] => Or.inr (Or.inr ⟨rfl, rfl⟩)
  | c :: cs => by
    by_cases hd : c = '-'
    · subst hd
      by_cases hcs : cs = []
      · subst hcs
        exact Or.inr (Or.inl ⟨by decide, rfl⟩)
      · refine Or.inl ⟨by simp [lettersRef, hcs], '-', ?_⟩
        rw [command_set.flags, if_neg hcs]
    · refine Or.inl ⟨by simp [lettersRef, hd], c, ?_⟩
      rw [command_set.flags]
      intro e
      exact hd e

/-- An unknown option among the arguments read ends `set` and `inherit`
with the usage text, whatever was read before it. -/
theorem command_set.options_usage_set (type : meroset) (before cmd : String) (argc : Nat) :
    ∀ (rest : List String) (i : Nat) (v : SetVars) (s : Proc),
      ArgsFrom v.argv cmd i rest → optionError [] rest = true →
      UsageExit (command_set.options type before argc rest.length i v s) s cmd
  | [], _, _, _, _, h => by simp [optionError, argsRead] at h
  | a :: rest, i, v, s, hA, h => by
    obtain ⟨e1, e0⟩ := hA.read
    rw [optionError_cons] at h
    rw [List.length_cons, command_set.options, e1, e0]
    simp only []
    rcases dash_or_plain a with ⟨cs, hcs⟩ | hp
    · rw [optionRef_dash _ hcs] at h
      simp only [hcs]
      rcases command_set.flags_ref_set cs with ⟨_, c, e⟩ | ⟨hr, e⟩ | ⟨hr, e⟩
      · rw [e]
        exact helpExit_usage s _ _ before cmd (by omega) rfl rfl
      · rw [hr] at h
        simp at h
      · rw [hr] at h
        rw [e]
        apply command_set.options_usage_set type before cmd argc rest (i + 1) _ s
          (hA.step.store i none hA.1 (Nat.lt_succ_self _))
        simpa using h
    · rw [optionRef_plain _ hp] at h
      have hrest : optionError [] rest = true := by simpa using h
      have ih := fun v1 (h1 : ArgsFrom v1.argv cmd (i + 1) rest) =>
        command_set.options_usage_set type before cmd argc rest (i + 1) v1 s h1 hrest
      have key : UsageExit
          (if v.property.data = [] then
            match type with
            | .SET =>
              if '=' ∈ a.data then
                command_set.options type before argc rest.length (i + 1)
                  { property := command_set.property .SET a, p := some a,
                    argv := v.argv.set i none } s
              else helpExit (s.eprintf "set: need property=value\n") 2 [before, cmd]
            | .INHERIT =>
              command_set.options type before argc rest.length (i + 1)
                { property := command_set.property .INHERIT a, p := some a,
                  argv := v.argv.set i none } s
          else command_set.options type before argc rest.length (i + 1) v s) s cmd := by
        by_cases hprop : v.property.data = []
        · rw [if_pos hprop]
          cases type with
          | SET =>
            by_cases heq : '=' ∈ a.data
            · simp only [if_pos heq]
              exact ih _ (hA.step.store i none hA.1 (Nat.lt_succ_self _))
            · simp only [if_neg heq]
              exact helpExit_usage s _ _ before cmd (by omega) rfl rfl
          | INHERIT => exact ih _ (hA.step.store i none hA.1 (Nat.lt_succ_self _))
        · rw [if_neg hprop]
          exact ih v hA.step
      rcases data_not_dash hp with h0 | ⟨c, cs, h1, hc⟩
      · rw [h0]
        rw [h0] at key
        exact key
      · rw [h1]
        rw [h1] at key
        split
        · rename_i heq
          exact absurd (List.cons.inj heq).1 hc
        · exact key

theorem command_set.property_empty (type : meroset) (a : String)
    (hset : type = .SET → '=' ∈ a.data) (h : emptyKey type a = true) :
    (command_set.property type a).data = [] := by
  cases type with
  | SET =>
    have h1 : a.data.head? = some '=' := by simpa [emptyKey] using h
    rcases hd : a.data with _ | ⟨c, cs⟩
    · rw [hd] at h1
      cases h1
    · rw [hd] at h1
      have hc : c = '=' := by simpa using h1
      simp [command_set.property, snprintf24, hd, hc]
  | INHERIT =>
    have h1 : a.data = [] := by simpa [emptyKey] using h
    simp [command_set.property, snprintf24, h1]

/-- When the arguments read name no property, the option loop of `set` and
`inherit` ends with the usage text or leaves `property` empty. -/
theorem command_set.options_property_set (type : meroset) (before cmd : String) (argc : Nat) :
    ∀ (rest : List String) (i : Nat) (v : SetVars) (s : Proc),
      ArgsFrom v.argv cmd i rest → v.property.data = [] →
      propertyError type (plainsRead [] rest) = true →
      UsageExit (command_set.options type before argc rest.length i v s) s cmd ∨
        ∃ v1, command_set.options type before argc rest.length i v s = .ret v1 s ∧
          v1.property.data = []
  | [], _, v, _, _, hv, _ => Or.inr ⟨v, rfl, hv⟩
  | a :: rest, i, v, s, hA, hv, h => by
    obtain ⟨e1, e0⟩ := hA.read
    rw [plainsRead_cons] at h
    rw [List.length_cons, command_set.options, e1, e0]
    simp only []
    rcases dash_or_plain a with ⟨cs, hcs⟩ | hp
    · rw [optionRef_dash _ hcs, isOption_dash hcs] at h
      simp only [hcs]
      rcases command_set.flags_ref_set cs with ⟨_, c, e⟩ | ⟨hr, e⟩ | ⟨hr, e⟩
      · rw [e]
        exact Or.inl (helpExit_usage s _ _ before cmd (by omega) rfl rfl)
      · rw [e]
        exact Or.inr ⟨_, rfl, hv⟩
      · rw [e]
        rw [hr] at h
        exact command_set.options_property_set type before cmd argc rest (i + 1) _ s
          (hA.step.store i none hA.1 (Nat.lt_succ_self _)) hv (by simpa using h)
    · rw [optionRef_plain _ hp, isOption_plain hp] at h
      simp only [reduceCtorEq, if_false, Bool.false_eq_true] at h
      rw [propertyError] at h
      have key : UsageExit
            (if v.property.data = [] then
              match type with
              | .SET =>
                if '=' ∈ a.data then
                  command_set.options type before argc rest.length (i + 1)
                    { property := command_set.property .SET a, p := some a,
                      argv := v.argv.set i none } s
                else helpExit (s.eprintf "set: need property=value\n") 2 [before, cmd]
              | .INHERIT =>
                command_set.options type before argc rest.length (i + 1)
                  { property := command_set.property .INHERIT a, p := some a,
                    argv := v.argv.set i none } s
            else command_set.options type before argc rest.length (i + 1) v s) s cmd ∨
          ∃ v1,
            (if v.property.data = [] then
              match type with
              | .SET =>
                if '=' ∈ a.data then
                  command_set.options type before argc rest.length (i + 1)
                    { property := command_set.property .SET a, p := some a,
                      argv := v.argv.set i none } s
                else helpExit (s.eprintf "set: need property=value\n") 2 [before, cmd]
              | .INHERIT =>
                command_set.options type before argc rest.length (i + 1)
                  { property := command_set.property .INHERIT a, p := some a,
                    argv := v.argv.set i none } s
            else command_set.options type before argc rest.length (i + 1) v s) = .ret v1 s ∧
            v1.property.data = [] := by
        rw [if_pos hv]
        by_cases hset : type = .SET ∧ '=' ∉ a.data
        · obtain ⟨ht, heq⟩ := hset
          subst ht
          simp only [if_neg heq]
          exact Or.inl (helpExit_usage s _ _ before cmd (by omega) rfl rfl)
        · rw [if_neg hset] at h
          by_cases hk : emptyKey type a = true
          · rw [if_pos hk] at h
            have hin : type = .SET → '=' ∈ a.data := fun ht => by
              by_contra hcon
              exact hset ⟨ht, hcon⟩
            have hempty := command_set.property_empty type a hin hk
            cases type with
            | SET =>
              simp only [if_pos (hin rfl)]
              exact command_set.options_property_set .SET before cmd argc rest (i + 1) _ s
                (hA.step.store i none hA.1 (Nat.lt_succ_self _)) hempty h
            | INHERIT =>
              exact command_set.options_property_set .INHERIT before cmd argc rest (i + 1) _ s
                (hA.step.store i none hA.1 (Nat.lt_succ_self _)) hempty h
          · rw [if_neg hk] at h
            cases h
      rcases data_not_dash hp with h0 | ⟨c, cs, h1, hc⟩
      · rw [h0]
        rw [h0] at key
        exact key
      · rw [h1]
        rw [h1] at key
        split
        · rename_i heq
          exact absurd (List.cons.inj heq).1 hc
        · exact key

theorem command_set.usage_set (env : Env) (g : Globals) (fuel : Nat) (before cmd : String)
    (type : meroset) (args : List String) (s : Proc)
    (h : args.length < 2 ∨ optionError [] args = true ∨
      propertyError type (plainsRead [] args) = true) :
    UsageExit (command_set env g fuel before (args.length + 1) (some cmd :: args.map some)
      type s) s cmd := by
  unfold command_set
  simp only [argvGet_zero]
  by_cases hlen : args.length < 2
  · rw [if_pos (by omega)]
    exact helpExit_usage s s _ before cmd (by decide) rfl rfl
  · rw [if_neg (by omega), if_neg (by omega), Nat.add_sub_cancel]
    rcases h with h | h | h
    · exact absurd h hlen
    · obtain ⟨s1, e, hs, ho⟩ := command_set.options_usage_set type before cmd (args.length + 1) args 1
        { property := "", p := none, argv := some cmd :: args.map some } s (ArgsFrom.initial _ _) h
      rw [e]
      exact ⟨s1, rfl, hs, ho⟩
    · rcases command_set.options_property_set type before cmd (args.length + 1) args 1
        { property := "", p := none, argv := some cmd :: args.map some } s (ArgsFrom.initial _ _)
        rfl h with ⟨s1, e, hs, ho⟩ | ⟨v1, e, hv⟩
      · rw [e]
        exact ⟨s1, rfl, hs, ho⟩
      · rw [e]
        simp only [if_pos hv]
        exact helpExit_usage s _ _ before cmd (by omega) rfl rfl

/-! ### get -/

theorem command_get.flags_ref_get (argc i : Nat) (d : Int) :
    ∀ (cs : List Char),
      (lettersRef [] cs = .usage ∧ ∃ d1 c, command_get.flags argc i cs d = (d1, .unknown c)) ∨
      (lettersRef [] cs = .endOfOptions ∧ ∃ d1, command_get.flags argc i cs d = (d1, .last)) ∨
      (lettersRef [] cs = .accepted ∧ ∃ d1, command_get.flags argc i cs d = (d1, .next))
  | [] => Or.inr (Or.inr ⟨rfl, d, rfl⟩)
  | c :: cs => by
    by_cases hd : c = '-'
    · subst hd
      by_cases hcs : cs = []
      · subst hcs
        exact Or.inr (Or.inl ⟨by decide, _, rfl⟩)
      · refine Or.inl ⟨by simp [lettersRef, hcs], d, '-', ?_⟩
        rw [command_get.flags, if_neg hcs]
    · refine Or.inl ⟨by simp [lettersRef, hd], d, c, ?_⟩
      rw [command_get.flags]
      intro e
      exact hd e

/-- An unknown option among the arguments read ends `get` with the usage
text; when the property read before it is `all`, its expansion has to fit
the buffer of 512 bytes. -/
theorem command_get.options_usage_get (env : Env) (before cmd : String) (argc : Nat) :
    ∀ (rest : List String) (i : Nat) (o : GetOpts) (s : Proc),
      ArgsFrom o.argv cmd i rest → optionError [] rest = true →
      (o.property = none → (plainsRead [] rest).head? = some "all" →
        (command_get.allKeys env.getDefaultProps).length < 512) →
      UsageExit (command_get.options env before argc rest.length i o s) s cmd
  | [], _, _, _, _, h, _ => by simp [optionError, argsRead] at h
  | a :: rest, i, o, s, hA, h, hfit => by
    obtain ⟨e1, e0⟩ := hA.read
    rw [optionError_cons] at h
    rw [plainsRead_cons] at hfit
    rw [List.length_cons, command_get.options, e1, e0]
    simp only []
    rcases dash_or_plain a with ⟨cs, hcs⟩ | hp
    · rw [optionRef_dash _ hcs] at h
      rw [optionRef_dash _ hcs, isOption_dash hcs] at hfit
      simp only [hcs]
      rcases command_get.flags_ref_get argc i o.doall cs with ⟨_, d1, c, e⟩ | ⟨hr, d1, e⟩ | ⟨hr, d1, e⟩
      · rw [e]
        exact helpExit_usage s _ _ before cmd (by omega) rfl rfl
      · rw [hr] at h
        simp at h
      · rw [hr] at h hfit
        rw [e]
        apply command_get.options_usage_get env before cmd argc rest (i + 1) _ s
          (hA.step.store i none hA.1 (Nat.lt_succ_self _)) (by simpa using h)
        intro hn
        simpa using hfit hn
    · rw [optionRef_plain _ hp] at h
      rw [optionRef_plain _ hp, isOption_plain hp] at hfit
      have hrest : optionError [] rest = true := by simpa using h
      have ih := fun o1 (h1 : ArgsFrom o1.argv cmd (i + 1) rest) (h2 : o1.property ≠ none) =>
        command_get.options_usage_get env before cmd argc rest (i + 1) o1 s h1 hrest
          (fun hn => absurd hn h2)
      have key : UsageExit
          (match o.property with
          | none =>
            if strcmp a "all" = 0 then
              if (command_get.allKeys env.getDefaultProps).length ≥ 512 then
                .fault .undefinedBehaviour
              else
                command_get.options env before argc rest.length (i + 1)
                  { o with property := some (command_get.allKeys env.getDefaultProps),
                           argv := o.argv.set i none } s
            else
              command_get.options env before argc rest.length (i + 1)
                { o with property := some a, argv := o.argv.set i none } s
          | some _ =>
            command_get.options env before argc rest.length (i + 1) { o with doall := 0 } s)
          s cmd := by
        cases hprop : o.property with
        | none =>
          simp only []
          by_cases hall : a = "all"
          · have hlt := hfit hprop (by simp [hall])
            rw [if_pos ((strcmp_eq_zero_iff _ _).2 hall), if_neg (by omega)]
            exact ih _ (hA.step.store i none hA.1 (Nat.lt_succ_self _)) (by simp)
          · rw [if_neg (fun e => hall ((strcmp_eq_zero_iff _ _).1 e))]
            exact ih _ (hA.step.store i none hA.1 (Nat.lt_succ_self _)) (by simp)
        | some p =>
          simp only []
          exact ih _ hA.step (by simp [hprop])
      rcases data_not_dash hp with h0 | ⟨c, cs, h1, hc⟩
      · rw [h0]
        exact key
      · rw [h1]
        split
        · rename_i heq
          exact absurd (List.cons.inj heq).1 hc
        · exact key

/-- When no property is among the arguments read, the option loop of `get`
ends with the usage text or leaves `property` unset. -/
theorem command_get.options_property_get (env : Env) (before cmd : String) (argc : Nat) :
    ∀ (rest : List String) (i : Nat) (o : GetOpts) (s : Proc),
      ArgsFrom o.argv cmd i rest → o.property = none → plainsRead [] rest = [] →
      UsageExit (command_get.options env before argc rest.length i o s) s cmd ∨
        ∃ o1, command_get.options env before argc rest.length i o s = .ret o1 s ∧
          o1.property = none
  | [], _, o, _, _, ho, _ => Or.inr ⟨o, rfl, ho⟩
  | a :: rest, i, o, s, hA, ho, h => by
    obtain ⟨e1, e0⟩ := hA.read
    rw [plainsRead_cons] at h
    rw [List.length_cons, command_get.options, e1, e0]
    simp only []
    rcases dash_or_plain a with ⟨cs, hcs⟩ | hp
    · rw [optionRef_dash _ hcs, isOption_dash hcs] at h
      simp only [hcs]
      rcases command_get.flags_ref_get argc i o.doall cs with ⟨_, d1, c, e⟩ | ⟨hr, d1, e⟩ | ⟨hr, d1, e⟩
      · rw [e]
        exact Or.inl (helpExit_usage s _ _ before cmd (by omega) rfl rfl)
      · rw [e]
        exact Or.inr ⟨_, rfl, ho⟩
      · rw [e]
        rw [hr] at h
        exact command_get.options_property_get env before cmd argc rest (i + 1) _ s
          (hA.step.store i none hA.1 (Nat.lt_succ_self _)) ho (by simpa using h)
    · rw [optionRef_plain _ hp, isOption_plain hp] at h
      simp at h

theorem command_get.usage_get (env : Env) (g : Globals) (fuel : Nat) (before cmd : String)
    (args : List String) (s : Proc)
    (h : args = [] ∨ optionError [] args = true ∨ plainsRead [] args = [])
    (hfit : (plainsRead [] args).head? = some "all" →
      (command_get.allKeys env.getDefaultProps).length < 512) :
    UsageExit (command_get env g fuel before (args.length + 1) (some cmd :: args.map some) s)
      s cmd := by
  unfold command_get
  simp only [argvGet_zero]
  by_cases hnil : args = []
  · subst hnil
    simp only [List.length_nil, Nat.zero_add, if_true]
    exact helpExit_usage s s _ before cmd (by decide) rfl rfl
  · have hlen : args.length ≠ 0 := fun e => hnil (List.length_eq_zero.1 e)
    rw [if_neg (by omega), if_neg (by omega), Nat.add_sub_cancel]
    rcases h with h | h | h
    · exact absurd h hnil
    · obtain ⟨s1, e, hs, ho⟩ := command_get.options_usage_get env before cmd (args.length + 1) args 1
        { doall := 1, property := none, argv := some cmd :: args.map some } s (ArgsFrom.initial _ _)
        h (fun _ => hfit)
      rw [e]
      exact ⟨s1, rfl, hs, ho⟩
    · rcases command_get.options_property_get env before cmd (args.length + 1) args 1
        { doall := 1, property := none, argv := some cmd :: args.map some } s (ArgsFrom.initial _ _)
        rfl h with ⟨s1, e, hs, ho⟩ | ⟨o1, e, ho1⟩
      · rw [e]
        exact ⟨s1, rfl, hs, ho⟩
      · rw [e]
        simp only [ho1]
        exact helpExit_usage s _ _ before cmd (by omega) rfl rfl

/-! ### status -/

theorem command_status.badState_ref (v : String) :
    (stateLetters v.data = true ∧ command_status.badState v = none) ∨
      (stateLetters v.data = false ∧ ∃ c, command_status.badState v = some c) := by
  unfold command_status.badState stateLetters
  cases h : v.data.find? (fun c => !(c = 'r' || c = 's' || c = 'c' || c = 'l')) with
  | none =>
    left
    refine ⟨?_, rfl⟩
    rw [List.find?_eq_none] at h
    rw [List.all_eq_true]
    intro c hc
    have h1 := h c hc
    cases hx : (decide (c = 'r') || decide (c = 's') || decide (c = 'c') || decide (c = 'l'))
    · rw [hx] at h1
      exact absurd rfl h1
    · rfl
  | some c =>
    right
    refine ⟨?_, c, rfl⟩
    have hm := List.mem_of_find?_eq_some h
    have hp := List.find?_some h
    rw [← Bool.not_eq_true, List.all_eq_true]
    intro hall
    have := hall c hm
    simp only [Bool.not_eq_true'] at hp
    rw [this] at hp
    cases hp

/-- The scan of the letters of an option of `status` agrees with the
reference reading, where `rest` are the arguments after the option. -/
theorem command_status.flags_ref_status (argc i : Nat) (cmd a : String) (rest : List String)
    (argv : List (Option String)) (hA : ArgsFrom argv cmd i (a :: rest))
    (hargc : argc = i + 1 + rest.length) :
    ∀ (cs : List Char) (o : StatusOpts), o.argv = argv →
      (statusLettersRef rest.head? cs = .usage ∧ ∃ o1 e,
        command_status.flags argc i cs o = .ok (o1, e) ∧
        (e = .needsArg ∨ ∃ c, e = .unknown c ∨ e = .badFlag c)) ∨
      (statusLettersRef rest.head? cs = .endOfOptions ∧ ∃ o1,
        command_status.flags argc i cs o = .ok (o1, .last) ∧ o1.argv = argv) ∨
      (statusLettersRef rest.head? cs = .accepted ∧ ∃ o1,
        command_status.flags argc i cs o = .ok (o1, .next) ∧ o1.argv = argv) ∨
      (statusLettersRef rest.head? cs = .takesNext ∧ ∃ o1,
        command_status.flags argc i cs o = .ok (o1, .took) ∧ o1.argv = argv ∧ rest ≠ [])
  | [], o, ho => Or.inr (Or.inr (Or.inl ⟨rfl, o, rfl, ho⟩))
  | c :: cs, o, ho => by
    by_cases hc : c = 'c'
    · subst hc
      have e : statusLettersRef rest.head? ('c' :: cs) = statusLettersRef rest.head? cs := by
        simp [statusLettersRef]
      rw [e, command_status.flags]
      exact command_status.flags_ref_status argc i cmd a rest argv hA hargc cs _ ho
    · by_cases hl : c = 'l'
      · subst hl
        have e : statusLettersRef rest.head? ('l' :: cs) = statusLettersRef rest.head? cs := by
          simp [statusLettersRef]
        rw [e, command_status.flags]
        exact command_status.flags_ref_status argc i cmd a rest argv hA hargc cs _ ho
      · by_cases hs : c = 's'
        · subst hs
          by_cases hcs : cs = []
          · subst hcs
            cases rest with
            | nil =>
              refine Or.inl ⟨by simp [statusLettersRef], o, .needsArg, ?_, Or.inl rfl⟩
              rw [command_status.flags]
              simp [hargc]
            | cons v more =>
              have hv : argvGet o.argv (i + 1) = .ok v := by
                rw [ho]
                exact hA.step.read.1
              have hlt : i + 1 < argc := by
                rw [hargc]
                simp
              by_cases hopt : v.data.head? = some '-'
              · refine Or.inl ⟨by simp [statusLettersRef, isOption, hopt], o, .needsArg, ?_,
                  Or.inl rfl⟩
                rw [command_status.flags]
                simp [hlt, hv, hopt]
              · rcases command_status.badState_ref v with ⟨h1, h2⟩ | ⟨h1, c, h2⟩
                · refine Or.inr (Or.inr (Or.inr ⟨by simp [statusLettersRef, isOption, hopt, h1],
                    { o with state := v }, ?_, ho, by simp⟩))
                  rw [command_status.flags]
                  simp [hlt, hv, hopt, h2]
                · refine Or.inl ⟨by simp [statusLettersRef, isOption, hopt, h1], o, .badFlag c,
                    ?_, Or.inr ⟨c, Or.inr rfl⟩⟩
                  rw [command_status.flags]
                  simp [hlt, hv, hopt, h2]
          · rcases command_status.badState_ref (String.mk cs) with ⟨h1, h2⟩ | ⟨h1, c, h2⟩
            · refine Or.inr (Or.inr (Or.inl ⟨by simp [statusLettersRef, hcs, h1],
                { o with state := String.mk cs }, ?_, ho⟩))
              rw [command_status.flags]
              simp [hcs, h2]
            · refine Or.inl ⟨by simp [statusLettersRef, hcs, h1], o, .badFlag c, ?_,
                Or.inr ⟨c, Or.inr rfl⟩⟩
              rw [command_status.flags]
              simp [hcs, h2]
        · by_cases hd : c = '-'
          · subst hd
            by_cases hcs : cs = []
            · subst hcs
              refine Or.inr (Or.inl ⟨by simp [statusLettersRef],
                { o with doall := if argc - 1 > i then 0 else o.doall }, ?_, ho⟩)
              rw [command_status.flags]
              simp
            · refine Or.inl ⟨by simp [statusLettersRef, hcs], o, .unknown '-', ?_,
                Or.inr ⟨'-', Or.inl rfl⟩⟩
              rw [command_status.flags, if_neg hcs]
          · refine Or.inl ⟨by simp [statusLettersRef, hc, hl, hs, hd], o, .unknown c, ?_,
              Or.inr ⟨c, Or.inl rfl⟩⟩
            rw [command_status.flags]
            · intro e
              exact hc e
            · intro e
              exact hl e
            · intro e
              exact hs e
            · intro e
              exact hd e

theorem command_status.options_bound (before cmd : String) (argc : Nat) :
    ∀ (k : Nat) (rest : List String) (i : Nat) (o : StatusOpts) (s : Proc),
      rest.length ≤ k →
      ArgsFrom o.argv cmd i rest → argc = i + rest.length → statusError false rest = true →
      UsageExit (command_status.options before argc rest.length i o s) s cmd
  | _, [], _, _, _, _, _, _, h => by simp [statusError] at h
  | 0, _ :: _, _, _, _, hk, _, _, _ => by simp at hk
  | k + 1, a :: rest, i, o, s, hk, hA, hargc, h => by
    have hk1 : rest.length ≤ k := by simpa using hk
    obtain ⟨e1, e0⟩ := hA.read
    have hargc1 : argc = i + 1 + rest.length := by
      rw [hargc, List.length_cons]
      omega
    rw [List.length_cons, command_status.options, e1, e0]
    simp only []
    rcases dash_or_plain a with ⟨cs, hcs⟩ | hp
    · have hst : statusError false (a :: rest)
          = (match statusLettersRef rest.head? cs with
            | .usage => true
            | .endOfOptions => false
            | .takesNext => statusError true rest
            | .accepted => statusError false rest) := by
        rw [statusError]
        simp only [hcs]
      rw [hst] at h
      simp only [hcs]
      rcases command_status.flags_ref_status argc i cmd a rest o.argv hA hargc1 cs o rfl with
        ⟨_, o1, e, hf, he⟩ | ⟨hr, o1, hf, _⟩ | ⟨hr, o1, hf, ho1⟩ | ⟨hr, o1, hf, ho1, hne⟩
      · rw [hf]
        rcases he with he | ⟨c, he | he⟩ <;> subst he <;>
          exact helpExit_usage s _ _ before cmd (by omega) rfl rfl
      · rw [hr] at h
        cases h
      · rw [hr] at h
        rw [hf]
        apply command_status.options_bound before cmd argc k rest (i + 1) _ s hk1 _ hargc1 h
        show ArgsFrom (o1.argv.set i none) cmd (i + 1) rest
        rw [ho1]
        exact hA.step.store i none hA.1 (Nat.lt_succ_self _)
      · rw [hr] at h
        rw [hf]
        cases rest with
        | nil => exact absurd rfl hne
        | cons v more =>
          have h2 : statusError false more = true := by
            rw [statusError] at h
            exact h
          simp only [List.length_cons]
          apply command_status.options_bound before cmd argc k more (i + 2) _ s
            (by simp only [List.length_cons] at hk1; omega) _ _ h2
          · show ArgsFrom (o1.argv.set (i + 1) none) cmd (i + 2) more
            rw [ho1]
            exact hA.step.step.store (i + 1) none (Nat.succ_pos _) (Nat.lt_succ_self _)
          · rw [hargc1, List.length_cons]
            omega
    · have hst : statusError false (a :: rest) = statusError false rest := by
        rw [statusError]
        rcases data_not_dash hp with h0 | ⟨c, cs, h1, hc⟩
        · rw [h0]
        · rw [h1]
          split
          · rename_i heq
            exact absurd (List.cons.inj heq).1 hc
          · rfl
      rw [hst] at h
      have ih := command_status.options_bound before cmd argc k rest (i + 1)
        { o with doall := 0 } s hk1 hA.step hargc1 h
      rcases data_not_dash hp with h0 | ⟨c, cs, h1, hc⟩
      · rw [h0]
        exact ih
      · rw [h1]
        split
        · rename_i heq
          exact absurd (List.cons.inj heq).1 hc
        · exact ih

theorem command_status.options_usage_status (before cmd : String) (argc : Nat)
    (rest : List String) (i : Nat) (o : StatusOpts) (s : Proc)
    (hA : ArgsFrom o.argv cmd i rest) (hargc : argc = i + rest.length)
    (h : statusError false rest = true) :
    UsageExit (command_status.options before argc rest.length i o s) s cmd :=
  command_status.options_bound before cmd argc rest.length rest i o s (le_refl _) hA hargc h

theorem command_status.usage_status (env : Env) (g : Globals) (fuel : Nat) (before cmd : String)
    (args : List String) (s : Proc) (h : statusError false args = true) :
    UsageExit (command_status env g fuel before (args.length + 1) (some cmd :: args.map some) s)
      s cmd := by
  unfold command_status
  obtain ⟨s1, e, hs, ho⟩ := command_status.options_usage_status before cmd (args.length + 1) args 1
    { doall := 1, mode := 1, state := "rscl", argv := some cmd :: args.map some } s
    (ArgsFrom.initial _ _) (by omega) h
  rw [if_neg (by omega), Nat.add_sub_cancel, e]
  exact ⟨s1, rfl, hs, ho⟩

/-! ### From `main` to the command -/

theorem main.dispatch_usage (env : Env) (g : Globals) (fuel : Nat) (before cmd : String)
    (args : List String) (s : Proc) (hfuel : 0 < fuel) (h : usageError cmd args = true)
    (hfit : cmd = "get" → (plainsRead [] args).head? = some "all" →
      (command_get.allKeys env.getDefaultProps).length < 512) :
    UsageExit (main.dispatch env g fuel before cmd (args.length + 1) (some cmd :: args.map some)
      s) s cmd := by
  have lift : ∀ {r : Res Unit}, UsageExit r s cmd → UsageExit (main.after r) s cmd := by
    rintro r ⟨s1, e, hs, ho⟩
    exact ⟨s1, by rw [e]; rfl, hs, ho⟩
  unfold usageError at h
  by_cases h0 : cmd = "create"
  · rw [if_pos h0] at h
    subst h0
    by_cases hdd : args = ["--"]
    · subst hdd
      have := lift (simple_command.usage_create env g fuel before "create" "create"
        "created database in maintenance mode" s hfuel)
      simpa [main.dispatch, strcmp_eq_zero_iff, command_create] using this
    · have h1 : (args.isEmpty || (args.takeWhile (fun a => a ≠ "--")).any isOption) = true := by
        simpa [hdd] using h
      have := lift (simple_command.usage_simple env g fuel before "create" "create"
        "created database in maintenance mode" false args s h1)
      simpa [main.dispatch, strcmp_eq_zero_iff, command_create] using this
  rw [if_neg h0] at h
  by_cases h1 : cmd = "lock" ∨ cmd = "release"
  · rw [if_pos h1] at h
    rcases h1 with h1 | h1 <;> subst h1
    · have := lift (simple_command.usage_simple env g fuel before "lock" "lock"
        "put database under maintenance" true args s h)
      simpa [main.dispatch, strcmp_eq_zero_iff, command_lock] using this
    · have := lift (simple_command.usage_simple env g fuel before "release" "release"
        "taken database out of maintenance mode" true args s h)
      simpa [main.dispatch, strcmp_eq_zero_iff, command_release] using this
  rw [if_neg h1] at h
  by_cases h2 : cmd = "destroy"
  · rw [if_pos h2] at h
    subst h2
    have := lift (command_destroy.usage_destroy env g fuel before "destroy" args s h)
    simpa [main.dispatch, strcmp_eq_zero_iff] using this
  rw [if_neg h2] at h
  by_cases h3 : cmd = "start" ∨ cmd = "stop" ∨ cmd = "kill"
  · rw [if_pos h3] at h
    rcases h3 with h3 | h3 | h3 <;> subst h3
    · have := lift (command_startstop.usage_startstop env g fuel before "start" .START args s h)
      simpa [main.dispatch, strcmp_eq_zero_iff] using this
    · have := lift (command_startstop.usage_startstop env g fuel before "stop" .STOP args s h)
      simpa [main.dispatch, strcmp_eq_zero_iff] using this
    · have := lift (command_startstop.usage_startstop env g fuel before "kill" .KILL args s h)
      simpa [main.dispatch, strcmp_eq_zero_iff] using this
  rw [if_neg h3] at h
  by_cases h4 : cmd = "status"
  · rw [if_pos h4] at h
    subst h4
    have := lift (command_status.usage_status env g fuel before "status" args s h)
    simpa [main.dispatch, strcmp_eq_zero_iff] using this
  rw [if_neg h4] at h
  by_cases h5 : cmd = "set"
  · rw [if_pos h5] at h
    subst h5
    have hs : args.length < 2 ∨ optionError [] args = true ∨
        propertyError .SET (plainsRead [] args) = true := by
      simp only [Bool.or_eq_true, decide_eq_true_eq] at h
      rcases h with (h | h) | h
      · exact Or.inl h
      · exact Or.inr (Or.inl h)
      · exact Or.inr (Or.inr h)
    have := lift (command_set.usage_set env g fuel before "set" .SET args s hs)
    simpa [main.dispatch, strcmp_eq_zero_iff] using this
  rw [if_neg h5] at h
  by_cases h6 : cmd = "inherit"
  · rw [if_pos h6] at h
    subst h6
    have hs : args.length < 2 ∨ optionError [] args = true ∨
        propertyError .INHERIT (plainsRead [] args) = true := by
      simp only [Bool.or_eq_true, decide_eq_true_eq] at h
      rcases h with (h | h) | h
      · exact Or.inl h
      · exact Or.inr (Or.inl h)
      · exact Or.inr (Or.inr h)
    have := lift (command_set.usage_set env g fuel before "inherit" .INHERIT args s hs)
    simpa [main.dispatch, strcmp_eq_zero_iff] using this
  rw [if_neg h6] at h
  by_cases h7 : cmd = "get"
  · rw [if_pos h7] at h
    subst h7
    have hs : args = [] ∨ optionError [] args = true ∨ plainsRead [] args = [] := by
      simp only [Bool.or_eq_true, List.isEmpty_iff] at h
      rcases h with (h | h) | h
      · exact Or.inl h
      · exact Or.inr (Or.inl h)
      · exact Or.inr (Or.inr h)
    have := lift (command_get.usage_get env g fuel before "get" args s hs (hfit rfl))
    simpa [main.dispatch, strcmp_eq_zero_iff] using this
  rw [if_neg h7] at h
  cases h

theorem main.dispatch_unknown (env : Env) (g : Globals) (fuel : Nat) (before cmd : String)
    (argc : Nat) (argv : List (Option String)) (s : Proc) (h : cmd ∉ knownCommands) :
    main.dispatch env g fuel before cmd argc argv s
      = .ret 0 { s.eprintf ("monetdb: unknown command: " ++ cmd ++ "\n") with
          out := s.out ++ usageText } := by
  simp only [knownCommands, List.mem_cons, List.mem_singleton, List.not_mem_nil, or_false,
    not_or] at h
  obtain ⟨h1, h2, h3, h4, h5, h6, h7, h8, h9, h10, h11, h12, _, _⟩ := h
  simp [main.dispatch, strcmp_eq_zero_iff, h1, h2, h3, h4, h5, h6, h7, h8, h9, h10, h11, h12,
    printHelp, command_help, usageText, Proc.eprintf]

theorem main.scan_pings (env : Env) (host : String) :
    ∀ (es pings : List String), pings ≠ [] → (main.scan env host es pings).1 ≠ []
  | [], _, h => h
  | e :: es, pings, h => by
    rw [main.scan]
    split
    · exact main.scan_pings env host es pings h
    · split
      · split
        · simp
        · exact main.scan_pings env host es _ (by simp)
      · exact main.scan_pings env host es pings h

theorem main.resolve_pings (env : Env) (host : String) (port : Int) :
    (main.resolve env host port).1 ≠ [] := by
  unfold main.resolve
  simp only []
  generalize snprintf1024 (host ++ "/.s.merovingian." ++
    decimal (if port = -1 then 50001 else port)) = b
  by_cases h1 : env.control_ping b = 0
  · simp [h1]
  · rw [if_neg h1]
    by_cases h2 : port = -1
    · rw [if_pos h2]
      cases ho : env.opendir host with
      | none => simp
      | some entries =>
        have := main.scan_pings env host entries [b] (by simp)
        simp only []
        cases hs : main.scan env host entries [b] with
        | mk pings r =>
          rw [hs] at this
          cases r <;> simpa using this
    · rw [if_neg h2]
      simp

/-- Once the global options are read and accepted and the endpoint is
found, `main` runs the command `argv[i]` on the arguments after it; in local
mode the sockets probed are those of the search, in TCP mode none is. -/
theorem main.run_dispatch (env : Env) (fuel argc : Nat) (argv : List String) (s : Proc) (i : Nat)
    (g : Globals) (argv1 : List String) (s1 : Proc) (cmd : String)
    (hlen : argv.length = argc)
    (hopt : main.options env argc argc 1 (main.globals env) argv s = .ret (.parsed i g argv1) s1)
    (hcons : g.mero_pass ≠ none ↔
      (g.mero_host ≠ none ∧ (g.mero_host.getD "").data.head? ≠ some '/'))
    (hcmd : argv1.get? i = some cmd) (hhelp : cmd ≠ "help") (hver : cmd ≠ "version")
    (hfound : (g.mero_host = none ∨ (g.mero_host.getD "").data.head? = some '/') →
      ∃ buf, (main.resolve env (g.mero_host.getD "/tmp") g.mero_port).2 = .found buf) :
    ∃ g1 before,
      main env fuel argc argv s
        = ⟨if g.mero_host = none ∨ (g.mero_host.getD "").data.head? = some '/' then
              (main.resolve env (g.mero_host.getD "/tmp") g.mero_port).1
            else [],
           main.dispatch env g1 fuel before cmd ((argv1.drop (i + 1)).length + 1)
             (some cmd :: (argv1.drop (i + 1)).map some) s⟩ := by
  obtain ⟨hl1, hi1, hs1⟩ := main.options_parsed env argc argc 1 (main.globals env) argv s i g
    argv1 s1 hopt
  subst hs1
  have hi : i < argc := by
    rw [← hlen, ← hl1]
    exact (List.get?_eq_some.1 hcmd).1
  obtain ⟨before, hb⟩ : ∃ b, argv1.get? (i - 1) = some b :=
    ⟨argv1.get ⟨i - 1, by rw [hl1, hlen]; omega⟩, List.get?_eq_get _⟩
  have hdrop : argv1.drop i = cmd :: argv1.drop (i + 1) := by
    obtain ⟨hlt, hget⟩ := List.get?_eq_some.1 hcmd
    rw [← hget]
    exact List.drop_eq_getElem_cons hlt
  have hargc : argc - i = (argv1.drop (i + 1)).length + 1 := by
    rw [List.length_drop, hl1, hlen]
    omega
  have h1 : ¬ argc ≤ 1 := by omega
  have h2 : ¬ i ≥ argc := by omega
  have h3 : ¬ strcmp cmd "help" = 0 := fun h => hhelp ((strcmp_eq_zero_iff _ _).1 h)
  have h4 : ¬ strcmp cmd "version" = 0 := fun h => hver ((strcmp_eq_zero_iff _ _).1 h)
  have h5 : ¬ (g.mero_host ≠ none ∧ (g.mero_host.getD "").data.head? ≠ some '/' ∧
      g.mero_pass = none) := by
    rintro ⟨a, b, c⟩
    exact (hcons.2 ⟨a, b⟩) c
  have h6 : ¬ (g.mero_pass ≠ none ∧
      (g.mero_host = none ∨ (g.mero_host.getD "").data.head? = some '/')) := by
    rintro ⟨a, b⟩
    obtain ⟨c, d⟩ := hcons.1 a
    rcases b with b | b
    · exact c b
    · exact d b
  unfold main
  simp only [if_neg h1, hopt, if_neg h5, if_neg h6, if_neg h2, hcmd, hb, if_neg h3, if_neg h4,
    hdrop, hargc, List.map_cons]
  by_cases hlocal : g.mero_host = none ∨ (g.mero_host.getD "").data.head? = some '/'
  · obtain ⟨buf, hbuf⟩ := hfound hlocal
    rw [if_pos hlocal, if_pos hlocal]
    cases hres : main.resolve env (g.mero_host.getD "/tmp") g.mero_port with
    | mk pings r =>
      rw [hres] at hbuf
      simp only at hbuf
      subst hbuf
      exact ⟨_, before, rfl⟩
  · rw [if_neg hlocal, if_neg hlocal]
    exact ⟨_, before, rfl⟩

/-- C20, amended: once `main` has read its global options and found its
endpoint, a usage error in the arguments of a command (`usageError`) ends
with the usage text of that command on stdout and exit code 1, and no
control request is sent; an unknown command word ends with the general usage
text and no control request. The endpoint probe is not left out: in local
mode the sockets of the search have been probed with `control_ping`, at
least one, and in TCP mode none. For `get` with the property `all` read
before an unknown option, the expansion of `all` has to fit its buffer of
512 bytes. -/
theorem usage_error_exit_one (env : Env) (fuel argc : Nat) (argv : List String) (s : Proc)
    (i : Nat) (g : Globals) (argv1 : List String) (s1 : Proc) (cmd : String)
    (hlen : argv.length = argc)
    (hopt : main.options env argc argc 1 (main.globals env) argv s = .ret (.parsed i g argv1) s1)
    (hcons : g.mero_pass ≠ none ↔
      (g.mero_host ≠ none ∧ (g.mero_host.getD "").data.head? ≠ some '/'))
    (hcmd : argv1.get? i = some cmd)
    (hfound : (g.mero_host = none ∨ (g.mero_host.getD "").data.head? = some '/') →
      ∃ buf, (main.resolve env (g.mero_host.getD "/tmp") g.mero_port).2 = .found buf)
    (hbad : usageError cmd (argv1.drop (i + 1)) = true ∨ cmd ∉ knownCommands)
    (hfuel : 0 < fuel)
    (hfit : cmd = "get" → (plainsRead [] (argv1.drop (i + 1))).head? = some "all" →
      (command_get.allKeys env.getDefaultProps).length < 512) :
    (usageError cmd (argv1.drop (i + 1)) = true →
      ∃ s2, (main env fuel argc argv s).result = .exit 1 s2 ∧ s2.sent = s.sent ∧
        s2.out = s.out ++ command_help.text cmd) ∧
    (cmd ∉ knownCommands →
      ∃ code s2, (main env fuel argc argv s).result = .ret code s2 ∧ s2.sent = s.sent ∧
        s2.out = s.out ++ usageText) ∧
    ((g.mero_host = none ∨ (g.mero_host.getD "").data.head? = some '/') →
      (main env fuel argc argv s).pings
          = (main.resolve env (g.mero_host.getD "/tmp") g.mero_port).1 ∧
        (main env fuel argc argv s).pings ≠ []) ∧
    (¬ (g.mero_host = none ∨ (g.mero_host.getD "").data.head? = some '/') →
      (main env fuel argc argv s).pings = []) := by
  have hhv : cmd ≠ "help" ∧ cmd ≠ "version" := by
    rcases hbad with h | h
    · constructor
      · rintro rfl
        simp [usageError] at h
      · rintro rfl
        simp [usageError] at h
    · simp only [knownCommands, List.mem_cons, List.mem_singleton, List.not_mem_nil, or_false,
        not_or] at h
      exact ⟨h.2.2.2.2.2.2.2.2.2.2.2.2.1, h.2.2.2.2.2.2.2.2.2.2.2.2.2⟩
  obtain ⟨g1, before, hrun⟩ := main.run_dispatch env fuel argc argv s i g argv1 s1 cmd hlen hopt
    hcons hcmd hhv.1 hhv.2 hfound
  rw [hrun]
  refine ⟨fun h => ?_, fun h => ?_, fun h => ?_, fun h => ?_⟩
  · exact main.dispatch_usage env g1 fuel before cmd _ s hfuel h hfit
  · exact ⟨0, _, main.dispatch_unknown env g1 fuel before cmd _ _ s h, rfl, rfl⟩
  · dsimp only
    rw [if_pos h]
    exact ⟨rfl, main.resolve_pings env _ _⟩
  · dsimp only
    rw [if_neg h]

/-- Worked examples for C20 (amended): `monetdb -q lock db1 -x` in local
mode, where the socket is probed, and `monetdb -h dbhost -P secret status -s`
in TCP mode, where nothing is probed. -/
theorem usage_error_exit_one_witness :
    (usageError "lock" ["db1", "-x"] = true ∧
      (∃ s2, (main (exampleEnv "OK\n") 10 5 ["monetdb", "-q", "lock", "db1", "-x"]
          emptyProc).result = .exit 1 s2 ∧ s2.sent = emptyProc.sent ∧
        s2.out = emptyProc.out ++ command_help.text "lock") ∧
      (main (exampleEnv "OK\n") 10 5 ["monetdb", "-q", "lock", "db1", "-x"] emptyProc).pings
        ≠ []) ∧
    (usageError "status" ["-s"] = true ∧
      (∃ s2, (main (exampleEnv "OK\n") 10 7
          ["monetdb", "-h", "dbhost", "-P", "secret", "status", "-s"] emptyProc).result
            = .exit 1 s2 ∧ s2.sent = emptyProc.sent ∧
        s2.out = emptyProc.out ++ command_help.text "status") ∧
      (main (exampleEnv "OK\n") 10 7
        ["monetdb", "-h", "dbhost", "-P", "secret", "status", "-s"] emptyProc).pings = []) :=
  ⟨⟨by decide,
    (usage_error_exit_one (exampleEnv "OK\n") 10 5 ["monetdb", "-q", "lock", "db1", "-x"]
      emptyProc 2 { main.globals (exampleEnv "OK\n") with monetdb_quiet := true }
      ["monetdb", "-q", "lock", "db1", "-x"] emptyProc "lock" rfl rfl (by decide) rfl
      (fun _ => ⟨"/tmp/.s.merovingian.50001", rfl⟩) (Or.inl (by decide)) (by decide)
      (fun h => absurd h (by decide))).1 (by decide),
    ((usage_error_exit_one (exampleEnv "OK\n") 10 5 ["monetdb", "-q", "lock", "db1", "-x"]
      emptyProc 2 { main.globals (exampleEnv "OK\n") with monetdb_quiet := true }
      ["monetdb", "-q", "lock", "db1", "-x"] emptyProc "lock" rfl rfl (by decide) rfl
      (fun _ => ⟨"/tmp/.s.merovingian.50001", rfl⟩) (Or.inl (by decide)) (by decide)
      (fun h => absurd h (by decide))).2.2.1 (Or.inl rfl)).2⟩,
   ⟨by decide,
    (usage_error_exit_one (exampleEnv "OK\n") 10 7
      ["monetdb", "-h", "dbhost", "-P", "secret", "status", "-s"] emptyProc 5
      { main.globals (exampleEnv "OK\n") with mero_host := some "dbhost",
                                                mero_pass := some "secret" }
      ["monetdb", "-h", "dbhost", "-P", "", "status", "-s"] emptyProc "status" rfl rfl
      (by decide) rfl (fun h => absurd h (by decide)) (Or.inl (by decide)) (by decide)
      (fun h => absurd h (by decide))).1 (by decide),
    (usage_error_exit_one (exampleEnv "OK\n") 10 7
      ["monetdb", "-h", "dbhost", "-P", "secret", "status", "-s"] emptyProc 5
      { main.globals (exampleEnv "OK\n") with mero_host := some "dbhost",
                                                mero_pass := some "secret" }
      ["monetdb", "-h", "dbhost", "-P", "", "status", "-s"] emptyProc "status" rfl rfl
      (by decide) rfl (fun h => absurd h (by decide)) (Or.inl (by decide)) (by decide)
      (fun h => absurd h (by decide))).2.2.2 (by decide)⟩⟩

/-! ## The loop of `command_set` -/

theorem command_set.requests_database (g : Globals) (type : meroset) (verb : String) :
    ∀ (dbs : List String) (property : String),
      (command_set.requests g type verb property dbs).map Request.database = dbs
  | [], _ => rfl
  | d :: ds, property => by
    cases type <;>
      simp [command_set.requests, commandRequest, command_set.requests_database g _ verb ds]

theorem command_set.send_spec (env : Env) (g : Globals) (cmd dbname verb : String) (state : Int)
    (s : Proc) (hst : state = 0 ∨ state = 1) :
    (command_set.send env g cmd dbname verb state s).1
        = (if answeredOK (env.control_send s.sent (commandRequest g dbname verb)) then state
            else 1) ∧
      (command_set.send env g cmd dbname verb state s).2.sent
        = s.sent ++ [commandRequest g dbname verb] ∧
      (command_set.send env g cmd dbname verb state s).2.heap = s.heap ∧
      (command_set.send env g cmd dbname verb state s).2.out = s.out := by
  cases h : env.control_send s.sent (commandRequest g dbname verb) with
  | error e =>
    simp only [command_set.send, h, answeredOK, Bool.false_eq_true, if_false]
    exact ⟨Int.lor_one_of_bit hst, rfl, rfl, rfl⟩
  | ok res =>
    by_cases hok : res = "OK"
    · have h0 : strcmp res "OK" = 0 := (strcmp_eq_zero_iff _ _).2 hok
      simp only [command_set.send, h, answeredOK, hok, decide_True, if_true, h0, ne_eq,
        not_true_eq_false, if_false]
      exact ⟨rfl, rfl, rfl, rfl⟩
    · have h1 : strcmp res "OK" ≠ 0 := fun e => hok ((strcmp_eq_zero_iff _ _).1 e)
      simp only [command_set.send, h, answeredOK, hok, decide_False, Bool.false_eq_true,
        if_false, if_pos h1]
      exact ⟨Int.lor_one_of_bit hst, rfl, rfl, rfl⟩

theorem command_set.loop_spec (env : Env) (g : Globals) (type : meroset) (cmd verb : String)
    (h0 : Heap) :
    ∀ (l : List Nat) (stats : Option Nat) (property : String) (p : Option String) (state : Int)
      (s : Proc) (fuel : Nat),
      s.heap = h0 → IsChain h0 stats l → l.length < fuel → (state = 0 ∨ state = 1) →
      (type = .SET → p = some verb) → (type = .INHERIT → property.length + l.length < 24) →
      ∃ s1, command_set.loop env g type cmd fuel stats property p state s
          = .ret (if (responses env.control_send s.sent (command_set.requests g type verb property
                (l.map (fun d => (h0 d).dbname)))).all answeredOK then state else 1) s1 ∧
        s1.sent = s.sent ++ command_set.requests g type verb property
          (l.map (fun d => (h0 d).dbname)) ∧
        s1.heap = h0 ∧ s1.out = s.out
  | [], stats, property, p, state, s, fuel + 1, hh, hc, _, _, _, _ => by
    have hd : stats = none := hc
    subst hd
    exact ⟨s, by simp [command_set.loop, command_set.requests, responses],
      by simp [command_set.requests], hh, rfl⟩
  | d :: l, stats, property, p, state, s, fuel + 1, hh, hc, hf, hst, hp, hroom => by
    have hd : stats = some d := hc.1
    subst hd
    have hf1 : l.length < fuel := by simpa using hf
    cases type with
    | SET =>
      have hpv : p = some verb := hp rfl
      subst hpv
      obtain ⟨e1, e2, e3, e4⟩ := command_set.send_spec env g cmd (h0 d).dbname verb state s hst
      have hst2 : (command_set.send env g cmd (h0 d).dbname verb state s).1 = 0 ∨
          (command_set.send env g cmd (h0 d).dbname verb state s).1 = 1 := by
        rw [e1]
        split
        · exact hst
        · exact Or.inr rfl
      obtain ⟨s1, hrun, hsent, hheap, hout⟩ := command_set.loop_spec env g .SET cmd verb h0 l
        (h0 d).next property (some verb) _ (command_set.send env g cmd (h0 d).dbname verb state s).2
        fuel (e3.trans hh) hc.2 hf1 hst2 (fun _ => rfl) (fun h => by cases h)
      refine ⟨s1, ?_, ?_, hheap, hout.trans e4⟩
      · rw [command_set.loop]
        simp only [hh]
        rw [show (command_set.send env g cmd (h0 d).dbname verb state s)
          = ((command_set.send env g cmd (h0 d).dbname verb state s).1,
             (command_set.send env g cmd (h0 d).dbname verb state s).2) from rfl]
        simp only [e3, hh]
        rw [hrun, e2, e1]
        simp only [List.map_cons, command_set.requests, responses, List.all_cons]
        by_cases hok : answeredOK (env.control_send s.sent (commandRequest g (h0 d).dbname verb))
            = true
        · simp [hok]
        · simp [hok]
      · rw [hsent, e2]
        simp [command_set.requests]
    | INHERIT =>
      have hr := hroom rfl
      simp only [List.length_cons] at hr
      have hlen : (property ++ "=").length = property.length + 1 := by
        rw [String.length_append]
        rfl
      obtain ⟨e1, e2, e3, e4⟩ := command_set.send_spec env g cmd (h0 d).dbname (property ++ "=")
        state s hst
      have hst2 : (command_set.send env g cmd (h0 d).dbname (property ++ "=") state s).1 = 0 ∨
          (command_set.send env g cmd (h0 d).dbname (property ++ "=") state s).1 = 1 := by
        rw [e1]
        split
        · exact hst
        · exact Or.inr rfl
      obtain ⟨s1, hrun, hsent, hheap, hout⟩ := command_set.loop_spec env g .INHERIT cmd verb h0 l
        (h0 d).next (property ++ "=") (some (property ++ "=")) _
        (command_set.send env g cmd (h0 d).dbname (property ++ "=") state s).2
        fuel (e3.trans hh) hc.2 hf1 hst2 (fun h => by cases h) (fun _ => by rw [hlen]; omega)
      refine ⟨s1, ?_, ?_, hheap, hout.trans e4⟩
      · rw [command_set.loop]
        simp only [hh]
        rw [if_neg (by omega)]
        rw [show (command_set.send env g cmd (h0 d).dbname (property ++ "=") state s)
          = ((command_set.send env g cmd (h0 d).dbname (property ++ "=") state s).1,
             (command_set.send env g cmd (h0 d).dbname (property ++ "=") state s).2) from rfl]
        simp only [e3, hh]
        rw [hrun, e2, e1]
        simp only [List.map_cons, command_set.requests, responses, List.all_cons]
        by_cases hok : answeredOK (env.control_send s.sent
            (commandRequest g (h0 d).dbname (property ++ "="))) = true
        · simp [hok]
        · simp [hok]
      · rw [hsent, e2]
        simp [command_set.requests]

theorem command_set.options_rest (type : meroset) (before cmd : String) (argc : Nat) (s : Proc)
    (property : String) (p : Option String) (hprop : property.data ≠ []) :
    ∀ (names : List String) (pre : List (Option String)),
      (∀ a ∈ names, a.data.head? ≠ some '-') →
      command_set.options type before argc names.length (pre.length + 1)
          { property := property, p := p, argv := some cmd :: pre ++ names.map some } s
        = .ret { property := property, p := p, argv := some cmd :: pre ++ names.map some } s
  | [], _, _ => rfl
  | a :: names, pre, h => by
    have ha : a.data.head? ≠ some '-' := h a (by simp)
    have e1 : argvGet (some cmd :: pre ++ (a :: names).map some) (pre.length + 1) = .ok a := by
      have := argvGet_append (some cmd :: pre) a (names.map some)
      simpa using this
    have ih := command_set.options_rest type before cmd argc s property p hprop names
      (pre ++ [some a]) (fun b hb => h b (by simp [hb]))
    have e2 : some cmd :: (pre ++ [some a]) ++ names.map some
        = some cmd :: pre ++ (a :: names).map some := by simp
    rw [e2] at ih
    simp only [List.length_append, List.length_singleton] at ih
    show command_set.options type before argc (names.length + 1) (pre.length + 1) _ s = _
    rw [command_set.options]
    simp only [List.cons_append] at e1 ih ⊢
    simp only [e1, argvGet_zero]
    rcases data_not_dash ha with h0 | ⟨c, cs, h1, hc⟩
    · rw [h0]
      simp only [if_neg hprop]
      exact ih
    · rw [h1]
      split
      · rename_i heq
        exact absurd (List.cons.inj heq).1 hc
      · simp only [if_neg hprop]
        exact ih

theorem command_set.options_plain_set (type : meroset) (before cmd prop : String) (argc : Nat)
    (s : Proc) (names : List String) (hprop : prop.data.head? ≠ some '-')
    (hset : type = .SET → '=' ∈ prop.data) (hkey : (command_set.property type prop).data ≠ [])
    (hplain : ∀ a ∈ names, a.data.head? ≠ some '-') :
    command_set.options type before argc (names.length + 1) 1
        { property := "", p := none, argv := some cmd :: some prop :: names.map some } s
      = .ret { property := command_set.property type prop, p := some prop,
               argv := some cmd :: none :: names.map some } s := by
  have hrest := command_set.options_rest type before cmd argc s (command_set.property type prop)
    (some prop) hkey names [none] hplain
  have e1 : argvGet (some cmd :: some prop :: names.map some) 1 = .ok prop := rfl
  rw [command_set.options]
  simp only [e1, argvGet_zero]
  have hemp : ("" : String).data = [] := rfl
  rcases data_not_dash hprop with h0 | ⟨c, cs, h1, hc⟩
  · rw [h0]
    simp only [hemp, if_true]
    cases type with
    | SET =>
      have := hset rfl
      rw [h0] at this
      cases this
    | INHERIT => exact hrest
  · rw [h1]
    split
    · rename_i heq
      exact absurd (List.cons.inj heq).1 hc
    · simp only [hemp, if_true]
      cases type with
      | SET =>
        have hin := hset rfl
        rw [h1] at hin
        simp only [if_pos hin]
        exact hrest
      | INHERIT => exact hrest

/-! ## Failures in `set` and `inherit` -/

/-- C13, amended: `set` and `inherit` on a key other than `name` send one
request to every selected target, in selection order, whatever the earlier
answers were: a failure on a target, at application level or at transport
level alike, only sets the failure bit. The process ends with exit code 0
when every answer is `OK` and with exit code 1 otherwise. For `inherit` this
holds as long as the key with one `=` per selected target fits the 24 bytes
of the property buffer: key length plus number of selected targets below 24. -/
theorem set_failures_accumulate (env : Env) (g : Globals) (fuel : Nat) (before cmd : String)
    (type : meroset) (prop : String) (names : List String) (s : Proc) (recs : List sabdb)
    (hprop : prop.data.head? ≠ some '-') (hset : type = .SET → '=' ∈ prop.data)
    (hkey : (command_set.property type prop).data ≠ [])
    (hname : command_set.property type prop ≠ "name")
    (hnames : names ≠ []) (hplain : ∀ a ∈ names, a.data.head? ≠ some '-')
    (hf : FetchOk env g s recs) (hfuel : recs.length < fuel)
    (hroom : type = .INHERIT → (command_set.property type prop).length +
      (recs.filter (fun r => !unmatched (fun p (r : sabdb) => env.glob p r.dbname)
        (names.map some) r)).length < 24) :
    ∃ snap reqs s1, snap.Perm recs ∧ NameSorted snap ∧
      reqs = command_set.requests g type prop (command_set.property type prop)
        ((selectRef (fun p (r : sabdb) => env.glob p r.dbname) (names.map some) snap).map
          sabdb.dbname) ∧
      reqs.map Request.database
        = (selectRef (fun p (r : sabdb) => env.glob p r.dbname) (names.map some) snap).map
          sabdb.dbname ∧
      command_set env g fuel before (names.length + 2) (some cmd :: some prop :: names.map some)
          type s
        = .exit (if (responses env.control_send (s.sent ++ [statusRequest g none]) reqs).all
            answeredOK then 0 else 1) s1 ∧
      s1.sent = s.sent ++ [statusRequest g none] ++ reqs := by
  obtain ⟨orig, s0, top, argv1, s1, sel, snap, h0, h1, hsel, hperm, hsorted, hrec, _, hs, hle⟩ :=
    fetch_select env g cmd cmd fuel (some cmd :: none :: names.map some) s recs hf hfuel
  have hrec1 : recordsOf s1.heap sel
      = selectRef (fun p (r : sabdb) => env.glob p r.dbname) (names.map some) snap := by
    rw [hrec]
    simp [selectRef]
  have hdbs : sel.map (fun d => (s1.heap d).dbname)
      = (selectRef (fun p (r : sabdb) => env.glob p r.dbname) (names.map some) snap).map
        sabdb.dbname := by
    rw [← hrec1, recordsOf_dbname]
  obtain ⟨s2, hrun, hsent, _, _⟩ := command_set.loop_spec env g type cmd prop s1.heap sel top
    (command_set.property type prop) (some prop) 0 s1 fuel rfl hsel (by omega) (Or.inl rfl)
    (fun _ => rfl) (fun h => by
      have h1 := hroom h
      have h2 : sel.length = (recs.filter (fun r => !unmatched
          (fun p (r : sabdb) => env.glob p r.dbname) (names.map some) r)).length := by
        rw [← recordsOf_length s1.heap sel, hrec1, selectRef_length]
        exact (hperm.filter _).length_eq
      omega)
  rw [hdbs, hs] at hrun
  rw [hdbs] at hsent
  refine ⟨snap, _, s2, hperm, hsorted, rfl, command_set.requests_database g type prop _ _, ?_, ?_⟩
  · have hopt := command_set.options_plain_set type before cmd prop (names.length + 2) s names hprop
      hset hkey hplain
    have hlen : names.length ≠ 0 := fun h => hnames (List.length_eq_zero.1 h)
    have h2 : ¬ (1 ≤ names.length + 2 ∧ names.length + 2 ≤ 2) := by omega
    have h3 : ¬ strcmp (command_set.property type prop) "name" = 0 :=
      fun e => hname ((strcmp_eq_zero_iff _ _).1 e)
    have hl2 : (some cmd :: none :: names.map some).length = names.length + 2 := by simp
    rw [hl2] at h1
    unfold command_set
    simp only [argvGet_zero, if_neg h2, Nat.add_eq_zero, OfNat.ofNat_ne_zero, and_false, if_false,
      show names.length + 2 - 1 = names.length + 1 from rfl, hopt, if_neg hkey, h0, h1, if_neg h3,
      hrun]
    rfl
  · rw [hsent, hs]

/-- Worked example for C13 (amended): `inherit type db01` in an installation
of 25 instances, where one target is selected. -/
theorem set_failures_accumulate_witness :
    ∃ snap reqs s1, snap.Perm (exampleNames25.map exampleRecord) ∧ NameSorted snap ∧
      reqs = command_set.requests exampleGlobals .INHERIT "type"
        (command_set.property .INHERIT "type")
        ((selectRef (fun p (r : sabdb) => (exampleEnv exampleSnapshot25).glob p r.dbname)
          (["db01"].map some) snap).map sabdb.dbname) ∧
      reqs.map Request.database
        = (selectRef (fun p (r : sabdb) => (exampleEnv exampleSnapshot25).glob p r.dbname)
          (["db01"].map some) snap).map sabdb.dbname ∧
      command_set (exampleEnv exampleSnapshot25) exampleGlobals 30 "monetdb"
          (["db01"].length + 2) (some "inherit" :: some "type" :: ["db01"].map some)
          .INHERIT emptyProc
        = .exit (if (responses (exampleEnv exampleSnapshot25).control_send
            (emptyProc.sent ++ [statusRequest exampleGlobals none]) reqs).all
            answeredOK then 0 else 1) s1 ∧
      s1.sent = emptyProc.sent ++ [statusRequest exampleGlobals none] ++ reqs :=
  set_failures_accumulate (exampleEnv exampleSnapshot25) exampleGlobals 30 "monetdb" "inherit"
    .INHERIT "type" ["db01"] emptyProc (exampleNames25.map exampleRecord)
    (by decide) (fun h => by cases h) (by decide) (by decide) (by simp) (by decide)
    ⟨qsortModel_spec, by simp [exampleRecord], exampleSnapshot25,
      exampleNames25.map (fun n => "s" ++ n), rfl, by decide, rfl⟩
    (by decide) (fun _ => by decide)

/-! ## `command_destroy` -/

theorem responses_ok (cs : List Request → Request → Except String String) :
    ∀ (reqs sent : List Request),
      (∀ sent q, q ∈ reqs → ∃ b, cs sent q = .ok b) →
      ∃ bodies : List String, responses cs sent reqs = bodies.map Except.ok
  | [], _, _ => ⟨[], rfl⟩
  | r :: rs, sent, h => by
    obtain ⟨b, hb⟩ := h sent r (by simp)
    obtain ⟨bs, hbs⟩ := responses_ok cs rs (sent ++ [r]) (fun t q hq => h t q (by simp [hq]))
    exact ⟨b :: bs, by simp [responses, hb, hbs]⟩

theorem command_destroy.names_spec (orig : Option Nat) (h0 : Heap) :
    ∀ (l : List Nat) (stats : Option Nat) (s : Proc) (fuel : Nat),
      s.heap = h0 → IsChain h0 stats l → l.length < fuel →
      ∃ s1, command_destroy.names fuel orig stats s = .ok s1 ∧ s1.heap = h0 ∧
        s1.sent = s.sent
  | [], stats, s, fuel + 1, hh, hc, _ => by
    have hd : stats = none := hc
    subst hd
    exact ⟨s, rfl, hh, rfl⟩
  | d :: l, stats, s, fuel + 1, hh, hc, hf => by
    have hd : stats = some d := hc.1
    subst hd
    obtain ⟨s1, hrun, hheap, hsent⟩ := command_destroy.names_spec orig h0 l (h0 d).next
      (s.printf ((if some d ≠ orig then ", " else "") ++ "'" ++ (h0 d).dbname ++ "'")) fuel hh hc.2
      (by simpa using hf)
    refine ⟨s1, ?_, hheap, hsent⟩
    rw [command_destroy.names, hh]
    exact hrun

theorem command_destroy.confirm_spec (env : Env) (fuel : Nat) (o : Nat) (s : Proc)
    (l : List Nat) (hc : IsChain s.heap (some o) l) (hf : l.length < fuel) :
    ∃ s1, command_destroy.confirm env fuel o s
        = (if env.answer = some 'y' ∨ env.answer = some 'Y' then .ret () s1 else .exit 1 s1) ∧
      s1.heap = s.heap ∧ s1.sent = s.sent := by
  obtain ⟨s1, hrun, hheap, hsent⟩ := command_destroy.names_spec (some o) s.heap l (some o)
    (s.printf ("you are about to remove database" ++
      (if (s.heap o).next ≠ none then "s" else "") ++ " ")) fuel rfl hc hf
  unfold command_destroy.confirm
  simp only [hrun]
  by_cases ha : env.answer = some 'y' ∨ env.answer = some 'Y'
  · simp only [if_pos ha]
    exact ⟨_, rfl, hheap, hsent⟩
  · simp only [if_neg ha]
    exact ⟨_, rfl, hheap, hsent⟩

theorem command_destroy.options_force (before cmd : String) (argc : Nat) (s : Proc)
    (names : List String) (hplain : ∀ a ∈ names, a.data.head? ≠ some '-') :
    command_destroy.options before argc (names.length + 1) 1 0
        (some cmd :: some "-f" :: names.map some) s
      = .ret (1, some cmd :: none :: names.map some) s := by
  have hrest := command_destroy.options_plain_destroy before cmd argc s 1 names [none] hplain
  rw [command_destroy.options]
  have e1 : argvGet (some cmd :: some "-f" :: names.map some) 1 = .ok "-f" := rfl
  have h1 : ¬ strcmp "-f" "--" = 0 := by decide
  have h2 : ("-f" : String).data.head? = some '-' := rfl
  have h3 : ("-f" : String).data.get? 1 = some 'f' := rfl
  simp only [e1, argvGet_zero, if_neg h1, if_pos h2, if_pos h3]
  exact hrest

theorem command_destroy.dispatch_spec (env : Env) (g : Globals) (fuel : Nat) (cmd : String)
    (o : Nat) (s : Proc) (l : List Nat) (hc : IsChain s.heap (some o) l) (hf : l.length < fuel)
    (hok : ∀ sent, ∀ q ∈ l.map (fun d => commandRequest g (s.heap d).dbname "destroy"),
      ∃ b, env.control_send sent q = .ok b) :
    ∃ s1, (command_destroy.dispatch env g fuel cmd o s = .ret () s1 ∨
        command_destroy.dispatch env g fuel cmd o s = .exit 1 s1) ∧
      s1.sent = s.sent ++ l.map (fun d => commandRequest g (s.heap d).dbname "destroy") := by
  obtain ⟨bodies, hb⟩ := responses_ok env.control_send
    (l.map (fun d => commandRequest g (s.heap d).dbname "destroy")) s.sent hok
  obtain ⟨s1, hrun, hsent, _, _⟩ := simple_argv_cmd.dispatch_ok env.control_send g fuel cmd
    (some o) "destroy" (some "destroyed database") none s l bodies
    (Or.inr (Or.inl (by simp))) hc hf hb
  refine ⟨s1, ?_, hsent⟩
  unfold command_destroy.dispatch
  rw [hrun]
  split_ifs
  · exact Or.inr rfl
  · exact Or.inl rfl
  · exact Or.inr rfl

theorem selectRef_subset {α : Type} (m : String → α → Bool) (ps : List (Option String))
    (l : List α) : selectRef m ps l ⊆ l :=
  fun _ ha => (selectRef_perm m ps l).subset (List.mem_append_left _ ha)

/-! ## Confirmation of `destroy` -/

/-- C16: `destroy` without `-f` whose answer is neither `y` nor `Y` (no input
included) ends with exit code 1 and has sent nothing but the status request;
with `-f`, or with the answer `y` or `Y`, it sends one destroy request per
selected target, in selection order, provided no request fails at transport
level. -/
theorem destroy_needs_confirmation (env : Env) (g : Globals) (fuel : Nat) (before cmd : String)
    (force : Bool) (names : List String) (s : Proc) (recs : List sabdb)
    (hnames : names ≠ []) (hplain : ∀ a ∈ names, a.data.head? ≠ some '-')
    (hf : FetchOk env g s recs) (hfuel : recs.length < fuel)
    (hok : ∀ sent, ∀ r ∈ recs,
      ∃ b, env.control_send sent (commandRequest g r.dbname "destroy") = .ok b) :
    ∃ snap, snap.Perm recs ∧ NameSorted snap ∧
      (force = false → ¬ (env.answer = some 'y' ∨ env.answer = some 'Y') →
        ∃ s1, command_destroy env g fuel before (command_destroy.args cmd force names).length
            (command_destroy.args cmd force names) s = .exit 1 s1 ∧
          s1.sent = s.sent ++ [statusRequest g none]) ∧
      (force = true ∨ env.answer = some 'y' ∨ env.answer = some 'Y' →
        ∃ s1, (command_destroy env g fuel before (command_destroy.args cmd force names).length
              (command_destroy.args cmd force names) s = .ret () s1 ∨
            command_destroy env g fuel before (command_destroy.args cmd force names).length
              (command_destroy.args cmd force names) s = .exit 1 s1) ∧
          s1.sent = s.sent ++ [statusRequest g none] ++
            (selectRef (fun p (r : sabdb) => env.glob p r.dbname) (names.map some) snap).map
              (fun r => commandRequest g r.dbname "destroy")) := by
  have hlen : names.length ≠ 0 := fun h => hnames (List.length_eq_zero.1 h)
  cases force with
  | false =>
    obtain ⟨orig, s0, top, argv1, s1, sel, snap, h0, h1, hsel, hperm, hsorted, hrec, _, hs,
      hle⟩ := fetch_select env g "destroy" "destroy" fuel (some cmd :: names.map some) s recs hf
        hfuel
    have hopt := command_destroy.options_plain_destroy before cmd (names.length + 1) s 0 names []
      hplain
    simp only [List.length_nil, Nat.zero_add, List.append_nil, List.nil_append,
      List.cons_append] at hopt
    have hl2 : (some cmd :: names.map some).length = names.length + 1 := by simp
    rw [hl2] at h1
    have hreq : sel.map (fun d => commandRequest g (s1.heap d).dbname "destroy")
        = (selectRef (fun p (r : sabdb) => env.glob p r.dbname) (names.map some) snap).map
          (fun r => commandRequest g r.dbname "destroy") := by
      have : (selectRef (fun p (r : sabdb) => env.glob p r.dbname) (names.map some) snap)
          = recordsOf s1.heap sel := by
        rw [hrec]
        rfl
      rw [this]
      simp [recordsOf, List.map_map, Function.comp_def]
    have hok2 : ∀ sent, ∀ q ∈ sel.map (fun d => commandRequest g (s1.heap d).dbname "destroy"),
        ∃ b, env.control_send sent q = .ok b := by
      intro sent q hq
      rw [hreq] at hq
      obtain ⟨r, hr, hq1⟩ := List.mem_map.1 hq
      rw [← hq1]
      exact hok sent r (hperm.subset (selectRef_subset _ _ _ hr))
    simp only [command_destroy.args, Bool.false_eq_true, if_false, List.nil_append, hl2]
    refine ⟨snap, hperm, hsorted, ?_, ?_⟩
    · intro _ hno
      cases top with
      | none =>
        refine ⟨s1, ?_, hs⟩
        unfold command_destroy
        simp only [argvGet_zero, Nat.add_left_eq_self, hlen, if_false, Nat.add_sub_cancel, hopt,
          h0, h1]
      | some o =>
        obtain ⟨s2, hc2, _, hs2⟩ := command_destroy.confirm_spec env fuel o s1 sel hsel
          (by omega)
        rw [if_neg hno] at hc2
        refine ⟨s2, ?_, hs2.trans hs⟩
        unfold command_destroy
        simp only [argvGet_zero, Nat.add_left_eq_self, hlen, if_false, Nat.add_sub_cancel, hopt,
          h0, h1, if_true, hc2]
    · intro hyes
      have hy : env.answer = some 'y' ∨ env.answer = some 'Y' := by
        rcases hyes with h | h
        · cases h
        · exact h
      cases top with
      | none =>
        have : sel = [] := by
          cases sel with
          | nil => rfl
          | cons a l => cases hsel.1
        rw [this] at hreq
        refine ⟨s1, Or.inr ?_, by rw [hs, ← hreq]; simp⟩
        unfold command_destroy
        simp only [argvGet_zero, Nat.add_left_eq_self, hlen, if_false, Nat.add_sub_cancel, hopt,
          h0, h1]
      | some o =>
        obtain ⟨s2, hc2, hh2, hs2⟩ := command_destroy.confirm_spec env fuel o s1 sel hsel
          (by omega)
        rw [if_pos hy] at hc2
        obtain ⟨s3, hd, hs3⟩ := command_destroy.dispatch_spec env g fuel cmd o s2 sel
          (hh2 ▸ hsel) (by omega) (hh2 ▸ hok2)
        have hrun : command_destroy env g fuel before (names.length + 1)
            (some cmd :: names.map some) s = command_destroy.dispatch env g fuel cmd o s2 := by
          unfold command_destroy
          simp only [argvGet_zero, Nat.add_left_eq_self, hlen, if_false, Nat.add_sub_cancel,
            hopt, h0, h1, if_true, hc2]
        rw [hrun]
        exact ⟨s3, hd, by rw [hs3, hs2, hs, hh2, hreq]⟩
  | true =>
    obtain ⟨orig, s0, top, argv1, s1, sel, snap, h0, h1, hsel, hperm, hsorted, hrec, _, hs,
      hle⟩ := fetch_select env g "destroy" "destroy" fuel (some cmd :: none :: names.map some) s
        recs hf hfuel
    have hopt := command_destroy.options_force before cmd (names.length + 2) s names hplain
    have hl2 : (some cmd :: none :: names.map some).length = names.length + 2 := by simp
    have hl3 : (some cmd :: some "-f" :: names.map some).length = names.length + 2 := by simp
    rw [hl2] at h1
    have hreq : sel.map (fun d => commandRequest g (s1.heap d).dbname "destroy")
        = (selectRef (fun p (r : sabdb) => env.glob p r.dbname) (names.map some) snap).map
          (fun r => commandRequest g r.dbname "destroy") := by
      have : (selectRef (fun p (r : sabdb) => env.glob p r.dbname) (names.map some) snap)
          = recordsOf s1.heap sel := by
        rw [hrec]
        simp [selectRef]
      rw [this]
      simp [recordsOf, List.map_map, Function.comp_def]
    have hok2 : ∀ sent, ∀ q ∈ sel.map (fun d => commandRequest g (s1.heap d).dbname "destroy"),
        ∃ b, env.control_send sent q = .ok b := by
      intro sent q hq
      rw [hreq] at hq
      obtain ⟨r, hr, hq1⟩ := List.mem_map.1 hq
      rw [← hq1]
      exact hok sent r (hperm.subset (selectRef_subset _ _ _ hr))
    have h21 : ¬ names.length + 2 = 1 := by omega
    simp only [command_destroy.args, if_true, List.singleton_append, hl3]
    refine ⟨snap, hperm, hsorted, ?_, ?_⟩
    · intro h
      cases h
    · intro _
      cases top with
      | none =>
        have : sel = [] := by
          cases sel with
          | nil => rfl
          | cons a l => cases hsel.1
        rw [this] at hreq
        refine ⟨s1, Or.inr ?_, by rw [hs, ← hreq]; simp⟩
        unfold command_destroy
        simp only [argvGet_zero, show names.length + 2 - 1 = names.length + 1 from rfl, hopt,
          h0, h1, if_neg h21]
      | some o =>
        obtain ⟨s3, hd, hs3⟩ := command_destroy.dispatch_spec env g fuel cmd o s1 sel hsel
          (by omega) hok2
        have hrun : command_destroy env g fuel before (names.length + 2)
            (some cmd :: some "-f" :: names.map some) s
            = command_destroy.dispatch env g fuel cmd o s1 := by
          unfold command_destroy
          simp only [argvGet_zero, show names.length + 2 - 1 = names.length + 1 from rfl, hopt,
            h0, h1, if_neg h21, one_ne_zero, if_false]
        rw [hrun]
        exact ⟨s3, hd, by rw [hs3, hs, hreq]⟩

/-- Worked example for C16: `destroy db1` over the snapshot db1, db2 when
nothing is typed at the prompt. -/
theorem destroy_needs_confirmation_witness :
    ∃ snap, snap.Perm [{ exampleRecord "db1" with state := .SABdbRunning }, exampleRecord "db2"] ∧
      NameSorted snap ∧
      (false = false →
        ¬ ((exampleEnv "OK\nrdb1\nsdb2").answer = some 'y' ∨
          (exampleEnv "OK\nrdb1\nsdb2").answer = some 'Y') →
        ∃ s1, command_destroy (exampleEnv "OK\nrdb1\nsdb2") exampleGlobals 3 "monetdb"
            (command_destroy.args "destroy" false ["db1"]).length
            (command_destroy.args "destroy" false ["db1"]) emptyProc = .exit 1 s1 ∧
          s1.sent = emptyProc.sent ++ [statusRequest exampleGlobals none]) ∧
      (false = true ∨ (exampleEnv "OK\nrdb1\nsdb2").answer = some 'y' ∨
          (exampleEnv "OK\nrdb1\nsdb2").answer = some 'Y' →
        ∃ s1, (command_destroy (exampleEnv "OK\nrdb1\nsdb2") exampleGlobals 3 "monetdb"
              (command_destroy.args "destroy" false ["db1"]).length
              (command_destroy.args "destroy" false ["db1"]) emptyProc = .ret () s1 ∨
            command_destroy (exampleEnv "OK\nrdb1\nsdb2") exampleGlobals 3 "monetdb"
              (command_destroy.args "destroy" false ["db1"]).length
              (command_destroy.args "destroy" false ["db1"]) emptyProc = .exit 1 s1) ∧
          s1.sent = emptyProc.sent ++ [statusRequest exampleGlobals none] ++
            (selectRef (fun p (r : sabdb) => (exampleEnv "OK\nrdb1\nsdb2").glob p r.dbname)
              (["db1"].map some) snap).map
              (fun r => commandRequest exampleGlobals r.dbname "destroy")) :=
  destroy_needs_confirmation (exampleEnv "OK\nrdb1\nsdb2") exampleGlobals 3 "monetdb" "destroy"
    false ["db1"] emptyProc [{ exampleRecord "db1" with state := .SABdbRunning }, exampleRecord "db2"]
    (by simp) (by decide)
    ⟨qsortModel_spec, by simp [exampleRecord], "OK\nrdb1\nsdb2", ["rdb1", "sdb2"], rfl,
      by decide, rfl⟩
    (by decide)
    (fun _ r hr => by
      simp only [List.mem_cons, List.mem_singleton, List.not_mem_nil, or_false] at hr
      rcases hr with h | h <;> subst h <;> exact ⟨"OK", rfl⟩)

/-! ## The pruning loop of `command_startstop` -/

theorem command_startstop.skip_congr (doall : Int) (mode : startstop) {h h1 : Heap}
    (hd : SameData h h1) (a : Nat) :
    command_startstop.skip doall mode (h1 a) = command_startstop.skip doall mode (h a) := by
  have e : (h1 a).state = (h a).state := by
    have := congrArg sabdb.state (hd a)
    exact this
  unfold command_startstop.skip
  rw [e]

theorem command_startstop.prune_spec (doall : Int) (mode : startstop) (h0 : Heap) :
    ∀ (todo kept : List Nat) (h : Heap) (orig prev stats : Option Nat) (fuel : Nat),
      todo.length < fuel →
      IsSeg h orig kept stats → IsChain h stats todo →
      prev = kept.getLast? → (kept ++ todo).Nodup → SameData h0 h →
      ∃ v1, command_startstop.prune doall mode fuel
          { heap := h, orig := orig, prev := prev, stats := stats } = .ok v1 ∧
        IsChain v1.heap v1.orig
          (kept ++ todo.filter (fun a => !command_startstop.skip doall mode (h0 a))) ∧
        SameData h0 v1.heap
  | [], kept, h, orig, prev, stats, fuel + 1, _, hseg, hc, _, _, hd => by
    have hs : stats = none := hc
    subst hs
    refine ⟨_, rfl, ?_, hd⟩
    simpa using hseg
  | st :: todo, kept, h, orig, prev, stats, fuel + 1, hf, hseg, hc, hprev, hnd, hd => by
    have hs : stats = some st := hc.1
    subst hs
    have hf1 : todo.length < fuel := by simpa using hf
    have hst_todo : st ∉ todo := by
      have := (List.nodup_append.1 hnd).2.1
      exact (List.nodup_cons.1 this).1
    have hnd_todo : todo.Nodup := (List.nodup_cons.1 (List.nodup_append.1 hnd).2.1).2
    have hskip := command_startstop.skip_congr doall mode hd st
    rw [command_startstop.prune]
    simp only []
    by_cases hsk : command_startstop.skip doall mode (h st) = true
    · rw [if_pos hsk]
      have hfil : (st :: todo).filter (fun a => !command_startstop.skip doall mode (h0 a))
          = todo.filter (fun a => !command_startstop.skip doall mode (h0 a)) := by
        rw [List.filter_cons_of_neg]
        rw [← hskip, hsk]
        simp
      rw [hfil]
      rcases List.eq_nil_or_concat kept with hk | ⟨kept1, pv, hk⟩
      · subst hk
        have hp : prev = none := hprev
        subst hp
        simp only []
        obtain ⟨v1, hrun, hch, hsd⟩ := command_startstop.prune_spec doall mode h0 todo []
          (h.setNext st none) (h st).next none (h st).next fuel hf1 rfl
          (IsSeg.setNext none hst_todo hc.2) rfl (by simpa using hnd_todo)
          (hd.update_next st none)
        exact ⟨v1, hrun, hch, hsd⟩
      · rw [List.concat_eq_append] at hk
        subst hk
        have hp : prev = some pv := by simpa using hprev
        subst hp
        simp only []
        have hnd1 : (kept1 ++ [pv] ++ st :: todo).Nodup := hnd
        have hpv_st : pv ≠ st := by
          intro e
          have := List.nodup_append.1 hnd1
          exact this.2.2 (show pv ∈ kept1 ++ [pv] by simp) (show pv ∈ st :: todo by simp [e])
        have hpv_todo : pv ∉ todo := by
          intro e
          have := List.nodup_append.1 hnd1
          exact this.2.2 (show pv ∈ kept1 ++ [pv] by simp) (show pv ∈ st :: todo by simp [e])
        have hpv_kept : pv ∉ kept1 := by
          have := (List.nodup_append.1 hnd1).1
          have := List.nodup_append.1 this
          intro e
          exact this.2.2 e (show pv ∈ [pv] by simp)
        have hst_kept : st ∉ kept1 := by
          intro e
          have := List.nodup_append.1 hnd1
          exact this.2.2 (show st ∈ kept1 ++ [pv] by simp [e]) (show st ∈ st :: todo by simp)
        obtain ⟨hseg1, _⟩ := IsSeg_snoc.1 hseg
        have hnext : (((h.setNext pv (h st).next).setNext st none) pv).next = (h st).next := by
          rw [Heap.setNext_of_ne _ _ hpv_st, Heap.setNext_self]
        obtain ⟨v1, hrun, hch, hsd⟩ := command_startstop.prune_spec doall mode h0 todo
          (kept1 ++ [pv]) ((h.setNext pv (h st).next).setNext st none) orig (some pv)
          (h st).next fuel hf1
          (IsSeg_snoc.2 ⟨IsSeg.setNext none hst_kept (IsSeg.setNext _ hpv_kept hseg1), hnext⟩)
          (IsSeg.setNext none hst_todo (IsSeg.setNext _ hpv_todo hc.2))
          (by simp)
          (by
            have := List.nodup_append.1 hnd1
            refine List.nodup_append.2 ⟨this.1, hnd_todo, ?_⟩
            intro a ha hb
            exact this.2.2 ha (show a ∈ st :: todo by simp [hb]))
          ((hd.update_next pv _).update_next st none)
        refine ⟨v1, ?_, hch, hsd⟩
        rw [hnext]
        exact hrun
    · rw [if_neg hsk]
      have hfil : (st :: todo).filter (fun a => !command_startstop.skip doall mode (h0 a))
          = st :: todo.filter (fun a => !command_startstop.skip doall mode (h0 a)) := by
        rw [List.filter_cons_of_pos]
        rw [← hskip]
        simpa using hsk
      rw [hfil]
      obtain ⟨v1, hrun, hch, hsd⟩ := command_startstop.prune_spec doall mode h0 todo
        (kept ++ [st]) h orig (some st) (h st).next fuel hf1
        (IsSeg_snoc.2 ⟨hseg, rfl⟩) hc.2 (by simp) (by simpa using hnd) hd
      refine ⟨v1, hrun, ?_, hsd⟩
      simpa using hch

/-! ## `start`, `stop` and `kill` with `-a` -/

theorem needsAction_eq_not_skip (mode : startstop) (r : sabdb) :
    needsAction mode r = !command_startstop.skip 1 mode r := by
  cases mode <;> simp [needsAction, command_startstop.skip]

theorem command_startstop.options_all (type before cmd : String) (argc : Nat) (s : Proc)
    (names : List String) (hplain : ∀ a ∈ names, a.data.head? ≠ some '-') :
    command_startstop.options type before argc (names.length + 1) 1 0
        (some cmd :: some "-a" :: names.map some) s
      = .ret (1, some cmd :: none :: names.map some) s := by
  have hrest := command_startstop.options_plain_startstop type before cmd argc s 1 names [none]
    hplain
  rw [command_startstop.options]
  have e1 : argvGet (some cmd :: some "-a" :: names.map some) 1 = .ok "-a" := rfl
  have e2 : ("-a" : String).data = ['-', 'a'] := rfl
  have e3 : command_startstop.flags argc 1 ['a'] 0 = (1, .next) := by
    simp [command_startstop.flags]
  simp only [e1, argvGet_zero, e2, e3]
  exact hrest

/-- C12: with `-a`, `start`, `stop` and `kill` send one request to each
instance of the snapshot that still needs the action (for `start` those not
running, for `stop` and `kill` those running), in snapshot order, and to no
other, provided no request fails at transport level. -/
theorem startstop_all_dispatches_needed (env : Env) (g : Globals) (fuel : Nat)
    (before cmd : String) (mode : startstop) (names : List String) (s : Proc)
    (recs : List sabdb) (hplain : ∀ a ∈ names, a.data.head? ≠ some '-')
    (hf : FetchOk env g s recs) (hfuel : recs.length < fuel)
    (hok : ∀ sent, ∀ r ∈ recs,
      ∃ b, env.control_send sent (commandRequest g r.dbname mode.type) = .ok b) :
    ∃ snap s1, snap.Perm recs ∧ NameSorted snap ∧
      (command_startstop env g fuel before (names.length + 2)
          (some cmd :: some "-a" :: names.map some) mode s = .ret () s1 ∨
        command_startstop env g fuel before (names.length + 2)
          (some cmd :: some "-a" :: names.map some) mode s = .exit 1 s1) ∧
      s1.sent = s.sent ++ [statusRequest g none] ++
        (snap.filter (needsAction mode)).map (fun r => commandRequest g r.dbname mode.type) := by
  obtain ⟨orig, s0, l, h0, hc, hperm, hsorted, _, _, hs⟩ := fetchAll_ok env g mode.type s recs hf
  have hll : l.length = recs.length := by
    rw [← recordsOf_length s0.heap l, hperm.length_eq]
  obtain ⟨v1, hprune, hch, hsd⟩ := command_startstop.prune_spec 1 mode s0.heap l [] s0.heap orig
    none orig fuel (by omega) rfl hc rfl (by simpa using IsChain.nodup hc) (SameData.refl _)
  simp only [List.nil_append] at hch
  have hopt := command_startstop.options_all mode.type before cmd (names.length + 2) s names hplain
  have hreq : (l.filter (fun a => !command_startstop.skip 1 mode (s0.heap a))).map
        (fun d => commandRequest g (v1.heap d).dbname mode.type)
      = ((recordsOf s0.heap l).filter (needsAction mode)).map
        (fun r => commandRequest g r.dbname mode.type) := by
    unfold recordsOf
    rw [List.filter_map, List.map_map]
    have e : (needsAction mode ∘ fun a => ({ s0.heap a with next := none } : sabdb))
        = fun a => !command_startstop.skip 1 mode (s0.heap a) := by
      funext a
      simp only [Function.comp, needsAction_eq_not_skip]
      rfl
    rw [e]
    apply List.map_congr_left
    intro d _
    simp only [Function.comp]
    rw [hsd.dbname d]
  have hfl : (l.filter (fun a => !command_startstop.skip 1 mode (s0.heap a))).length < fuel :=
    lt_of_le_of_lt (List.length_filter_le _ _) (by omega)
  have hrun : command_startstop env g fuel before (names.length + 2)
      (some cmd :: some "-a" :: names.map some) mode s
      = (if v1.orig ≠ none then
          match simple_argv_cmd env.control_send g fuel mode.type v1.orig mode.type none
              (some mode.action) { s0 with heap := v1.heap } with
          | .fault f => .fault f
          | .exit c s => .exit c s
          | .ret () s => .ret () (msab_freeStatus s v1.orig)
        else .ret () { s0 with heap := v1.heap }) := by
    unfold command_startstop
    rw [if_neg (by omega), if_neg (by omega)]
    simp only [show names.length + 2 - 1 = names.length + 1 from rfl, hopt, h0, ne_eq,
      not_true_eq_false, if_false, hprune]
  rw [hrun]
  by_cases hnone : v1.orig = none
  · have hnil : l.filter (fun a => !command_startstop.skip 1 mode (s0.heap a)) = [] := by
      rw [hnone] at hch
      cases hl : l.filter (fun a => !command_startstop.skip 1 mode (s0.heap a)) with
      | nil => rfl
      | cons a t =>
        rw [hl] at hch
        cases hch.1
    refine ⟨recordsOf s0.heap l, { s0 with heap := v1.heap }, hperm, hsorted, ?_, ?_⟩
    · simp [hnone]
    · rw [← hreq, hnil]
      simpa using hs
  · obtain ⟨bodies, hb⟩ := responses_ok env.control_send
      ((l.filter (fun a => !command_startstop.skip 1 mode (s0.heap a))).map
        (fun d => commandRequest g (v1.heap d).dbname mode.type)) s0.sent
      (by
        intro sent q hq
        rw [hreq] at hq
        obtain ⟨r, hr, hq1⟩ := List.mem_map.1 hq
        rw [← hq1]
        exact hok sent r (hperm.subset (List.mem_of_mem_filter hr)))
    obtain ⟨s2, hd, hs2, _, _⟩ := simple_argv_cmd.dispatch_ok env.control_send g fuel mode.type
      v1.orig mode.type none (some mode.action) { s0 with heap := v1.heap }
      (l.filter (fun a => !command_startstop.skip 1 mode (s0.heap a))) bodies
      (Or.inl (by simp)) hch hfl hb
    refine ⟨recordsOf s0.heap l, s2, hperm, hsorted, ?_, ?_⟩
    · rw [if_pos hnone, hd]
      split_ifs
      · exact Or.inr rfl
      · exact Or.inl rfl
      · exact Or.inr rfl
    · rw [hs2, ← hreq]
      show s0.sent ++ _ = _
      rw [hs]

/-- Worked example for C12: `start -a` over db1 (running) and db2 (stopped). -/
theorem startstop_all_dispatches_needed_witness :
    ∃ snap s1,
      snap.Perm [{ exampleRecord "db1" with state := .SABdbRunning }, exampleRecord "db2"] ∧
      NameSorted snap ∧
      (command_startstop (exampleEnv "OK\nrdb1\nsdb2") exampleGlobals 3 "monetdb"
          (([] : List String).length + 2) (some "start" :: some "-a" :: ([] : List String).map some)
          .START emptyProc = .ret () s1 ∨
        command_startstop (exampleEnv "OK\nrdb1\nsdb2") exampleGlobals 3 "monetdb"
          (([] : List String).length + 2) (some "start" :: some "-a" :: ([] : List String).map some)
          .START emptyProc = .exit 1 s1) ∧
      s1.sent = emptyProc.sent ++ [statusRequest exampleGlobals none] ++
        (snap.filter (needsAction .START)).map
          (fun r => commandRequest exampleGlobals r.dbname startstop.START.type) :=
  startstop_all_dispatches_needed (exampleEnv "OK\nrdb1\nsdb2") exampleGlobals 3 "monetdb" "start"
    .START [] emptyProc [{ exampleRecord "db1" with state := .SABdbRunning }, exampleRecord "db2"]
    (by simp)
    ⟨qsortModel_spec, by simp [exampleRecord], "OK\nrdb1\nsdb2", ["rdb1", "sdb2"], rfl,
      by decide, rfl⟩
    (by decide)
    (fun _ r hr => by
      simp only [List.mem_cons, List.mem_singleton, List.not_mem_nil, or_false] at hr
      rcases hr with h | h <;> subst h <;> exact ⟨"OK", rfl⟩)

/-! ## The listing of `status` -/

theorem printStatus.short_frame (env : Env) (r : sabdb) (twidth : Int) (p : Proc) :
    (printStatus env r 1 twidth p).heap = p.heap ∧
      (printStatus env r 1 twidth p).sent = p.sent ∧
      (printStatus env r 1 twidth p).out = p.out ++ (printStatus env r 1 twidth emptyProc).out := by
  unfold printStatus
  cases env.msab_getUplogInfo r with
  | error e => exact ⟨rfl, rfl, by simp [Proc.eprintf, emptyProc]⟩
  | ok uplog =>
    simp only [if_true, printStatus.short, Proc.printf]
    split_ifs <;> exact ⟨rfl, rfl, by simp [emptyProc]⟩

theorem printStatus.fold_frame (env : Env) (twidth : Int) :
    ∀ (rs : List sabdb) (p q : Proc), p.out = q.out →
      (rs.foldl (fun p r => printStatus env r 1 twidth p) p).out
        = (rs.foldl (fun p r => printStatus env r 1 twidth p) q).out
  | [], _, _, h => h
  | r :: rs, p, q, h => by
    apply printStatus.fold_frame env twidth rs
    rw [(printStatus.short_frame env r twidth p).2.2, (printStatus.short_frame env r twidth q).2.2,
      h]

theorem command_status.pass_spec (env : Env) (curLock : Int) (curMode : SABdbState)
    (twidth : Int) (h0 : Heap) :
    ∀ (l : List Nat) (stats : Option Nat) (s : Proc) (fuel : Nat),
      s.heap = h0 → IsChain h0 stats l → l.length < fuel →
      ∃ s1, command_status.pass env curLock curMode 1 twidth fuel stats s = .ok s1 ∧
        s1.heap = h0 ∧ s1.sent = s.sent ∧
        s1.out = (((l.map h0).filter (command_status.shown curLock curMode)).foldl
          (fun p r => printStatus env r 1 twidth p) s).out
  | [], stats, s, fuel + 1, hh, hc, _ => by
    have hs : stats = none := hc
    subst hs
    exact ⟨s, rfl, hh, rfl, rfl⟩
  | a :: l, stats, s, fuel + 1, hh, hc, hf => by
    have hs : stats = some a := hc.1
    subst hs
    have hf1 : l.length < fuel := by simpa using hf
    rw [command_status.pass, hh]
    by_cases hsh : command_status.shown curLock curMode (h0 a) = true
    · obtain ⟨f1, f2, _⟩ := printStatus.short_frame env (h0 a) twidth s
      obtain ⟨s1, hrun, hheap, hsent, hout⟩ := command_status.pass_spec env curLock curMode twidth
        h0 l (h0 a).next (printStatus env (h0 a) 1 twidth s) fuel (f1.trans hh) hc.2 hf1
      refine ⟨s1, ?_, hheap, hsent.trans f2, ?_⟩
      · rw [if_pos hsh]
        exact hrun
      · rw [hout]
        simp [List.filter_cons, hsh]
    · obtain ⟨s1, hrun, hheap, hsent, hout⟩ := command_status.pass_spec env curLock curMode twidth
        h0 l (h0 a).next s fuel hh hc.2 hf1
      refine ⟨s1, ?_, hheap, hsent, ?_⟩
      · rw [if_neg hsh]
        exact hrun
      · rw [hout]
        simp [List.filter_cons, hsh]

theorem command_status.width_spec (h : Heap) :
    ∀ (l : List Nat) (stats : Option Nat) (w : Int) (fuel : Nat),
      IsChain h stats l → l.length < fuel →
      command_status.width h fuel stats w
        = .ok ((l.map h).foldl
          (fun w r => if (r.dbname.length : Int) > w then (r.dbname.length : Int) else w) w)
  | [], stats, w, fuel + 1, hc, _ => by
    have hs : stats = none := hc
    subst hs
    rfl
  | a :: l, stats, w, fuel + 1, hc, hf => by
    have hs : stats = some a := hc.1
    subst hs
    rw [command_status.width, command_status.width_spec h l (h a).next _ fuel hc.2
      (by simpa using hf)]
    rfl

theorem command_status.shown_unlocked (m : SABdbState) (r : sabdb) :
    command_status.shown 0 m r = decide (r.locked = 0 ∧ r.state = m) := by
  simp [command_status.shown]

theorem command_status.shown_locked (m : SABdbState) (r : sabdb) :
    command_status.shown 1 m r = decide (r.locked = 1) := by
  simp [command_status.shown]

theorem command_status.print_default (env : Env) (twidth : Int) (fuel : Nat) (orig : Option Nat)
    (s : Proc) (l : List Nat) (hc : IsChain s.heap orig l) (hf : l.length < fuel) :
    ∃ s1, command_status.print env fuel orig 1 twidth "rscl".data s = .ok s1 ∧
      s1.heap = s.heap ∧ s1.sent = s.sent ∧
      s1.out = ((statusGroups (l.map s.heap)).foldl
        (fun p r => printStatus env r 1 twidth p) s).out := by
  obtain ⟨s1, r1, h1, t1, o1⟩ := command_status.pass_spec env 0 .SABdbRunning twidth s.heap l orig
    s fuel rfl hc hf
  obtain ⟨s2, r2, h2, t2, o2⟩ := command_status.pass_spec env 0 .SABdbInactive twidth s.heap l
    orig s1 fuel h1 hc hf
  obtain ⟨s3, r3, h3, t3, o3⟩ := command_status.pass_spec env 0 .SABdbCrashed twidth s.heap l
    orig s2 fuel h2 hc hf
  obtain ⟨s4, r4, h4, t4, o4⟩ := command_status.pass_spec env 1 .SABdbIllegal twidth s.heap l
    orig s3 fuel h3 hc hf
  refine ⟨s4, ?_, h4, t4.trans (t3.trans (t2.trans t1)), ?_⟩
  · have e : ("rscl" : String).data = ['r', 's', 'c', 'l'] := rfl
    rw [e]
    simp only [command_status.print]
    have e1 : command_status.selector 'r' = (0, .SABdbRunning) := rfl
    have e2 : command_status.selector 's' = (0, .SABdbInactive) := rfl
    have e3 : command_status.selector 'c' = (0, .SABdbCrashed) := rfl
    have e4 : command_status.selector 'l' = (1, .SABdbIllegal) := rfl
    simp only [e1, e2, e3, e4, r1, r2, r3, r4]
  · rw [o4, printStatus.fold_frame env twidth _ s3 _ o3, ← List.foldl_append,
      printStatus.fold_frame env twidth _ s2 _ o2, ← List.foldl_append,
      printStatus.fold_frame env twidth _ s1 _ o1, ← List.foldl_append]
    unfold statusGroups
    rw [funext (command_status.shown_unlocked .SABdbRunning),
      funext (command_status.shown_unlocked .SABdbInactive),
      funext (command_status.shown_unlocked .SABdbCrashed),
      funext (command_status.shown_locked .SABdbIllegal)]
    simp only [List.append_assoc]

theorem command_status.header_frame (twidth : Int) (p q : Proc) (h : p.out = q.out) :
    (command_status.header twidth p).out = (command_status.header twidth q).out := by
  simp [command_status.header, Proc.printf, h]

theorem command_status.header_keeps (twidth : Int) (p : Proc) :
    (command_status.header twidth p).heap = p.heap ∧
      (command_status.header twidth p).sent = p.sent :=
  ⟨rfl, rfl⟩

/-! ## The order of the `status` listing -/

/-- C18, amended: `status` without arguments (short mode, default state
selector) prints, after the header, the lines of the unlocked running
instances, then those of the unlocked stopped ones, then those of the
unlocked crashed ones, then those of the locked ones; within each group the
lines are in ascending order of name. -/
theorem status_lists_by_state_then_name (env : Env) (g : Globals) (fuel : Nat)
    (before cmd : String) (s : Proc) (recs : List sabdb)
    (hf : FetchOk env g s recs) (hfuel : recs.length < fuel) :
    ∃ snap s1, (snap.map (fun r => ({ r with next := none } : sabdb))).Perm recs ∧
      NameSorted snap ∧
      command_status env g fuel before 1 [some cmd] s = .ret () s1 ∧
      s1.out = ((statusGroups snap).foldl
        (fun p r => printStatus env r 1 (command_status.twidth g.TERMWIDTH (nameWidth snap)) p)
        (if snap = [] then s
          else command_status.header (command_status.twidth g.TERMWIDTH (nameWidth snap)) s)).out := by
  obtain ⟨orig, s0, l, h0, hc, hperm, hsorted, ho, _, _⟩ := fetchAll_ok env g "status" s recs hf
  have hll : l.length = recs.length := by
    rw [← recordsOf_length s0.heap l, hperm.length_eq]
  have hlf : l.length < fuel := by omega
  have hw := command_status.width_spec s0.heap l orig 0 fuel hc hlf
  have hsnap : (l.map s0.heap).map (fun r => ({ r with next := none } : sabdb))
      = recordsOf s0.heap l := by
    simp [recordsOf, List.map_map, Function.comp_def]
  have hsorted1 : NameSorted (l.map s0.heap) := by
    unfold NameSorted recordsOf at hsorted
    unfold NameSorted
    rw [List.pairwise_map] at hsorted ⊢
    exact hsorted
  have hopt : command_status.options before 1 0 1
      { doall := 1, mode := 1, state := "rscl", argv := [some cmd] } s
      = .ret { doall := 1, mode := 1, state := "rscl", argv := [some cmd] } s := rfl
  by_cases hnil : l = []
  · subst hnil
    have ho0 : orig = none := hc
    subst ho0
    refine ⟨[], s0, by simpa [recordsOf] using hperm, by simp [NameSorted], ?_, ?_⟩
    · unfold command_status
      simp only [one_ne_zero, if_false, Nat.sub_self, hopt, h0, ne_eq, not_true_eq_false, hw,
        and_false]
      obtain ⟨fuel1, hfu⟩ : ∃ k, fuel = k + 1 := ⟨fuel - 1, by omega⟩
      subst hfu
      rfl
    · simpa [statusGroups] using ho
  · have hon : orig ≠ none := by
      intro e
      rw [e] at hc
      cases l with
      | nil => exact hnil rfl
      | cons a t => cases hc.1
    have hsn : l.map s0.heap ≠ [] := by simpa using hnil
    obtain ⟨s1, hp, _, _, hout⟩ := command_status.print_default env
      (command_status.twidth g.TERMWIDTH (nameWidth (l.map s0.heap))) fuel orig
      (command_status.header (command_status.twidth g.TERMWIDTH (nameWidth (l.map s0.heap))) s0)
      l hc hlf
    refine ⟨l.map s0.heap, s1, by rw [hsnap]; exact hperm, hsorted1, ?_, ?_⟩
    · unfold command_status
      simp only [one_ne_zero, if_false, Nat.sub_self, hopt, h0, ne_eq, not_true_eq_false, hw,
        hon, not_false_eq_true, and_self, if_true]
      have hp1 : command_status.print env fuel orig 1
          (command_status.twidth g.TERMWIDTH (nameWidth (l.map s0.heap)))
          { doall := 1, mode := 1, state := "rscl", argv := [some cmd] : StatusOpts }.state.data
          (command_status.header
            (command_status.twidth g.TERMWIDTH (nameWidth (l.map s0.heap))) s0) = .ok s1 := hp
      unfold nameWidth at hp1
      rw [hp1]
      rfl
    · rw [if_neg hsn, hout]
      exact printStatus.fold_frame env _ _ _ _ (command_status.header_frame _ s0 s ho)

/-- Worked example for C18 (amended): `status` over a (stopped) and b (running). -/
theorem status_lists_by_state_then_name_witness :
    ∃ snap s1, (snap.map (fun r => ({ r with next := none } : sabdb))).Perm
        [exampleRecord "a", { exampleRecord "b" with state := .SABdbRunning }] ∧
      NameSorted snap ∧
      command_status (exampleEnv "OK\nsa\nrb") exampleGlobals 3 "monetdb" 1 [some "status"] emptyProc
        = .ret () s1 ∧
      s1.out = ((statusGroups snap).foldl
        (fun p r => printStatus (exampleEnv "OK\nsa\nrb") r 1
          (command_status.twidth exampleGlobals.TERMWIDTH (nameWidth snap)) p)
        (if snap = [] then emptyProc
          else command_status.header
            (command_status.twidth exampleGlobals.TERMWIDTH (nameWidth snap)) emptyProc)).out :=
  status_lists_by_state_then_name (exampleEnv "OK\nsa\nrb") exampleGlobals 3 "monetdb" "status"
    emptyProc [exampleRecord "a", { exampleRecord "b" with state := .SABdbRunning }]
    ⟨qsortModel_spec, by simp [exampleRecord], "OK\nsa\nrb", ["sa", "rb"], rfl, by decide, rfl⟩
    (by decide)

/-! ## The rows of `get` -/

theorem skipOK_append (x : String) : skipOK ("OK\n" ++ x) = x := by
  unfold skipOK
  rw [String.data_append]
  rfl

theorem take_OK (x : String) : ("OK\n" ++ x).data.take 3 = "OK\n".data := by
  rw [String.data_append]
  rfl

theorem freeConfFile_of_keys (t t0 : List confkeyval) (hk : t.map Prod.fst = t0.map Prod.fst)
    (hn : ∀ kv ∈ t0, kv.2 = none) : freeConfFile t = t0 := by
  have e1 : freeConfFile t = (t.map Prod.fst).map (fun k => (k, (none : Option String))) := by
    simp [freeConfFile, List.map_map, Function.comp_def]
  have e2 : t0 = (t0.map Prod.fst).map (fun k => (k, (none : Option String))) := by
    rw [List.map_map]
    conv_lhs => rw [← List.map_id t0]
    apply List.map_congr_left
    intro kv hkv
    have := hn kv hkv
    cases kv with
    | mk k v =>
      simp only at this
      subst this
      rfl
  rw [e1, hk, ← e2]

theorem command_get.targets_name (env : Env) (g : Globals) (defprops : List confkeyval)
    (twidth : Int) (h0 : Heap) :
    ∀ (l : List Nat) (stats : Option Nat) (props : List confkeyval) (s : Proc) (fuel : Nat),
      s.heap = h0 → IsChain h0 stats l → l.length < fuel →
      ∃ props1 s1, command_get.targets env g defprops twidth "name" fuel stats props s
          = .ret props1 s1 ∧
        s1.heap = h0 ∧ s1.sent = s.sent ∧
        s1.out = s.out ++ l.map (fun a => command_get.row (h0 a).dbname "name" "-"
          (env.abbreviateString (h0 a).dbname twidth)) ∧
        (props = freeConfFile props → props1 = props)
  | [], stats, props, s, fuel + 1, hh, hc, _ => by
    have hs : stats = none := hc
    subst hs
    exact ⟨props, s, rfl, hh, rfl, by simp, fun _ => rfl⟩
  | a :: l, stats, props, s, fuel + 1, hh, hc, hf => by
    have hs : stats = some a := hc.1
    subst hs
    obtain ⟨props1, s1, hrun, hheap, hsent, hout, hp⟩ := command_get.targets_name env g defprops
      twidth h0 l (h0 a).next (freeConfFile props)
      (s.printf (command_get.row (h0 a).dbname "name" "-"
        (env.abbreviateString (h0 a).dbname twidth))) fuel hh hc.2 (by simpa using hf)
    have hname : strcmp "name" "name" = 0 := (strcmp_eq_zero_iff _ _).2 rfl
    refine ⟨props1, s1, ?_, hheap, hsent, ?_, ?_⟩
    · rw [command_get.targets, if_pos hname, hh]
      have e : (s.printf (command_get.row (h0 a).dbname "name" "-"
          (env.abbreviateString (h0 a).dbname twidth))).heap = h0 := hh
      simp only [e]
      exact hrun
    · rw [hout]
      simp [Proc.printf]
    · intro hfree
      have h2 : freeConfFile props = freeConfFile (freeConfFile props) := congrArg freeConfFile hfree
      rw [hp h2]
      exact hfree.symm

theorem command_get.fetch_ok (env : Env) (g : Globals) (dbname x : String) (s : Proc)
    (h : env.control_send s.sent (getRequest g dbname) = .ok ("OK\n" ++ x)) :
    command_get.fetch env g dbname s
      = .ret ("OK\n" ++ x) { s with sent := s.sent ++ [getRequest g dbname] } := by
  unfold command_get.fetch
  simp only [h, take_OK, ne_eq, not_true_eq_false, if_false]

theorem command_get.targets_key (env : Env) (g : Globals) (defprops : List confkeyval)
    (twidth : Int) (p : String) (reply : String → String) (h0 : Heap) (hp : p ≠ "name")
    (hN : ∀ kv ∈ env.getDefaultProps, kv.2 = none)
    (hK : ∀ buf, (env.readPropsBuf env.getDefaultProps buf).map Prod.fst
      = env.getDefaultProps.map Prod.fst) :
    ∀ (l : List Nat) (stats : Option Nat) (s : Proc) (fuel : Nat),
      s.heap = h0 → IsChain h0 stats l → l.length < fuel →
      (∀ sent, ∀ a ∈ l, env.control_send sent (getRequest g (h0 a).dbname)
        = .ok ("OK\n" ++ reply (h0 a).dbname)) →
      (∀ a ∈ l,
        findConfKey (env.readPropsBuf env.getDefaultProps (reply (h0 a).dbname)) p ≠ none) →
      ∃ s1, command_get.targets env g defprops twidth p fuel stats env.getDefaultProps s
          = .ret env.getDefaultProps s1 ∧
        s1.heap = h0 ∧ s1.sent = s.sent ++ l.map (fun a => getRequest g (h0 a).dbname) ∧
        s1.out = s.out ++ l.map (fun a => getRow env defprops
          (env.readPropsBuf env.getDefaultProps (reply (h0 a).dbname)) twidth (h0 a).dbname p)
  | [], stats, s, fuel + 1, hh, hc, _, _, _ => by
    have hs : stats = none := hc
    subst hs
    exact ⟨s, rfl, hh, by simp, by simp⟩
  | a :: l, stats, s, fuel + 1, hh, hc, hf, hreply, hknown => by
    have hs : stats = some a := hc.1
    subst hs
    subst hh
    have hh : s.heap = s.heap := rfl
    have hne : ¬ strcmp p "name" = 0 := fun e => hp ((strcmp_eq_zero_iff _ _).1 e)
    have hfetch := command_get.fetch_ok env g (s.heap a).dbname (reply (s.heap a).dbname) s
      (hreply s.sent a (by simp))
    have hfree := freeConfFile_of_keys
      (env.readPropsBuf env.getDefaultProps (reply (s.heap a).dbname)) env.getDefaultProps
      (hK _) hN
    have ih := fun s2 (h2 : s2.heap = s.heap) => command_get.targets_key env g defprops twidth p
      reply s.heap hp hN hK l (s.heap a).next s2 fuel h2 hc.2 (by simpa using hf)
      (fun sent b hb => hreply sent b (by simp [hb])) (fun b hb => hknown b (by simp [hb]))
    rw [command_get.targets, if_neg hne, hfetch]
    simp only [skipOK_append]
    cases hfind : findConfKey (env.readPropsBuf env.getDefaultProps (reply (s.heap a).dbname)) p with
    | none => exact absurd hfind (hknown a (by simp))
    | some kv =>
      obtain ⟨k, v⟩ := kv
      cases v with
      | none =>
        simp only [hfree]
        obtain ⟨s1, hrun, hheap, hsent, hout⟩ := ih
          (({ s with sent := s.sent ++ [getRequest g (s.heap a).dbname] } : Proc).printf
            (command_get.row (s.heap a).dbname p "default"
              (env.abbreviateString
                (match findConfKey defprops p with
                  | some (_, some d) => d
                  | _ => "<unknown>") twidth))) hh
        refine ⟨s1, ?_, hheap, ?_, ?_⟩
        · exact hrun
        · rw [hsent]
          simp [Proc.printf]
        · rw [hout]
          simp [Proc.printf, getRow, getLine, command_get.row, hfind]
      | some v =>
        simp only [hfree]
        obtain ⟨s1, hrun, hheap, hsent, hout⟩ := ih
          (({ s with sent := s.sent ++ [getRequest g (s.heap a).dbname] } : Proc).printf
            (command_get.row (s.heap a).dbname p "local" (env.abbreviateString v twidth))) hh
        refine ⟨s1, ?_, hheap, ?_, ?_⟩
        · exact hrun
        · rw [hsent]
          simp [Proc.printf]
        · rw [hout]
          simp [Proc.printf, getRow, getLine, command_get.row, hfind]

/-! ## The whole of `get` -/

theorem intercalate_snoc {α : Type} (sep : List α) :
    ∀ (ls : List (List α)) (k : List α), ls ≠ [] →
      sep.intercalate (ls ++ [k]) = sep.intercalate ls ++ sep ++ k
  | [], _, h => absurd rfl h
  | [x], k, _ => by simp [List.intercalate, List.intersperse]
  | x :: y :: ls, k, _ => by
    have ih := intercalate_snoc sep (y :: ls) k (by simp)
    simp only [List.intercalate, List.cons_append, List.intersperse, List.flatten_cons,
      List.append_assoc] at ih ⊢
    have e : ls.append [k] = ls ++ [k] := rfl
    rw [e, ih]

theorem command_get.allKeys_fold (D : List confkeyval) :
    ∀ (acc : String) (ls : List (List Char)), ls ≠ [] → acc.data = [','].intercalate ls →
      (D.foldl (fun acc kv => acc ++ "," ++ kv.1) acc).data
        = [','].intercalate (ls ++ D.map (fun kv => kv.1.data)) := by
  induction D with
  | nil =>
    intro acc ls _ h
    simpa using h
  | cons kv D ih =>
    intro acc ls hne h
    rw [List.foldl_cons]
    have := ih (acc ++ "," ++ kv.1) (ls ++ [kv.1.data]) (by simp) (by
      rw [intercalate_snoc _ _ _ hne, String.data_append, String.data_append, h])
    rw [this]
    simp

/-- The expansion of `all` reads back as `name` followed by the keys of the
default table, when no key is empty or holds a comma. -/
theorem command_get.allKeys_tokens (D : List confkeyval)
    (h : ∀ kv ∈ D, kv.1.data ≠ [] ∧ ',' ∉ kv.1.data) :
    strtokCommas (command_get.allKeys D) = "name" :: D.map Prod.fst := by
  unfold strtokCommas command_get.allKeys
  rw [command_get.allKeys_fold D "name" ["name".data] (by simp) (by simp [List.intercalate])]
  rw [List.splitOn_intercalate]
  · have hf : (["name".data] ++ D.map (fun kv => kv.1.data)).filter (fun t => !t.isEmpty)
        = ["name".data] ++ D.map (fun kv => kv.1.data) := by
      rw [List.filter_eq_self]
      intro t ht
      simp only [List.singleton_append, List.mem_cons, List.mem_map] at ht
      rcases ht with rfl | ⟨kv, hkv, rfl⟩
      · decide
      · have := (h kv hkv).1
        cases hd : kv.1.data with
        | nil => exact absurd hd this
        | cons c cs => rfl
    rw [hf]
    simp [List.map_map, Function.comp_def]
  · intro l hl
    simp only [List.singleton_append, List.mem_cons, List.mem_map] at hl
    rcases hl with rfl | ⟨kv, hkv, rfl⟩
    · decide
    · exact (h kv hkv).2
  · simp

theorem command_get.row_line (dbname p source value : String) :
    command_get.row dbname p source value = getLine dbname p source value := rfl

theorem findConfKey_known (t : List confkeyval) (p : String) (h : p ∈ t.map Prod.fst) :
    findConfKey t p ≠ none := by
  unfold findConfKey
  intro e
  rw [List.find?_eq_none] at e
  obtain ⟨kv, hkv, rfl⟩ := List.mem_map.1 h
  exact e kv hkv (by simp)

/-- The arguments after the property of `get`, when none of them is an
option: `doall` is cleared when there is one, and `argv` stays. -/
theorem command_get.options_names_get (env : Env) (before cmd : String) (argc : Nat) :
    ∀ (rest : List String) (i : Nat) (o : GetOpts) (s : Proc),
      ArgsFrom o.argv cmd i rest → (∀ a ∈ rest, a.data.head? ≠ some '-') →
      o.property ≠ none →
      command_get.options env before argc rest.length i o s
        = .ret { o with doall := if rest = [] then o.doall else 0 } s
  | [], _, _, _, _, _, _ => rfl
  | a :: rest, i, o, s, hA, hplain, hprop => by
    obtain ⟨e1, e0⟩ := hA.read
    have hp := hplain a (by simp)
    have ih := command_get.options_names_get env before cmd argc rest (i + 1) { o with doall := 0 } s
      hA.step (fun b hb => hplain b (by simp [hb])) hprop
    obtain ⟨p, hsome⟩ := Option.ne_none_iff_exists'.1 hprop
    rw [List.length_cons, command_get.options, e1, e0]
    simp only [hsome]
    have key : command_get.options env before argc rest.length (i + 1) { o with doall := 0 } s
        = .ret { o with doall := if a :: rest = [] then o.doall else 0 } s := by
      rw [ih]
      simp
    simp only [hsome] at key
    rcases data_not_dash hp with h0 | ⟨c, cs, h1, hc⟩
    · rw [h0]
      exact key
    · rw [h1]
      split
      · rename_i heq
        exact absurd (List.cons.inj heq).1 hc
      · exact key

/-- The option loop of `get` on a property and names that are no options. -/
theorem command_get.options_plain_get (env : Env) (before cmd property : String)
    (names : List String) (s : Proc) (hprop : property.data.head? ≠ some '-')
    (hplain : ∀ a ∈ names, a.data.head? ≠ some '-')
    (hfit : property = "all" → (command_get.allKeys env.getDefaultProps).length < 512) :
    command_get.options env before (names.length + 2) (names.length + 1) 1
        { doall := 1, property := none, argv := some cmd :: some property :: names.map some } s
      = .ret { doall := if names = [] then 1 else 0,
               property := some (if property = "all" then command_get.allKeys env.getDefaultProps
                 else property),
               argv := some cmd :: none :: names.map some } s := by
  have hA : ArgsFrom (some cmd :: some property :: names.map some) cmd 1 (property :: names) :=
    ArgsFrom.initial cmd (property :: names)
  have hA2 : ArgsFrom (some cmd :: none :: names.map some) cmd 2 names :=
    ⟨by omega, rfl, rfl⟩
  have e1 : argvGet (some cmd :: some property :: names.map some) 1 = .ok property := rfl
  rw [command_get.options]
  simp only [e1, argvGet_zero]
  have key : (if strcmp property "all" = 0 then
        if (command_get.allKeys env.getDefaultProps).length ≥ 512 then
          (.fault .undefinedBehaviour : Res GetOpts)
        else
          command_get.options env before (names.length + 2) names.length (1 + 1)
            { doall := 1, property := some (command_get.allKeys env.getDefaultProps),
              argv := (some cmd :: some property :: names.map some).set 1 none } s
      else
        command_get.options env before (names.length + 2) names.length (1 + 1)
          { doall := 1, property := some property,
            argv := (some cmd :: some property :: names.map some).set 1 none } s)
      = .ret { doall := if names = [] then 1 else 0,
               property := some (if property = "all" then command_get.allKeys env.getDefaultProps
                 else property),
               argv := some cmd :: none :: names.map some } s := by
    by_cases hall : property = "all"
    · rw [if_pos ((strcmp_eq_zero_iff _ _).2 hall), if_neg (by have := hfit hall; omega),
        if_pos hall]
      exact command_get.options_names_get env before cmd (names.length + 2) names 2 _ s hA2 hplain
        (by simp)
    · rw [if_neg (fun e => hall ((strcmp_eq_zero_iff _ _).1 e)), if_neg hall]
      exact command_get.options_names_get env before cmd (names.length + 2) names 2 _ s hA2 hplain
        (by simp)
  rcases data_not_dash hprop with h0 | ⟨c, cs, h1, hc⟩
  · rw [h0]
    exact key
  · rw [h1]
    split
    · rename_i heq
      exact absurd (List.cons.inj heq).1 hc
    · exact key

/-- The loop of `get` over the keys: for each key in turn the rows of the
targets, with one request per target for every key but `name`. -/
theorem command_get.keys_spec (env : Env) (g : Globals) (defprops : List confkeyval)
    (twidth : Int) (reply : String → String) (h0 : Heap) (orig : Option Nat) (l : List Nat)
    (fuel : Nat) (hc : IsChain h0 orig l) (hf : l.length < fuel)
    (hN : ∀ kv ∈ env.getDefaultProps, kv.2 = none)
    (hK : ∀ buf, (env.readPropsBuf env.getDefaultProps buf).map Prod.fst
      = env.getDefaultProps.map Prod.fst)
    (hreply : ∀ sent, ∀ a ∈ l, env.control_send sent (getRequest g (h0 a).dbname)
      = .ok ("OK\n" ++ reply (h0 a).dbname)) :
    ∀ (ks : List String) (s : Proc), s.heap = h0 →
      (∀ p ∈ ks, p = "name" ∨ p ∈ env.getDefaultProps.map Prod.fst) →
      ∃ s1, command_get.keys env g defprops twidth fuel orig ks env.getDefaultProps s
          = .ret env.getDefaultProps s1 ∧
        s1.heap = h0 ∧
        s1.sent = s.sent ++ ks.flatMap (fun p =>
          if p = "name" then [] else l.map (fun a => getRequest g (h0 a).dbname)) ∧
        s1.out = s.out ++ ks.flatMap (fun p => l.map (fun a =>
          if p = "name" then
            getLine (h0 a).dbname "name" "-" (env.abbreviateString (h0 a).dbname twidth)
          else getRow env defprops (env.readPropsBuf env.getDefaultProps (reply (h0 a).dbname))
            twidth (h0 a).dbname p))
  | [], s, hh, _ => ⟨s, rfl, hh, by simp, by simp⟩
  | p :: ks, s, hh, hk => by
    have hfree : env.getDefaultProps = freeConfFile env.getDefaultProps :=
      (freeConfFile_of_keys env.getDefaultProps env.getDefaultProps rfl hN).symm
    by_cases hp : p = "name"
    · subst hp
      obtain ⟨props1, s1, hrun, hheap, hsent, hout, hprops⟩ := command_get.targets_name env g
        defprops twidth h0 l orig env.getDefaultProps s fuel hh hc hf
      rw [hprops hfree] at hrun
      obtain ⟨s2, hrun2, hheap2, hsent2, hout2⟩ := command_get.keys_spec env g defprops twidth
        reply h0 orig l fuel hc hf hN hK hreply ks s1 hheap (fun q hq => hk q (by simp [hq]))
      refine ⟨s2, ?_, hheap2, ?_, ?_⟩
      · rw [command_get.keys, hrun]
        exact hrun2
      · rw [hsent2, hsent]
        simp
      · rw [hout2, hout]
        simp [command_get.row_line]
    · have hmem : p ∈ env.getDefaultProps.map Prod.fst := by
        rcases hk p (by simp) with h | h
        · exact absurd h hp
        · exact h
      obtain ⟨s1, hrun, hheap, hsent, hout⟩ := command_get.targets_key env g defprops twidth p
        reply h0 hp hN hK l orig s fuel hh hc hf hreply
        (fun a _ => findConfKey_known _ p (by rw [hK]; exact hmem))
      obtain ⟨s2, hrun2, hheap2, hsent2, hout2⟩ := command_get.keys_spec env g defprops twidth
        reply h0 orig l fuel hc hf hN hK hreply ks s1 hheap (fun q hq => hk q (by simp [hq]))
      refine ⟨s2, ?_, hheap2, ?_, ?_⟩
      · rw [command_get.keys, hrun]
        exact hrun2
      · rw [hsent2, hsent]
        simp [hp]
      · rw [hout2, hout]
        simp [hp]

/-! ## Local values and defaults in `get` -/

theorem getWidth_eq (g : Globals) :
    (if g.TERMWIDTH - (15 + 2 + 8 + 2 + 7 + 2) < 6 then 6
      else g.TERMWIDTH - (15 + 2 + 8 + 2 + 7 + 2)) = getWidth g := by
  unfold getWidth
  rw [max_def]
  split_ifs <;> omega

theorem getRequests_nil (g : Globals) (keys : List String) : getRequests g keys [] = [] := by
  unfold getRequests
  induction keys with
  | nil => rfl
  | cons p ks ih =>
    rw [List.flatMap_cons, ih]
    by_cases hp : p = "name" <;> simp [hp]

/-- The printing phase of `get` for the targets in the cells `cs`. -/
theorem command_get.table_spec (env : Env) (g : Globals) (defprops : List confkeyval)
    (twidth : Int) (reply : String → String) (fuel : Nat) (keys : List String) (sx : Proc)
    (origx : Option Nat) (cs : List Nat) (hc : IsChain sx.heap origx cs) (hf : cs.length < fuel)
    (hN : ∀ kv ∈ env.getDefaultProps, kv.2 = none)
    (hK : ∀ buf, (env.readPropsBuf env.getDefaultProps buf).map Prod.fst
      = env.getDefaultProps.map Prod.fst)
    (hreply : ∀ sent, ∀ r ∈ recordsOf sx.heap cs, env.control_send sent (getRequest g r.dbname)
      = .ok ("OK\n" ++ reply r.dbname))
    (hk : ∀ p ∈ keys, p = "name" ∨ p ∈ env.getDefaultProps.map Prod.fst) :
    ∃ s2,
      (if origx = none then (.ret () sx : Res Unit)
        else
          match command_get.keys env g defprops twidth fuel origx keys env.getDefaultProps
              (sx.printf "     name          prop     source           value\n") with
          | .fault f => .fault f
          | .exit c s => .exit c s
          | .ret _ s => .ret () (msab_freeStatus s origx)) = .ret () s2 ∧
      s2.sent = sx.sent ++ getRequests g keys (recordsOf sx.heap cs) ∧
      s2.out = sx.out ++ getTable env defprops twidth reply keys (recordsOf sx.heap cs) := by
  cases cs with
  | nil =>
    have ho : origx = none := hc
    refine ⟨sx, by rw [if_pos ho], ?_, ?_⟩
    · simp [recordsOf, getRequests_nil]
    · simp [recordsOf, getTable]
  | cons a l =>
    have ho : origx = some a := hc.1
    have hne : origx ≠ none := by
      rw [ho]
      simp
    have hr : ∀ sent, ∀ b ∈ a :: l, env.control_send sent (getRequest g (sx.heap b).dbname)
        = .ok ("OK\n" ++ reply (sx.heap b).dbname) := by
      intro sent b hb
      exact hreply sent { sx.heap b with next := none }
        (List.mem_map.2 ⟨b, hb, rfl⟩)
    obtain ⟨s1, hrun, _, hsent, hout⟩ := command_get.keys_spec env g defprops twidth reply
      sx.heap origx (a :: l) fuel hc hf hN hK hr keys
      (sx.printf "     name          prop     source           value\n") rfl hk
    refine ⟨s1, ?_, ?_, ?_⟩
    · rw [if_neg hne, hrun]
      rfl
    · rw [hsent]
      simp [getRequests, recordsOf, Proc.printf, List.map_map, Function.comp_def]
    · rw [hout]
      have hnil : recordsOf sx.heap (a :: l) ≠ [] := by simp [recordsOf]
      simp [getTable, hnil, Proc.printf, recordsOf, List.map_map, Function.comp_def]

/-- C15: `get <property> [names]` on a property and names that are no
options. After the request for the defaults and the status request have been
answered, the command prints the header and, for each key of the property in
turn, one row per target, where `all` stands for `name` and every key of the
default table, and the targets are all instances or, with names, the
selected ones. The row of the key `name` shows the name of the target with
source `-` and no request is sent for it. For any other known key one `get`
request is sent per target, and the row shows the value of the target's own
table with source `local` when it holds one, and otherwise the value of the
default table, or `<unknown>` when that has none, with source `default`. The
target's own table is the default key list read against the answer to its
request, the default table the same list read against the answer for
`#defaults`. -/
theorem get_rows_local_then_default (env : Env) (g : Globals) (fuel : Nat)
    (before cmd property : String) (names : List String) (dbuf : String)
    (reply : String → String) (s : Proc) (recs : List sabdb)
    (hprop : property.data.head? ≠ some '-')
    (hplain : ∀ a ∈ names, a.data.head? ≠ some '-')
    (hall : property = "all" → (command_get.allKeys env.getDefaultProps).length < 512 ∧
      ∀ kv ∈ env.getDefaultProps, kv.1.data ≠ [] ∧ ',' ∉ kv.1.data)
    (hknown : ∀ p ∈ getKeys (env.getDefaultProps.map Prod.fst) property,
      p = "name" ∨ p ∈ env.getDefaultProps.map Prod.fst)
    (hN : ∀ kv ∈ env.getDefaultProps, kv.2 = none)
    (hK : ∀ buf, (env.readPropsBuf env.getDefaultProps buf).map Prod.fst
      = env.getDefaultProps.map Prod.fst)
    (hdef : env.control_send s.sent (getRequest g "#defaults") = .ok ("OK\n" ++ dbuf))
    (hf : FetchOk env g { s with sent := s.sent ++ [getRequest g "#defaults"] } recs)
    (hfuel : recs.length < fuel)
    (hreply : ∀ sent, ∀ r ∈ recs, env.control_send sent (getRequest g r.dbname)
      = .ok ("OK\n" ++ reply r.dbname)) :
    ∃ snap s1, snap.Perm recs ∧ NameSorted snap ∧
      command_get env g fuel before (names.length + 2)
          (some cmd :: some property :: names.map some) s = .ret () s1 ∧
      s1.sent = s.sent ++ [getRequest g "#defaults", statusRequest g none] ++
        getRequests g (getKeys (env.getDefaultProps.map Prod.fst) property)
          (getTargets env.glob names snap) ∧
      s1.out = s.out ++ getTable env (env.readPropsBuf env.getDefaultProps dbuf) (getWidth g)
        reply (getKeys (env.getDefaultProps.map Prod.fst) property)
        (getTargets env.glob names snap) := by
  have hfetch := command_get.fetch_ok env g "#defaults" dbuf s hdef
  obtain ⟨orig, s0, l, h0run, hc, hperm, hsorted, ho, _, hs⟩ := fetchAll_ok env g "get"
    { s with sent := s.sent ++ [getRequest g "#defaults"] } recs hf
  have hll : l.length = recs.length := by
    rw [← recordsOf_length s0.heap l, hperm.length_eq]
  have hkeys : strtokCommas (if property = "all" then command_get.allKeys env.getDefaultProps
      else property) = getKeys (env.getDefaultProps.map Prod.fst) property := by
    unfold getKeys
    by_cases h : property = "all"
    · rw [if_pos h, if_pos h]
      exact command_get.allKeys_tokens _ (hall h).2
    · rw [if_neg h, if_neg h]
  have hopt := command_get.options_plain_get env before cmd property names s hprop hplain
    (fun h => (hall h).1)
  have hargc1 : ¬ names.length + 2 = 1 := by omega
  have hargc0 : ¬ names.length + 2 = 0 := by omega
  have hs0 : s0.sent = s.sent ++ [getRequest g "#defaults", statusRequest g none] := by
    rw [hs]
    simp
  have ho0 : s0.out = s.out := ho
  refine ⟨recordsOf s0.heap l, ?_⟩
  by_cases hn : names = []
  · obtain ⟨s2, hrun, hsent, hout⟩ := command_get.table_spec env g
      (env.readPropsBuf env.getDefaultProps dbuf)
      (if g.TERMWIDTH - (15 + 2 + 8 + 2 + 7 + 2) < 6 then 6
        else g.TERMWIDTH - (15 + 2 + 8 + 2 + 7 + 2))
      reply fuel (getKeys (env.getDefaultProps.map Prod.fst) property) s0 orig l hc
      (by omega) hN hK (fun sent r hr => hreply sent r (hperm.subset hr)) hknown
    refine ⟨s2, hperm, hsorted, ?_, ?_, ?_⟩
    · unfold command_get
      simp only [if_neg hargc1, if_neg hargc0, show names.length + 2 - 1 = names.length + 1 from rfl,
        hopt, argvGet_zero, hfetch, skipOK_append, h0run, hkeys, if_pos hn, ne_eq,
        not_true_eq_false, if_false]
      exact hrun
    · rw [hsent, hs0]
      simp [getTargets, hn]
    · rw [hout, ho0, getWidth_eq]
      simp [getTargets, hn]
  · obtain ⟨top, argvx, s1, sel, hsrun, hsel, hrec, hle, ho1, hs1, _⟩ :=
      selectInto_spec env fuel (some cmd :: none :: names.map some) orig "get" s0 l hc
        (by omega)
    have hlen2 : (some cmd :: none :: names.map some).length = names.length + 2 := by simp
    rw [hlen2] at hsrun
    have hrec1 : recordsOf s1.heap sel
        = selectRef (fun p (r : sabdb) => env.glob p r.dbname) (names.map some)
          (recordsOf s0.heap l) := by
      rw [hrec]
      simp [selectRef]
    obtain ⟨s2, hrun, hsent, hout⟩ := command_get.table_spec env g
      (env.readPropsBuf env.getDefaultProps dbuf)
      (if g.TERMWIDTH - (15 + 2 + 8 + 2 + 7 + 2) < 6 then 6
        else g.TERMWIDTH - (15 + 2 + 8 + 2 + 7 + 2))
      reply fuel (getKeys (env.getDefaultProps.map Prod.fst) property) s1 top sel hsel
      (by omega) hN hK
      (fun sent r hr => hreply sent r (hperm.subset (by
        rw [hrec1] at hr
        exact selectRef_subset _ _ _ hr))) hknown
    refine ⟨s2, hperm, hsorted, ?_, ?_, ?_⟩
    · unfold command_get
      have h01 : ¬ ((0 : Int) = 1) := by decide
      simp only [if_neg hargc1, if_neg hargc0, show names.length + 2 - 1 = names.length + 1 from rfl,
        hopt, argvGet_zero, hfetch, skipOK_append, h0run, hkeys, if_neg hn, ne_eq,
        h01, not_false_eq_true, if_true, hsrun]
      exact hrun
    · rw [hsent, hs1, hs0, hrec1]
      simp [getTargets, hn]
    · rw [hout, ho1, ho0, hrec1, getWidth_eq]
      simp [getTargets, hn]

/-- Worked example for C15: `get all db*` where the default type is `sql`,
db1 has the local type `mal` and db2 has none, and nothing is known of
`shared`. -/
theorem get_rows_local_then_default_witness :
    (∃ snap s1,
      snap.Perm [{ exampleRecord "db1" with state := .SABdbRunning }, exampleRecord "db2"] ∧
      NameSorted snap ∧
      command_get exampleDefaultsEnv exampleGlobals 5 "monetdb" (["db*"].length + 2)
          (some "get" :: some "all" :: ["db*"].map some) emptyProc = .ret () s1 ∧
      s1.sent = emptyProc.sent ++
        [getRequest exampleGlobals "#defaults", statusRequest exampleGlobals none] ++
        getRequests exampleGlobals
          (getKeys (exampleDefaultsEnv.getDefaultProps.map Prod.fst) "all")
          (getTargets exampleDefaultsEnv.glob ["db*"] snap) ∧
      s1.out = emptyProc.out ++ getTable exampleDefaultsEnv
        (exampleDefaultsEnv.readPropsBuf exampleDefaultsEnv.getDefaultProps "sql")
        (getWidth exampleGlobals) exampleReply
        (getKeys (exampleDefaultsEnv.getDefaultProps.map Prod.fst) "all")
        (getTargets exampleDefaultsEnv.glob ["db*"] snap)) ∧
    Res.out (command_get exampleDefaultsEnv exampleGlobals 5 "monetdb" 3
        [some "get", some "all", some "db*"] emptyProc)
      = ["     name          prop     source           value\n",
         "db1              name      -        db1\n",
         "db2              name      -        db2\n",
         "db1              type      local    mal\n",
         "db2              type      default  sql\n",
         "db1              shared    default  <unknown>\n",
         "db2              shared    default  <unknown>\n"] ∧
    (Res.sent (command_get exampleDefaultsEnv exampleGlobals 5 "monetdb" 3
        [some "get", some "all", some "db*"] emptyProc)).map Request.database
      = ["#defaults", "#all", "db1", "db2", "db1", "db2"] :=
  ⟨get_rows_local_then_default exampleDefaultsEnv exampleGlobals 5 "monetdb" "get" "all" ["db*"]
    "sql" exampleReply emptyProc
    [{ exampleRecord "db1" with state := .SABdbRunning }, exampleRecord "db2"]
    (by decide) (by decide) (fun _ => ⟨by decide, by decide⟩) (by decide) (by decide)
    (fun buf => by
      by_cases h : buf = "" <;>
        simp [exampleDefaultsEnv, exampleGetEnv, exampleEnv, readModel, h])
    rfl
    ⟨qsortModel_spec, by simp [exampleRecord], "OK\nrdb1\nsdb2", ["rdb1", "sdb2"], rfl,
      by decide, rfl⟩
    (by decide)
    (fun _ r hr => by
      simp only [List.mem_cons, List.mem_singleton, List.not_mem_nil, or_false] at hr
      rcases hr with h | h <;> subst h <;> rfl),
   rfl, rfl⟩

/-! ## Further runs of the program on concrete inputs -/

/-- C21: `monetdb inherit type db1 db2` with both databases in the snapshot
sends the verb `type=` to db1 and the verb `type==` to db2: the `=` is
appended to the property buffer once per target. -/
theorem inherit_verb_grows :
    (main (exampleEnv "OK\nrdb1\nsdb2") 10 5 ["monetdb", "inherit", "type", "db1", "db2"]
        emptyProc).result.sent.map (fun (q : Request) => (q.database, q.command))
      = [("#all", "status"), ("db1", "type="), ("db2", "type==")] := by
  rfl

/-- C22, counterexample: with db1 running and locked and db2 running and not
locked, `monetdb status -sr` prints the line of db2 only. -/
theorem status_running_selector_omits_locked :
    (main { exampleEnv "OK\nLdb1\nrdb2" with msab_deserialise := deserLocked } 10 3
        ["monetdb", "status", "-sr"] emptyProc).result.out
      = ["     name       ", " state     uptime       health       last crash\n",
         "db2             running           1s", "\n"] := by
  rfl

/-- C24: in `monetdb status -s r db1` the value `r` is voided and the option
`-s` stays in the argument vector, so it is taken for a pattern and the
warning `no such database: -s` is printed. -/
theorem status_state_option_left_as_pattern :
    (main (exampleEnv "OK\nrdb1\nsdb2") 10 5 ["monetdb", "status", "-s", "r", "db1"]
        emptyProc).result.err = ["status: no such database: -s\n"] := by
  rfl

/-- C25: `monetdb set name=new nosuch` against a snapshot without `nosuch`
selects nothing, and the rename branch then reads `orig->next` through the
`NULL` pointer: the run does not end with an exit code. -/
theorem set_rename_reads_null_head :
    (main (exampleEnv "OK\nrdb1\nsdb2") 10 4 ["monetdb", "set", "name=new", "nosuch"]
        emptyProc).result = .fault .undefinedBehaviour := by
  rfl

/-! ## The printing phase of `status` for any selector and mode -/

theorem printStatus.entries_fold (l : List String) :
    ∀ (p : Proc),
      l.foldl (fun s e => s.printf (" " ++ e)) p
        = { p with out := p.out ++ l.map (fun e => " " ++ e) } := by
  induction l with
  | nil => intro p; simp
  | cons e l ih =>
    intro p
    rw [List.foldl_cons, ih]
    simp [Proc.printf]

theorem printStatus.entries_eq (l : List String) (p : Proc) :
    printStatus.entries l p
      = { p with out := p.out ++ (if l = [] then [" (none)"] else l.map (fun e => " " ++ e)) } := by
  cases l with
  | nil => simp [printStatus.entries, Proc.printf]
  | cons e l =>
    rw [if_neg (by simp)]
    exact printStatus.entries_fold (e :: l) p

theorem printStatus.frame (env : Env) (r : sabdb) (mode twidth : Int) (p : Proc) :
    (printStatus env r mode twidth p).heap = p.heap ∧
      (printStatus env r mode twidth p).sent = p.sent ∧
      (printStatus env r mode twidth p).out
        = p.out ++ (printStatus env r mode twidth emptyProc).out := by
  have he : emptyProc.out = [] := rfl
  unfold printStatus
  cases env.msab_getUplogInfo r with
  | error e => exact ⟨rfl, rfl, by simp [Proc.eprintf, he]⟩
  | ok uplog =>
    simp only []
    by_cases h1 : mode = 1
    · simp only [if_pos h1, printStatus.short, Proc.printf]
      split_ifs <;> exact ⟨rfl, rfl, by simp [he]⟩
    · simp only [if_neg h1]
      by_cases h2 : mode = 2
      · simp only [if_pos h2, printStatus.long, Proc.printf, printStatus.entries_eq, he]
        split_ifs <;> simp
      · simp only [if_neg h2, printStatus.crash, Proc.printf, he]
        simp

theorem printStatus.fold_out (env : Env) (mode twidth : Int) :
    ∀ (rs : List sabdb) (p q : Proc), p.out = q.out →
      (rs.foldl (fun p r => printStatus env r mode twidth p) p).out
        = (rs.foldl (fun p r => printStatus env r mode twidth p) q).out
  | [], _, _, h => h
  | r :: rs, p, q, h => by
    apply printStatus.fold_out env mode twidth rs
    rw [(printStatus.frame env r mode twidth p).2.2, (printStatus.frame env r mode twidth q).2.2, h]

theorem command_status.pass_any (env : Env) (curLock : Int) (curMode : SABdbState)
    (mode twidth : Int) (h0 : Heap) :
    ∀ (l : List Nat) (stats : Option Nat) (s : Proc) (fuel : Nat),
      s.heap = h0 → IsChain h0 stats l → l.length < fuel →
      ∃ s1, command_status.pass env curLock curMode mode twidth fuel stats s = .ok s1 ∧
        s1.heap = h0 ∧ s1.sent = s.sent ∧
        s1.out = (((l.map h0).filter (command_status.shown curLock curMode)).foldl
          (fun p r => printStatus env r mode twidth p) s).out
  | [], stats, s, fuel + 1, hh, hc, _ => by
    have hs : stats = none := hc
    subst hs
    exact ⟨s, rfl, hh, rfl, rfl⟩
  | a :: l, stats, s, fuel + 1, hh, hc, hf => by
    have hs : stats = some a := hc.1
    subst hs
    have hf1 : l.length < fuel := by simpa using hf
    rw [command_status.pass, hh]
    by_cases hsh : command_status.shown curLock curMode (h0 a) = true
    · obtain ⟨f1, f2, _⟩ := printStatus.frame env (h0 a) mode twidth s
      obtain ⟨s1, hrun, hheap, hsent, hout⟩ := command_status.pass_any env curLock curMode mode
        twidth h0 l (h0 a).next (printStatus env (h0 a) mode twidth s) fuel (f1.trans hh) hc.2 hf1
      refine ⟨s1, ?_, hheap, hsent.trans f2, ?_⟩
      · rw [if_pos hsh]
        exact hrun
      · rw [hout]
        simp [List.filter_cons, hsh]
    · obtain ⟨s1, hrun, hheap, hsent, hout⟩ := command_status.pass_any env curLock curMode mode
        twidth h0 l (h0 a).next s fuel hh hc.2 hf1
      refine ⟨s1, ?_, hheap, hsent, ?_⟩
      · rw [if_neg hsh]
        exact hrun
      · rw [hout]
        simp [List.filter_cons, hsh]

theorem command_status.shown_selector (c : Char) (hc : c ∈ ['r', 's', 'c', 'l']) (r : sabdb) :
    command_status.shown (command_status.selector c).1 (command_status.selector c).2 r
      = selectorShows c r := by
  simp only [List.mem_cons, List.mem_singleton, List.not_mem_nil, or_false] at hc
  rcases hc with h | h | h | h <;> subst h <;>
    simp [command_status.shown, command_status.selector, selectorShows]

theorem command_status.print_any (env : Env) (mode twidth : Int) (fuel : Nat)
    (orig : Option Nat) (l : List Nat) (h0 : Heap) (hc : IsChain h0 orig l)
    (hf : l.length < fuel) :
    ∀ (sel : List Char) (s : Proc), s.heap = h0 → (∀ c ∈ sel, c ∈ ['r', 's', 'c', 'l']) →
      ∃ s1, command_status.print env fuel orig mode twidth sel s = .ok s1 ∧
        s1.heap = h0 ∧ s1.sent = s.sent ∧
        s1.out = ((selectorGroups sel (l.map h0)).foldl
          (fun p r => printStatus env r mode twidth p) s).out
  | [], s, hh, _ => ⟨s, rfl, hh, rfl, rfl⟩
  | c :: cs, s, hh, hsel => by
    obtain ⟨s1, r1, h1, t1, o1⟩ := command_status.pass_any env (command_status.selector c).1
      (command_status.selector c).2 mode twidth h0 l orig s fuel hh hc hf
    obtain ⟨s2, r2, h2, t2, o2⟩ := command_status.print_any env mode twidth fuel orig l h0 hc hf
      cs s1 h1 (fun d hd => hsel d (by simp [hd]))
    refine ⟨s2, ?_, h2, t2.trans t1, ?_⟩
    · rw [command_status.print, r1]
      exact r2
    · rw [o2, printStatus.fold_out env mode twidth _ s1 _ o1, ← List.foldl_append]
      have e : (l.map h0).filter (command_status.shown (command_status.selector c).1
          (command_status.selector c).2) = (l.map h0).filter (selectorShows c) := by
        apply List.filter_congr
        intro r _
        exact command_status.shown_selector c (hsel c (by simp)) r
      rw [e]
      rfl

/-! ## State filtering in `status` -/

/-- C22, amended: for a selector string over `r`, `s`, `c`, `l` and a snapshot
already fetched, the printing phase of `command_status` prints, for each
character of the selector in order, the entries of the snapshot (in snapshot
order) that the character stands for, where `r`, `s`, `c` stand for the
unlocked instances that are running, stopped, crashed and `l` stands for the
locked instances whatever their state; no request is sent. -/
theorem status_selector_reference (env : Env) (mode twidth : Int) (fuel : Nat)
    (orig : Option Nat) (l : List Nat) (sel : String) (s : Proc)
    (hc : IsChain s.heap orig l) (hf : l.length < fuel)
    (hsel : ∀ c ∈ sel.data, c ∈ ['r', 's', 'c', 'l']) :
    ∃ s1, command_status.print env fuel orig mode twidth sel.data s = .ok s1 ∧
      s1.sent = s.sent ∧
      s1.out = ((selectorGroups sel.data (l.map s.heap)).foldl
        (fun p r => printStatus env r mode twidth p) s).out := by
  obtain ⟨s1, hrun, _, hsent, hout⟩ := command_status.print_any env mode twidth fuel orig l s.heap
    hc hf sel.data s rfl hsel
  exact ⟨s1, hrun, hsent, hout⟩

/-- Worked example for C22 (amended): the selector `sr` over db1 and db2. -/
theorem status_selector_reference_witness :
    ∃ s1, command_status.print (exampleEnv "") 3 (some 0) 1 14 "sr".data
        (exampleProc ["db1", "db2"]) = .ok s1 ∧
      s1.sent = (exampleProc ["db1", "db2"]).sent ∧
      s1.out = ((selectorGroups "sr".data ([0, 1].map (exampleProc ["db1", "db2"]).heap)).foldl
        (fun p r => printStatus (exampleEnv "") r 1 14 p) (exampleProc ["db1", "db2"])).out :=
  status_selector_reference (exampleEnv "") 1 14 3 (some 0) [0, 1] "sr"
    (exampleProc ["db1", "db2"]) ⟨rfl, rfl, rfl⟩ (by decide) (by decide)

/-! ## The width of the name column -/

/-- For `inherit` over at least two targets the verbs of the first two
requests differ: the second has one more `=`. -/
theorem command_set.requests_inherit_grow (g : Globals) (verb property d1 d2 : String)
    (ds : List String) :
    command_set.requests g .INHERIT verb property (d1 :: d2 :: ds)
      = commandRequest g d1 (property ++ "=") :: commandRequest g d2 (property ++ "=" ++ "=") ::
        command_set.requests g .INHERIT verb (property ++ "=" ++ "=") ds := by
  simp [command_set.requests]

/-- `set name=…` with plain patterns that match nothing reads `orig->next`
through `NULL`, whatever the snapshot. -/
theorem command_set.rename_no_match (env : Env) (g : Globals) (fuel : Nat) (before cmd : String)
    (prop : String) (names : List String) (s : Proc) (recs : List sabdb)
    (hprop : prop.data.head? ≠ some '-') (hset : '=' ∈ prop.data)
    (hname : command_set.property .SET prop = "name")
    (hnames : names ≠ []) (hplain : ∀ a ∈ names, a.data.head? ≠ some '-')
    (hf : FetchOk env g s recs) (hfuel : recs.length < fuel)
    (hno : ∀ p ∈ names, ∀ r ∈ recs, env.glob p r.dbname = false) :
    command_set env g fuel before (names.length + 2) (some cmd :: some prop :: names.map some)
        .SET s = .fault .undefinedBehaviour := by
  have hkey : (command_set.property .SET prop).data ≠ [] := by
    rw [hname]
    decide
  have hopt := command_set.options_plain_set .SET before cmd prop (names.length + 2) s names hprop
    (fun _ => hset) hkey hplain
  obtain ⟨orig, s0, top, argv1, s1, sel, snap, h0, h1, hsel, hperm, _, hrec, _, _, _⟩ :=
    fetch_select env g cmd cmd fuel (some cmd :: none :: names.map some) s recs hf hfuel
  have hnil : recordsOf s1.heap sel = [] := by
    rw [hrec]
    apply selectRef_no_match
    intro p hp r hr
    have hp1 : p ∈ names := by simpa using hp
    exact hno p hp1 r (hperm.subset hr)
  have hsel0 : sel = [] := by
    have := recordsOf_length s1.heap sel
    rw [hnil] at this
    exact List.length_eq_zero.1 this.symm
  rw [hsel0] at hsel
  have htop : top = none := by
    cases top with
    | none => rfl
    | some a => cases hsel
  rw [htop] at h1
  have hl2 : (some cmd :: none :: names.map some).length = names.length + 2 := by simp
  rw [hl2] at h1
  have h2 : ¬ (1 ≤ names.length + 2 ∧ names.length + 2 ≤ 2) := by
    have : names.length ≠ 0 := fun h => hnames (List.length_eq_zero.1 h)
    omega
  have h3 : strcmp (command_set.property .SET prop) "name" = 0 :=
    (strcmp_eq_zero_iff _ _).2 hname
  unfold command_set
  simp only [argvGet_zero, if_neg h2, Nat.add_eq_zero, OfNat.ofNat_ne_zero, and_false, if_false,
    show names.length + 2 - 1 = names.length + 1 from rfl, hopt, if_neg hkey, h0, h1, if_pos h3,
    reduceCtorEq]

/-! ## What the option loop of `status` leaves in `argv` -/

theorem command_status.options_names (before cmd : String) (argc : Nat) (s : Proc) :
    ∀ (names : List String) (pre : List (Option String)) (o : StatusOpts),
      o.argv = some cmd :: pre ++ names.map some →
      (∀ a ∈ names, a.data.head? ≠ some '-') →
      command_status.options before argc names.length (pre.length + 1) o s
        = .ret { o with doall := if names = [] then o.doall else 0 } s
  | [], _, o, _, _ => rfl
  | a :: names, pre, o, hargv, h => by
    have ha : a.data.head? ≠ some '-' := h a (by simp)
    have e1 : argvGet o.argv (pre.length + 1) = .ok a := by
      rw [hargv]
      have := argvGet_append (some cmd :: pre) a (names.map some)
      simpa using this
    have e0 : argvGet o.argv 0 = .ok cmd := by
      rw [hargv]
      rfl
    have ih := command_status.options_names before cmd argc s names (pre ++ [some a])
      { o with doall := 0 } (by simp [hargv]) (fun b hb => h b (by simp [hb]))
    simp only [List.length_append, List.length_singleton] at ih
    show command_status.options before argc (names.length + 1) (pre.length + 1) o s = _
    rw [command_status.options]
    simp only [e1, e0]
    have hfin : ({ { o with doall := 0 } with doall := if names = [] then 0 else 0 } : StatusOpts)
        = { o with doall := if a :: names = [] then o.doall else 0 } := by
      simp
    rcases data_not_dash ha with h0 | ⟨c, cs, h1, hc⟩
    · rw [h0]
      simp only []
      rw [ih]
      exact congrArg (fun x => Res.ret x s) hfin
    · rw [h1]
      split
      · rename_i heq
        exact absurd (List.cons.inj heq).1 hc
      · rw [ih]
        exact congrArg (fun x => Res.ret x s) hfin

/-- After `-s value` the value is voided and `-s` itself stays in `argv`. -/
theorem command_status.options_state_value (before cmd v : String) (s : Proc)
    (names : List String) (hv : v.data.head? ≠ some '-')
    (hstate : command_status.badState v = none)
    (hplain : ∀ a ∈ names, a.data.head? ≠ some '-') :
    command_status.options before (names.length + 3) (names.length + 2) 1
        { doall := 1, mode := 1, state := "rscl",
          argv := some cmd :: some "-s" :: some v :: names.map some } s
      = .ret { doall := if names = [] then 1 else 0, mode := 1, state := v,
               argv := some cmd :: some "-s" :: none :: names.map some } s := by
  have hrest := command_status.options_names before cmd (names.length + 3) s names
    [some "-s", none]
    { doall := 1, mode := 1, state := v, argv := some cmd :: some "-s" :: none :: names.map some }
    (by simp) hplain
  rw [command_status.options]
  have e1 : argvGet (some cmd :: some "-s" :: some v :: names.map some) 1 = .ok "-s" := rfl
  have e2 : ("-s" : String).data = ['-', 's'] := rfl
  have e3 : argvGet (some cmd :: some "-s" :: some v :: names.map some) 2 = .ok v := rfl
  have e4 : command_status.flags (names.length + 3) 1 ['s']
      { doall := 1, mode := 1, state := "rscl",
        argv := some cmd :: some "-s" :: some v :: names.map some }
      = .ok ({ doall := 1, mode := 1, state := v,
               argv := some cmd :: some "-s" :: some v :: names.map some }, .took) := by
    rw [command_status.flags]
    simp only [ne_eq, not_true_eq_false, if_false, e3, hv, not_false_eq_true, if_true, hstate]
    rw [if_pos (by omega)]
  simp only [e1, argvGet_zero, e2, e4]
  exact hrest

end Monetdb
